import Mathlib

/-!
# Marlin command core (Ultimaker2Marlin, `Marlin/Marlin_main.cpp`)

A shallow embedding of the command queue, the two line framers and the motion
preparation code of `Marlin_main.cpp`, followed by the properties established
about them.

Conventions of the embedding

* `uint8_t` / `uint16_t` variables are natural numbers, every store reduced
  modulo `2^8` / `2^16`; `long` is a 32-bit signed integer (`Int`, with the
  saturation of `strtol`).
* A C string is a `List Char`; the string held by a buffer is the part before
  its first NUL byte (`cstr`).
* `float` values are exact rationals (`ℚ`); NaN and rounding are outside the
  embedding.
* Constants that come from headers outside `Marlin_main.cpp` are fields of
  `Config`.
-/

namespace Marlin

/-! ## C strings and libc -/

/-- The NUL byte. -/
def NUL : Char := Char.ofNat 0

/-- The C string held by a byte buffer: everything before the first NUL. -/
def cstr (buf : List Char) : List Char :=
  buf.takeWhile (fun c => c != NUL)

/-- Model of `strchr(s, c)` for `c ≠ NUL`: the suffix of `s` that starts at
the first occurrence of `c`, `none` for the null pointer. -/
def strchr : List Char → Char → Option (List Char)
  | [], _ => none
  | x :: xs, c => if x = c then some (x :: xs) else strchr xs c

/-- Model of `strstr(s, pat)`: the suffix of `s` that starts at the first
occurrence of `pat`. -/
def strstr : List Char → List Char → Option (List Char)
  | [], pat => if pat = [] then some [] else none
  | x :: xs, pat =>
    if pat.isPrefixOf (x :: xs) then some (x :: xs) else strstr xs pat

/-- Characters for which `isspace` holds in the C locale. -/
def isspace (c : Char) : Bool :=
  c = ' ' || c = '\t' || c = '\n' || c = Char.ofNat 11 || c = Char.ofNat 12 || c = '\r'

/-- Value of a decimal digit character. -/
def digitVal (c : Char) : Nat := c.toNat - '0'.toNat

/-- The decimal digits of `n`, most significant first, in front of `acc`;
`fuel` bounds the number of digits. -/
def decimalAux : Nat → Nat → List Char → List Char
  | 0, _, acc => acc
  | fuel + 1, n, acc =>
    if n < 10 then Char.ofNat (48 + n) :: acc
    else decimalAux fuel (n / 10) (Char.ofNat (48 + n % 10) :: acc)

/-- The decimal representation of `n`, as a host prints a line number or a
checksum. -/
def decimal (n : Nat) : List Char := decimalAux (n + 1) n []

/-- Accumulate the leading decimal digits of a string onto `acc`. -/
def parseDigits : List Char → Nat → Nat
  | [], acc => acc
  | c :: cs, acc => if c.isDigit then parseDigits cs (acc * 10 + digitVal c) else acc

/-- Largest value of a (32-bit) `long`. -/
def LONG_MAX : Int := 2147483647

/-- Smallest value of a (32-bit) `long`. -/
def LONG_MIN : Int := -2147483648

/-- Saturation of an integer to the range of `long`. -/
def clampLong (v : Int) : Int :=
  if v > LONG_MAX then LONG_MAX else if v < LONG_MIN then LONG_MIN else v

/-- Two's-complement wrap of an integer to the 32 bits of a `long`. -/
def wrapLong (v : Int) : Int := (v + 2147483648) % 4294967296 - 2147483648

/-- Conversion of a `long` to the 16-bit `int` of the target. -/
def toInt16 (v : Int) : Int := (v + 32768) % 65536 - 32768

/-- Model of `strtol(s, NULL, 10)`: leading white space is skipped, an optional
sign is read, then the longest run of decimal digits; the value saturates at
the bounds of `long`, and is `0` when there is no digit. -/
def strtol (s : List Char) : Int :=
  match s.dropWhile isspace with
  | '-' :: rest => clampLong (-(parseDigits rest 0 : Int))
  | '+' :: rest => clampLong (parseDigits rest 0 : Int)
  | rest => clampLong (parseDigits rest 0 : Int)

/-- Conversion of a `long` to `uint8_t`. -/
def toU8 (v : Int) : Nat := (v % 256).toNat

/-- Value of the exponent part of a decimal floating literal: `e` or `E`, an
optional sign and decimal digits; `0` when the text is not of that form. -/
def strtodExp : List Char → Int
  | c :: t =>
    if c = 'e' ∨ c = 'E' then
      match t with
      | '-' :: u => -(parseDigits u 0 : Int)
      | '+' :: u => (parseDigits u 0 : Int)
      | u => (parseDigits u 0 : Int)
    else 0
  | [] => 0

/-- Model of `strtod(s, NULL)` on decimal literals, in exact arithmetic:
leading white space is skipped, then an optional sign, digits, an optional
fraction and an optional exponent are read. The value is `0` when no digit is
found. The result is the exact rational denoted by the literal (no rounding,
no infinity, no NaN). -/
def strtod (s : List Char) : ℚ :=
  let s1 := s.dropWhile isspace
  let neg : Bool := match s1 with
    | '-' :: _ => true
    | _ => false
  let s2 := match s1 with
    | '-' :: t => t
    | '+' :: t => t
    | _ => s1
  let ip := s2.takeWhile Char.isDigit
  let r1 := s2.dropWhile Char.isDigit
  let fp := match r1 with
    | '.' :: t => t.takeWhile Char.isDigit
    | _ => []
  let r2 := match r1 with
    | '.' :: t => t.dropWhile Char.isDigit
    | _ => r1
  if ip = [] ∧ fp = [] then 0
  else
    let m : ℚ := (parseDigits (ip ++ fp) 0 : ℚ) / 10 ^ fp.length
    let v : ℚ := m * 10 ^ strtodExp r2
    if neg then -v else v

/-- The conversion `(int) x` of a float: truncation toward zero. -/
def truncToInt (q : ℚ) : Int := Int.tdiv q.num q.den

/-- The store `x |= (1 << i)` on an unsigned variable of `w` bits. -/
def bitSet (w x i : Nat) : Nat := (x ||| (1 <<< i)) % 2 ^ w

/-- The store `x &= ~(1 << i)` on an unsigned variable of `w` bits. -/
def bitClr (w x i : Nat) : Nat := x &&& ((2 ^ w - 1) ^^^ ((1 <<< i) % 2 ^ w))

/-! ## Serial output -/

/-- Lines written to the serial port, as far as the properties below need to
tell them apart. -/
inductive Out
  /-- `MSG_OK`, the acknowledgment token. -/
  | ok
  /-- `MSG_RESEND` followed by a line number. -/
  | resend (n : Int)
  /-- `SERIAL_ERROR_START`, an error text and the value of `gcode_LastN`. -/
  | lineError (msg : String) (lastN : Int)
  /-- `MSG_ERR_STOPPED` on the error channel. -/
  | errStopped
  /-- An echo line (`SERIAL_ECHO_START` ...). -/
  | echo (msg : String) (arg : List Char)
  /-- `MSG_FILE_PRINTED` and the elapsed time. -/
  | filePrinted
  /-- A `//action:` line. -/
  | action (msg : String)
  /-- `MSG_OK` followed on the same line by data whose text is not modelled. -/
  | okWith (data : String)
  /-- `SERIAL_ERROR_START` and an error text. -/
  | error (msg : String)
  deriving DecidableEq, Repr

/-! ## The SD card reader -/

/-- Modelled from the spec: the file abstraction of `cardreader.h`, "a byte
source with position/EOF/error signaling" exposing get-byte, eof, error-code,
clear-error, get/set-byte-offset and get-file-size. `faults` lists, for the
coming calls of `get`, whether the read fails. -/
structure Card where
  /-- Content of the open file. -/
  file : List Char
  /-- Read cursor (`uint32_t`). -/
  filePos : Nat
  /-- `card.sdprinting()`. -/
  sdprinting : Bool
  /-- `card.pause()`. -/
  pause : Bool
  /-- `card.sdInserted()`. -/
  sdInserted : Bool
  /-- `card.errorCode()`. -/
  errorCode : Nat
  /-- Whether each coming read fails. -/
  faults : List Bool
  /-- Whether `card.eof()` already holds once the last byte has been read,
  rather than only after a read has returned no byte. The specification leaves
  the moment open and `cardreader.h` is not among the sources, so it is a
  parameter of the card. -/
  eofOnLastByte : Bool
  /-- Whether a read has run into the end of the file since the cursor was last
  set. -/
  hitEnd : Bool
  deriving DecidableEq

/-- Modelled from the spec: `card.eof()`, the EOF signal of the "byte source
with position/EOF/error signaling". It holds when the cursor is at the end of
the file and either the card reports the end as soon as the last byte has been
read (`eofOnLastByte`) or a read has already returned no byte. -/
def Card.eof (c : Card) : Bool :=
  decide (c.filePos ≥ c.file.length) && (c.eofOnLastByte || c.hitEnd)

/-- Modelled from the spec: `card.get()`, the next byte of the file, or `-1`
at the end of the file or on a read error (which sets the error code). -/
def Card.get (c : Card) : Int × Card :=
  match c.faults with
  | true :: fs => (-1, { c with faults := fs, errorCode := 1 })
  | fs =>
    match c.file.get? c.filePos with
    | some b => ((b.toNat : Int), { c with faults := fs.tail, filePos := c.filePos + 1 })
    | none => (-1, { c with faults := fs.tail, hitEnd := true })

/-- Observations on the framers that are not program state: every byte taken
from a source and every call of `insertcommand`, each with the value of
`buflen` at that moment, and the end-of-file notification. -/
inductive Ghost
  /-- A byte was read from the serial port. -/
  | serialRead (buflen : Nat)
  /-- A byte was read from the card. -/
  | cardRead (buflen : Nat)
  /-- `insertcommand(cmd, _)` was called. -/
  | insertCall (buflen : Nat) (cmd : List Char)
  /-- `card.printingHasFinished()` was called. -/
  | printingHasFinished
  deriving DecidableEq

/-! ## Build-time configuration -/

/-- Constants of `Configuration.h`, `Configuration_adv.h`, `Marlin.h` and
`temperature.h` used by the embedded code. -/
structure Config where
  /-- Number of slots of the command ring buffer. -/
  BUFSIZE : Nat
  /-- Index mask applied after each increment of a ring index. -/
  BUFMASK : Nat
  /-- Size in bytes of one command slot and of the line buffer. -/
  MAX_CMD_SIZE : Nat
  /-- Number of extruders. -/
  EXTRUDERS : Nat
  /-- Whether `FWRETRACT` is defined. -/
  FWRETRACT : Bool
  /-- Whether `ENABLE_ULTILCD2` is defined. -/
  ENABLE_ULTILCD2 : Bool
  /-- Whether `SDSUPPORT` is defined. -/
  SDSUPPORT : Bool
  /-- Whether `MIN_SOFTWARE_ENDSTOPS` is defined. -/
  MIN_SOFTWARE_ENDSTOPS : Bool
  /-- Whether `MAX_SOFTWARE_ENDSTOPS` is defined. -/
  MAX_SOFTWARE_ENDSTOPS : Bool
  /-- Whether `SF_ARC_FIX` is defined. -/
  SF_ARC_FIX : Bool
  /-- Bit of `temperature_state` that requests a nozzle re-heat (extruder 0). -/
  EXTRUDER_PREHEAT : Nat
  /-- Threshold of the automatic retract detection. -/
  MIN_RETRACT : ℚ
  /-- Value of the macro `IS_DUAL_ENABLED`. -/
  IS_DUAL_ENABLED : Bool
  /-- Effect of `MYSERIAL.flush()` on the bytes waiting in the receive buffer
  (`MarlinSerial.cpp`). -/
  serialFlush : List Char → List Char
  /-- Value of `PRINT_STATE_NORMAL` (`Marlin.h`). -/
  PRINT_STATE_NORMAL : Nat
  /-- Value of `PRINT_STATE_DWELL`. -/
  PRINT_STATE_DWELL : Nat
  /-- Value of `PRINT_STATE_WAIT_USER`. -/
  PRINT_STATE_WAIT_USER : Nat
  /-- Value of `PRINT_STATE_HEATING`. -/
  PRINT_STATE_HEATING : Nat
  /-- Value of `PRINT_STATE_HEATING_BED`. -/
  PRINT_STATE_HEATING_BED : Nat
  /-- Value of `PRINT_STATE_HOMING`. -/
  PRINT_STATE_HOMING : Nat
  /-- Value of `PRINT_STATE_RECOVER`. -/
  PRINT_STATE_RECOVER : Nat
  /-- Value of `PRINT_STATE_START`. -/
  PRINT_STATE_START : Nat
  /-- Value of `PRINT_STATE_TOOLCHANGE`. -/
  PRINT_STATE_TOOLCHANGE : Nat
  /-- Value of `PRINT_STATE_TOOLREADY`. -/
  PRINT_STATE_TOOLREADY : Nat
  /-- Value of `PRINT_STATE_PRIMING`. -/
  PRINT_STATE_PRIMING : Nat
  /-- Value of `PRINT_STATE_END`. -/
  PRINT_STATE_END : Nat
  /-- Value of `PRINT_STATE_ABORT`. -/
  PRINT_STATE_ABORT : Nat
  /-- Value of `X_MIN_POS`, the initial `min_pos[X_AXIS]`. -/
  X_MIN_POS : ℚ
  /-- Value of `Y_MIN_POS`. -/
  Y_MIN_POS : ℚ
  /-- Value of `Z_MIN_POS`. -/
  Z_MIN_POS : ℚ
  /-- Value of `X_MAX_POS`, the initial `max_pos[X_AXIS]`. -/
  X_MAX_POS : ℚ
  /-- Value of `Y_MAX_POS`. -/
  Y_MAX_POS : ℚ
  /-- Value of `Z_MAX_POS`. -/
  Z_MAX_POS : ℚ
  /-- Bit of `primed` that marks extruder 0 as primed. -/
  EXTRUDER_PRIMED : Nat
  /-- Bit of `primed` that records the end-of-print retraction. -/
  ENDOFPRINT_RETRACT : Nat
  /-- Bit of `position_state` for a known X position (`KNOWNPOS_X`). -/
  KNOWNPOS_X : Nat
  /-- Bit of `position_state` for a known Y position (`KNOWNPOS_Y`). -/
  KNOWNPOS_Y : Nat
  /-- Bit of `position_state` for a known Z position (`KNOWNPOS_Z`). -/
  KNOWNPOS_Z : Nat
  /-- Bit of `temperature_state` for a nozzle in standby (extruder 0). -/
  EXTRUDER_STANDBY : Nat
  /-- Bit of `temperature_state` for a nozzle in automatic standby (extruder 0). -/
  EXTRUDER_AUTOSTANDBY : Nat
  /-- Value of `STOP_REASON_Z_ENDSTOP_BROKEN_ERROR`. -/
  STOP_REASON_Z_ENDSTOP_BROKEN_ERROR : Nat
  /-- Value of `STOP_REASON_XY_ENDSTOP_BROKEN_ERROR`. -/
  STOP_REASON_XY_ENDSTOP_BROKEN_ERROR : Nat
  /-- Value of `STOP_REASON_Z_ENDSTOP_STUCK_ERROR`. -/
  STOP_REASON_Z_ENDSTOP_STUCK_ERROR : Nat
  /-- Value of `STOP_REASON_XY_ENDSTOP_STUCK_ERROR`. -/
  STOP_REASON_XY_ENDSTOP_STUCK_ERROR : Nat
  /-- Value of the macro `HOMEAXIS_DO` for the axes X, Y and Z: whether the
  endstop pin in the homing direction of the axis is configured. -/
  HOMEAXIS_DO : Nat → Bool
  /-- Value of `home_dir(axis)`: `-1` or `1`. -/
  home_dir : Nat → Int
  /-- Value of `home_retract_mm(axis)`. -/
  home_retract_mm : Nat → ℚ
  /-- Value of `HOMING_FEEDRATE`, the initial `homing_feedrate[]`. -/
  HOMING_FEEDRATE : Nat → ℚ
  /-- Whether `BED_CENTER_AT_0_0` is defined. -/
  BED_CENTER_AT_0_0 : Bool
  /-- Whether a temperature sensor is configured (`TEMP_SENSOR_0 != 0`,
  `TEMP_SENSOR_BED != 0` or `HEATER_0_USES_MAX6675`). -/
  HAS_TEMP_SENSOR : Bool
  /-- What `card.ls()` prints (`cardreader.cpp`). -/
  card_ls : Card → List Out
  /-- Effect of `card.initsd()` on the card reader (`cardreader.cpp`). -/
  card_initsd : Card → Card
  /-- What `card.getStatus()` prints (`cardreader.cpp`). -/
  card_getStatus : Card → List Out

/-! ## Motion and retraction state -/

/-- A `float[NUM_AXIS]` array: one value for each of the axes X, Y, Z and E.
Floats are exact rationals in this model. The three-element arrays `min_pos`
and `max_pos` use the same type and leave the `e` component unused. -/
structure Pos where
  /-- Element `[X_AXIS]`. -/
  x : ℚ
  /-- Element `[Y_AXIS]`. -/
  y : ℚ
  /-- Element `[Z_AXIS]`. -/
  z : ℚ
  /-- Element `[E_AXIS]`. -/
  e : ℚ
  deriving DecidableEq

/-- Index of the X axis. -/
def X_AXIS : Nat := 0

/-- Index of the Y axis. -/
def Y_AXIS : Nat := 1

/-- Index of the Z axis. -/
def Z_AXIS : Nat := 2

/-- Index of the E axis. -/
def E_AXIS : Nat := 3

/-- The array read `p[i]`. -/
def Pos.get (p : Pos) (i : Nat) : ℚ :=
  if i = 0 then p.x else if i = 1 then p.y else if i = 2 then p.z else p.e

/-- The array store `p[i] = v`. -/
def Pos.set (p : Pos) (i : Nat) (v : ℚ) : Pos :=
  if i = 0 then { p with x := v }
  else if i = 1 then { p with y := v }
  else if i = 2 then { p with z := v }
  else { p with e := v }

/-- `axis_codes[i]`. -/
def axis_codes (i : Nat) : Char :=
  if i = 0 then 'X' else if i = 1 then 'Y' else if i = 2 then 'Z' else 'E'

/-- A call into the planner, the stepper driver, the arc generator or the
heater control (`planner.cpp`, `stepper.cpp`, `motion_control.cpp`,
`temperature.cpp`, `commandbuffer.cpp`), recorded with its arguments. -/
inductive PlanCall
  /-- `plan_buffer_line(x, y, z, e, feed_rate, extruder)`. -/
  | buffer_line (x y z e feed_rate : ℚ) (extruder : Nat)
  /-- `plan_set_position(x, y, z, e, extruder, sync)`. -/
  | set_position (x y z e : ℚ) (extruder : Nat) (sync : Bool)
  /-- `plan_set_e_position(e, extruder, sync)`. -/
  | set_e_position (e : ℚ) (extruder : Nat) (sync : Bool)
  /-- `st_synchronize()`. -/
  | synchronize
  /-- `CommandBuffer::dwell(m)`. -/
  | dwell (m : Nat)
  /-- `mc_arc(position, target, offset, X_AXIS, Y_AXIS, Z_AXIS, feed_rate,
  radius, isclockwise, extruder)`; the radius is `hypot(offset[0], offset[1])`. -/
  | arc (position target : ℚ × ℚ × ℚ × ℚ) (offset : ℚ × ℚ) (feed_rate : ℚ)
      (isclockwise : Bool) (extruder : Nat)
  /-- `finishAndDisableSteppers()`. -/
  | finishAndDisableSteppers
  /-- `disable_heater()`. -/
  | disable_heater
  /-- `endstops_hit_on_purpose()`. -/
  | endstops_hit_on_purpose
  deriving DecidableEq

/-- The global variables of motion and firmware retraction. -/
structure Motion where
  /-- `current_position[NUM_AXIS]`. -/
  current_position : Pos
  /-- `destination[NUM_AXIS]`. -/
  destination : Pos
  /-- `feedrate`. -/
  feedrate : ℚ
  /-- `next_feedrate`. -/
  next_feedrate : ℚ
  /-- `feedmultiply`, in percent. -/
  feedmultiply : Int
  /-- `min_pos[3]`. -/
  min_pos : Pos
  /-- `max_pos[3]`. -/
  max_pos : Pos
  /-- `position_error`. -/
  position_error : Bool
  /-- `axis_relative_state` (`uint8_t`): one bit per axis and `RELATIVE_MODE`. -/
  axis_relative_state : Nat
  /-- `tmp_extruder` (`uint8_t`). -/
  tmp_extruder : Nat
  /-- Modelled from the spec: the retracted bit of each extruder in
  `retract_state`, read by `EXTRUDER_RETRACTED(e)`. -/
  extruder_retracted : Nat → Bool
  /-- Modelled from the spec: the tool-change-retracted bit of each extruder,
  read by `TOOLCHANGE_RETRACTED(e)`. -/
  toolchange_retracted : Nat → Bool
  /-- Modelled from the spec: the bit `AUTO_RETRACT` of `retract_state`, read
  by `AUTORETRACT_ENABLED`. -/
  auto_retract : Bool
  /-- `retract_length`. -/
  retract_length : ℚ
  /-- `retract_feedrate`. -/
  retract_feedrate : ℚ
  /-- `retract_zlift`. -/
  retract_zlift : ℚ
  /-- `retract_recover_length[EXTRUDERS]`. -/
  retract_recover_length : Nat → ℚ
  /-- `retract_recover_feedrate[EXTRUDERS]`. -/
  retract_recover_feedrate : Nat → ℚ
  /-- `volume_to_filament_length[EXTRUDERS]`. -/
  volume_to_filament_length : Nat → ℚ
  /-- `toolchange_retractlen[EXTRUDERS]`. -/
  toolchange_retractlen : Nat → ℚ
  /-- `toolchange_retractfeedrate[EXTRUDERS]`. -/
  toolchange_retractfeedrate : Nat → ℚ
  /-- `toolchange_recover_length[EXTRUDERS]`. -/
  toolchange_recover_length : Nat → ℚ
  /-- `toolchange_prime[EXTRUDERS]`. -/
  toolchange_prime : Nat → ℚ
  /-- `primed` (`uint8_t`). -/
  primed : Nat
  /-- `recover_height`. -/
  recover_height : ℚ
  /-- `recover_position[NUM_AXIS]`. -/
  recover_position : Pos
  /-- Calls made into the planner so far, oldest first. -/
  planner : List PlanCall
  /-- `position_state` (`uint8_t`): one bit per axis whose position is known. -/
  position_state : Nat
  /-- `extruder_offset[2][EXTRUDERS]`, indexed by axis and extruder. -/
  extruder_offset : Nat → Nat → ℚ
  /-- `axis_steps_per_unit[NUM_AXIS]`. -/
  axis_steps_per_unit : Nat → ℚ
  /-- `add_homeing[3]`. -/
  add_homeing : Pos
  /-- `add_homeing_z2`. -/
  add_homeing_z2 : ℚ
  /-- `homing_feedrate[]`. -/
  homing_feedrate : Nat → ℚ
  /-- `offset[0]` and `offset[1]`, the centre offsets of an arc. -/
  offset : ℚ × ℚ
  /-- What the coming calls of `isEndstopHit()` and the coming reads of an
  endstop pin return, in order; `false` once the list is used up. -/
  endstop_reports : List Bool

/-- Motion state after static initialisation. The arrays defined outside
`Marlin_main.cpp` start at zero here, except `volume_to_filament_length`,
which starts at one, and `axis_steps_per_unit`, which starts at 80. -/
def Motion.init (cfg : Config) : Motion where
  current_position := ⟨0, 0, 0, 0⟩
  destination := ⟨0, 0, 0, 0⟩
  feedrate := 1500
  next_feedrate := 0
  feedmultiply := 100
  min_pos := ⟨cfg.X_MIN_POS, cfg.Y_MIN_POS, cfg.Z_MIN_POS, 0⟩
  max_pos := ⟨cfg.X_MAX_POS, cfg.Y_MAX_POS, cfg.Z_MAX_POS, 0⟩
  position_error := false
  axis_relative_state := 0
  tmp_extruder := 0
  extruder_retracted := fun _ => false
  toolchange_retracted := fun _ => false
  auto_retract := false
  retract_length := 9 / 2
  retract_feedrate := 25 * 60
  retract_zlift := 0
  retract_recover_length := fun _ => 0
  retract_recover_feedrate := fun _ => 0
  volume_to_filament_length := fun _ => 1
  toolchange_retractlen := fun _ => 0
  toolchange_retractfeedrate := fun _ => 0
  toolchange_recover_length := fun _ => 0
  toolchange_prime := fun _ => 0
  primed := 0
  recover_height := 0
  recover_position := ⟨0, 0, 0, 0⟩
  planner := []
  position_state := 0
  extruder_offset := fun _ _ => 0
  axis_steps_per_unit := fun _ => 80
  add_homeing := ⟨0, 0, 0, 0⟩
  add_homeing_z2 := 0
  homing_feedrate := cfg.HOMING_FEEDRATE
  offset := (0, 0)
  endstop_reports := []

/-! ## Machine state -/

/-- The global variables of `Marlin_main.cpp` that the embedded functions read
or write, together with the pending serial input and the serial output. -/
structure Machine where
  /-- `cmdbuffer[BUFSIZE][MAX_CMD_SIZE]`: the C string held by each slot. -/
  cmdbuffer : List (List Char)
  /-- Read index of the ring buffer (`uint8_t`). -/
  bufindr : Nat
  /-- Write index of the ring buffer (`uint8_t`). -/
  bufindw : Nat
  /-- Number of queued commands (`uint8_t`). -/
  buflen : Nat
  /-- One origin bit per slot (`uint8_t`, or `uint16_t` when `BUFSIZE > 8`). -/
  serialCmd : Nat
  /-- Result of the last `strchr` of the parameter scanner; `none` is `NULL`. -/
  strchr_pointer : Option (List Char)
  /-- Temperature flags (`uint8_t`), written by `checkToolchange`. -/
  temperature_state : Nat
  /-- Index of the active extruder (`uint8_t`). -/
  active_extruder : Nat
  /-- The line accumulation buffer shared by both framers. -/
  cmd_line_buffer : List Char
  /-- Number of bytes accumulated by the serial framer (`uint8_t`). -/
  serial_count : Nat
  /-- Comment flag shared by both framers. -/
  comment_mode : Bool
  /-- Last accepted line number. -/
  gcode_LastN : Int
  /-- Line number saved by `Stop`. -/
  Stopped_gcode_LastN : Int
  /-- Stop reason, `0` when the machine is not stopped (`uint8_t`). -/
  Stopped : Nat
  /-- Bytes waiting in the receive buffer of `MYSERIAL`. -/
  rx : List Char
  /-- Everything written to the serial port so far, oldest first. -/
  out : List Out
  /-- The printing state (`uint8_t`). -/
  printing_state : Nat
  /-- The card reader. -/
  card : Card
  /-- File position after the last complete line (`static uint32_t` of
  `get_sdcard_commands`). -/
  endOfLineFilePosition : Nat
  /-- Ghost record of reads and insertions, oldest first. -/
  ghost : List Ghost
  /-- The motion and retraction variables. -/
  motion : Motion

/-- Width in bits of `serialCmd`. -/
def serialCmdBits (cfg : Config) : Nat := if cfg.BUFSIZE > 8 then 16 else 8

/-- The C string in slot `i` of `cmdbuffer`. -/
def Machine.slot (s : Machine) (i : Nat) : List Char := s.cmdbuffer.getD i []

/-- State after static initialisation: empty queue, empty buffers. -/
def Machine.init (cfg : Config) : Machine where
  cmdbuffer := List.replicate cfg.BUFSIZE []
  bufindr := 0
  bufindw := 0
  buflen := 0
  serialCmd := 0
  strchr_pointer := none
  temperature_state := 0
  active_extruder := 0
  cmd_line_buffer := List.replicate cfg.MAX_CMD_SIZE NUL
  serial_count := 0
  comment_mode := false
  gcode_LastN := 0
  Stopped_gcode_LastN := 0
  Stopped := 0
  rx := []
  out := []
  printing_state := 0
  card := { file := [], filePos := 0, sdprinting := false, pause := false, sdInserted := false,
            errorCode := 0, faults := [], eofOnLastByte := false, hitEnd := false }
  endOfLineFilePosition := 0
  ghost := []
  motion := Motion.init cfg

/-! ## Command queue -/

/-- `commit_command(isSerialCmd)`: count the new command, record its origin bit
and advance the write index. -/
def commit_command (cfg : Config) (isSerialCmd : Bool) (s : Machine) : Machine :=
  let s1 := { s with buflen := (s.buflen + 1) % 256 }
  let s2 :=
    if isSerialCmd then
      { s1 with serialCmd := bitSet (serialCmdBits cfg) s1.serialCmd s1.bufindw }
    else
      { s1 with serialCmd := bitClr (serialCmdBits cfg) s1.serialCmd s1.bufindw }
  let s3 := { s2 with bufindw := (s2.bufindw + 1) % 256 }
  { s3 with bufindw := s3.bufindw &&& cfg.BUFMASK }

/-- `remove_command()`: drop the oldest command. -/
def remove_command (cfg : Config) (s : Machine) : Machine :=
  let s1 := { s with serialCmd := bitClr (serialCmdBits cfg) s.serialCmd s.bufindr }
  let s2 := { s1 with bufindr := (s1.bufindr + 1) % 256 }
  let s3 := { s2 with bufindr := s2.bufindr &&& cfg.BUFMASK }
  { s3 with buflen := (s3.buflen + 255) % 256 }

/-- The loop `while (buflen) remove_command();`, at most `fuel` iterations. -/
def remove_loop (cfg : Config) : Nat → Machine → Machine
  | 0, s => s
  | fuel + 1, s => if s.buflen ≠ 0 then remove_loop cfg fuel (remove_command cfg s) else s

/-- `clear_command_queue()`. The loop runs at most 255 times because `buflen`
is a `uint8_t`. -/
def clear_command_queue (cfg : Config) (s : Machine) : Machine :=
  let s1 := remove_loop cfg 256 s
  { s1 with bufindw := 0, bufindr := 0, serialCmd := 0 }

/-- `code_value_long()`: the integer after the character found by the last
scan. -/
def code_value_long (s : Machine) : Int :=
  match s.strchr_pointer with
  | some p => strtol p.tail
  | none => 0

/-- `code_seen(cmd, code)`: scan for a parameter letter and remember where it
was found. -/
def code_seen (cmd : List Char) (code : Char) (s : Machine) : Bool × Machine :=
  let p := strchr cmd code
  (p.isSome, { s with strchr_pointer := p })

/-- `checkToolchange(cmd)`: flag the nozzle of an upcoming tool change for
re-heating. -/
def checkToolchange (cfg : Config) (cmd : List Char) (s : Machine) : Machine :=
  if (strchr cmd 'G').isSome || (strchr cmd 'M').isSome then s
  else
    let s1 := { s with strchr_pointer := strchr cmd 'T' }
    if s1.strchr_pointer.isSome then
      let e := toU8 (code_value_long s1)
      if e < cfg.EXTRUDERS ∧ e ≠ s1.active_extruder then
        { s1 with temperature_state := (s1.temperature_state ||| (cfg.EXTRUDER_PREHEAT <<< e)) % 256 }
      else s1
    else s1

/-- `insertcommand(cmd, isSerialCmd)`: copy a command into the slot at the
write index and commit it. Note that `checkToolchange` is handed
`cmdbuffer[bufindw]` after `commit_command` has advanced `bufindw`. -/
def insertcommand (cfg : Config) (cmd : List Char) (isSerialCmd : Bool) (s : Machine) :
    Bool × Machine :=
  if cmd.head? = some ';' ∨ s.buflen ≥ cfg.BUFSIZE then (false, s)
  else
    let s1 := { s with cmdbuffer := s.cmdbuffer.set s.bufindw (cstr cmd) }
    let s2 := commit_command cfg isSerialCmd s1
    let s3 := if cfg.EXTRUDERS > 1 ∧ cfg.FWRETRACT then checkToolchange cfg (s2.slot s2.bufindw) s2
              else s2
    (true, s3)

/-- The arguments `next_command` passes to `process_command`: the command at
the read index and its origin bit. -/
def next_command_args (s : Machine) : List Char × Bool :=
  (s.slot s.bufindr, (s.serialCmd &&& (1 <<< s.bufindr)) != 0)

/-- The end of `next_command()`: `if (buflen) remove_command();`. -/
def next_command_remove (cfg : Config) (s : Machine) : Machine :=
  if s.buflen ≠ 0 then remove_command cfg s else s

/-- The four operations on the ring buffer. -/
inductive QueueOp
  /-- A call `insertcommand(cmd, isSerialCmd)`. -/
  | insert (cmd : List Char) (isSerialCmd : Bool)
  /-- A call `commit_command(isSerialCmd)`, made only when `buflen < BUFSIZE`. -/
  | commit (isSerialCmd : Bool)
  /-- A call `remove_command()`, made only when `buflen > 0`. -/
  | remove
  /-- A call `clear_command_queue()`. -/
  | clear

/-- One queue operation; `commit` and `remove` are skipped when their caller's
guard does not hold. -/
def QueueOp.run (cfg : Config) (s : Machine) : QueueOp → Machine
  | .insert cmd isSerialCmd => (insertcommand cfg cmd isSerialCmd s).2
  | .commit isSerialCmd => if s.buflen < cfg.BUFSIZE then commit_command cfg isSerialCmd s else s
  | .remove => if 0 < s.buflen then remove_command cfg s else s
  | .clear => clear_command_queue cfg s

/-- A finite sequence of queue operations, run from left to right. -/
def runQueueOps (cfg : Config) (ops : List QueueOp) (s : Machine) : Machine :=
  ops.foldl (QueueOp.run cfg) s

/-- The ring-buffer invariant. -/
structure QueueInv (cfg : Config) (s : Machine) : Prop where
  buflen_le : s.buflen ≤ cfg.BUFSIZE
  bufindr_lt : s.bufindr < cfg.BUFSIZE
  bufindw_lt : s.bufindw < cfg.BUFSIZE
  bufindw_eq : s.bufindw = (s.bufindr + s.buflen) % cfg.BUFSIZE

/-! ## Concrete configurations and inputs used by the examples -/

/-- A sample configuration: a ring of 8 slots of 96 bytes, two extruders,
firmware retraction, both software endstops. The numeric values of the
`PRINT_STATE_*` constants, of the travel limits and of the bit masks are
sample values in the order of their declaration. -/
def cfg8 : Config where
  BUFSIZE := 8
  BUFMASK := 7
  MAX_CMD_SIZE := 96
  EXTRUDERS := 2
  FWRETRACT := true
  ENABLE_ULTILCD2 := true
  SDSUPPORT := true
  MIN_SOFTWARE_ENDSTOPS := true
  MAX_SOFTWARE_ENDSTOPS := true
  SF_ARC_FIX := false
  EXTRUDER_PREHEAT := 1
  MIN_RETRACT := 1 / 10
  IS_DUAL_ENABLED := false
  serialFlush := fun _ => []
  PRINT_STATE_NORMAL := 0
  PRINT_STATE_DWELL := 1
  PRINT_STATE_WAIT_USER := 2
  PRINT_STATE_HEATING := 3
  PRINT_STATE_HEATING_BED := 4
  PRINT_STATE_HOMING := 5
  PRINT_STATE_RECOVER := 6
  PRINT_STATE_START := 7
  PRINT_STATE_TOOLCHANGE := 8
  PRINT_STATE_TOOLREADY := 9
  PRINT_STATE_PRIMING := 10
  PRINT_STATE_END := 11
  PRINT_STATE_ABORT := 12
  X_MIN_POS := 0
  Y_MIN_POS := 0
  Z_MIN_POS := 0
  X_MAX_POS := 230
  Y_MAX_POS := 225
  Z_MAX_POS := 230
  EXTRUDER_PRIMED := 1
  ENDOFPRINT_RETRACT := 128
  KNOWNPOS_X := 1
  KNOWNPOS_Y := 2
  KNOWNPOS_Z := 4
  EXTRUDER_STANDBY := 4
  EXTRUDER_AUTOSTANDBY := 16
  STOP_REASON_Z_ENDSTOP_BROKEN_ERROR := 6
  STOP_REASON_XY_ENDSTOP_BROKEN_ERROR := 8
  STOP_REASON_Z_ENDSTOP_STUCK_ERROR := 7
  STOP_REASON_XY_ENDSTOP_STUCK_ERROR := 9
  HOMEAXIS_DO := fun i => decide (i ≤ 2)
  home_dir := fun i => if i = 2 then 1 else -1
  home_retract_mm := fun i => if i = 2 then 2 else 5
  HOMING_FEEDRATE := fun i => if i = 2 then 40 * 60 else if i ≤ 1 then 100 * 60 else 0
  BED_CENTER_AT_0_0 := false
  HAS_TEMP_SENSOR := true
  card_ls := fun _ => []
  card_initsd := fun c => c
  card_getStatus := fun _ => [Out.echo "Not SD printing" []]

/-- A short mixed sequence of queue operations. -/
def ops8 : List QueueOp :=
  [QueueOp.insert "G28".toList true, QueueOp.insert "G1 X10".toList false, QueueOp.remove,
   QueueOp.commit false, QueueOp.clear, QueueOp.insert "M105".toList true]

/-! ## The queue seen by its clients -/

/-- The two operations of the clients of the queue: a framer inserting a line
and the dispatcher taking the oldest one. -/
inductive FifoOp
  /-- A call `insertcommand(cmd, isSerialCmd)`. -/
  | insert (cmd : List Char) (isSerialCmd : Bool)
  /-- A call `next_command()`, made as `loop` makes it, when `buflen` is not 0. -/
  | next

/-- The sequence of argument pairs that `next_command` hands to
`process_command` while the operations `ops` run on the ring buffer. The
dispatched command itself is not run here, so it does not touch the queue. -/
def ringTrace (cfg : Config) : List FifoOp → Machine → List (List Char × Bool)
  | [], _ => []
  | .insert cmd isSerialCmd :: ops, s => ringTrace cfg ops (insertcommand cfg cmd isSerialCmd s).2
  | .next :: ops, s =>
    if s.buflen ≠ 0 then next_command_args s :: ringTrace cfg ops (next_command_remove cfg s)
    else ringTrace cfg ops s

/-- Specification: enqueue on a FIFO list of (line, origin flag) pairs bounded
by `cap`; refused when the list is full or the line begins with the comment
marker. -/
def fifo_enqueue (cap : Nat) (q : List (List Char × Bool)) (line : List Char) (flag : Bool) :
    List (List Char × Bool) :=
  if line.head? = some ';' ∨ q.length ≥ cap then q else q ++ [(cstr line, flag)]

/-- Specification: the sequence of (line, origin flag) pairs popped from the
bounded FIFO list while the operations `ops` run; a pop takes the oldest
entry. -/
def fifoTrace (cap : Nat) : List FifoOp → List (List Char × Bool) → List (List Char × Bool)
  | [], _ => []
  | .insert cmd flag :: ops, q => fifoTrace cap ops (fifo_enqueue cap q cmd flag)
  | .next :: ops, [] => fifoTrace cap ops []
  | .next :: ops, x :: q => x :: fifoTrace cap ops q

/-- A mixed sequence of insertions and removals that wraps around the ring. -/
def fifoOps8 : List FifoOp :=
  [FifoOp.insert "G28".toList true, FifoOp.insert "M105".toList false, FifoOp.next,
   FifoOp.insert ";skipped".toList true, FifoOp.insert "G1 X1".toList true, FifoOp.next,
   FifoOp.next, FifoOp.next]

/-- The ring buffer `s` represents the FIFO list `q`. -/
structure Refines (cfg : Config) (s : Machine) (q : List (List Char × Bool)) : Prop where
  inv : QueueInv cfg s
  slots : s.cmdbuffer.length = cfg.BUFSIZE
  len : s.buflen = q.length
  content : ∀ j, j < q.length →
    q[j]? = some (s.slot ((s.bufindr + j) % cfg.BUFSIZE),
      s.serialCmd.testBit ((s.bufindr + j) % cfg.BUFSIZE))

/-! ## The serial line framer -/

/-- `ClearToSend()`: the acknowledgment. -/
def ClearToSend (s : Machine) : Machine :=
  { s with out := s.out ++ [Out.ok] }

/-- `FlushSerialRequestResend()`: drop the pending input and ask for the line
after the last accepted one. -/
def FlushSerialRequestResend (cfg : Config) (s : Machine) : Machine :=
  let s1 := { s with rx := cfg.serialFlush s.rx }
  let s2 := { s1 with out := s1.out ++ [Out.resend (wrapLong (s1.gcode_LastN + 1))] }
  ClearToSend s2

/-- `gcode_line_error(err, doFlush)`. -/
def gcode_line_error (cfg : Config) (err : String) (doFlush : Bool) (s : Machine) : Machine :=
  let s1 := { s with out := s.out ++ [Out.lineError err s.gcode_LastN] }
  let s2 := if doFlush then FlushSerialRequestResend cfg s1 else s1
  { s2 with serial_count := 0 }

/-- The XOR of the bytes of `l`, kept in a `byte`. -/
def xorBytes (l : List Char) : Nat :=
  l.foldl (fun acc c => (acc ^^^ c.toNat) % 256) 0

/-- The checksum loop of `get_serial_commands`: the XOR, in a `byte`, of the
characters of `command` before its first `*`. -/
def xorChecksum (command : List Char) : Nat :=
  xorBytes (command.takeWhile (fun c => c != '*'))

/-- The warning `get_serial_commands` prints for G0..G3 while the machine is
stopped. -/
def stoppedAlert (command : List Char) (s : Machine) : Machine :=
  if s.Stopped ≠ 0 then
    match strchr command 'G' with
    | some gpos =>
      let codenum := toInt16 (strtol gpos.tail)
      if codenum = 0 ∨ codenum = 1 ∨ codenum = 2 ∨ codenum = 3 then
        { s with out := s.out ++ [Out.errStopped] }
      else s
    | none => s
  else s

/-- The origin flag `get_serial_commands` gives a line: false for M20, M21,
M22, M27 and M105 when `ENABLE_ULTILCD2` is defined. -/
def serialFlag (cfg : Config) (command : List Char) : Bool :=
  if cfg.ENABLE_ULTILCD2 then
    match strchr command 'M' with
    | some cmdpos =>
      let codenum := toInt16 (strtol cmdpos.tail)
      if codenum = 20 ∨ codenum = 21 ∨ codenum = 22 ∨ codenum = 27 ∨ codenum = 105 then false
      else true
    | none => true
  else true

/-- The end of the terminator branch of `get_serial_commands`: warn when
stopped, then insert the command. -/
def serial_enqueue (cfg : Config) (command : List Char) (s : Machine) : Machine :=
  let s1 := stoppedAlert command s
  let s2 := { s1 with ghost := s1.ghost ++ [Ghost.insertCall s1.buflen command] }
  (insertcommand cfg command (serialFlag cfg command) s2).2

/-- The integrity check of the terminator branch of `get_serial_commands` on
the line `command` (leading spaces already skipped), and the insertion of the
line when the check passes. The Boolean is false when the branch leaves the
function through `return`. -/
def serial_check_line (cfg : Config) (command : List Char) (s : Machine) : Machine × Bool :=
  let apos := strchr command '*'
  if command.head? = some 'N' then
    let M110 := (strstr command "M110".toList).isSome
    let npos :=
      if M110 then
        match strchr (command.drop 4) 'N' with
        | some n2pos => n2pos
        | none => command
      else command
    let gcode_N := strtol npos.tail
    if gcode_N ≠ wrapLong (s.gcode_LastN + 1) ∧ ¬M110 then
      (gcode_line_error cfg "MSG_ERR_LINE_NO" true s, false)
    else
      match apos with
      | some p =>
        if strtol p.tail ≠ (xorChecksum command : Int) then
          (gcode_line_error cfg "MSG_ERR_CHECKSUM_MISMATCH" true s, false)
        else (serial_enqueue cfg command { s with gcode_LastN := gcode_N }, true)
      | none => (gcode_line_error cfg "MSG_ERR_NO_CHECKSUM" true s, false)
  else if apos.isSome then
    (gcode_line_error cfg "MSG_ERR_NO_LINENUMBER_WITH_CHECKSUM" false s, false)
  else (serial_enqueue cfg command s, true)

/-- The terminator branch of `get_serial_commands`: end the comment, skip an
empty line, otherwise terminate the accumulated string, reset the counter and
check the line. -/
def serial_end_of_line (cfg : Config) (s0 : Machine) : Machine × Bool :=
  let s1 := { s0 with comment_mode := false }
  if s1.serial_count = 0 then (s1, true)
  else
    let s2 := { s1 with cmd_line_buffer := s1.cmd_line_buffer.set s1.serial_count NUL }
    let s := { s2 with serial_count := 0 }
    let command := (cstr s.cmd_line_buffer).dropWhile (fun c => c = ' ')
    serial_check_line cfg command s

/-- The store `cmd_line_buffer[serial_count++] = c`. -/
def serial_store (c : Char) (s : Machine) : Machine :=
  { s with cmd_line_buffer := s.cmd_line_buffer.set s.serial_count c,
           serial_count := (s.serial_count + 1) % 256 }

/-- The loop of `get_serial_commands`, at most `fuel` iterations. Every
iteration takes at least one byte from the receive buffer. -/
def get_serial_loop (cfg : Config) : Nat → Machine → Machine
  | 0, s => s
  | fuel + 1, s =>
    if ¬ s.buflen < cfg.BUFSIZE then s
    else
      match s.rx with
      | [] => s
      | serial_char :: rest =>
        let s := { s with rx := rest, ghost := s.ghost ++ [Ghost.serialRead s.buflen] }
        if serial_char = '\n' ∨ serial_char = '\r' then
          let r := serial_end_of_line cfg s
          if r.2 then get_serial_loop cfg fuel r.1 else r.1
        else if s.serial_count ≥ cfg.MAX_CMD_SIZE - 1 then get_serial_loop cfg fuel s
        else if serial_char = '\\' then
          match s.rx with
          | [] => get_serial_loop cfg fuel s
          | c2 :: rest2 =>
            let s := { s with rx := rest2, ghost := s.ghost ++ [Ghost.serialRead s.buflen] }
            let s := if ¬ s.comment_mode then serial_store c2 s else s
            get_serial_loop cfg fuel s
        else
          let s := if serial_char = ';' then { s with comment_mode := true } else s
          let s := if ¬ s.comment_mode then serial_store serial_char s else s
          get_serial_loop cfg fuel s

/-- `get_serial_commands()`. The fuel is the number of waiting bytes, which
bounds the number of iterations. -/
def get_serial_commands (cfg : Config) (s : Machine) : Machine :=
  get_serial_loop cfg s.rx.length s

/-- The bytes `l` written into a buffer from index `i` on. -/
def writeList (buf : List Char) (i : Nat) : List Char → List Char
  | [] => buf
  | c :: cs => writeList (buf.set i c) (i + 1) cs

/-- A byte that the serial framer accumulates outside comment mode: neither a
line terminator, nor the escape character, nor the comment marker. -/
def plainChar (c : Char) : Prop := c ≠ '\n' ∧ c ≠ '\r' ∧ c ≠ '\\' ∧ c ≠ ';'

/-- The line `N<k> <payload>*<c>` a host sends for line number `k`, where `c`
is the decimal value of the XOR of all bytes before the `*`. -/
def serialLine (k : Nat) (payload : List Char) : List Char :=
  'N' :: decimal k ++ ' ' :: payload ++
    '*' :: decimal (xorBytes ('N' :: decimal k ++ ' ' :: payload))

/-- Parsing stops at the first character that is not a digit. -/
def stopsParse (rest : List Char) : Prop := ∀ c, rest.head? = some c → c.isDigit = false


/-- What the framer finds in a well-formed numbered line `serialLine k payload`. -/
structure LineFacts (k : Nat) (payload : List Char) : Prop where
  head : (serialLine k payload).head? = some 'N'
  plain : ∀ c ∈ serialLine k payload, plainChar c
  nonul : ∀ c ∈ serialLine k payload, c ≠ NUL
  ne_nil : serialLine k payload ≠ []
  star : strchr (serialLine k payload) '*' =
    some ('*' :: decimal (xorBytes ('N' :: decimal k ++ ' ' :: payload)))
  sum : xorChecksum (serialLine k payload) = xorBytes ('N' :: decimal k ++ ' ' :: payload)
  m110 : strstr (serialLine k payload) "M110".toList = none
  num : strtol (serialLine k payload).tail = clampLong k

/-- The machine after initialisation, with last accepted line number `lastN`
and the bytes `input` waiting in the receive buffer. -/
def lineState (cfg : Config) (lastN : Int) (input : List Char) : Machine :=
  { Machine.init cfg with gcode_LastN := lastN, rx := input }

/-- The state `s` differs from `s0` at most in the receive buffer, the ghost
record and the variables of the accumulation of the current line. -/
def SameBut (s0 s : Machine) : Prop :=
  { s with rx := s0.rx, ghost := s0.ghost, cmd_line_buffer := s0.cmd_line_buffer,
           serial_count := s0.serial_count, comment_mode := s0.comment_mode } = s0

/-- Starting from `s0`, the serial framer has accumulated the bytes `acc` of
the current line. -/
structure Accumulated (cfg : Config) (s0 s : Machine) (acc : List Char) : Prop where
  same : SameBut s0 s
  count : s.serial_count = acc.length
  buf : ∃ tl, s.cmd_line_buffer = acc ++ tl
  size : s.cmd_line_buffer.length = cfg.MAX_CMD_SIZE

/-- The line `serialLine k (pre ++ a :: post)` after the payload byte `a` has
been replaced by `b`; the checksum is still the one of the original line. -/
def mutatedPayloadLine (k : Nat) (pre : List Char) (a b : Char) (post : List Char) : List Char :=
  'N' :: decimal k ++ ' ' :: (pre ++ b :: post) ++
    '*' :: decimal (xorBytes ('N' :: decimal k ++ ' ' :: (pre ++ a :: post)))

/-- A line `N<k> <payload>*<digits>` whose checksum text is `digits`. -/
def checksumLine (k : Nat) (payload digits : List Char) : List Char :=
  'N' :: decimal k ++ ' ' :: payload ++ '*' :: digits

/-- The framer rejected a line with expected number `k`: nothing was enqueued,
the last accepted line number is unchanged, and an error line, the resend
request for `k` and the acknowledgment that follows it were written. -/
def RejectedWithResend (s s' : Machine) (k : Int) : Prop :=
  s'.buflen = s.buflen ∧ s'.bufindr = s.bufindr ∧ s'.bufindw = s.bufindw ∧
  s'.cmdbuffer = s.cmdbuffer ∧ s'.gcode_LastN = s.gcode_LastN ∧
  ∃ msg, s'.out = s.out ++ [Out.lineError msg s.gcode_LastN, Out.resend k, Out.ok]

/-- The line `line'` is `serialLine k payload` with a single byte changed:
either a payload byte replaced by a different byte other than `*`, or a digit
of the checksum replaced by a different decimal digit. -/
def SingleByteMutation (k : Nat) (payload line' : List Char) : Prop :=
  (∃ pre a post b, payload = pre ++ a :: post ∧ b ≠ a ∧ b ≠ '*' ∧ b.toNat < 256 ∧
    line' = mutatedPayloadLine k pre a b post) ∨
  (∃ dpre d dpost d', decimal (xorBytes ('N' :: decimal k ++ ' ' :: payload)) = dpre ++ d :: dpost ∧
    d' ≠ d ∧ d'.isDigit = true ∧ line' = checksumLine k payload (dpre ++ d' :: dpost))

/-- The four protocol errors of the serial framer. -/
inductive ProtocolError
  /-- A line number is present but no checksum. -/
  | noChecksum
  /-- The checksum does not match. -/
  | checksumMismatch
  /-- The line number is not the last accepted one plus one, on a line that is
  not an M110 command. -/
  | lineNumber
  /-- A checksum is present without a leading line number. -/
  | noLineNumber
  deriving DecidableEq

/-- The line `command` (leading spaces skipped) shows the protocol error `e`
when the last accepted line number is `lastN`. -/
def ProtocolError.holds (command : List Char) (lastN : Int) : ProtocolError → Prop
  | .noChecksum => command.head? = some 'N' ∧ strchr command '*' = none
  | .checksumMismatch => command.head? = some 'N' ∧
      ∃ p, strchr command '*' = some p ∧ strtol p.tail ≠ (xorChecksum command : Int)
  | .lineNumber => command.head? = some 'N' ∧ strstr command "M110".toList = none ∧
      strtol command.tail ≠ wrapLong (lastN + 1)
  | .noLineNumber => command.head? ≠ some 'N' ∧ (strchr command '*').isSome = true

/-- What the serial framer writes for a protocol error: the error line with
the last accepted line number and, when `withResend` holds, the resend
request for the next line number and the acknowledgment that follows it. -/
def errorOutput (msg : String) (lastN : Int) (withResend : Bool) : List Out :=
  Out.lineError msg lastN ::
    (if withResend then [Out.resend (wrapLong (lastN + 1)), Out.ok] else [])

/-- Local recovery from a protocol error: apart from the consumed input, the
ghost record, the line buffer and the comment flag, the state `s'` differs from
`s` only in that `serial_count` is 0 and the error output was written. -/
def LocallyRecovered (s s' : Machine) (withResend : Bool) : Prop :=
  s'.serial_count = 0 ∧
  (∃ msg, s'.out = s.out ++ errorOutput msg s.gcode_LastN withResend) ∧
  { s' with rx := s.rx, ghost := s.ghost, cmd_line_buffer := s.cmd_line_buffer,
            serial_count := s.serial_count, comment_mode := s.comment_mode, out := s.out } = s

/-- The machine after initialisation with the bytes `acc` of a line already
accumulated by the serial framer and the bytes `input` waiting. -/
def pendingLineState (cfg : Config) (acc input : List Char) : Machine :=
  { Machine.init cfg with
      cmd_line_buffer := acc ++ List.replicate (cfg.MAX_CMD_SIZE - acc.length) NUL,
      serial_count := acc.length, rx := input }

/-! ## The SD card line framer -/

/-- Modelled from the spec: `card.release()`, the card is gone and the print
stops. -/
def Card.release (c : Card) : Card := { c with sdprinting := false, sdInserted := false }

/-- Modelled from the spec: `card.printingHasFinished()`, the stream is
complete and the print stops. -/
def Card.printingHasFinished (c : Card) : Card := { c with sdprinting := false }

/-- The `uint32_t` subtraction `size - 512`. -/
def sub512 (size : Nat) : Nat := (size + 4294967296 - 512) % 4294967296

/-- The error branch of `get_sdcard_commands`: give up when the card was
removed, otherwise clear the error and either stop near the end of the file
or seek back to the end of the last complete line. -/
def sdcard_read_error (s : Machine) : Machine :=
  if ¬ s.card.sdInserted then { s with card := s.card.release }
  else
    let s1 := { s with card := { s.card with errorCode := 0 } }
    if s1.endOfLineFilePosition > sub512 s1.card.file.length then
      { s1 with card := { s1.card with sdprinting := false } }
    else { s1 with card := { s1.card with filePos := s1.endOfLineFilePosition, hitEnd := false } }

/-- The end-of-file notification of `get_sdcard_commands`: `MSG_FILE_PRINTED`,
the elapsed time, `card.printingHasFinished()` and `card.checkautostart(true)`. -/
def sdcard_finished (s : Machine) : Machine :=
  { s with out := s.out ++ [Out.filePrinted],
           card := s.card.printingHasFinished,
           ghost := s.ghost ++ [Ghost.printingHasFinished] }

/-- The terminator branch of `get_sdcard_commands` (end of file, CR, LF, or
`#`/`:` outside a comment): notify the end of the file, end the comment, skip
an empty line, otherwise terminate the accumulated string, remember the file
position and insert the command. Returns the new `sd_count` and state. -/
def sdcard_end_of_line (cfg : Config) (sd_count : Nat) (card_eof : Bool) (s1 : Machine) :
    Nat × Machine :=
  let s2 := if card_eof then sdcard_finished s1 else s1
  let s3 := { s2 with comment_mode := false }
  if sd_count = 0 then (sd_count, s3)
  else
    let s4 := { s3 with cmd_line_buffer := s3.cmd_line_buffer.set sd_count NUL }
    let s5 := { s4 with endOfLineFilePosition := s4.card.filePos }
    let s6 := { s5 with ghost := s5.ghost ++
      [Ghost.insertCall s5.buflen (cstr s5.cmd_line_buffer)] }
    (0, (insertcommand cfg s6.cmd_line_buffer false s6).2)

/-- The accumulation branch of `get_sdcard_commands`: below the length bound a
`;` starts a comment and any other byte outside a comment is stored; beyond
the bound the byte is ignored. Returns the new `sd_count` and state. -/
def sdcard_accumulate (cfg : Config) (sd_count : Nat) (sd_char : Char) (s1 : Machine) :
    Nat × Machine :=
  if sd_count < cfg.MAX_CMD_SIZE - 1 then
    if sd_char = ';' then (sd_count, { s1 with comment_mode := true })
    else if s1.comment_mode = false then
      ((sd_count + 1) % 65536,
        { s1 with cmd_line_buffer := s1.cmd_line_buffer.set sd_count sd_char })
    else (sd_count, s1)
  else (sd_count, s1)

/-- The body of the loop of `get_sdcard_commands` after a successful read that
returned `n`: decode the byte and the end-of-file flag, then take the
terminator branch or the accumulation branch. Returns the new `sd_count`,
`card_eof` and state. -/
def sdcard_byte (cfg : Config) (sd_count : Nat) (n : Int) (s1 : Machine) :
    Nat × Bool × Machine :=
  let card_eof := if n ≤ 0 then true else s1.card.eof
  let sd_char : Char := if n ≤ 0 then NUL else Char.ofNat n.toNat
  if card_eof = true ∨ sd_char = '\n' ∨ sd_char = '\r' ∨
      ((sd_char = '#' ∨ sd_char = ':') ∧ s1.comment_mode = false) then
    ((sdcard_end_of_line cfg sd_count card_eof s1).1, card_eof,
      (sdcard_end_of_line cfg sd_count card_eof s1).2)
  else
    ((sdcard_accumulate cfg sd_count sd_char s1).1, card_eof,
      (sdcard_accumulate cfg sd_count sd_char s1).2)

/-- The loop of `get_sdcard_commands` with its local variables `sd_count`
(`uint16_t`) and `card_eof`, at most `fuel` iterations. -/
def get_sdcard_loop (cfg : Config) : Nat → Nat → Bool → Machine → Machine
  | 0, _, _, s => s
  | fuel + 1, sd_count, card_eof, s =>
    if ¬ (s.buflen < cfg.BUFSIZE ∧ card_eof = false) then s
    else
      let n := s.card.get.1
      let s1 := { s with card := s.card.get.2, ghost := s.ghost ++ [Ghost.cardRead s.buflen] }
      if s1.card.errorCode ≠ 0 then sdcard_read_error s1
      else
        get_sdcard_loop cfg fuel (sdcard_byte cfg sd_count n s1).1
          (sdcard_byte cfg sd_count n s1).2.1 (sdcard_byte cfg sd_count n s1).2.2

/-- `get_sdcard_commands()`. Every iteration but the last moves the read
cursor forward, so the number of bytes left in the file, plus two, bounds the
number of iterations. -/
def get_sdcard_commands (cfg : Config) (s : Machine) : Machine :=
  if ¬ s.card.sdprinting ∨ s.card.pause ∨ s.printing_state = cfg.PRINT_STATE_ABORT then s
  else get_sdcard_loop cfg (s.card.file.length - s.card.filePos + 2) 0 s.card.eof s

/-- `get_command()`. -/
def get_command (cfg : Config) (s : Machine) : Machine :=
  if s.printing_state ≠ cfg.PRINT_STATE_ABORT then
    let s1 := get_serial_commands cfg s
    if cfg.SDSUPPORT then get_sdcard_commands cfg s1 else s1
  else s

/-- A ghost event that happened while the queue had room. -/
def Ghost.withRoom (cfg : Config) : Ghost → Prop
  | .serialRead n => n < cfg.BUFSIZE
  | .cardRead n => n < cfg.BUFSIZE
  | .insertCall n _ => n < cfg.BUFSIZE
  | .printingHasFinished => True

/-- A machine printing the file `file` from the card, with `input` waiting on
the serial port. The card reports the end of the file by a read that returns no
byte. -/
def printingState (cfg : Config) (file input : List Char) : Machine :=
  { Machine.init cfg with
      rx := input,
      card := { file := file, filePos := 0, sdprinting := true, pause := false,
                sdInserted := true, errorCode := 0, faults := [], eofOnLastByte := false,
                hitEnd := false } }

/-! ## Software endstops, planner calls and retraction flags -/

/-- `code_value()`: the number after the character found by the last scan. -/
def code_value (s : Machine) : ℚ :=
  match s.strchr_pointer with
  | some p => strtod p.tail
  | none => 0

/-- One iteration of the first loop of `clamp_to_software_endstops`. -/
def clamp_min_axis (st : Pos × Machine) (i : Nat) : Pos × Machine :=
  if st.1.get i < st.2.motion.min_pos.get i then
    (st.1.set i (st.2.motion.min_pos.get i),
      { st.2 with motion := { st.2.motion with position_error := true } })
  else st

/-- One iteration of the second loop of `clamp_to_software_endstops`. -/
def clamp_max_axis (st : Pos × Machine) (i : Nat) : Pos × Machine :=
  if st.1.get i > st.2.motion.max_pos.get i then
    (st.1.set i (st.2.motion.max_pos.get i),
      { st.2 with motion := { st.2.motion with position_error := true } })
  else st

/-- `clamp_to_software_endstops(target)`: the array is passed by reference, so
the new contents of `target` are returned next to the new machine state. -/
def clamp_to_software_endstops (cfg : Config) (target : Pos) (s : Machine) : Pos × Machine :=
  let st1 :=
    if cfg.MIN_SOFTWARE_ENDSTOPS then [X_AXIS, Y_AXIS, Z_AXIS].foldl clamp_min_axis (target, s)
    else (target, s)
  if cfg.MAX_SOFTWARE_ENDSTOPS then [X_AXIS, Y_AXIS, Z_AXIS].foldl clamp_max_axis st1
  else st1

/-- Record a call into the planner. -/
def plan (c : PlanCall) (s : Machine) : Machine :=
  { s with motion := { s.motion with planner := s.motion.planner ++ [c] } }

/-- Modelled from the spec: `EXTRUDER_RETRACTED(e)`. -/
def EXTRUDER_RETRACTED (e : Nat) (s : Machine) : Bool := s.motion.extruder_retracted e

/-- Modelled from the spec: `TOOLCHANGE_RETRACTED(e)`. -/
def TOOLCHANGE_RETRACTED (e : Nat) (s : Machine) : Bool := s.motion.toolchange_retracted e

/-- Modelled from the spec: `AUTORETRACT_ENABLED`. -/
def AUTORETRACT_ENABLED (s : Machine) : Bool := s.motion.auto_retract

/-- Modelled from the spec: `SET_EXTRUDER_RETRACT(e)`. -/
def SET_EXTRUDER_RETRACT (e : Nat) (s : Machine) : Machine :=
  { s with motion := { s.motion with
      extruder_retracted := Function.update s.motion.extruder_retracted e true } }

/-- Modelled from the spec: `CLEAR_EXTRUDER_RETRACT(e)`. -/
def CLEAR_EXTRUDER_RETRACT (e : Nat) (s : Machine) : Machine :=
  { s with motion := { s.motion with
      extruder_retracted := Function.update s.motion.extruder_retracted e false } }

/-- Modelled from the spec: `CLEAR_TOOLCHANGE_RETRACT(e)`. -/
def CLEAR_TOOLCHANGE_RETRACT (e : Nat) (s : Machine) : Machine :=
  { s with motion := { s.motion with
      toolchange_retracted := Function.update s.motion.toolchange_retracted e false } }

/-- The store `retract_recover_length[e] = v`. -/
def set_recover_length (e : Nat) (v : ℚ) (s : Machine) : Machine :=
  { s with motion := { s.motion with
      retract_recover_length := Function.update s.motion.retract_recover_length e v } }

/-- The store `retract_recover_feedrate[e] = v`. -/
def set_recover_feedrate (e : Nat) (v : ℚ) (s : Machine) : Machine :=
  { s with motion := { s.motion with
      retract_recover_feedrate := Function.update s.motion.retract_recover_feedrate e v } }

/-- One iteration of the loop of `reset_retractstate`. -/
def reset_retract_extruder (s : Machine) (e : Nat) : Machine :=
  set_recover_length e 0 (CLEAR_EXTRUDER_RETRACT e s)

/-- `reset_retractstate()`. -/
def reset_retractstate (cfg : Config) (s : Machine) : Machine :=
  (List.range cfg.EXTRUDERS).foldl reset_retract_extruder s

/-- `setTargetedHotend(cmd, code)`: returns whether the extruder number given
with `T` is invalid. -/
def setTargetedHotend (cfg : Config) (cmd : List Char) (code : Nat) (s : Machine) :
    Bool × Machine :=
  let s1 : Machine := { s with motion := { s.motion with tmp_extruder := s.active_extruder } }
  let r := code_seen cmd 'T' s1
  if r.1 then
    let s2 : Machine :=
      { r.2 with motion := { r.2.motion with tmp_extruder := toU8 (truncToInt (code_value r.2)) } }
    if s2.motion.tmp_extruder ≥ cfg.EXTRUDERS then
      (true, { s2 with out := s2.out ++ [Out.echo "Invalid extruder"
        ('M' :: decimal code ++ ' ' :: decimal s2.motion.tmp_extruder)] })
    else (false, s2)
  else (false, r.2)

/-- `recover_toolchange_retract(e, bSynchronize)`. -/
def recover_toolchange_retract (cfg : Config) (e : Nat) (bSynchronize : Bool) (s : Machine) :
    Machine :=
  if TOOLCHANGE_RETRACTED e s then
    let m := s.motion
    let s1 := plan (PlanCall.set_e_position
      (m.current_position.e - m.toolchange_recover_length e
        - m.toolchange_prime e / m.volume_to_filament_length e) e bSynchronize) s
    let s2 := plan (PlanCall.buffer_line m.current_position.x m.current_position.y
      m.current_position.z m.current_position.e (m.toolchange_retractfeedrate e / 60) e) s1
    let s3 := CLEAR_TOOLCHANGE_RETRACT e s2
    let s4 : Machine := { s3 with motion := { s3.motion with
      toolchange_recover_length := Function.update s3.motion.toolchange_recover_length e 0 } }
    let p1 := (s4.motion.primed ||| (cfg.EXTRUDER_PRIMED <<< e)) % 256
    let p2 := (p1 ||| cfg.ENDOFPRINT_RETRACT) % 256
    { s4 with motion := { s4.motion with primed := p2 } }
  else s

/-- A target left of the X range and above the Z range of the sample
configuration. -/
def endstopTarget : Pos := ⟨-5, 100, 300, 7⟩

/-! ## Coordinates and moves -/

/-- The store `current_position = p`. -/
def set_current_position (p : Pos) (s : Machine) : Machine :=
  { s with motion := { s.motion with current_position := p } }

/-- The store `destination = p`. -/
def set_destination (p : Pos) (s : Machine) : Machine :=
  { s with motion := { s.motion with destination := p } }

/-- The store `feedrate = f`. -/
def set_feedrate (f : ℚ) (s : Machine) : Machine :=
  { s with motion := { s.motion with feedrate := f } }

/-- One iteration of the axis loop of `get_coordinates`; `st.1` is the local
`seen` (`uint8_t`). -/
def get_coordinates_axis (cmd : List Char) (st : Nat × Machine) (i : Nat) : Nat × Machine :=
  let r := code_seen cmd (axis_codes i) st.2
  if r.1 then
    let v := code_value r.2
    let d :=
      if r.2.motion.axis_relative_state.testBit i || r.2.motion.axis_relative_state.testBit 7
      then v + r.2.motion.current_position.get i
      else v
    ((st.1 ||| (1 <<< i)) % 256, set_destination (r.2.motion.destination.set i d) r.2)
  else (st.1, r.2)

/-- The `F` parameter of `get_coordinates`. -/
def get_coordinates_feedrate (cmd : List Char) (s : Machine) : Machine :=
  let r := code_seen cmd 'F' s
  if r.1 then
    let s1 : Machine := { r.2 with motion := { r.2.motion with next_feedrate := code_value r.2 } }
    if s1.motion.next_feedrate > 0 then set_feedrate s1.motion.next_feedrate s1 else s1
  else r.2

/-- The branch `echange < -MIN_RETRACT` of an E-only move in
`get_coordinates`: the move is a retraction. -/
def get_coordinates_retract (cfg : Config) (echange : ℚ) (s : Machine) : Machine :=
  let a := s.active_extruder
  let s1 :=
    if AUTORETRACT_ENABLED s && !EXTRUDER_RETRACTED a s then
      let s2 := SET_EXTRUDER_RETRACT a (set_recover_length a (-echange) s)
      let s3 := set_current_position
        { s2.motion.current_position with z := s2.motion.current_position.z - s2.motion.retract_zlift }
        s2
      let correctede := -echange - s3.motion.retract_length
      let s4 := set_recover_length a (s3.motion.retract_recover_length a - correctede) s3
      let s5 := set_feedrate s4.motion.retract_feedrate s4
      let s6 := set_current_position
        { s5.motion.current_position with e := s5.motion.current_position.e - correctede } s5
      plan (PlanCall.set_position s6.motion.current_position.x s6.motion.current_position.y
        s6.motion.current_position.z s6.motion.current_position.e a false) s6
    else if TOOLCHANGE_RETRACTED a s || decide (s.printing_state ≥ cfg.PRINT_STATE_TOOLCHANGE) then
      let s2 := set_current_position
        { s.motion.current_position with e := s.motion.destination.e } s
      plan (PlanCall.set_e_position s2.motion.current_position.e a false) s2
    else if EXTRUDER_RETRACTED a s then
      set_recover_length a (s.motion.retract_recover_length a - echange) s
    else
      set_recover_length a (-echange) s
  SET_EXTRUDER_RETRACT a s1

/-- The branch `echange > MIN_RETRACT` of an E-only move in `get_coordinates`:
the move recovers a retraction. -/
def get_coordinates_recover (cfg : Config) (echange : ℚ) (s : Machine) : Machine :=
  let a := s.active_extruder
  let s1 := if cfg.EXTRUDERS > 1 then recover_toolchange_retract cfg a false s else s
  let s2 :=
    if EXTRUDER_RETRACTED a s1 && AUTORETRACT_ENABLED s1 then
      let s3 := set_current_position
        { s1.motion.current_position with
          z := s1.motion.current_position.z + s1.motion.retract_zlift } s1
      let correctede := -echange + 1 * s3.motion.retract_length + s3.motion.retract_recover_length a
      let s4 := set_current_position
        { s3.motion.current_position with e := s3.motion.current_position.e + correctede } s3
      let s5 := plan (PlanCall.set_position s4.motion.current_position.x
        s4.motion.current_position.y s4.motion.current_position.z s4.motion.current_position.e
        a false) s4
      set_feedrate (s5.motion.retract_recover_feedrate a) s5
    else s1
  set_recover_length a 0 (CLEAR_EXTRUDER_RETRACT a s2)

/-- The branch of `get_coordinates` for a move with E and other axes while the
extruder is retracted: the retraction is recovered first. -/
def get_coordinates_first_move (cfg : Config) (s : Machine) : Machine :=
  let a := s.active_extruder
  let s1 := if cfg.EXTRUDERS > 1 then recover_toolchange_retract cfg a false s else s
  if EXTRUDER_RETRACTED a s1 then
    let s2 := plan (PlanCall.set_e_position
      (s1.motion.current_position.e - s1.motion.retract_recover_length a) a false) s1
    let s3 := plan (PlanCall.buffer_line s2.motion.current_position.x
      s2.motion.current_position.y s2.motion.current_position.z s2.motion.current_position.e
      (s2.motion.retract_recover_feedrate a / 60) a) s2
    set_recover_length a 0 (CLEAR_EXTRUDER_RETRACT a s3)
  else s1

/-- The `FWRETRACT` part of `get_coordinates`. -/
def get_coordinates_fwretract (cfg : Config) (seen : Nat) (s : Machine) : Machine :=
  let a := s.active_extruder
  let echange := s.motion.destination.get E_AXIS - s.motion.current_position.get E_AXIS
  if seen = 1 <<< E_AXIS then
    if echange < -cfg.MIN_RETRACT then get_coordinates_retract cfg echange s
    else if echange > cfg.MIN_RETRACT then get_coordinates_recover cfg echange s
    else s
  else if seen.testBit E_AXIS && (EXTRUDER_RETRACTED a s || TOOLCHANGE_RETRACTED a s) &&
      decide (echange > 0) then
    get_coordinates_first_move cfg s
  else s

/-- `get_coordinates(cmd)`. -/
def get_coordinates (cfg : Config) (cmd : List Char) (s : Machine) : Machine :=
  let s1 :=
    if s.printing_state < cfg.PRINT_STATE_TOOLCHANGE then
      set_destination s.motion.current_position s
    else s
  let st := [X_AXIS, Y_AXIS, Z_AXIS, E_AXIS].foldl (get_coordinates_axis cmd) (0, s1)
  let s2 := get_coordinates_feedrate cmd st.2
  let s3 := if cfg.FWRETRACT then get_coordinates_fwretract cfg st.1 s2 else s2
  if s3.printing_state = cfg.PRINT_STATE_TOOLREADY then
    { s3 with printing_state := cfg.PRINT_STATE_NORMAL }
  else s3

/-- Modelled from the spec: `recover_start_print(cmd)`, called by
`prepare_move`, is not among the sources. The specification says of a move in
the `RECOVER` state whose Z has reached the recorded recovery height: "exit
`RECOVER` and resume normal printing instead of issuing this move (the move is
treated as the resumption trigger, not as motion)". The call leaves `RECOVER`
for `PRINT_STATE_NORMAL` and hands the planner nothing; the command text it is
given is not used. -/
def recover_start_print (cfg : Config) (s : Machine) : Machine :=
  { s with printing_state := cfg.PRINT_STATE_NORMAL }

/-- `prepare_move(cmd)` of the Cartesian build (`DELTA` undefined). The
argument `cmd` is only handed on to `recover_start_print`. The result is
always `some`. The time stamp `previous_millis_cmd` is not modelled. -/
def prepare_move (cfg : Config) (s : Machine) : Option Machine :=
  let r := clamp_to_software_endstops cfg s.motion.destination s
  let s1 := set_destination r.1 r.2
  let cur := s1.motion.current_position
  let dest := s1.motion.destination
  let a := s1.active_extruder
  if s1.card.sdprinting && decide (s1.printing_state = cfg.PRINT_STATE_RECOVER) &&
      decide (dest.z ≥ s1.motion.recover_height - 1 / 100) then
    if cur.e ≠ dest.e then
      some (set_current_position dest
        (recover_start_print cfg { s1 with motion := { s1.motion with recover_position := cur } }))
    else some (set_current_position dest s1)
  else if s1.printing_state ≠ cfg.PRINT_STATE_RECOVER then
    if cur.x = dest.x ∧ cur.y = dest.y then
      some (set_current_position dest
        (plan (PlanCall.buffer_line dest.x dest.y dest.z dest.e (s1.motion.feedrate / 60) a) s1))
    else
      some (set_current_position dest
        (plan (PlanCall.buffer_line dest.x dest.y dest.z dest.e
          (s1.motion.feedrate * s1.motion.feedmultiply / 60 / 100) a) s1))
  else some (set_current_position dest s1)

/-! ## Stopping, homing and tool change -/

/-- `st_synchronize()`: wait until the planned moves are done. The call is
recorded; the wait itself is not modelled. -/
def st_synchronize (s : Machine) : Machine := plan PlanCall.synchronize s

/-- `Stop(reasonNr)`: switch the heaters off and, when the machine is not yet
stopped, record the reason and the last accepted line number. -/
def Stop (reasonNr : Nat) (s : Machine) : Machine :=
  let s1 := plan PlanCall.disable_heater s
  if s1.Stopped = 0 then
    { s1 with Stopped := reasonNr % 256, Stopped_gcode_LastN := s1.gcode_LastN,
              out := s1.out ++ [Out.errStopped] }
  else s1

/-- `IsStopped()`. -/
def IsStopped (s : Machine) : Bool := decide (s.Stopped ≠ 0)

/-- `lround(x)`: the nearest integer, halves rounded away from zero. -/
def lround (q : ℚ) : Int :=
  if 0 ≤ q then Rat.floor (q + 1 / 2) else -Rat.floor (-q + 1 / 2)

/-- `roundOffset(axis, offset)`: the offset rounded to a multiple of a step. -/
def roundOffset (axis : Nat) (offset : ℚ) (s : Machine) : ℚ :=
  let steps := lround (offset * s.motion.axis_steps_per_unit axis)
  (steps : ℚ) / s.motion.axis_steps_per_unit axis

/-- The store `x &= ~m` on an unsigned variable of `w` bits. -/
def maskClr (w x m : Nat) : Nat := x &&& ((2 ^ w - 1) ^^^ (m % 2 ^ w))

/-- `axis_is_at_home(axis)`: set the position of a homed axis and mark it as
known. -/
def axis_is_at_home (cfg : Config) (axis : Nat) (s : Machine) : Machine :=
  let m := s.motion
  let maxLength := m.max_pos.get axis - m.min_pos.get axis
  let baseHomePos : ℚ :=
    if axis = Z_AXIS then
      if cfg.home_dir axis = -1 then m.min_pos.get axis else m.max_pos.get axis
    else if cfg.home_dir axis = -1 then
      if cfg.BED_CENTER_AT_0_0 then maxLength * (-1 / 2) else m.min_pos.get axis
    else
      if cfg.BED_CENTER_AT_0_0 then maxLength * (1 / 2) else m.max_pos.get axis
  let cur : Pos :=
    if cfg.EXTRUDERS > 1 then
      let c := m.current_position.set axis
        (if axis = Z_AXIS ∧ s.active_extruder ≠ 0 then baseHomePos + m.add_homeing_z2
         else baseHomePos + m.add_homeing.get axis)
      if axis ≤ Y_AXIS then
        c.set axis (c.get axis + roundOffset axis (m.extruder_offset axis s.active_extruder) s)
      else c
    else m.current_position.set axis (baseHomePos + m.add_homeing.get axis)
  { s with motion := { m with current_position := cur,
                              position_state := (m.position_state ||| (1 <<< axis)) % 256 } }

/-- `isEndstopHit()` (`stepper.cpp`) and the reads of an endstop pin: the next
report of the endstop. -/
def isEndstopHit (s : Machine) : Bool × Machine :=
  match s.motion.endstop_reports with
  | [] => (false, s)
  | b :: rest => (b, { s with motion := { s.motion with endstop_reports := rest } })

/-- `plan_set_position` with the current position and the active extruder. -/
def plan_set_current_position (sync : Bool) (s : Machine) : Machine :=
  plan (PlanCall.set_position s.motion.current_position.x s.motion.current_position.y
    s.motion.current_position.z s.motion.current_position.e s.active_extruder sync) s

/-- `plan_buffer_line` to `destination` at `feedrate/60` with the active
extruder. -/
def plan_line_to_destination (s : Machine) : Machine :=
  plan (PlanCall.buffer_line s.motion.destination.x s.motion.destination.y
    s.motion.destination.z s.motion.destination.e (s.motion.feedrate / 60) s.active_extruder) s

/-- The branch of `homeaxis` taken when the endstop is not hit after the fast
run. -/
def homeaxis_not_hit (cfg : Config) (axis : Nat) (s : Machine) : Machine :=
  if axis = Z_AXIS then
    let s1 := set_current_position (s.motion.current_position.set axis 0) s
    let s2 := plan_set_current_position true s1
    let s3 := set_destination (s2.motion.destination.set axis (-5 * cfg.home_dir axis)) s2
    let s4 := plan_line_to_destination s3
    let s5 := plan PlanCall.finishAndDisableSteppers s4
    let s6 : Machine := { s5 with out := s5.out ++
      [Out.error "Endstop not pressed after homing down. Endstop broken?"] }
    Stop cfg.STOP_REASON_Z_ENDSTOP_BROKEN_ERROR s6
  else
    let s1 : Machine := { s with out := s.out ++
      [Out.error "Endstop not pressed after homing down. Endstop broken?"] }
    Stop cfg.STOP_REASON_XY_ENDSTOP_BROKEN_ERROR s1

/-- The part of `homeaxis` after the endstop was hit by the fast run: back
off, check that the switch is released, approach again slowly. -/
def homeaxis_hit (cfg : Config) (axis : Nat) (s : Machine) : Machine :=
  let s1 := set_current_position (s.motion.current_position.set axis 0) s
  let s2 := plan_set_current_position true s1
  let s3 := set_destination
    (s2.motion.destination.set axis (-cfg.home_retract_mm axis * cfg.home_dir axis)) s2
  let s4 := st_synchronize (plan_line_to_destination s3)
  let r := isEndstopHit s4
  if r.1 = true ∧ axis = Z_AXIS then
    let s5 : Machine := { r.2 with out := r.2.out ++
      [Out.error "Endstop still pressed after backing off. Endstop stuck?"] }
    plan PlanCall.endstops_hit_on_purpose (Stop cfg.STOP_REASON_Z_ENDSTOP_STUCK_ERROR s5)
  else
    let s5 := set_destination
      (r.2.motion.destination.set axis (2 * cfg.home_retract_mm axis * cfg.home_dir axis)) r.2
    let s6 := set_feedrate (s5.motion.homing_feedrate axis / 3) s5
    let s7 := st_synchronize (plan_line_to_destination s6)
    let s8 := axis_is_at_home cfg axis s7
    let s9 := set_destination
      (s8.motion.destination.set axis (s8.motion.current_position.get axis)) s8
    plan PlanCall.endstops_hit_on_purpose (set_feedrate 0 s9)

/-- `homeaxis(axis)` without servo endstops. -/
def homeaxis (cfg : Config) (axis : Nat) (s : Machine) : Machine :=
  if axis ≤ Z_AXIS ∧ cfg.HOMEAXIS_DO axis = true then
    let s1 := set_current_position (s.motion.current_position.set axis 0) s
    let s2 := plan_set_current_position true s1
    let s3 := set_destination (s2.motion.destination.set axis
      (3 / 2 * (s2.motion.max_pos.get axis - s2.motion.min_pos.get axis) * cfg.home_dir axis)) s2
    let s4 := set_feedrate (s3.motion.homing_feedrate axis) s3
    let s5 := st_synchronize (plan_line_to_destination s4)
    let r := isEndstopHit s5
    if r.1 = false then homeaxis_not_hit cfg axis r.2
    else homeaxis_hit cfg axis r.2
  else s

/-- The loop body of the branch of `changeExtruder` without a park mechanism:
swap the nozzle offset of one axis. -/
def swap_extruder_offset (nextExtruder : Nat) (s : Machine) (axis : Nat) : Machine :=
  set_current_position
    (s.motion.current_position.set axis
      (s.motion.current_position.get axis
        - roundOffset axis (s.motion.extruder_offset axis s.active_extruder) s
        + roundOffset axis (s.motion.extruder_offset axis nextExtruder) s)) s

/-- The three stores of `changeExtruder` that clear the temperature flags of
the active extruder. -/
def clear_temperature_flags (cfg : Config) (s : Machine) : Machine :=
  let t1 := maskClr 8 s.temperature_state (cfg.EXTRUDER_PREHEAT <<< s.active_extruder)
  let t2 := maskClr 8 t1 (cfg.EXTRUDER_STANDBY <<< s.active_extruder)
  let t3 := maskClr 8 t2 (cfg.EXTRUDER_AUTOSTANDBY <<< s.active_extruder)
  { s with temperature_state := t3 }

/-- `changeExtruder(nextExtruder, moveZ)`. The result is `none` when a park
mechanism is configured (`IS_DUAL_ENABLED`): that branch runs the tool change
scripts of `commandbuffer.cpp`, which are outside this model. -/
def changeExtruder (cfg : Config) (nextExtruder : Nat) (moveZ : Bool) (s : Machine) :
    Option (Bool × Machine) :=
  if s.printing_state = cfg.PRINT_STATE_ABORT ∨ nextExtruder = s.active_extruder then
    some (false, s)
  else if s.motion.position_state &&& (cfg.KNOWNPOS_X ||| cfg.KNOWNPOS_Y) = 0 then
    some (false, { s with out := s.out ++ [Out.echo "Header position not yet known" []] })
  else
    let s1 := st_synchronize s
    if s1.printing_state = cfg.PRINT_STATE_ABORT then some (false, s1)
    else if cfg.IS_DUAL_ENABLED then
      match moveZ with
      | _ => none
    else
      let s2 := [X_AXIS, Y_AXIS].foldl (swap_extruder_offset nextExtruder) s1
      let s3 : Machine := { s2 with active_extruder := nextExtruder }
      let s4 := clear_temperature_flags cfg s3
      let s5 : Machine := { s4 with out := s4.out ++
        [Out.echo "MSG_ACTIVE_EXTRUDER" (decimal s4.active_extruder)] }
      some (true, plan_set_current_position true s5)

/-- `get_arc_coordinates(cmd)`. -/
def get_arc_coordinates (cfg : Config) (cmd : List Char) (s : Machine) : Machine :=
  let relative_state_backup := s.motion.axis_relative_state
  let s1 : Machine :=
    if cfg.SF_ARC_FIX then
      { s with motion := { s.motion with
          axis_relative_state := bitSet 8 s.motion.axis_relative_state 7 } }
    else s
  let s2 := get_coordinates cfg cmd s1
  let s3 : Machine :=
    if cfg.SF_ARC_FIX then
      { s2 with motion := { s2.motion with axis_relative_state := relative_state_backup } }
    else s2
  let r1 := code_seen cmd 'I' s3
  let o0 : ℚ := if r1.1 then code_value r1.2 else 0
  let r2 := code_seen cmd 'J' r1.2
  let o1 : ℚ := if r2.1 then code_value r2.2 else 0
  { r2.2 with motion := { r2.2.motion with offset := (o0, o1) } }

/-- `prepare_arc_move(isclockwise)`: hand the arc to `mc_arc`, then take the
target as the current position. -/
def prepare_arc_move (isclockwise : Bool) (s : Machine) : Machine :=
  let m := s.motion
  let s1 := plan (PlanCall.arc
    (m.current_position.x, m.current_position.y, m.current_position.z, m.current_position.e)
    (m.destination.x, m.destination.y, m.destination.z, m.destination.e) m.offset
    (m.feedrate * m.feedmultiply / 60 / 100) isclockwise s.active_extruder) s
  set_current_position s1.motion.destination s1

/-- Conversion of a float to `unsigned long`. -/
def toU32 (q : ℚ) : Nat := (truncToInt q % 4294967296).toNat

/-- `case 4` of the `G` switch: dwell. The messages for the display are not
modelled. -/
def gcode_G4 (cfg : Config) (strCmd : List Char) (s : Machine) : Machine :=
  if s.printing_state = cfg.PRINT_STATE_RECOVER then s
  else
    let s1 : Machine := { s with out := s.out ++ [Out.action "pause"] }
    let r1 := code_seen strCmd 'P' s1
    let codenum1 : Nat := if r1.1 then toU32 (code_value r1.2) else 0
    let r2 := code_seen strCmd 'S' r1.2
    let codenum : Nat := if r2.1 then toU32 (code_value r2.2 * 1000) else codenum1
    let s2 := st_synchronize r2.2
    let s3 : Machine := { s2 with printing_state := cfg.PRINT_STATE_DWELL }
    let s4 := plan (PlanCall.dwell codenum) s3
    { s4 with out := s4.out ++ [Out.action "resume"] }

/-- `gcode_M105(cmd)`: report the temperatures. The line starts with the
acknowledgment token. -/
def gcode_M105 (cfg : Config) (cmd : List Char) (s : Machine) : Machine :=
  let t := setTargetedHotend cfg cmd 105 s
  if t.1 then t.2
  else if cfg.HAS_TEMP_SENSOR then { t.2 with out := t.2.out ++ [Out.okWith "heater states"] }
  else { t.2 with out := t.2.out ++ [Out.error "MSG_ERR_NO_THERMISTORS"] }

/-- `case 999` of the `M` switch: restart after being stopped. The alert level
of the display is not modelled. -/
def gcode_M999 (cfg : Config) (s : Machine) : Machine :=
  if s.printing_state = cfg.PRINT_STATE_RECOVER then s
  else
    FlushSerialRequestResend cfg { s with Stopped := 0, gcode_LastN := s.Stopped_gcode_LastN }

/-- The `F` parameter of the `T` branch; the Boolean is the local
`make_move`. -/
def gcode_T_feedrate (strCmd : List Char) (s : Machine) : Bool × Machine :=
  let r := code_seen strCmd 'F' s
  if r.1 then
    let s1 : Machine := { r.2 with motion := { r.2.motion with next_feedrate := code_value r.2 } }
    (true, if s1.motion.next_feedrate > 0 then set_feedrate s1.motion.next_feedrate s1 else s1)
  else (false, r.2)

/-- The tool change of the `T` branch (`EXTRUDERS > 1`): change the extruder
and, after a change with an `F` parameter during a print, move to the old
position. -/
def gcode_T_change (cfg : Config) (make_move : Bool) (s : Machine) : Option Machine :=
  (changeExtruder cfg s.motion.tmp_extruder
    (decide (s.motion.position_state &&& cfg.KNOWNPOS_Z ≠ 0)) s).bind fun c =>
    if c.1 then
      if c.2.printing_state < cfg.PRINT_STATE_ABORT ∧ make_move = true ∧ c.2.Stopped = 0 ∧
          (c.2.card.sdprinting = true ∨ c.2.buflen ≠ 0) then
        prepare_move cfg c.2
      else some c.2
    else
      some { c.2 with out := c.2.out ++
        [Out.echo "MSG_ACTIVE_EXTRUDER" (decimal c.2.active_extruder)] }

/-- The `T` branch of `process_command`: select an extruder. -/
def gcode_T (cfg : Config) (strCmd : List Char) (s : Machine) : Option Machine :=
  let s1 : Machine :=
    { s with motion := { s.motion with tmp_extruder := toU8 (truncToInt (code_value s)) } }
  if s1.motion.tmp_extruder ≥ cfg.EXTRUDERS then
    some { s1 with out := s1.out ++
      [Out.echo "MSG_INVALID_EXTRUDER" ('T' :: decimal s1.motion.tmp_extruder)] }
  else
    let f := gcode_T_feedrate strCmd s1
    if cfg.EXTRUDERS > 1 then gcode_T_change cfg f.1 f.2
    else
      some { f.2 with out := f.2.out ++
        [Out.echo "MSG_ACTIVE_EXTRUDER" (decimal f.2.active_extruder)] }

/-! ## The command dispatcher -/

/-- The rule at the entry and at the end of `process_command` that returns
the printing state to `PRINT_STATE_NORMAL`. -/
def printing_state_rule (cfg : Config) (s : Machine) : Machine :=
  if s.printing_state ≠ cfg.PRINT_STATE_RECOVER ∧ s.printing_state ≠ cfg.PRINT_STATE_START ∧
      s.printing_state < cfg.PRINT_STATE_TOOLCHANGE then
    { s with printing_state := cfg.PRINT_STATE_NORMAL }
  else s

/-- The end of `process_command`, reached when a handler leaves its `switch`:
the printing state rule, then the acknowledgment. -/
def command_end (cfg : Config) (sendAck : Bool) (s : Machine) : Machine :=
  let s1 := printing_state_rule cfg s
  if sendAck then ClearToSend s1 else s1

/-- `case 10` of the `G` switch: firmware retract. -/
def gcode_G10 (cfg : Config) (strCmd : List Char) (s : Machine) : Option Machine :=
  if s.printing_state = cfg.PRINT_STATE_RECOVER then some s
  else
    let a := s.active_extruder
    if !EXTRUDER_RETRACTED a s && !TOOLCHANGE_RETRACTED a s then
      let oldFeedrate := s.motion.feedrate
      let oldpos := s.motion.current_position.e
      let s1 := set_destination s.motion.current_position s
      let r :=
        if cfg.EXTRUDERS > 1 ∧ cfg.IS_DUAL_ENABLED = false then code_seen strCmd 'S' s1
        else (false, s1)
      let m := r.2.motion
      let s2 :=
        if r.1 = true ∧ code_value_long r.2 = 1 then
          set_feedrate (m.toolchange_retractfeedrate a)
            (set_destination { m.destination with
              e := m.destination.e - m.toolchange_retractlen a / m.volume_to_filament_length a }
              r.2)
        else
          set_feedrate m.retract_feedrate
            (set_destination { m.destination with
              e := m.destination.e - m.retract_length / m.volume_to_filament_length a } r.2)
      let s3 := set_recover_feedrate a s2.motion.feedrate s2
      let s4 := set_recover_length a
        (s3.motion.current_position.e - s3.motion.destination.e) s3
      let s5 := SET_EXTRUDER_RETRACT a s4
      (prepare_move cfg s5).map fun s6 =>
        let s7 := set_feedrate oldFeedrate s6
        let s8 := set_current_position { s7.motion.current_position with e := oldpos } s7
        let s9 := set_destination { s8.motion.destination with e := oldpos } s8
        plan (PlanCall.set_e_position oldpos a false) s9
    else some s

/-- `case 11` of the `G` switch: recover from a firmware retract. -/
def gcode_G11 (cfg : Config) (s : Machine) : Option Machine :=
  if s.printing_state = cfg.PRINT_STATE_RECOVER then some s
  else
    let a := s.active_extruder
    if EXTRUDER_RETRACTED a s then
      let s1 := if cfg.EXTRUDERS > 1 then recover_toolchange_retract cfg a false s else s
      let oldpos := s1.motion.current_position.e
      let s2 := set_destination s1.motion.current_position s1
      let s3 := set_destination { s2.motion.destination with
        e := s2.motion.destination.e + s2.motion.retract_recover_length a } s2
      let oldFeedrate := s3.motion.feedrate
      let s4 := set_feedrate (s3.motion.retract_recover_feedrate a) s3
      let s5 := set_recover_length a 0 (CLEAR_EXTRUDER_RETRACT a s4)
      (prepare_move cfg s5).map fun s6 =>
        let s7 := set_feedrate oldFeedrate s6
        let s8 := set_current_position { s7.motion.current_position with e := oldpos } s7
        let s9 := set_destination { s8.motion.destination with e := oldpos } s8
        plan (PlanCall.set_e_position oldpos a false) s9
    else some s

/-- One iteration of the loop of `gcode_G92`; `st.1` holds the locals
`didXYZ` and `didE`. -/
def gcode_G92_axis (cmd : List Char) (st : (Bool × Bool) × Machine) (i : Nat) :
    (Bool × Bool) × Machine :=
  let r := code_seen cmd (axis_codes i) st.2
  if r.1 then
    let s1 := set_current_position (r.2.motion.current_position.set i (code_value r.2)) r.2
    if i = E_AXIS then ((st.1.1, true), s1) else ((true, st.1.2), s1)
  else (st.1, r.2)

/-- `gcode_G92(cmd)`: set the current position. -/
def gcode_G92 (cmd : List Char) (s : Machine) : Machine :=
  let st := [X_AXIS, Y_AXIS, Z_AXIS, E_AXIS].foldl (gcode_G92_axis cmd) ((false, false), s)
  let cur := st.2.motion.current_position
  if st.1.1 then
    plan (PlanCall.set_position cur.x cur.y cur.z cur.e st.2.active_extruder true) st.2
  else if st.1.2 then
    plan (PlanCall.set_e_position cur.e st.2.active_extruder false) st.2
  else st.2

/-- `case 207` of the `M` switch: retract settings. -/
def gcode_M207 (strCmd : List Char) (s : Machine) : Machine :=
  let r1 := code_seen strCmd 'S' s
  let s1 : Machine :=
    if r1.1 then { r1.2 with motion := { r1.2.motion with retract_length := code_value r1.2 } }
    else r1.2
  let r2 := code_seen strCmd 'F' s1
  let s2 : Machine :=
    if r2.1 then { r2.2 with motion := { r2.2.motion with retract_feedrate := code_value r2.2 } }
    else r2.2
  let r3 := code_seen strCmd 'Z' s2
  if r3.1 then { r3.2 with motion := { r3.2.motion with retract_zlift := code_value r3.2 } }
  else r3.2

/-- `case 208` of the `M` switch: recover settings of one extruder. -/
def gcode_M208 (cfg : Config) (strCmd : List Char) (s : Machine) : Machine :=
  let t := setTargetedHotend cfg strCmd 208 s
  if t.1 then t.2
  else
    let r1 := code_seen strCmd 'S' t.2
    let s1 :=
      if r1.1 then set_recover_length r1.2.motion.tmp_extruder (code_value r1.2) r1.2 else r1.2
    let r2 := code_seen strCmd 'F' s1
    if r2.1 then set_recover_feedrate r2.2.motion.tmp_extruder (code_value r2.2) r2.2 else r2.2

/-- `case 209` of the `M` switch: automatic retract detection. -/
def gcode_M209 (cfg : Config) (strCmd : List Char) (s : Machine) : Machine :=
  let r := code_seen strCmd 'S' s
  if r.1 then
    let t := truncToInt (code_value r.2)
    if t = 0 then
      let s1 := reset_retractstate cfg r.2
      { s1 with motion := { s1.motion with auto_retract := false } }
    else if t = 1 then
      let s1 := reset_retractstate cfg r.2
      { s1 with motion := { s1.motion with auto_retract := true } }
    else { r.2 with out := r.2.out ++ [Out.echo "Unknown command:" strCmd] }
  else r.2

/-- `case 90` of the `G` switch: absolute coordinates. -/
def gcode_G90 (s : Machine) : Machine :=
  { s with motion := { s.motion with
      axis_relative_state := bitClr 8 s.motion.axis_relative_state 7 } }

/-- `case 91` of the `G` switch: relative coordinates. -/
def gcode_G91 (s : Machine) : Machine :=
  { s with motion := { s.motion with
      axis_relative_state := bitSet 8 s.motion.axis_relative_state 7 } }

/-- `case 20` of the `M` switch, before the acknowledgment: list the card. -/
def gcode_M20 (cfg : Config) (s : Machine) : Machine :=
  { s with out := s.out ++ [Out.echo "MSG_BEGIN_FILE_LIST" []] ++ (cfg.card_ls s.card) ++
      [Out.echo "MSG_END_FILE_LIST" []] }

/-- `case 21` of the `M` switch, before the acknowledgment: initialise the
card. -/
def gcode_M21 (cfg : Config) (s : Machine) : Machine :=
  { s with card := cfg.card_initsd s.card }

/-- `case 22` of the `M` switch, before the acknowledgment: release the card. -/
def gcode_M22 (s : Machine) : Machine := { s with card := s.card.release }

/-- `case 27` of the `M` switch, before the acknowledgment: report the state
of the print from the card. -/
def gcode_M27 (cfg : Config) (s : Machine) : Machine :=
  { s with out := s.out ++ cfg.card_getStatus s.card }

/-- `case 10010` of the `M` switch: report the encoder and the button of the
display. The line starts with the acknowledgment token; the variables of the
display are not modelled. -/
def gcode_M10010 (s : Machine) : Machine := { s with out := s.out ++ [Out.okWith "R: B:"] }

/-- The last branch of `process_command`: report an unknown command. -/
def unknown_command (strCmd : List Char) (s : Machine) : Machine :=
  { s with out := s.out ++ [Out.echo "MSG_UNKNOWN_COMMAND" strCmd] }

/-- The `G` switch of `process_command` and, for the handlers that leave it
through `break`, the end of the function. A G0 or G1 line falls through to
G2, G3 and G4 while the machine is stopped; so do G2 and G3. The result is
`none` for G28. -/
def gcode_switch (cfg : Config) (strCmd : List Char) (sendAck : Bool) (s : Machine) :
    Option Machine :=
  let n := truncToInt (code_value s)
  if (n = 0 ∨ n = 1) ∧ s.Stopped = 0 then
    (prepare_move cfg (get_coordinates cfg strCmd s)).map
      fun s1 => if sendAck then ClearToSend s1 else s1
  else if n = 2 ∧ s.Stopped = 0 then
    let s1 := prepare_arc_move true (get_arc_coordinates cfg strCmd s)
    some (if sendAck then ClearToSend s1 else s1)
  else if n = 3 ∧ s.Stopped = 0 then
    let s1 := prepare_arc_move false (get_arc_coordinates cfg strCmd s)
    some (if sendAck then ClearToSend s1 else s1)
  else if n = 0 ∨ n = 1 ∨ n = 2 ∨ n = 3 ∨ n = 4 then
    some (command_end cfg sendAck (gcode_G4 cfg strCmd s))
  else if n = 28 then none
  else if n = 10 ∧ cfg.FWRETRACT = true then
    (gcode_G10 cfg strCmd s).map (command_end cfg sendAck)
  else if n = 11 ∧ cfg.FWRETRACT = true then
    (gcode_G11 cfg s).map (command_end cfg sendAck)
  else if n = 90 then some (command_end cfg sendAck (gcode_G90 s))
  else if n = 91 then some (command_end cfg sendAck (gcode_G91 s))
  else if n = 92 then some (command_end cfg sendAck (gcode_G92 strCmd s))
  else some (command_end cfg sendAck s)

/-- The `case` labels of the `M` switch of `process_command`, whatever the
configuration compiles in. The switch has no `default`. -/
def mcodeLabels : List Int :=
  [0, 1, 17, 18, 20, 21, 22, 23, 24, 25, 26, 27, 28, 29, 30, 31, 42, 80, 81, 82, 83, 84, 85, 92,
   104, 105, 106, 107, 109, 114, 115, 117, 119, 120, 121, 126, 127, 128, 129, 140, 190, 200, 201,
   202, 203, 204, 205, 206, 207, 208, 209, 218, 220, 221, 240, 280, 300, 301, 302, 303, 304, 350,
   351, 400, 401, 500, 501, 502, 503, 540, 600, 601, 605, 606, 907, 908, 923, 928, 999, 10000,
   10001, 10002, 10003, 10004, 10005, 10010]

/-- The `M` switch of `process_command` with M20, M21, M22, M27, M105, M207,
M208, M209, M999 and M10010 and, for the handlers that leave it through
`break`, the end of the function. A number without a `case` label leaves the
switch at once and reaches the end of the function. The result is `none` for
the other labels. -/
def mcode_switch (cfg : Config) (strCmd : List Char) (sendAck : Bool) (s : Machine) :
    Option Machine :=
  let n := truncToInt (code_value s)
  if (n = 20 ∨ n = 21 ∨ n = 22) ∧ cfg.SDSUPPORT = true ∧
      s.printing_state = cfg.PRINT_STATE_RECOVER then
    some (command_end cfg sendAck s)
  else if n = 20 ∧ cfg.SDSUPPORT = true then some (ClearToSend (gcode_M20 cfg s))
  else if n = 21 ∧ cfg.SDSUPPORT = true then some (ClearToSend (gcode_M21 cfg s))
  else if n = 22 ∧ cfg.SDSUPPORT = true then some (ClearToSend (gcode_M22 s))
  else if n = 27 ∧ cfg.SDSUPPORT = true then some (ClearToSend (gcode_M27 cfg s))
  else if n = 105 then some (gcode_M105 cfg strCmd s)
  else if n = 207 ∧ cfg.FWRETRACT = true then
    some (command_end cfg sendAck (gcode_M207 strCmd s))
  else if n = 208 ∧ cfg.FWRETRACT = true then
    some (command_end cfg sendAck (gcode_M208 cfg strCmd s))
  else if n = 209 ∧ cfg.FWRETRACT = true then
    some (command_end cfg sendAck (gcode_M209 cfg strCmd s))
  else if n = 999 then some (command_end cfg sendAck (gcode_M999 cfg s))
  else if n = 10010 ∧ cfg.ENABLE_ULTILCD2 = true then some (gcode_M10010 s)
  else if n ∈ mcodeLabels then none
  else some (command_end cfg sendAck s)

/-- The part of `process_command(strCmd, sendAck)` embedded so far: the entry
rule, the `G` switch without G28, the `M` switch with M20, M21, M22, M27,
M105, M207, M208, M209, M999 and M10010, the `T` branch and the report of an
unknown command. Every `return` statement of the function lies in one of
these handlers (G0 to G3, M20, M21, M22, M27, M105, M10010); the handlers left
out all leave their `switch` through `break` and reach the end of the
function, `command_end`, and so does a number without a `case` label. The
result is `none` for a line that reaches a handler outside this part (homing,
the other labels of the `M` switch, a tool change with a park mechanism, the
electronics test). The number after the letter is truncated as by `(int)`; the
range of `int` is not modelled. -/
def process_command (cfg : Config) (strCmd : List Char) (sendAck : Bool) (s : Machine) :
    Option Machine :=
  let s0 := printing_state_rule cfg s
  let g := code_seen strCmd 'G' s0
  if g.1 then gcode_switch cfg strCmd sendAck g.2
  else
    let m := code_seen strCmd 'M' g.2
    if m.1 then mcode_switch cfg strCmd sendAck m.2
    else
      let t := code_seen strCmd 'T' m.2
      if t.1 then (gcode_T cfg strCmd t.2).map (command_end cfg sendAck)
      else if cstr strCmd = "Electronics_test".toList then none
      else some (command_end cfg sendAck (unknown_command strCmd t.2))

/-- The number that selects the case of the `G` switch for a line, if the line
reaches that switch. -/
def gcodeNumber (strCmd : List Char) : Option Int :=
  (strchr strCmd 'G').map fun p => truncToInt (strtod p.tail)

/-- The number that selects the case of the `M` switch for a line, if the line
reaches that switch. -/
def mcodeNumber (strCmd : List Char) : Option Int :=
  if (strchr strCmd 'G').isSome then none
  else (strchr strCmd 'M').map fun p => truncToInt (strtod p.tail)

/-! ## Retraction: invariant and outcomes -/

/-- The retraction-state invariant: an extruder whose retracted bit is clear
has a recover length of zero. -/
def RetractInv (cfg : Config) (s : Machine) : Prop :=
  ∀ e, e < cfg.EXTRUDERS →
    s.motion.extruder_retracted e = false → s.motion.retract_recover_length e = 0

/-- Relation between the states before and after an operation that respects
the retraction-state invariant extruder by extruder: afterwards the retracted
bit is set, or the recover length is zero, or both are as before. -/
def RetractStep (s s' : Machine) : Prop :=
  ∀ e, s'.motion.extruder_retracted e = true ∨ s'.motion.retract_recover_length e = 0 ∨
    (s'.motion.extruder_retracted e = s.motion.extruder_retracted e ∧
      s'.motion.retract_recover_length e = s.motion.retract_recover_length e)

/-- Two states with the same retraction flags and recover lengths. -/
def SameRetract (s s' : Machine) : Prop :=
  s'.motion.extruder_retracted = s.motion.extruder_retracted ∧
  s'.motion.retract_recover_length = s.motion.retract_recover_length

/-- States reached from a state satisfying the retraction-state invariant by
`reset_retractstate`, by `get_coordinates` and by the commands of the embedded
part of `process_command` other than M208. -/
inductive RetractReachable (cfg : Config) : Machine → Prop
  /-- A state in which the invariant holds. -/
  | start (s : Machine) (h : RetractInv cfg s) : RetractReachable cfg s
  /-- A call of `reset_retractstate`. -/
  | reset (s : Machine) (h : RetractReachable cfg s) :
      RetractReachable cfg (reset_retractstate cfg s)
  /-- A call of `get_coordinates`. -/
  | coordinates (s : Machine) (cmd : List Char) (h : RetractReachable cfg s) :
      RetractReachable cfg (get_coordinates cfg cmd s)
  /-- A command other than M208 processed by `process_command`. -/
  | command (s s' : Machine) (strCmd : List Char) (sendAck : Bool) (h : RetractReachable cfg s)
      (hne : mcodeNumber strCmd ≠ some 208)
      (hstep : process_command cfg strCmd sendAck s = some s') : RetractReachable cfg s'

/-- The state after `G10` on the freshly initialised sample machine. -/
def afterG10 : Machine :=
  (process_command cfg8 "G10".toList true (Machine.init cfg8)).getD (Machine.init cfg8)

/-- The state after `G92 E5` on the freshly initialised sample machine. -/
def afterG92 : Machine :=
  (process_command cfg8 "G92 E5".toList true (Machine.init cfg8)).getD (Machine.init cfg8)

/-- Position inside the travel limits. -/
def InsideLimits (s : Machine) : Prop :=
  ∀ i, i ≤ Z_AXIS → s.motion.min_pos.get i ≤ s.motion.current_position.get i ∧
    s.motion.current_position.get i ≤ s.motion.max_pos.get i

/-- The state after a firmware retract of length `L` at feed rate `f` from `s`,
where `sp` is the resulting value of `strchr_pointer`. -/
def retractOutcome (s : Machine) (L f : ℚ) (sp : Option (List Char)) : Machine :=
  { s with strchr_pointer := sp, motion := { s.motion with
      destination := s.motion.current_position,
      retract_recover_feedrate :=
        Function.update s.motion.retract_recover_feedrate s.active_extruder f,
      retract_recover_length :=
        Function.update s.motion.retract_recover_length s.active_extruder L,
      extruder_retracted := Function.update s.motion.extruder_retracted s.active_extruder true,
      planner := s.motion.planner ++
        [PlanCall.buffer_line s.motion.current_position.x s.motion.current_position.y
          s.motion.current_position.z (s.motion.current_position.e - L) (f / 60)
          s.active_extruder,
         PlanCall.set_e_position s.motion.current_position.e s.active_extruder false] } }

/-- The state after the recovery of a firmware retract from `s`. -/
def recoverOutcome (s : Machine) : Machine :=
  { s with motion := { s.motion with
      destination := s.motion.current_position,
      retract_recover_length :=
        Function.update s.motion.retract_recover_length s.active_extruder 0,
      extruder_retracted := Function.update s.motion.extruder_retracted s.active_extruder false,
      planner := s.motion.planner ++
        [PlanCall.buffer_line s.motion.current_position.x s.motion.current_position.y
          s.motion.current_position.z
          (s.motion.current_position.e + s.motion.retract_recover_length s.active_extruder)
          (s.motion.retract_recover_feedrate s.active_extruder / 60) s.active_extruder,
         PlanCall.set_e_position s.motion.current_position.e s.active_extruder false] } }

/-! ## Retracting while retracted -/

/-- The value `get_coordinates` stores in `destination[E]` for an `E`
parameter found at `p`: the number after the letter, relative to
`current_position[E]` when the E axis or all axes are in relative mode. -/
def decodedE (p : List Char) (s : Machine) : ℚ :=
  if s.motion.axis_relative_state.testBit E_AXIS || s.motion.axis_relative_state.testBit 7 then
    strtod p.tail + s.motion.current_position.e
  else strtod p.tail

/-! ## Tool change: sample states -/

/-- The sample machine with a known X position only (`position_state =
KNOWNPOS_X`) and unit steps on X and Y. -/
def xKnownMachine : Machine :=
  { Machine.init cfg8 with
    motion := { (Machine.init cfg8).motion with
      position_state := 1,
      axis_steps_per_unit := fun _ => 80,
      extruder_offset := fun axis e => if axis = 0 ∧ e = 1 then 18 else 0 } }

/-- The sample machine with both X and Y known. -/
def homedMachine : Machine :=
  { xKnownMachine with motion := { xKnownMachine.motion with position_state := 3 } }

/-! ## Printing state and stop state: frames and the reset rule -/

/-- The variables that only `Stop` and `M999` write, and the last accepted line
number. -/
def SameStop (s s' : Machine) : Prop :=
  s'.Stopped = s.Stopped ∧ s'.Stopped_gcode_LastN = s.Stopped_gcode_LastN ∧
  s'.gcode_LastN = s.gcode_LastN

/-- The printing state and the stop state are the same in both states. -/
def SameCtl (s s' : Machine) : Prop :=
  s'.printing_state = s.printing_state ∧ SameStop s s'

/-- What the reset rule of `process_command` establishes: the printing state
is `NORMAL` unless it is `RECOVER`, `START`, or at or beyond `TOOLCHANGE`. -/
def ResetRuleHolds (cfg : Config) (s : Machine) : Prop :=
  s.printing_state = cfg.PRINT_STATE_NORMAL ∨ s.printing_state = cfg.PRINT_STATE_RECOVER ∨
  s.printing_state = cfg.PRINT_STATE_START ∨ cfg.PRINT_STATE_TOOLCHANGE ≤ s.printing_state

/-! ## Between a stop and the restart -/

/-- The stopped flag and the line number saved by `Stop` are the same in both
states. -/
def StopMark (s s' : Machine) : Prop :=
  s'.Stopped = s.Stopped ∧ s'.Stopped_gcode_LastN = s.Stopped_gcode_LastN

/-- What can happen between a stop and the restart: bytes arrive on the serial
line, the framers accept further lines, `Stop` is called again, and commands
other than M999 are executed. `StoppedRun cfg s0 s` holds when `s` is reached
from `s0` in this way. -/
inductive StoppedRun (cfg : Config) : Machine → Machine → Prop
  | start (s0 : Machine) : StoppedRun cfg s0 s0
  | receive (s0 s : Machine) (bytes : List Char) :
      StoppedRun cfg s0 s → StoppedRun cfg s0 { s with rx := s.rx ++ bytes }
  | serial (s0 s : Machine) : StoppedRun cfg s0 s → StoppedRun cfg s0 (get_serial_commands cfg s)
  | sdcard (s0 s : Machine) : StoppedRun cfg s0 s → StoppedRun cfg s0 (get_sdcard_commands cfg s)
  | stop (s0 s : Machine) (reasonNr : Nat) : StoppedRun cfg s0 s → StoppedRun cfg s0 (Stop reasonNr s)
  | command (s0 s s1 : Machine) (strCmd : List Char) (sendAck : Bool) :
      StoppedRun cfg s0 s → mcodeNumber strCmd ≠ some 999 →
      process_command cfg strCmd sendAck s = some s1 → StoppedRun cfg s0 s1

/-- A run after a stop on the sample machine: stopped at line 5 with reason 6,
then the line `N6 G4 P1*106` arrives and is accepted, then `Stop(8)` is
called. -/
def stoppedRunState : Machine :=
  Stop 8 (get_serial_commands cfg8
    { Stop 6 (lineState cfg8 5 []) with
      rx := (Stop 6 (lineState cfg8 5 [])).rx ++ "N6 G4 P1*106\n".toList })

/-! ## Homing faults -/

/-- The planner calls of the fast run of `homeaxis(axis)` from the state `s`:
the position with the axis at 0, the line to one and a half times the axis
length in the homing direction, and the wait for its end. -/
def homingFastRun (cfg : Config) (axis : Nat) (s : Machine) : List PlanCall :=
  let c := s.motion.current_position.set axis 0
  let d := s.motion.destination.set axis
    (3 / 2 * (s.motion.max_pos.get axis - s.motion.min_pos.get axis) * cfg.home_dir axis)
  [PlanCall.set_position c.x c.y c.z c.e s.active_extruder true,
   PlanCall.buffer_line d.x d.y d.z d.e (s.motion.homing_feedrate axis / 60) s.active_extruder,
   PlanCall.synchronize]

/-- The planner calls of the safety move of `homeaxis(Z_AXIS)`: the position
with Z at 0, the line to 5 mm against the homing direction, and the release of
the steppers. -/
def homingSafetyMove (cfg : Config) (s : Machine) : List PlanCall :=
  let c := s.motion.current_position.set Z_AXIS 0
  let d := s.motion.destination.set Z_AXIS (-5 * cfg.home_dir Z_AXIS)
  [PlanCall.set_position c.x c.y c.z c.e s.active_extruder true,
   PlanCall.buffer_line d.x d.y d.z d.e (s.motion.homing_feedrate Z_AXIS / 60) s.active_extruder,
   PlanCall.finishAndDisableSteppers]

/-! ## Lines that reset the numbering -/

/-- The line `N<k><pre>M110<args>*<c>` a host sends to reset the numbering,
where `c` is the decimal value of the XOR of all bytes before the `*`. -/
def m110Line (k : Nat) (pre args : List Char) : List Char :=
  'N' :: decimal k ++ pre ++ "M110".toList ++ args ++
    '*' :: decimal (xorBytes ('N' :: decimal k ++ pre ++ "M110".toList ++ args))

/-! ## The end of the file -/

/-- A byte that the card framer accumulates outside comment mode: none of the
terminators CR, LF, `#` and `:`, not the comment marker, and not a NUL byte,
which `card.get()` returns as 0. -/
def sdPlain (c : Char) : Prop :=
  c ≠ '\n' ∧ c ≠ '\r' ∧ c ≠ '#' ∧ c ≠ ':' ∧ c ≠ ';' ∧ c ≠ NUL

/-! ## Decoding coordinates -/

/-- The value the axis letter of axis `i` gives `destination[i]`, in the words
of the specification: the current position when the letter is absent, the
number after the letter when neither the relative bit of the axis nor
`RELATIVE_MODE` is set, and the current position plus that number otherwise. -/
def decodedDestination (cmd : List Char) (i : Nat) (s : Machine) : ℚ :=
  match strchr cmd (axis_codes i) with
  | none => s.motion.current_position.get i
  | some p =>
    if s.motion.axis_relative_state.testBit i = false ∧
        s.motion.axis_relative_state.testBit 7 = false then strtod p.tail
    else s.motion.current_position.get i + strtod p.tail

/-- The feed rate `prepare_move` hands to the planner for the clamped target `t`:
`feedrate/60` when X and Y stay where they are, `feedrate*feedmultiply/60/100.0`
written as a single quotient otherwise. -/
def moveFeed (t : Pos) (s : Machine) : ℚ :=
  if s.motion.current_position.x = t.x ∧ s.motion.current_position.y = t.y then
    s.motion.feedrate / 60
  else s.motion.feedrate * s.motion.feedmultiply / 6000

/-- The sample machine during a print from the card in the RECOVER state, with
the recovery height at Z = 2. -/
def resumingMachine : Machine :=
  { Machine.init cfg8 with
    printing_state := cfg8.PRINT_STATE_RECOVER
    card := { (Machine.init cfg8).card with sdprinting := true }
    motion := { (Machine.init cfg8).motion with recover_height := 2 } }

/-! ## Automatic retract detection: sample state -/

/-- The sample machine after `M209 S1` (automatic retract detection armed) and
the E-only move `G1 E-1 F1200`, which the detection takes for a retract. -/
def autoRetractedMachine : Machine :=
  (((process_command cfg8 "M209 S1".toList true (Machine.init cfg8)).bind
    (process_command cfg8 "G1 E-1 F1200".toList true)).getD (Machine.init cfg8))

/-! ## Homing: back-off and second approach -/

/-- Modelled from the spec: the position the planner holds after a call
(`planner.cpp` is not among the sources). `plan_set_position` and
`plan_buffer_line` leave it at their target, `plan_set_e_position` replaces
the E coordinate, the other calls do not change it. -/
def plannerStep (p : Pos) : PlanCall → Pos
  | PlanCall.buffer_line x y z e _ _ => ⟨x, y, z, e⟩
  | PlanCall.set_position x y z e _ _ => ⟨x, y, z, e⟩
  | PlanCall.set_e_position e _ _ => { p with e := e }
  | _ => p

/-- The planner position after the calls of a log, starting from `p`. -/
def plannerPosition (p : Pos) (calls : List PlanCall) : Pos := calls.foldl plannerStep p

/-- The planner calls of the back-off of `homeaxis(axis)` entered from the
state `s`: the position with the axis at 0, the line to `home_retract_mm(axis)`
against the homing direction at the homing feed rate, and the wait for its
end. -/
def homingBackoff (cfg : Config) (axis : Nat) (s : Machine) : List PlanCall :=
  let c := s.motion.current_position.set axis 0
  let d := s.motion.destination.set axis (-cfg.home_retract_mm axis * cfg.home_dir axis)
  [PlanCall.set_position c.x c.y c.z c.e s.active_extruder true,
   PlanCall.buffer_line d.x d.y d.z d.e (s.motion.homing_feedrate axis / 60) s.active_extruder,
   PlanCall.synchronize]

/-- The planner calls of the second, slow approach of `homeaxis(axis)`: the
line to twice `home_retract_mm(axis)` in the homing direction at a third of the
homing feed rate, and the wait for its end. -/
def homingSlowRun (cfg : Config) (axis : Nat) (s : Machine) : List PlanCall :=
  let d := s.motion.destination.set axis (2 * cfg.home_retract_mm axis * cfg.home_dir axis)
  [PlanCall.buffer_line d.x d.y d.z d.e (s.motion.homing_feedrate axis / 3 / 60)
     s.active_extruder,
   PlanCall.synchronize]

/-- The sample machine whose endstop reports a hit after the fast run and a
released switch after the back-off. -/
def homingMachine : Machine :=
  { Machine.init cfg8 with motion :=
    { (Machine.init cfg8).motion with endstop_reports := [true, false] } }

/-! ## Acknowledgments -/

/-- A write into `cmd_line_buffer`: a byte stored at the counter, which is then
incremented, or the terminating NUL stored at the counter. -/
inductive BufWrite
  /-- `cmd_line_buffer[count++] = c` with `count = i`. -/
  | store (i : Nat) (c : Char)
  /-- `cmd_line_buffer[count] = 0` with `count = i`. -/
  | terminate (i : Nat)
  deriving DecidableEq

/-- The write stays inside `cmd_line_buffer[MAX_CMD_SIZE]` and leaves the
counter at most at `MAX_CMD_SIZE - 1`. -/
def BufWrite.inBounds (cfg : Config) : BufWrite → Prop
  | BufWrite.store i _ => i < cfg.MAX_CMD_SIZE ∧ i + 1 ≤ cfg.MAX_CMD_SIZE - 1
  | BufWrite.terminate i => i < cfg.MAX_CMD_SIZE ∧ i ≤ cfg.MAX_CMD_SIZE - 1

/-- The effect of a write on the buffer. -/
def BufWrite.apply (buf : List Char) : BufWrite → List Char
  | BufWrite.store i c => buf.set i c
  | BufWrite.terminate i => buf.set i NUL

/-- The writes into `cmd_line_buffer` made by the loop of
`get_serial_commands`, in order: the loop of `get_serial_loop` with every
store recorded. -/
def get_serial_writes (cfg : Config) : Nat → Machine → List BufWrite
  | 0, _ => []
  | fuel + 1, s =>
    if ¬ s.buflen < cfg.BUFSIZE then []
    else
      match s.rx with
      | [] => []
      | serial_char :: rest =>
        let s := { s with rx := rest, ghost := s.ghost ++ [Ghost.serialRead s.buflen] }
        if serial_char = '\n' ∨ serial_char = '\r' then
          let r := serial_end_of_line cfg s
          (if s.serial_count = 0 then [] else [BufWrite.terminate s.serial_count]) ++
            (if r.2 then get_serial_writes cfg fuel r.1 else [])
        else if s.serial_count ≥ cfg.MAX_CMD_SIZE - 1 then get_serial_writes cfg fuel s
        else if serial_char = '\\' then
          match s.rx with
          | [] => get_serial_writes cfg fuel s
          | c2 :: rest2 =>
            let s := { s with rx := rest2, ghost := s.ghost ++ [Ghost.serialRead s.buflen] }
            (if ¬ s.comment_mode then [BufWrite.store s.serial_count c2] else []) ++
              get_serial_writes cfg fuel (if ¬ s.comment_mode then serial_store c2 s else s)
        else
          let s := if serial_char = ';' then { s with comment_mode := true } else s
          (if ¬ s.comment_mode then [BufWrite.store s.serial_count serial_char] else []) ++
            get_serial_writes cfg fuel (if ¬ s.comment_mode then serial_store serial_char s else s)

/-- The write into `cmd_line_buffer` made by one iteration of the loop of
`get_sdcard_commands` after a successful read that returned `n`: the branches
of `sdcard_byte` with the store recorded. -/
def sdcard_byte_writes (cfg : Config) (sd_count : Nat) (n : Int) (s1 : Machine) :
    List BufWrite :=
  let card_eof := if n ≤ 0 then true else s1.card.eof
  let sd_char : Char := if n ≤ 0 then NUL else Char.ofNat n.toNat
  if card_eof = true ∨ sd_char = '\n' ∨ sd_char = '\r' ∨
      ((sd_char = '#' ∨ sd_char = ':') ∧ s1.comment_mode = false) then
    if sd_count = 0 then [] else [BufWrite.terminate sd_count]
  else if sd_count < cfg.MAX_CMD_SIZE - 1 ∧ sd_char ≠ ';' ∧ s1.comment_mode = false then
    [BufWrite.store sd_count sd_char]
  else []

/-- The writes into `cmd_line_buffer` made by the loop of
`get_sdcard_commands`, in order. -/
def get_sdcard_writes (cfg : Config) : Nat → Nat → Bool → Machine → List BufWrite
  | 0, _, _, _ => []
  | fuel + 1, sd_count, card_eof, s =>
    if ¬ (s.buflen < cfg.BUFSIZE ∧ card_eof = false) then []
    else
      let n := s.card.get.1
      let s1 := { s with card := s.card.get.2, ghost := s.ghost ++ [Ghost.cardRead s.buflen] }
      if s1.card.errorCode ≠ 0 then []
      else
        sdcard_byte_writes cfg sd_count n s1 ++
          get_sdcard_writes cfg fuel (sdcard_byte cfg sd_count n s1).1
            (sdcard_byte cfg sd_count n s1).2.1 (sdcard_byte cfg sd_count n s1).2.2

/-! ## Tool changes in the queue: sample runs -/

/-- Queue operations that leave the line `T1` behind in slot 1 and bring the
write index back to slot 0: two insertions, their removal, and six more
insertions and removals. -/
def staleToolchangeOps : List QueueOp :=
  [QueueOp.insert "G28".toList false, QueueOp.insert "T1".toList false, QueueOp.remove,
   QueueOp.remove,
   QueueOp.insert "G4".toList false, QueueOp.remove,
   QueueOp.insert "G4".toList false, QueueOp.remove,
   QueueOp.insert "G4".toList false, QueueOp.remove,
   QueueOp.insert "G4".toList false, QueueOp.remove,
   QueueOp.insert "G4".toList false, QueueOp.remove,
   QueueOp.insert "G4".toList false, QueueOp.remove]

/-! ## The two input streams: sample runs -/

/-- Two calls of `get_command` on the sample machine printing `file`: the
interactive bytes `G1 X` are waiting at the first call, the bytes `10` and a
line feed arrive before the second. -/
def twoChunkRun (file : List Char) : Machine :=
  let s1 := get_command cfg8 (printingState cfg8 file "G1 X".toList)
  get_command cfg8 { s1 with rx := s1.rx ++ "10\n".toList }

/-! ## Dispatch precedence -/

/-- The two states have written the same output. -/
def SameOut (s s' : Machine) : Prop := s'.out = s.out
/-- The lines the handlers of the `G` switch and the end of the function can
write: the acknowledgment and the two action lines of the dwell. -/
def gcodeOutput (o : Out) : Prop :=
  o = Out.ok ∨ o = Out.action "pause" ∨ o = Out.action "resume"

/-- The state `s'` has written what `s` had written, followed by lines of the
`G` switch only. -/
def GcodeOutputOnly (s s' : Machine) : Prop :=
  ∃ extra, s'.out = s.out ++ extra ∧ ∀ o ∈ extra, gcodeOutput o

/-! ## Return paths of the dispatcher -/

/-- The states a call `process_command(strCmd, sendAck)` made in the state `s`
can return with. A line handled by the embedded part returns with its result.
Any other line reaches a handler outside that part: `case 28` of the `G`
switch, one of the other labels of the `M` switch, the tool change with a park
mechanism or the electronics test. None of these contains a `return` statement
(the `return` statements of the function are those of G0 to G3, M20, M21, M22,
M27, M105 and M10010), so when such a handler is done, in some state `t`, the
call goes on to the end of the function and returns with `command_end` applied
to `t`. Nothing is assumed about `t`. -/
inductive ProcessCommandReturn (cfg : Config) (strCmd : List Char) (sendAck : Bool)
    (s : Machine) : Machine → Prop
  /-- The line is handled by the embedded part of `process_command`. -/
  | embedded (s1 : Machine) (h : process_command cfg strCmd sendAck s = some s1) :
      ProcessCommandReturn cfg strCmd sendAck s s1
  /-- The line reaches another handler, which leaves the state `t` and goes on
  to the end of the function. -/
  | handler (t : Machine) (h : process_command cfg strCmd sendAck s = none) :
      ProcessCommandReturn cfg strCmd sendAck s (command_end cfg sendAck t)

/-! # Properties -/

/-! ## The ring buffer keeps its invariant -/

@[simp] theorem commit_command_buflen (cfg : Config) (b : Bool) (s : Machine) :
    (commit_command cfg b s).buflen = (s.buflen + 1) % 256 := by
  cases b <;> rfl

@[simp] theorem commit_command_bufindw (cfg : Config) (b : Bool) (s : Machine) :
    (commit_command cfg b s).bufindw = ((s.bufindw + 1) % 256) &&& cfg.BUFMASK := by
  cases b <;> rfl

@[simp] theorem commit_command_bufindr (cfg : Config) (b : Bool) (s : Machine) :
    (commit_command cfg b s).bufindr = s.bufindr := by
  cases b <;> rfl

@[simp] theorem commit_command_cmdbuffer (cfg : Config) (b : Bool) (s : Machine) :
    (commit_command cfg b s).cmdbuffer = s.cmdbuffer := by
  cases b <;> rfl

@[simp] theorem remove_command_buflen (cfg : Config) (s : Machine) :
    (remove_command cfg s).buflen = (s.buflen + 255) % 256 := rfl

@[simp] theorem remove_command_bufindr (cfg : Config) (s : Machine) :
    (remove_command cfg s).bufindr = ((s.bufindr + 1) % 256) &&& cfg.BUFMASK := rfl

@[simp] theorem remove_command_bufindw (cfg : Config) (s : Machine) :
    (remove_command cfg s).bufindw = s.bufindw := rfl

@[simp] theorem remove_command_cmdbuffer (cfg : Config) (s : Machine) :
    (remove_command cfg s).cmdbuffer = s.cmdbuffer := rfl

theorem mask_eq_mod {cfg : Config} {k : Nat} (hp : cfg.BUFSIZE = 2 ^ k)
    (hm : cfg.BUFMASK = cfg.BUFSIZE - 1) (x : Nat) : x &&& cfg.BUFMASK = x % cfg.BUFSIZE := by
  rw [hm, hp, Nat.and_pow_two_sub_one_eq_mod]

theorem bufsize_dvd {cfg : Config} {k : Nat} (hp : cfg.BUFSIZE = 2 ^ k) (hle : cfg.BUFSIZE ≤ 256) :
    cfg.BUFSIZE ∣ 256 := by
  have hk : k ≤ 8 := by
    by_contra h
    have : 2 ^ 9 ≤ 2 ^ k := Nat.pow_le_pow_right (by norm_num) (by omega)
    omega
  rw [hp]
  exact (Nat.pow_dvd_pow 2 hk)

theorem bufsize_pos {cfg : Config} {k : Nat} (hp : cfg.BUFSIZE = 2 ^ k) : 0 < cfg.BUFSIZE := by
  rw [hp]; positivity

theorem wrap_mod {B : Nat} (hd : B ∣ 256) (x : Nat) : (x % 256) % B = x % B :=
  Nat.mod_mod_of_dvd x hd

theorem commit_command_inv {cfg : Config} {k : Nat} (hp : cfg.BUFSIZE = 2 ^ k)
    (hle : cfg.BUFSIZE ≤ 256) (hm : cfg.BUFMASK = cfg.BUFSIZE - 1) (b : Bool) {s : Machine}
    (hs : QueueInv cfg s) (hlt : s.buflen < cfg.BUFSIZE) : QueueInv cfg (commit_command cfg b s) := by
  have hd := bufsize_dvd hp hle
  have hpos := bufsize_pos hp
  obtain ⟨h1, h2, h3, h4⟩ := hs
  refine ⟨?_, ?_, ?_, ?_⟩
  · simp only [commit_command_buflen]
    have : (s.buflen + 1) % 256 ≤ s.buflen + 1 := Nat.mod_le _ _
    omega
  · simpa using h2
  · simp only [commit_command_bufindw, mask_eq_mod hp hm]
    exact Nat.mod_lt _ hpos
  · simp only [commit_command_bufindw, commit_command_bufindr, commit_command_buflen,
      mask_eq_mod hp hm, wrap_mod hd]
    rw [h4, Nat.add_mod s.bufindr ((s.buflen + 1) % 256), wrap_mod hd, ← Nat.add_mod,
      Nat.mod_add_mod, Nat.add_assoc]

theorem remove_command_inv {cfg : Config} {k : Nat} (hp : cfg.BUFSIZE = 2 ^ k)
    (hle : cfg.BUFSIZE ≤ 256) (hm : cfg.BUFMASK = cfg.BUFSIZE - 1) {s : Machine}
    (hs : QueueInv cfg s) (hlt : 0 < s.buflen) : QueueInv cfg (remove_command cfg s) := by
  have hd := bufsize_dvd hp hle
  have hpos := bufsize_pos hp
  obtain ⟨h1, h2, h3, h4⟩ := hs
  have hl : (s.buflen + 255) % 256 = s.buflen - 1 := by omega
  refine ⟨?_, ?_, ?_, ?_⟩
  · simp only [remove_command_buflen, hl]; omega
  · simp only [remove_command_bufindr, mask_eq_mod hp hm]
    exact Nat.mod_lt _ hpos
  · simpa using h3
  · simp only [remove_command_bufindw, remove_command_bufindr, remove_command_buflen,
      mask_eq_mod hp hm, wrap_mod hd, hl]
    rw [h4, Nat.mod_add_mod]
    congr 1
    omega

theorem remove_loop_inv {cfg : Config} {k : Nat} (hp : cfg.BUFSIZE = 2 ^ k)
    (hle : cfg.BUFSIZE ≤ 256) (hm : cfg.BUFMASK = cfg.BUFSIZE - 1) :
    ∀ (fuel : Nat) (s : Machine), QueueInv cfg s → s.buflen ≤ fuel →
      QueueInv cfg (remove_loop cfg fuel s) ∧ (remove_loop cfg fuel s).buflen = 0
  | 0, s, hs, hf => ⟨hs, by simpa [remove_loop] using hf⟩
  | fuel + 1, s, hs, hf => by
    unfold remove_loop
    by_cases h0 : s.buflen = 0
    · simp [h0, hs]
    · rw [if_pos h0]
      have h1 := hs.buflen_le
      apply remove_loop_inv hp hle hm fuel _ (remove_command_inv hp hle hm hs (by omega))
      simp only [remove_command_buflen]
      omega


theorem checkToolchange_queue (cfg : Config) (cmd : List Char) (s : Machine) :
    (checkToolchange cfg cmd s).buflen = s.buflen ∧ (checkToolchange cfg cmd s).bufindr = s.bufindr ∧
    (checkToolchange cfg cmd s).bufindw = s.bufindw ∧ (checkToolchange cfg cmd s).serialCmd = s.serialCmd ∧
    (checkToolchange cfg cmd s).cmdbuffer = s.cmdbuffer := by
  unfold checkToolchange
  split
  · simp
  · dsimp only
    split
    · split <;> simp
    · simp

theorem QueueInv.of_eq {cfg : Config} {s t : Machine} (hs : QueueInv cfg s)
    (h1 : t.buflen = s.buflen) (h2 : t.bufindr = s.bufindr) (h3 : t.bufindw = s.bufindw) :
    QueueInv cfg t :=
  ⟨h1 ▸ hs.buflen_le, h2 ▸ hs.bufindr_lt, h3 ▸ hs.bufindw_lt, by rw [h1, h2, h3]; exact hs.bufindw_eq⟩

theorem insertcommand_inv {cfg : Config} {k : Nat} (hp : cfg.BUFSIZE = 2 ^ k)
    (hle : cfg.BUFSIZE ≤ 256) (hm : cfg.BUFMASK = cfg.BUFSIZE - 1) (cmd : List Char) (b : Bool)
    {s : Machine} (hs : QueueInv cfg s) : QueueInv cfg (insertcommand cfg cmd b s).2 := by
  unfold insertcommand
  split
  · exact hs
  · rename_i hc
    have hlt : s.buflen < cfg.BUFSIZE := by
      by_contra h
      exact hc (Or.inr (by omega))
    have hs1 : QueueInv cfg { s with cmdbuffer := s.cmdbuffer.set s.bufindw (cstr cmd) } :=
      hs.of_eq rfl rfl rfl
    have hs2 := commit_command_inv hp hle hm b hs1 hlt
    dsimp only
    split
    · obtain ⟨e1, e2, e3, -, -⟩ := checkToolchange_queue cfg
        ((commit_command cfg b { s with cmdbuffer := s.cmdbuffer.set s.bufindw (cstr cmd) }).slot
          (commit_command cfg b { s with cmdbuffer := s.cmdbuffer.set s.bufindw (cstr cmd) }).bufindw)
        (commit_command cfg b { s with cmdbuffer := s.cmdbuffer.set s.bufindw (cstr cmd) })
      exact hs2.of_eq e1 e2 e3
    · exact hs2

theorem clear_command_queue_inv {cfg : Config} {k : Nat} (hp : cfg.BUFSIZE = 2 ^ k)
    (hle : cfg.BUFSIZE ≤ 256) (hm : cfg.BUFMASK = cfg.BUFSIZE - 1)
    {s : Machine} (hs : QueueInv cfg s) : QueueInv cfg (clear_command_queue cfg s) := by
  have hpos := bufsize_pos hp
  obtain ⟨-, h0⟩ := remove_loop_inv hp hle hm 256 s hs (le_trans hs.buflen_le hle)
  refine ⟨?_, hpos, hpos, ?_⟩
  · show (remove_loop cfg 256 s).buflen ≤ _
    omega
  · show 0 = (0 + (remove_loop cfg 256 s).buflen) % _
    simp [h0]

theorem QueueOp.run_inv {cfg : Config} {k : Nat} (hp : cfg.BUFSIZE = 2 ^ k)
    (hle : cfg.BUFSIZE ≤ 256) (hm : cfg.BUFMASK = cfg.BUFSIZE - 1) (op : QueueOp)
    {s : Machine} (hs : QueueInv cfg s) : QueueInv cfg (op.run cfg s) := by
  cases op with
  | insert cmd b => exact insertcommand_inv hp hle hm cmd b hs
  | commit b =>
    show QueueInv cfg (if s.buflen < cfg.BUFSIZE then commit_command cfg b s else s)
    split
    · exact commit_command_inv hp hle hm b hs ‹_›
    · exact hs
  | remove =>
    show QueueInv cfg (if 0 < s.buflen then remove_command cfg s else s)
    split
    · exact remove_command_inv hp hle hm hs ‹_›
    · exact hs
  | clear => exact clear_command_queue_inv hp hle hm hs

theorem init_inv {cfg : Config} (hpos : 0 < cfg.BUFSIZE) : QueueInv cfg (Machine.init cfg) :=
  ⟨Nat.zero_le _, hpos, hpos, by simp [Machine.init]⟩

theorem runQueueOps_inv {cfg : Config} {k : Nat} (hp : cfg.BUFSIZE = 2 ^ k)
    (hle : cfg.BUFSIZE ≤ 256) (hm : cfg.BUFMASK = cfg.BUFSIZE - 1) :
    ∀ (ops : List QueueOp) (s : Machine), QueueInv cfg s → QueueInv cfg (runQueueOps cfg ops s)
  | [], _, hs => hs
  | op :: ops, _, hs => runQueueOps_inv hp hle hm ops _ (QueueOp.run_inv hp hle hm op hs)

/-- C1: when `BUFSIZE` is a power of two and `BUFMASK = BUFSIZE - 1`, then
starting from the empty queue, after every finite sequence of `insertcommand` calls,
`commit_command` calls made with `buflen < BUFSIZE`, `remove_command` calls made
with `buflen > 0` and `clear_command_queue` calls, `buflen ≤ BUFSIZE`,
`bufindr < BUFSIZE`, `bufindw < BUFSIZE` and
`bufindw = (bufindr + buflen) mod BUFSIZE`. The bound `BUFSIZE ≤ 256` is the
range of the 8-bit variables `bufindr`, `bufindw` and `buflen` that hold the
ring indices and the count. -/
theorem queue_invariant (cfg : Config) (k : Nat) (hp : cfg.BUFSIZE = 2 ^ k)
    (hle : cfg.BUFSIZE ≤ 256) (hm : cfg.BUFMASK = cfg.BUFSIZE - 1) (ops : List QueueOp) :
    (runQueueOps cfg ops (Machine.init cfg)).buflen ≤ cfg.BUFSIZE ∧
    (runQueueOps cfg ops (Machine.init cfg)).bufindr < cfg.BUFSIZE ∧
    (runQueueOps cfg ops (Machine.init cfg)).bufindw < cfg.BUFSIZE ∧
    (runQueueOps cfg ops (Machine.init cfg)).bufindw =
      ((runQueueOps cfg ops (Machine.init cfg)).bufindr +
        (runQueueOps cfg ops (Machine.init cfg)).buflen) % cfg.BUFSIZE := by
  obtain ⟨h1, h2, h3, h4⟩ := runQueueOps_inv hp hle hm ops _ (init_inv (bufsize_pos hp))
  exact ⟨h1, h2, h3, h4⟩


theorem runQueueOps_append (cfg : Config) (a b : List QueueOp) (s : Machine) :
    runQueueOps cfg (a ++ b) s = runQueueOps cfg b (runQueueOps cfg a s) := by
  simp [runQueueOps, List.foldl_append]

/-- C1, witness: the invariant on the 8-slot build after a mixed sequence of
operations. -/
theorem queue_invariant_witness :
    (runQueueOps cfg8 ops8 (Machine.init cfg8)).buflen ≤ cfg8.BUFSIZE ∧
    (runQueueOps cfg8 ops8 (Machine.init cfg8)).bufindr < cfg8.BUFSIZE ∧
    (runQueueOps cfg8 ops8 (Machine.init cfg8)).bufindw < cfg8.BUFSIZE ∧
    (runQueueOps cfg8 ops8 (Machine.init cfg8)).bufindw =
      ((runQueueOps cfg8 ops8 (Machine.init cfg8)).bufindr +
        (runQueueOps cfg8 ops8 (Machine.init cfg8)).buflen) % cfg8.BUFSIZE :=
  queue_invariant cfg8 3 (by decide) (by decide) (by decide) ops8

/-! ## Insertion and the FIFO refinement -/

theorem testBit_bitSet {w x i j : Nat} (hj : j < w) :
    (bitSet w x i).testBit j = (x.testBit j || decide (i = j)) := by
  simp [bitSet, Nat.one_shiftLeft, Nat.testBit_two_pow, hj]

theorem testBit_bitClr {w x i j : Nat} (hj : j < w) :
    (bitClr w x i).testBit j = (x.testBit j && !decide (i = j)) := by
  simp [bitClr, Nat.one_shiftLeft, Nat.testBit_two_pow, hj]

theorem and_shift_ne_zero (x i : Nat) : ((x &&& (1 <<< i)) != 0) = x.testBit i := by
  rw [Nat.one_shiftLeft]
  by_cases h : x.testBit i
  · have : (x &&& 2 ^ i).testBit i = true := by simp [Nat.testBit_two_pow, h]
    have hne : x &&& 2 ^ i ≠ 0 := by
      intro h0
      rw [h0] at this
      simp at this
    simp [h, hne]
  · have : x &&& 2 ^ i = 0 := by
      apply Nat.eq_of_testBit_eq
      intro j
      simp only [Nat.testBit_and, Nat.testBit_two_pow, Nat.zero_testBit]
      by_cases hij : i = j
      · subst hij; simp [h]
      · simp [hij]
    simp [h, this]


theorem ring_index_ne {B r j l : Nat} (hjl : j < l) (hl : l < B) :
    (r + j) % B ≠ (r + l) % B := by
  intro h
  have h1 : j % B = l % B := Nat.ModEq.add_left_cancel' r h
  rw [Nat.mod_eq_of_lt (by omega), Nat.mod_eq_of_lt hl] at h1
  omega

theorem serialCmdBits_le {cfg : Config} (h16 : cfg.BUFSIZE ≤ 16) :
    cfg.BUFSIZE ≤ serialCmdBits cfg := by
  unfold serialCmdBits
  split <;> omega

theorem slot_set_self {s : Machine} {i : Nat} (v : List Char) (hi : i < s.cmdbuffer.length) :
    Machine.slot { s with cmdbuffer := s.cmdbuffer.set i v } i = v := by
  simp [Machine.slot, List.getD_eq_getElem?_getD, hi]

theorem slot_set_ne {s : Machine} {i j : Nat} (v : List Char) (hij : i ≠ j) :
    Machine.slot { s with cmdbuffer := s.cmdbuffer.set i v } j = s.slot j := by
  simp [Machine.slot, List.getD_eq_getElem?_getD, List.getElem?_set_ne hij]

theorem commit_command_serialCmd (cfg : Config) (b : Bool) (s : Machine) :
    (commit_command cfg b s).serialCmd =
      if b then bitSet (serialCmdBits cfg) s.serialCmd s.bufindw
      else bitClr (serialCmdBits cfg) s.serialCmd s.bufindw := by
  cases b <;> rfl

theorem insertcommand_accept {cfg : Config} {cmd : List Char} {s : Machine}
    (h : ¬(cmd.head? = some ';' ∨ s.buflen ≥ cfg.BUFSIZE)) (b : Bool) :
    (insertcommand cfg cmd b s).1 = true ∧
    (insertcommand cfg cmd b s).2.cmdbuffer = s.cmdbuffer.set s.bufindw (cstr cmd) ∧
    (insertcommand cfg cmd b s).2.buflen = (s.buflen + 1) % 256 ∧
    (insertcommand cfg cmd b s).2.bufindr = s.bufindr ∧
    (insertcommand cfg cmd b s).2.bufindw = ((s.bufindw + 1) % 256) &&& cfg.BUFMASK ∧
    (insertcommand cfg cmd b s).2.serialCmd =
      if b then bitSet (serialCmdBits cfg) s.serialCmd s.bufindw
      else bitClr (serialCmdBits cfg) s.serialCmd s.bufindw := by
  unfold insertcommand
  rw [if_neg h]
  dsimp only
  split
  · obtain ⟨e1, e2, e3, e4, e5⟩ := checkToolchange_queue cfg
      ((commit_command cfg b { s with cmdbuffer := s.cmdbuffer.set s.bufindw (cstr cmd) }).slot
        (commit_command cfg b { s with cmdbuffer := s.cmdbuffer.set s.bufindw (cstr cmd) }).bufindw)
      (commit_command cfg b { s with cmdbuffer := s.cmdbuffer.set s.bufindw (cstr cmd) })
    rw [e1, e2, e3, e4, e5]
    simp [commit_command_serialCmd]
  · simp [commit_command_serialCmd]

theorem insertcommand_reject {cfg : Config} {cmd : List Char} {s : Machine}
    (h : cmd.head? = some ';' ∨ s.buflen ≥ cfg.BUFSIZE) (b : Bool) :
    insertcommand cfg cmd b s = (false, s) := by
  unfold insertcommand
  rw [if_pos h]


/-- C2: for every command string `cmd` shorter than `MAX_CMD_SIZE` and every queue
state (one that satisfies the ring invariant, with `BUFSIZE` slots and
`BUFSIZE ≤ 255` so that the 8-bit counter can hold it), `insertcommand`
returns false exactly when `cmd` begins with `;` or `buflen ≥ BUFSIZE`; when it
returns false the state is unchanged; when it returns true the slot at the old
`bufindw` holds `cmd`, `buflen` has grown by one and every occupied slot
`(bufindr + j) mod BUFSIZE`, `j < buflen`, holds its previous content. -/
theorem insertcommand_contract (cfg : Config) (cmd : List Char) (flag : Bool) (s : Machine)
    (_hcmd : cmd.length < cfg.MAX_CMD_SIZE) (hB : cfg.BUFSIZE ≤ 255)
    (hslots : s.cmdbuffer.length = cfg.BUFSIZE) (hinv : QueueInv cfg s) :
    ((insertcommand cfg cmd flag s).1 = false ↔
      (cmd.head? = some ';' ∨ s.buflen ≥ cfg.BUFSIZE)) ∧
    ((insertcommand cfg cmd flag s).1 = false → (insertcommand cfg cmd flag s).2 = s) ∧
    ((insertcommand cfg cmd flag s).1 = true →
      (insertcommand cfg cmd flag s).2.slot s.bufindw = cstr cmd ∧
      (insertcommand cfg cmd flag s).2.buflen = s.buflen + 1 ∧
      ∀ j, j < s.buflen →
        (insertcommand cfg cmd flag s).2.slot ((s.bufindr + j) % cfg.BUFSIZE) =
          s.slot ((s.bufindr + j) % cfg.BUFSIZE)) := by
  by_cases h : cmd.head? = some ';' ∨ s.buflen ≥ cfg.BUFSIZE
  · rw [insertcommand_reject h]
    simp [h]
  · obtain ⟨e1, e2, e3, -, -, -⟩ := insertcommand_accept h flag
    have hlt : s.buflen < cfg.BUFSIZE := by
      by_contra hc
      exact h (Or.inr (by omega))
    refine ⟨by simp [e1, h], by simp [e1], fun _ => ⟨?_, ?_, ?_⟩⟩
    · show ((insertcommand cfg cmd flag s).2.cmdbuffer).getD s.bufindw [] = _
      rw [e2]
      simp [List.getD_eq_getElem?_getD, hslots, hinv.bufindw_lt]
    · rw [e3]; omega
    · intro j hj
      show ((insertcommand cfg cmd flag s).2.cmdbuffer).getD _ [] = s.cmdbuffer.getD _ []
      rw [e2]
      have hne : s.bufindw ≠ (s.bufindr + j) % cfg.BUFSIZE := by
        rw [hinv.bufindw_eq]
        exact (ring_index_ne hj hlt).symm
      simp [List.getD_eq_getElem?_getD, List.getElem?_set_ne hne]

theorem Refines.init {cfg : Config} (hpos : 0 < cfg.BUFSIZE) :
    Refines cfg (Machine.init cfg) [] :=
  ⟨init_inv hpos, by simp [Machine.init], rfl, by simp⟩

theorem Refines.insert {cfg : Config} {k : Nat} (hp : cfg.BUFSIZE = 2 ^ k)
    (h16 : cfg.BUFSIZE ≤ 16) (hm : cfg.BUFMASK = cfg.BUFSIZE - 1) {s : Machine}
    {q : List (List Char × Bool)} (h : Refines cfg s q) (cmd : List Char) (b : Bool) :
    Refines cfg (insertcommand cfg cmd b s).2 (fifo_enqueue cfg.BUFSIZE q cmd b) := by
  unfold fifo_enqueue
  by_cases hc : cmd.head? = some ';' ∨ s.buflen ≥ cfg.BUFSIZE
  · rw [insertcommand_reject hc, if_pos (by rw [← h.len]; exact hc)]
    exact h
  · rw [if_neg (by rw [← h.len]; exact hc)]
    obtain ⟨-, e2, e3, e4, e5, e6⟩ := insertcommand_accept hc b
    have hlt : s.buflen < cfg.BUFSIZE := by
      by_contra hc2
      exact hc (Or.inr (by omega))
    have hw := serialCmdBits_le h16
    refine ⟨insertcommand_inv hp (by omega) hm cmd b h.inv, ?_, ?_, ?_⟩
    · rw [e2, List.length_set, h.slots]
    · rw [e3, List.length_append, ← h.len]
      simp only [List.length_singleton]
      omega
    · intro j hj
      rw [e4]
      simp only [List.length_append, List.length_singleton, ← h.len] at hj
      have hidx : (s.bufindr + j) % cfg.BUFSIZE < serialCmdBits cfg :=
        lt_of_lt_of_le (Nat.mod_lt _ (bufsize_pos hp)) hw
      by_cases hjl : j < s.buflen
      · have hne : s.bufindw ≠ (s.bufindr + j) % cfg.BUFSIZE := by
          rw [h.inv.bufindw_eq]
          exact (ring_index_ne hjl hlt).symm
        rw [List.getElem?_append_left (by rw [← h.len]; exact hjl),
          h.content j (by rw [← h.len]; exact hjl)]
        have hs : (insertcommand cfg cmd b s).2.slot ((s.bufindr + j) % cfg.BUFSIZE) =
            s.slot ((s.bufindr + j) % cfg.BUFSIZE) := by
          show ((insertcommand cfg cmd b s).2.cmdbuffer).getD _ [] = s.cmdbuffer.getD _ []
          rw [e2]
          simp [List.getD_eq_getElem?_getD, List.getElem?_set_ne hne]
        rw [hs, e6]
        cases b <;> simp [testBit_bitSet hidx, testBit_bitClr hidx, hne]
      · have hj' : j = s.buflen := by omega
        subst hj'
        rw [List.getElem?_append_right (by rw [← h.len]), ← h.len, Nat.sub_self]
        rw [← h.inv.bufindw_eq]
        have hs : (insertcommand cfg cmd b s).2.slot s.bufindw = cstr cmd := by
          show ((insertcommand cfg cmd b s).2.cmdbuffer).getD _ [] = _
          rw [e2]
          simp [List.getD_eq_getElem?_getD, h.slots, h.inv.bufindw_lt]
        rw [hs, e6]
        rw [← h.inv.bufindw_eq] at hidx
        cases b <;> simp [testBit_bitSet hidx, testBit_bitClr hidx]


theorem Refines.next {cfg : Config} {k : Nat} (hp : cfg.BUFSIZE = 2 ^ k)
    (h16 : cfg.BUFSIZE ≤ 16) (hm : cfg.BUFMASK = cfg.BUFSIZE - 1) {s : Machine}
    {x : List Char × Bool} {q : List (List Char × Bool)} (h : Refines cfg s (x :: q)) :
    s.buflen ≠ 0 ∧ next_command_args s = x ∧ Refines cfg (next_command_remove cfg s) q := by
  have hlen : s.buflen = q.length + 1 := by simpa using h.len
  have hne0 : s.buflen ≠ 0 := by omega
  have hle := h.inv.buflen_le
  have hr := h.inv.bufindr_lt
  have hd := bufsize_dvd hp (by omega : cfg.BUFSIZE ≤ 256)
  have hw := serialCmdBits_le h16
  refine ⟨hne0, ?_, ?_⟩
  · have h0 := h.content 0 (by simp)
    simp only [List.getElem?_cons_zero, Nat.add_zero, Nat.mod_eq_of_lt hr, Option.some.injEq] at h0
    rw [h0]
    simp [next_command_args, and_shift_ne_zero]
  · unfold next_command_remove
    rw [if_pos hne0]
    refine ⟨remove_command_inv hp (by omega) hm h.inv (by omega), ?_, ?_, ?_⟩
    · simpa using h.slots
    · simp only [remove_command_buflen]; omega
    · intro j hj
      have hc := h.content (j + 1) (by simpa using hj)
      simp only [List.getElem?_cons_succ] at hc
      rw [hc]
      have hidx : (s.bufindr + (j + 1)) % cfg.BUFSIZE < serialCmdBits cfg :=
        lt_of_lt_of_le (Nat.mod_lt _ (bufsize_pos hp)) hw
      have hne : s.bufindr ≠ (s.bufindr + (j + 1)) % cfg.BUFSIZE := by
        have := ring_index_ne (B := cfg.BUFSIZE) (r := s.bufindr) (j := 0) (l := j + 1)
          (by omega) (by omega)
        simpa [Nat.mod_eq_of_lt hr] using this
      have hi : ((s.bufindr + 1) % 256 &&& cfg.BUFMASK) + j ≡ s.bufindr + (j + 1) [MOD cfg.BUFSIZE] := by
        rw [mask_eq_mod hp hm, wrap_mod hd]
        have : (s.bufindr + 1) % cfg.BUFSIZE ≡ s.bufindr + 1 [MOD cfg.BUFSIZE] := Nat.mod_modEq _ _
        have := this.add_right j
        rwa [Nat.add_assoc, Nat.add_comm 1 j] at this
      have hi' : ((remove_command cfg s).bufindr + j) % cfg.BUFSIZE =
          (s.bufindr + (j + 1)) % cfg.BUFSIZE := hi
      rw [hi']
      have hsc : (remove_command cfg s).serialCmd =
          bitClr (serialCmdBits cfg) s.serialCmd s.bufindr := rfl
      have hsl : ∀ i, (remove_command cfg s).slot i = s.slot i := fun _ => rfl
      rw [hsc, hsl, testBit_bitClr hidx]
      simp [hne]

theorem ringTrace_eq_fifoTrace {cfg : Config} {k : Nat} (hp : cfg.BUFSIZE = 2 ^ k)
    (h16 : cfg.BUFSIZE ≤ 16) (hm : cfg.BUFMASK = cfg.BUFSIZE - 1) :
    ∀ (ops : List FifoOp) (s : Machine) (q : List (List Char × Bool)), Refines cfg s q →
      ringTrace cfg ops s = fifoTrace cfg.BUFSIZE ops q
  | [], _, _, _ => rfl
  | .insert cmd b :: ops, s, q, h => by
    simp only [ringTrace, fifoTrace]
    exact ringTrace_eq_fifoTrace hp h16 hm ops _ _ (h.insert hp h16 hm cmd b)
  | .next :: ops, s, [], h => by
    have h0 : s.buflen = 0 := by simpa using h.len
    simp only [ringTrace, fifoTrace, h0, ne_eq, not_true_eq_false, if_false]
    exact ringTrace_eq_fifoTrace hp h16 hm ops s [] h
  | .next :: ops, s, x :: q, h => by
    obtain ⟨h1, h2, h3⟩ := h.next hp h16 hm
    simp only [ringTrace, fifoTrace, if_pos h1, h2]
    rw [ringTrace_eq_fifoTrace hp h16 hm ops _ q h3]

/-- C3: the ring buffer refines a bounded FIFO list. With `BUFSIZE` a power of two,
at most 16, and `BUFMASK = BUFSIZE - 1`, for every interleaving of
`insertcommand` calls and `next_command` removals from the empty queue, the
sequence of (line, sendAck) pairs that `next_command` passes to
`process_command` is the sequence popped from the FIFO list: each line is the
oldest inserted line not yet removed and sendAck is true exactly when that line
was inserted with `isSerialCmd = true`. -/
theorem ring_refines_fifo (cfg : Config) (k : Nat) (hp : cfg.BUFSIZE = 2 ^ k)
    (h16 : cfg.BUFSIZE ≤ 16) (hm : cfg.BUFMASK = cfg.BUFSIZE - 1) (ops : List FifoOp) :
    ringTrace cfg ops (Machine.init cfg) = fifoTrace cfg.BUFSIZE ops [] :=
  ringTrace_eq_fifoTrace hp h16 hm ops _ _ (Refines.init (bufsize_pos hp))

/-- C2, witness: inserting `G28` into the empty 8-slot queue. -/
theorem insertcommand_contract_witness :
    ("G28".toList.length < cfg8.MAX_CMD_SIZE ∧ cfg8.BUFSIZE ≤ 255 ∧
      (Machine.init cfg8).cmdbuffer.length = cfg8.BUFSIZE ∧ QueueInv cfg8 (Machine.init cfg8)) ∧
    ((insertcommand cfg8 "G28".toList true (Machine.init cfg8)).1 = false ↔
      ("G28".toList.head? = some ';' ∨ (Machine.init cfg8).buflen ≥ cfg8.BUFSIZE)) :=
  ⟨⟨by decide, by decide, by decide, init_inv (by decide)⟩,
    (insertcommand_contract cfg8 "G28".toList true (Machine.init cfg8) (by decide) (by decide)
      (by decide) (init_inv (by decide))).1⟩

/-- C3, witness: on the 8-slot build a mixed sequence of insertions and removals
yields the FIFO order. -/
theorem ring_refines_fifo_witness :
    (cfg8.BUFSIZE = 2 ^ 3 ∧ cfg8.BUFSIZE ≤ 16 ∧ cfg8.BUFMASK = cfg8.BUFSIZE - 1) ∧
    ringTrace cfg8 fifoOps8 (Machine.init cfg8) = fifoTrace cfg8.BUFSIZE fifoOps8 [] :=
  ⟨⟨by decide, by decide, by decide⟩,
    ring_refines_fifo cfg8 3 (by decide) (by decide) (by decide) fifoOps8⟩

/-! ## The serial framer on a numbered line -/

theorem writeList_append : ∀ (l pre tail : List Char), l.length ≤ tail.length →
    writeList (pre ++ tail) pre.length l = pre ++ l ++ tail.drop l.length
  | [], _, _, _ => by simp [writeList]
  | _ :: _, _, [], h => by simp at h
  | c :: cs, pre, t :: ts, h => by
    have hset : (pre ++ t :: ts).set pre.length c = (pre ++ [c]) ++ ts := by
      simp [List.set_append]
    rw [writeList, hset, show pre.length + 1 = (pre ++ [c]).length by simp,
      writeList_append cs (pre ++ [c]) ts (by simpa using h)]
    simp

theorem get_serial_loop_plain (cfg : Config) (hmax : cfg.MAX_CMD_SIZE ≤ 256) :
    ∀ (l rest : List Char) (fuel : Nat) (s : Machine), s.rx = l ++ rest →
      (∀ c ∈ l, plainChar c) → s.comment_mode = false → s.buflen < cfg.BUFSIZE →
      s.serial_count + l.length ≤ cfg.MAX_CMD_SIZE - 1 → l.length ≤ fuel →
      get_serial_loop cfg fuel s =
        get_serial_loop cfg (fuel - l.length)
          { s with rx := rest,
                   ghost := s.ghost ++ List.replicate l.length (Ghost.serialRead s.buflen),
                   cmd_line_buffer := writeList s.cmd_line_buffer s.serial_count l,
                   serial_count := s.serial_count + l.length }
  | [], rest, fuel, s, hrx, _, _, _, _, _ => by
    simp at hrx
    simp [writeList, ← hrx]
  | c :: cs, rest, fuel + 1, s, hrx, hpl, hcm, hbl, hcnt, hf => by
    obtain ⟨h1, h2, h3, h4⟩ := hpl c (by simp)
    simp only [List.length_cons] at hcnt hf
    have hlt : ¬ (s.serial_count ≥ cfg.MAX_CMD_SIZE - 1) := by omega
    rw [get_serial_loop, if_neg (by simpa using hbl)]
    simp only [List.cons_append] at hrx
    rw [hrx]
    simp only [h1, h2, h3, h4, or_self, if_false, hlt, hcm, Bool.false_eq_true, not_false_eq_true,
      if_true]
    rw [get_serial_loop_plain cfg hmax cs rest fuel _ rfl (fun c hc => hpl c (by simp [hc]))
      (by simp [serial_store, hcm]) (by simpa [serial_store] using hbl)
      (by simp [serial_store]; omega) (by omega)]
    have e : (s.serial_count + 1) % 256 = s.serial_count + 1 := by omega
    simp only [serial_store, e, List.length_cons, Nat.add_sub_add_right, writeList,
      List.replicate_succ, List.append_assoc, List.singleton_append]
    congr 2
    · omega
  | c :: cs, rest, 0, s, _, _, _, _, _, hf => by simp at hf

theorem cstr_append_nul : ∀ (l t : List Char), cstr (l ++ NUL :: t) = cstr l
  | [], t => by simp [cstr, List.takeWhile]
  | c :: cs, t => by
    have ih := cstr_append_nul cs t
    unfold cstr at ih ⊢
    rw [List.cons_append, List.takeWhile_cons, List.takeWhile_cons, ih]

theorem cstr_eq_self {l : List Char} (h : ∀ c ∈ l, c ≠ NUL) : cstr l = l := by
  unfold cstr
  rw [List.takeWhile_eq_self_iff]
  intro c hc
  simpa using h c hc

theorem set_length_append (l t : List Char) (c x : Char) :
    (l ++ x :: t).set l.length c = l ++ c :: t := by
  simp [List.set_append]

theorem get_serial_loop_line (cfg : Config) (hmax : cfg.MAX_CMD_SIZE ≤ 256)
    (l rest : List Char) (t : Char) (fuel : Nat) (s : Machine)
    (hrx : s.rx = l ++ t :: rest) (ht : t = '\n' ∨ t = '\r')
    (hpl : ∀ c ∈ l, plainChar c) (hne : l ≠ []) (hlen : l.length < cfg.MAX_CMD_SIZE)
    (hbuf : s.cmd_line_buffer.length = cfg.MAX_CMD_SIZE)
    (hcnt : s.serial_count = 0) (hcm : s.comment_mode = false) (hbl : s.buflen < cfg.BUFSIZE)
    (hf : l.length + 1 ≤ fuel) :
    get_serial_loop cfg fuel s =
      if (serial_check_line cfg ((cstr l).dropWhile (fun c => c = ' '))
          { s with rx := rest,
                   ghost := s.ghost ++ List.replicate (l.length + 1) (Ghost.serialRead s.buflen),
                   comment_mode := false,
                   cmd_line_buffer := l ++ NUL :: s.cmd_line_buffer.drop (l.length + 1),
                   serial_count := 0 }).2
      then get_serial_loop cfg (fuel - (l.length + 1))
        (serial_check_line cfg ((cstr l).dropWhile (fun c => c = ' '))
          { s with rx := rest,
                   ghost := s.ghost ++ List.replicate (l.length + 1) (Ghost.serialRead s.buflen),
                   comment_mode := false,
                   cmd_line_buffer := l ++ NUL :: s.cmd_line_buffer.drop (l.length + 1),
                   serial_count := 0 }).1
      else (serial_check_line cfg ((cstr l).dropWhile (fun c => c = ' '))
          { s with rx := rest,
                   ghost := s.ghost ++ List.replicate (l.length + 1) (Ghost.serialRead s.buflen),
                   comment_mode := false,
                   cmd_line_buffer := l ++ NUL :: s.cmd_line_buffer.drop (l.length + 1),
                   serial_count := 0 }).1 := by
  rw [get_serial_loop_plain cfg hmax l (t :: rest) fuel s hrx hpl hcm hbl (by omega) (by omega)]
  obtain ⟨f, rfl⟩ : ∃ f, fuel = f + (l.length + 1) := ⟨fuel - (l.length + 1), by omega⟩
  rw [show f + (l.length + 1) - l.length = f + 1 by omega, Nat.add_sub_cancel]
  have hl0 : l.length ≠ 0 := by
    intro h; exact hne (List.length_eq_zero.mp h)
  have hw : writeList s.cmd_line_buffer 0 l = l ++ s.cmd_line_buffer.drop l.length := by
    have := writeList_append l [] s.cmd_line_buffer (by omega)
    simpa using this
  obtain ⟨x, tl, htl⟩ : ∃ x tl, s.cmd_line_buffer.drop l.length = x :: tl := by
    cases h : s.cmd_line_buffer.drop l.length with
    | nil =>
      have := congrArg List.length h
      simp at this
      omega
    | cons x tl => exact ⟨x, tl, rfl⟩
  have htl2 : s.cmd_line_buffer.drop (l.length + 1) = tl := by
    rw [← List.drop_drop, htl]; rfl
  rw [get_serial_loop]
  simp only [hcnt, Nat.zero_add, hw, htl, htl2]
  rw [if_neg (by simpa using hbl)]
  simp only [serial_end_of_line, hl0, if_false, set_length_append, cstr_append_nul]
  rcases ht with rfl | rfl <;> simp [List.replicate_succ', List.append_assoc]

theorem digitChar_spec : ∀ n, n < 10 →
    (Char.ofNat (48 + n)).isDigit = true ∧ digitVal (Char.ofNat (48 + n)) = n := by
  decide

theorem isDigit_props {c : Char} (h : c.isDigit = true) :
    c ≠ '\n' ∧ c ≠ '\r' ∧ c ≠ '\\' ∧ c ≠ ';' ∧ c ≠ '*' ∧ c ≠ NUL ∧ c ≠ ' ' ∧ c ≠ 'M' ∧
    c ≠ 'N' ∧ c ≠ '-' ∧ c ≠ '+' ∧ isspace c = false := by
  refine ⟨?_, ?_, ?_, ?_, ?_, ?_, ?_, ?_, ?_, ?_, ?_, ?_⟩ <;>
    first
    | (rintro rfl; revert h; decide)
    | skip
  simp only [Char.isDigit, Bool.and_eq_true, decide_eq_true_eq] at h
  have h48 : (48 : UInt32) ≤ c.val := h.1
  simp only [isspace, Bool.or_eq_false_iff, decide_eq_false_iff_not]
  refine ⟨⟨⟨⟨⟨?_, ?_⟩, ?_⟩, ?_⟩, ?_⟩, ?_⟩ <;> (rintro rfl; revert h48; decide)

theorem parseDigits_decimalAux : ∀ (fuel n : Nat) (acc rest : List Char), n < fuel →
    parseDigits (decimalAux fuel n acc ++ rest) 0 = parseDigits (acc ++ rest) n
  | 0, _, _, _, h => by omega
  | fuel + 1, n, acc, rest, h => by
    unfold decimalAux
    split
    · rename_i h10
      obtain ⟨h1, h2⟩ := digitChar_spec n h10
      simp [parseDigits, h1, h2]
    · rename_i h10
      rw [parseDigits_decimalAux fuel (n / 10) _ rest (by omega)]
      obtain ⟨h1, h2⟩ := digitChar_spec (n % 10) (Nat.mod_lt _ (by norm_num))
      simp only [List.cons_append, parseDigits, h1, h2, if_true]
      congr 1
      omega

theorem decimalAux_digits : ∀ (fuel n : Nat) (acc : List Char), (∀ c ∈ acc, c.isDigit = true) →
    ∀ c ∈ decimalAux fuel n acc, c.isDigit = true
  | 0, _, acc, h => by simpa [decimalAux] using h
  | fuel + 1, n, acc, h => by
    unfold decimalAux
    split
    · rename_i h10
      intro c hc
      rcases List.mem_cons.mp hc with rfl | hc
      · exact (digitChar_spec n h10).1
      · exact h c hc
    · apply decimalAux_digits
      intro c hc
      rcases List.mem_cons.mp hc with rfl | hc
      · exact (digitChar_spec (n % 10) (Nat.mod_lt _ (by norm_num))).1
      · exact h c hc

theorem decimalAux_ne_nil : ∀ (fuel n : Nat) (acc : List Char),
    (0 < fuel ∨ acc ≠ []) → decimalAux fuel n acc ≠ []
  | 0, _, acc, h => by simpa [decimalAux] using h
  | fuel + 1, n, acc, _ => by
    unfold decimalAux
    split
    · simp
    · exact decimalAux_ne_nil fuel _ _ (Or.inr (by simp))

theorem decimal_digits (n : Nat) : ∀ c ∈ decimal n, c.isDigit = true :=
  decimalAux_digits _ _ _ (by simp)

theorem decimal_ne_nil (n : Nat) : decimal n ≠ [] :=
  decimalAux_ne_nil _ _ _ (Or.inl (by omega))

theorem parseDigits_stop {rest : List Char} (h : stopsParse rest) (a : Nat) :
    parseDigits rest a = a := by
  cases rest with
  | nil => rfl
  | cons c cs => simp [parseDigits, h c rfl]

theorem parseDigits_decimal (n : Nat) {rest : List Char} (h : stopsParse rest) :
    parseDigits (decimal n ++ rest) 0 = n := by
  rw [decimal, parseDigits_decimalAux _ _ _ _ (by omega)]
  simpa using parseDigits_stop h n

theorem strtol_digits {ds rest : List Char} (hd : ∀ c ∈ ds, c.isDigit = true) (hne : ds ≠ []) :
    strtol (ds ++ rest) = clampLong (parseDigits (ds ++ rest) 0) := by
  cases ds with
  | nil => exact absurd rfl hne
  | cons d ds =>
    have h := isDigit_props (hd d (by simp))
    unfold strtol
    have hdw : List.dropWhile isspace (d :: ds ++ rest) = d :: (ds ++ rest) := by
      simp [List.dropWhile, h.2.2.2.2.2.2.2.2.2.2.2]
    rw [hdw]
    split
    · rename_i heq
      simp only [List.cons.injEq] at heq
      exact absurd heq.1 h.2.2.2.2.2.2.2.2.2.1
    · rename_i heq
      simp only [List.cons.injEq] at heq
      exact absurd heq.1 h.2.2.2.2.2.2.2.2.2.2.1
    · rfl

theorem strtol_decimal (n : Nat) {rest : List Char} (h : stopsParse rest) :
    strtol (decimal n ++ rest) = clampLong n := by
  rw [strtol_digits (decimal_digits n) (decimal_ne_nil n), parseDigits_decimal n h]


theorem strchr_append {c : Char} : ∀ (pre rest : List Char), (∀ x ∈ pre, x ≠ c) →
    strchr (pre ++ c :: rest) c = some (c :: rest)
  | [], rest, _ => by simp [strchr]
  | x :: xs, rest, h => by
    have hx : x ≠ c := h x (by simp)
    simp only [List.cons_append, strchr, hx, if_false]
    exact strchr_append xs rest (fun y hy => h y (by simp [hy]))

theorem strchr_none {c : Char} : ∀ (l : List Char), (∀ x ∈ l, x ≠ c) → strchr l c = none
  | [], _ => rfl
  | x :: xs, h => by
    have hx : x ≠ c := h x (by simp)
    simp only [strchr, hx, if_false]
    exact strchr_none xs (fun y hy => h y (by simp [hy]))

theorem takeWhile_star : ∀ (pre rest : List Char), (∀ x ∈ pre, x ≠ '*') →
    (pre ++ '*' :: rest).takeWhile (fun c => c != '*') = pre
  | [], rest, _ => by simp [List.takeWhile]
  | x :: xs, rest, h => by
    have hx : x ≠ '*' := h x (by simp)
    rw [List.cons_append, List.takeWhile_cons]
    simp only [bne_iff_ne, ne_eq, hx, not_false_eq_true, if_true]
    rw [takeWhile_star xs rest (fun y hy => h y (by simp [hy]))]

theorem xorChecksum_append (pre rest : List Char) (h : ∀ x ∈ pre, x ≠ '*') :
    xorChecksum (pre ++ '*' :: rest) = xorBytes pre := by
  rw [xorChecksum, takeWhile_star pre rest h]

theorem strstr_skip {pat : List Char} {p : Char} {ps : List Char} (hpat : pat = p :: ps) :
    ∀ (pre rest : List Char), (∀ x ∈ pre, x ≠ p) → strstr (pre ++ rest) pat = strstr rest pat
  | [], _, _ => rfl
  | x :: xs, rest, h => by
    have hx : x ≠ p := h x (by simp)
    have hpre : pat.isPrefixOf (x :: (xs ++ rest)) = false := by
      subst hpat
      simp [List.isPrefixOf, Ne.symm hx]
    rw [List.cons_append, strstr, hpre]
    simp only [Bool.false_eq_true, if_false]
    exact strstr_skip hpat xs rest (fun y hy => h y (by simp [hy]))

theorem isPrefixOf_M110_star (xs r : List Char) :
    "M110".toList.isPrefixOf (xs ++ '*' :: r) = "M110".toList.isPrefixOf xs := by
  rcases xs with _ | ⟨a, _ | ⟨b, _ | ⟨c, _ | ⟨d, xs⟩⟩⟩⟩ <;> simp [List.isPrefixOf]

theorem strstr_M110_nil_or_none (l : List Char) (h : ∀ x ∈ l, x ≠ 'M') :
    strstr l "M110".toList = none := by
  have := @strstr_skip "M110".toList 'M' "110".toList rfl l [] h
  simpa [strstr] using this

theorem strstr_M110_append : ∀ (payload r : List Char),
    strstr payload "M110".toList = none → (∀ x ∈ r, x ≠ 'M') →
    strstr (payload ++ '*' :: r) "M110".toList = none
  | [], r, _, hr => by
    apply strstr_M110_nil_or_none
    intro x hx
    rcases List.mem_cons.mp (by simpa using hx) with rfl | hx
    · decide
    · exact hr x hx
  | x :: xs, r, h, hr => by
    rw [strstr] at h
    split at h
    · simp at h
    · rename_i hp
      rw [List.cons_append, strstr]
      have := isPrefixOf_M110_star (x :: xs) r
      rw [List.cons_append] at this
      rw [this]
      simp only [hp, if_false]
      exact strstr_M110_append xs r h hr


theorem xorBytes_lt (l : List Char) : xorBytes l < 256 := by
  unfold xorBytes
  induction l using List.reverseRecOn with
  | nil => simp
  | append_singleton xs x _ =>
    rw [List.foldl_append]
    exact Nat.mod_lt _ (by norm_num)

theorem clampLong_of_range {v : Int} (h1 : LONG_MIN ≤ v) (h2 : v ≤ LONG_MAX) : clampLong v = v := by
  unfold clampLong
  rw [if_neg (by omega), if_neg (by omega)]

theorem wrapLong_succ {v : Int} (h1 : LONG_MIN ≤ v) (h2 : v < LONG_MAX) : wrapLong (v + 1) = v + 1 := by
  unfold wrapLong
  unfold LONG_MIN at h1
  unfold LONG_MAX at h2
  omega

theorem wrapLong_max : wrapLong (LONG_MAX + 1) = LONG_MIN := by decide

theorem checkToolchange_frame (cfg : Config) (cmd : List Char) (s : Machine) :
    (checkToolchange cfg cmd s).gcode_LastN = s.gcode_LastN ∧
    (checkToolchange cfg cmd s).out = s.out ∧
    (checkToolchange cfg cmd s).rx = s.rx ∧
    (checkToolchange cfg cmd s).serial_count = s.serial_count ∧
    (checkToolchange cfg cmd s).comment_mode = s.comment_mode ∧
    (checkToolchange cfg cmd s).ghost = s.ghost ∧
    (checkToolchange cfg cmd s).cmd_line_buffer = s.cmd_line_buffer := by
  unfold checkToolchange
  split
  · simp
  · dsimp only
    split
    · split <;> simp
    · simp

theorem insertcommand_frame (cfg : Config) (cmd : List Char) (b : Bool) (s : Machine) :
    (insertcommand cfg cmd b s).2.gcode_LastN = s.gcode_LastN ∧
    (insertcommand cfg cmd b s).2.out = s.out ∧
    (insertcommand cfg cmd b s).2.rx = s.rx ∧
    (insertcommand cfg cmd b s).2.serial_count = s.serial_count ∧
    (insertcommand cfg cmd b s).2.comment_mode = s.comment_mode ∧
    (insertcommand cfg cmd b s).2.ghost = s.ghost ∧
    (insertcommand cfg cmd b s).2.cmd_line_buffer = s.cmd_line_buffer := by
  unfold insertcommand
  split
  · simp
  · dsimp only
    split
    · obtain ⟨e1, e2, e3, e4, e5, e6, e7⟩ := checkToolchange_frame cfg
        ((commit_command cfg b { s with cmdbuffer := s.cmdbuffer.set s.bufindw (cstr cmd) }).slot
          (commit_command cfg b { s with cmdbuffer := s.cmdbuffer.set s.bufindw (cstr cmd) }).bufindw)
        (commit_command cfg b { s with cmdbuffer := s.cmdbuffer.set s.bufindw (cstr cmd) })
      rw [e1, e2, e3, e4, e5, e6, e7]
      cases b <;> simp [commit_command]
    · cases b <;> simp [commit_command]

theorem stoppedAlert_frame (command : List Char) (s : Machine) :
    (stoppedAlert command s).buflen = s.buflen ∧ (stoppedAlert command s).bufindr = s.bufindr ∧
    (stoppedAlert command s).bufindw = s.bufindw ∧
    (stoppedAlert command s).cmdbuffer = s.cmdbuffer ∧
    (stoppedAlert command s).serialCmd = s.serialCmd ∧
    (stoppedAlert command s).gcode_LastN = s.gcode_LastN ∧
    (stoppedAlert command s).rx = s.rx ∧
    (stoppedAlert command s).serial_count = s.serial_count ∧
    (stoppedAlert command s).comment_mode = s.comment_mode ∧
    (stoppedAlert command s).ghost = s.ghost ∧
    (stoppedAlert command s).cmd_line_buffer = s.cmd_line_buffer := by
  unfold stoppedAlert
  split
  · split
    · dsimp only
      split <;> simp
    · simp
  · simp

theorem lineFacts (k : Nat) (payload : List Char)
    (hpay : ∀ x ∈ payload, plainChar x ∧ x ≠ '*' ∧ x ≠ NUL)
    (hm110 : strstr payload "M110".toList = none) : LineFacts k payload := by
  have hd := fun c hc => isDigit_props (decimal_digits k c hc)
  have hcd := fun c hc =>
    isDigit_props (decimal_digits (xorBytes ('N' :: decimal k ++ ' ' :: payload)) c hc)
  have hpre : ∀ x ∈ 'N' :: decimal k ++ ' ' :: payload, x ≠ '*' := by
    intro x hx
    simp only [List.cons_append, List.mem_cons, List.mem_append] at hx
    rcases hx with rfl | hx | rfl | hx
    · decide
    · exact (hd x hx).2.2.2.2.1
    · decide
    · exact (hpay x hx).2.1
  have hall : ∀ (P : Char → Prop), P 'N' → P ' ' → P '*' → (∀ c, c.isDigit = true → P c) →
      (∀ c ∈ payload, P c) → ∀ c ∈ serialLine k payload, P c := by
    intro P hN hS hT hD hP c hc
    simp only [serialLine, List.cons_append, List.mem_cons, List.mem_append, or_assoc] at hc
    rcases hc with rfl | hc | rfl | hc | rfl | hc
    · exact hN
    · exact hD c (decimal_digits k c hc)
    · exact hS
    · exact hP c hc
    · exact hT
    · exact hD c (decimal_digits _ c hc)
  have hshape : serialLine k payload = ('N' :: decimal k ++ ' ' :: payload) ++
      '*' :: decimal (xorBytes ('N' :: decimal k ++ ' ' :: payload)) := by
    simp [serialLine]
  refine ⟨rfl, ?_, ?_, ?_, ?_, ?_, ?_, ?_⟩
  · exact hall plainChar ⟨by decide, by decide, by decide, by decide⟩
      ⟨by decide, by decide, by decide, by decide⟩ ⟨by decide, by decide, by decide, by decide⟩
      (fun c h => ⟨(isDigit_props h).1, (isDigit_props h).2.1, (isDigit_props h).2.2.1,
        (isDigit_props h).2.2.2.1⟩) (fun c hc => (hpay c hc).1)
  · exact hall (fun c => c ≠ NUL) (by decide) (by decide) (by decide)
      (fun c h => (isDigit_props h).2.2.2.2.2.1) (fun c hc => (hpay c hc).2.2)
  · simp [serialLine]
  · rw [hshape]; exact strchr_append _ _ hpre
  · rw [hshape]; exact xorChecksum_append _ _ hpre
  · have h1 : serialLine k payload = ('N' :: decimal k ++ [' ']) ++
        (payload ++ '*' :: decimal (xorBytes ('N' :: decimal k ++ ' ' :: payload))) := by
      simp [serialLine]
    rw [h1, @strstr_skip "M110".toList 'M' "110".toList rfl]
    · exact strstr_M110_append _ _ hm110 (fun x hx => (hcd x hx).2.2.2.2.2.2.2.1)
    · intro x hx
      simp only [List.cons_append, List.mem_cons, List.mem_append, List.mem_singleton,
        List.not_mem_nil, or_false] at hx
      rcases hx with rfl | hx | rfl
      · decide
      · exact (hd x hx).2.2.2.2.2.2.2.1
      · decide
  · have ht : (serialLine k payload).tail = decimal k ++ (' ' :: payload ++
        '*' :: decimal (xorBytes ('N' :: decimal k ++ ' ' :: payload))) := by
      simp [serialLine]
    rw [ht]
    apply strtol_decimal
    intro c hc
    simp at hc
    subst hc
    decide


theorem serial_check_line_accept (cfg : Config) {k : Nat} {payload : List Char}
    (hf : LineFacts k payload) (s : Machine) (hk : (k : Int) ≤ LONG_MAX)
    (hseq : (k : Int) = wrapLong (s.gcode_LastN + 1)) :
    serial_check_line cfg (serialLine k payload) s =
      (serial_enqueue cfg (serialLine k payload) { s with gcode_LastN := (k : Int) }, true) := by
  have hck : clampLong (k : Int) = k := clampLong_of_range (by unfold LONG_MIN; omega) hk
  have hsum : strtol (decimal (xorBytes ('N' :: decimal k ++ ' ' :: payload))) =
      (xorBytes ('N' :: decimal k ++ ' ' :: payload) : Int) := by
    have := @strtol_decimal (xorBytes ('N' :: decimal k ++ ' ' :: payload)) []
      (by intro c hc; simp at hc)
    rw [List.append_nil] at this
    rw [this]
    apply clampLong_of_range
    · unfold LONG_MIN; omega
    · have := xorBytes_lt ('N' :: decimal k ++ ' ' :: payload)
      unfold LONG_MAX; omega
  have hN : ¬(clampLong (k : Int) ≠ wrapLong (s.gcode_LastN + 1) ∧ ¬False) := by
    rw [hck]
    intro h
    exact h.1 hseq
  unfold serial_check_line
  simp only [hf.head, hf.m110, hf.star, hf.sum, hf.num, Option.isSome_none,
    Bool.false_eq_true, if_false, if_true, List.tail_cons, hsum, ne_eq, not_true_eq_false]
  rw [if_neg hN, hck]

theorem serial_check_line_lineno (cfg : Config) {k : Nat} {payload : List Char}
    (hf : LineFacts k payload) (s : Machine)
    (hseq : clampLong (k : Int) ≠ wrapLong (s.gcode_LastN + 1)) :
    serial_check_line cfg (serialLine k payload) s =
      (gcode_line_error cfg "MSG_ERR_LINE_NO" true s, false) := by
  unfold serial_check_line
  simp only [hf.head, hf.m110, hf.num, Option.isSome_none, Bool.false_eq_true, if_false, if_true,
    ne_eq, hseq, not_false_eq_true, and_self]

theorem gcode_line_error_frame (cfg : Config) (err : String) (b : Bool) (s : Machine) :
    (gcode_line_error cfg err b s).buflen = s.buflen ∧
    (gcode_line_error cfg err b s).bufindr = s.bufindr ∧
    (gcode_line_error cfg err b s).bufindw = s.bufindw ∧
    (gcode_line_error cfg err b s).cmdbuffer = s.cmdbuffer ∧
    (gcode_line_error cfg err b s).serialCmd = s.serialCmd ∧
    (gcode_line_error cfg err b s).gcode_LastN = s.gcode_LastN ∧
    (gcode_line_error cfg err b s).serial_count = 0 := by
  cases b <;> simp [gcode_line_error, FlushSerialRequestResend, ClearToSend]

theorem get_serial_loop_nil (cfg : Config) (fuel : Nat) (s : Machine) (h : s.rx = []) :
    get_serial_loop cfg fuel s = s := by
  cases fuel with
  | zero => rfl
  | succ n =>
    rw [get_serial_loop]
    split
    · rfl
    · simp [h]

theorem serial_enqueue_accept (cfg : Config) (command : List Char) (s : Machine)
    (h1 : command.head? ≠ some ';') (h2 : s.buflen < cfg.BUFSIZE) :
    (serial_enqueue cfg command s).buflen = (s.buflen + 1) % 256 ∧
    (serial_enqueue cfg command s).cmdbuffer = s.cmdbuffer.set s.bufindw (cstr command) ∧
    (serial_enqueue cfg command s).gcode_LastN = s.gcode_LastN ∧
    (serial_enqueue cfg command s).rx = s.rx := by
  obtain ⟨a1, a2, a3, a4, a5, a6, a7, a8, a9, a10, a11⟩ := stoppedAlert_frame command s
  have hc : ¬(command.head? = some ';' ∨
      ({ stoppedAlert command s with
          ghost := (stoppedAlert command s).ghost ++
            [Ghost.insertCall (stoppedAlert command s).buflen command] } : Machine).buflen ≥
        cfg.BUFSIZE) := by
    simp only [a1]
    rintro (h | h)
    · exact h1 h
    · omega
  obtain ⟨-, e2, e3, -, -, -⟩ := insertcommand_accept hc (serialFlag cfg command)
  obtain ⟨f1, -, f3, -⟩ := insertcommand_frame cfg command (serialFlag cfg command)
    { stoppedAlert command s with
        ghost := (stoppedAlert command s).ghost ++
          [Ghost.insertCall (stoppedAlert command s).buflen command] }
  unfold serial_enqueue
  refine ⟨?_, ?_, ?_, ?_⟩
  · rw [e3]; simp [a1]
  · rw [e2]; simp [a3, a4]
  · rw [f1]; simp [a6]
  · rw [f3]; simp [a7]

/-- C4 (as amended): for every line `N<k> <payload>*<c>` followed by a newline, where
`k` fits in a `long` (`k ≤ 2^31 - 1`), `c` is the decimal value of the XOR of
all bytes before the `*`, the payload has no CR, LF, `;`, `\`, `*` or NUL byte
and does not contain `M110`, the line is shorter than `MAX_CMD_SIZE` and the
queue is not full: `get_serial_commands`, started at the beginning of a line,
enqueues the line (one more command, the slot at the old `bufindw` holds the
line) and sets `gcode_LastN` to `k` if and only if `k = gcode_LastN + 1`. -/
theorem serial_line_accept_iff (cfg : Config) (s : Machine) (k : Nat) (payload : List Char)
    (hmax : cfg.MAX_CMD_SIZE ≤ 256) (hB : cfg.BUFSIZE ≤ 255)
    (hk : (k : Int) ≤ LONG_MAX)
    (hlast : LONG_MIN ≤ s.gcode_LastN ∧ s.gcode_LastN ≤ LONG_MAX)
    (hpay : ∀ x ∈ payload, plainChar x ∧ x ≠ '*' ∧ x ≠ NUL)
    (hm110 : strstr payload "M110".toList = none)
    (hlen : (serialLine k payload).length < cfg.MAX_CMD_SIZE)
    (hbuf : s.cmd_line_buffer.length = cfg.MAX_CMD_SIZE)
    (hfresh : s.serial_count = 0 ∧ s.comment_mode = false)
    (hroom : s.buflen < cfg.BUFSIZE) (hslot : s.bufindw < s.cmdbuffer.length)
    (hrx : s.rx = serialLine k payload ++ ['\n']) :
    ((get_serial_commands cfg s).buflen = s.buflen + 1 ∧
      (get_serial_commands cfg s).slot s.bufindw = serialLine k payload ∧
      (get_serial_commands cfg s).gcode_LastN = k) ↔ (k : Int) = s.gcode_LastN + 1 := by
  have hf := lineFacts k payload hpay hm110
  have hcmd : (cstr (serialLine k payload)).dropWhile (fun c => c = ' ') = serialLine k payload := by
    rw [cstr_eq_self hf.nonul]
    simp [serialLine, List.dropWhile]
  have hrun := get_serial_loop_line cfg hmax (serialLine k payload) [] '\n'
    ((serialLine k payload).length + 1) s hrx (Or.inl rfl) hf.plain hf.ne_nil hlen hbuf hfresh.1
    hfresh.2 hroom (le_refl _)
  have hlen' : s.rx.length = (serialLine k payload).length + 1 := by simp [hrx]
  rw [hcmd, Nat.sub_self] at hrun
  obtain ⟨s2, hs2, hN2, hl2, hw2, hc2⟩ : ∃ s2 : Machine,
      get_serial_loop cfg ((serialLine k payload).length + 1) s =
        (if (serial_check_line cfg (serialLine k payload) s2).2 then
          get_serial_loop cfg 0 (serial_check_line cfg (serialLine k payload) s2).1
        else (serial_check_line cfg (serialLine k payload) s2).1) ∧
      s2.gcode_LastN = s.gcode_LastN ∧ s2.buflen = s.buflen ∧ s2.bufindw = s.bufindw ∧
      s2.cmdbuffer = s.cmdbuffer := ⟨_, hrun, rfl, rfl, rfl, rfl⟩
  rw [get_serial_commands, hlen', hs2]
  by_cases hseq : (k : Int) = s.gcode_LastN + 1
  · have hw : wrapLong (s.gcode_LastN + 1) = s.gcode_LastN + 1 :=
      wrapLong_succ hlast.1 (by omega)
    rw [serial_check_line_accept cfg hf s2 hk (by rw [hN2, hw]; exact hseq)]
    simp only [if_true, get_serial_loop]
    obtain ⟨e1, e2, e3, -⟩ := serial_enqueue_accept cfg (serialLine k payload)
      { s2 with gcode_LastN := (k : Int) } (by rw [hf.head]; decide) (by simpa [hl2] using hroom)
    refine ⟨fun _ => hseq, fun _ => ⟨?_, ?_, ?_⟩⟩
    · rw [e1]; simp only [hl2]; omega
    · show List.getD _ _ _ = _
      rw [e2]
      simp [List.getD_eq_getElem?_getD, hslot, cstr_eq_self hf.nonul, hw2, hc2]
    · rw [e3]
  · have hne : clampLong (k : Int) ≠ wrapLong (s2.gcode_LastN + 1) := by
      rw [clampLong_of_range (by unfold LONG_MIN; omega) hk, hN2]
      by_cases hmaxN : s.gcode_LastN = LONG_MAX
      · rw [hmaxN, wrapLong_max]; unfold LONG_MIN; omega
      · rw [wrapLong_succ hlast.1 (lt_of_le_of_ne hlast.2 hmaxN)]
        exact hseq
    rw [serial_check_line_lineno cfg hf s2 hne]
    simp only [Bool.false_eq_true, if_false]
    obtain ⟨e1, -⟩ := gcode_line_error_frame cfg "MSG_ERR_LINE_NO" true s2
    constructor
    · intro ⟨h, _⟩
      rw [e1, hl2] at h
      simp at h
    · intro h; exact absurd h hseq

/-- C4, counterexample: the claim as stated fails in two ways. A payload made of a
NUL byte satisfies the claim's conditions and `k = 1 = gcode_LastN + 1`, yet the
line is rejected (the NUL ends the C string before the `*`). And for
`k = 2^31 = gcode_LastN + 1` the line is rejected too, since no `long` holds
`k`. -/
theorem serial_line_accept_fails :
    ((1 : Int) = (lineState cfg8 0 (serialLine 1 [NUL] ++ ['\n'])).gcode_LastN + 1 ∧
      (get_serial_commands cfg8 (lineState cfg8 0 (serialLine 1 [NUL] ++ ['\n']))).buflen = 0 ∧
      (get_serial_commands cfg8 (lineState cfg8 0 (serialLine 1 [NUL] ++ ['\n']))).gcode_LastN = 0) ∧
    ((2147483648 : Int) =
        (lineState cfg8 2147483647 (serialLine 2147483648 "G28".toList ++ ['\n'])).gcode_LastN + 1 ∧
      (get_serial_commands cfg8
        (lineState cfg8 2147483647 (serialLine 2147483648 "G28".toList ++ ['\n']))).buflen = 0 ∧
      (get_serial_commands cfg8
        (lineState cfg8 2147483647 (serialLine 2147483648 "G28".toList ++ ['\n']))).gcode_LastN =
          2147483647) := by
  decide

/-- C4, witness: the line `N1 G28*18` after start-up. -/
theorem serial_line_accept_iff_witness :
    ((get_serial_commands cfg8 (lineState cfg8 0 (serialLine 1 "G28".toList ++ ['\n']))).buflen =
        (lineState cfg8 0 (serialLine 1 "G28".toList ++ ['\n'])).buflen + 1 ∧
      (get_serial_commands cfg8 (lineState cfg8 0 (serialLine 1 "G28".toList ++ ['\n']))).slot
        (lineState cfg8 0 (serialLine 1 "G28".toList ++ ['\n'])).bufindw =
          serialLine 1 "G28".toList ∧
      (get_serial_commands cfg8 (lineState cfg8 0 (serialLine 1 "G28".toList ++ ['\n']))).gcode_LastN =
        (1 : Nat)) ↔
    ((1 : Nat) : Int) = (lineState cfg8 0 (serialLine 1 "G28".toList ++ ['\n'])).gcode_LastN + 1 :=
  serial_line_accept_iff cfg8 (lineState cfg8 0 (serialLine 1 "G28".toList ++ ['\n'])) 1
    "G28".toList (by decide) (by decide) (by decide) (by decide)
    (by unfold plainChar; decide) (by decide) (by decide) (by decide) (by decide) (by decide)
    (by decide) rfl

/-! ## Single-byte mutations of a numbered line -/

theorem SameBut.refl (s : Machine) : SameBut s s := rfl

theorem SameBut.buflen {s0 s : Machine} (h : SameBut s0 s) : s.buflen = s0.buflen := by
  have h2 := congrArg Machine.buflen h
  exact h2

theorem Accumulated.start {cfg : Config} {s : Machine} (h0 : s.serial_count = 0)
    (hsz : s.cmd_line_buffer.length = cfg.MAX_CMD_SIZE) : Accumulated cfg s s [] :=
  ⟨rfl, h0, ⟨s.cmd_line_buffer, rfl⟩, hsz⟩

theorem accumulate_plain {cfg : Config} (hmax : cfg.MAX_CMD_SIZE ≤ 256) {s0 s : Machine}
    {acc : List Char} (ha : Accumulated cfg s0 s acc) (l rest : List Char) (fuel : Nat)
    (hrx : s.rx = l ++ rest) (hpl : ∀ c ∈ l, plainChar c) (hcm : s.comment_mode = false)
    (hbl : s.buflen < cfg.BUFSIZE) (hcnt : acc.length + l.length ≤ cfg.MAX_CMD_SIZE - 1)
    (hf : l.length ≤ fuel) :
    ∃ s', get_serial_loop cfg fuel s = get_serial_loop cfg (fuel - l.length) s' ∧
      Accumulated cfg s0 s' (acc ++ l) ∧ s'.rx = rest ∧ s'.comment_mode = false := by
  obtain ⟨tl, htl⟩ := ha.buf
  have hsz := ha.size
  have hlen : l.length ≤ tl.length := by
    rw [htl, List.length_append] at hsz
    omega
  refine ⟨_, get_serial_loop_plain cfg hmax l rest fuel s hrx hpl hcm hbl
    (by rw [ha.count]; exact hcnt) hf, ⟨?_, ?_, ?_, ?_⟩, rfl, hcm⟩
  · exact ha.same
  · simp [ha.count]
  · refine ⟨tl.drop l.length, ?_⟩
    show writeList s.cmd_line_buffer s.serial_count l = _
    rw [htl, ha.count, writeList_append l acc tl hlen]
  · show (writeList s.cmd_line_buffer s.serial_count l).length = _
    rw [htl, ha.count, writeList_append l acc tl hlen, ← hsz, htl]
    simp
    omega

theorem accumulate_escape {cfg : Config} (hmax : cfg.MAX_CMD_SIZE ≤ 256) {s0 s : Machine}
    {acc : List Char} (ha : Accumulated cfg s0 s acc) (c2 : Char) (rest : List Char) (fuel : Nat)
    (hrx : s.rx = '\\' :: c2 :: rest) (hcm : s.comment_mode = false)
    (hbl : s.buflen < cfg.BUFSIZE) (hcnt : acc.length + 1 ≤ cfg.MAX_CMD_SIZE - 1)
    (hf : 1 ≤ fuel) :
    ∃ s', get_serial_loop cfg fuel s = get_serial_loop cfg (fuel - 1) s' ∧
      Accumulated cfg s0 s' (acc ++ [c2]) ∧ s'.rx = rest ∧ s'.comment_mode = false := by
  obtain ⟨tl, htl⟩ := ha.buf
  have hsz := ha.size
  obtain ⟨f, rfl⟩ : ∃ f, fuel = f + 1 := ⟨fuel - 1, by omega⟩
  have hlt : ¬ (s.serial_count ≥ cfg.MAX_CMD_SIZE - 1) := by rw [ha.count]; omega
  obtain ⟨x, tl', rfl⟩ : ∃ x tl', tl = x :: tl' := by
    cases tl with
    | nil => rw [htl] at hsz; simp at hsz; omega
    | cons x tl' => exact ⟨x, tl', rfl⟩
  let s1 : Machine :=
    { s with rx := rest,
             ghost := s.ghost ++ [Ghost.serialRead s.buflen] ++ [Ghost.serialRead s.buflen] }
  refine ⟨serial_store c2 s1, ?_, ⟨?_, ?_, ⟨tl', ?_⟩, ?_⟩, ?_, ?_⟩
  · rw [get_serial_loop, if_neg (by simpa using hbl), hrx]
    simp only [hlt, hcm, if_false, Bool.false_eq_true, not_false_eq_true, if_true,
      show ¬('\\' = '\n' ∨ '\\' = '\r') by decide, Nat.add_sub_cancel]
    simp [s1, hcm]
  · exact ha.same
  · simp [serial_store, ha.count]; omega
  · simp [serial_store, htl, ha.count, List.set_append]
  · simp [serial_store, hsz]
  · rfl
  · simpa [serial_store] using hcm

theorem accumulate_semicolon {cfg : Config} {s0 s : Machine}
    {acc : List Char} (ha : Accumulated cfg s0 s acc) (rest : List Char) (fuel : Nat)
    (hrx : s.rx = ';' :: rest) (hbl : s.buflen < cfg.BUFSIZE)
    (hcnt : acc.length + 1 ≤ cfg.MAX_CMD_SIZE - 1) (hf : 1 ≤ fuel) :
    ∃ s', get_serial_loop cfg fuel s = get_serial_loop cfg (fuel - 1) s' ∧
      Accumulated cfg s0 s' acc ∧ s'.rx = rest ∧ s'.comment_mode = true := by
  obtain ⟨f, rfl⟩ : ∃ f, fuel = f + 1 := ⟨fuel - 1, by omega⟩
  have hlt : ¬ (s.serial_count ≥ cfg.MAX_CMD_SIZE - 1) := by rw [ha.count]; omega
  let s1 : Machine :=
    { s with rx := rest, ghost := s.ghost ++ [Ghost.serialRead s.buflen], comment_mode := true }
  refine ⟨s1, ?_, ⟨?_, ?_, ?_, ?_⟩, ?_, ?_⟩
  · rw [get_serial_loop, if_neg (by simpa using hbl), hrx]
    simp only [hlt, if_false, if_true, not_true_eq_false,
      show ¬(';' = '\n' ∨ ';' = '\r') by decide, show ¬(';' = '\\') by decide, Nat.add_sub_cancel]
  · exact ha.same
  · exact ha.count
  · exact ha.buf
  · exact ha.size
  · rfl
  · rfl

theorem accumulate_comment {cfg : Config} {s0 : Machine} {acc : List Char} :
    ∀ (l rest : List Char) (fuel : Nat) (s : Machine), Accumulated cfg s0 s acc →
      s.rx = l ++ rest → (∀ c ∈ l, c ≠ '\n' ∧ c ≠ '\r' ∧ c ≠ '\\') → s.comment_mode = true →
      s.buflen < cfg.BUFSIZE → l.length ≤ fuel →
      ∃ s', get_serial_loop cfg fuel s = get_serial_loop cfg (fuel - l.length) s' ∧
        Accumulated cfg s0 s' acc ∧ s'.rx = rest ∧ s'.comment_mode = true
  | [], rest, fuel, s, ha, hrx, _, hcm, _, _ => ⟨s, by simp, ha, by simpa using hrx, hcm⟩
  | c :: cs, rest, 0, s, _, _, _, _, _, hf => by simp at hf
  | c :: cs, rest, fuel + 1, s, ha, hrx, hpl, hcm, hbl, hf => by
    obtain ⟨h1, h2, h3⟩ := hpl c (by simp)
    obtain ⟨s', e, ha', hrx', hcm'⟩ := accumulate_comment cs rest fuel
      { s with rx := cs ++ rest, ghost := s.ghost ++ [Ghost.serialRead s.buflen],
               comment_mode := true }
      ⟨ha.same, ha.count, ha.buf, ha.size⟩ rfl (fun x hx => hpl x (by simp [hx])) rfl hbl
      (by simpa using hf)
    refine ⟨s', ?_, ha', hrx', hcm'⟩
    rw [← show fuel - cs.length = fuel + 1 - (c :: cs).length by simp, ← e]
    rw [get_serial_loop, if_neg (by simpa using hbl), hrx]
    simp only [List.cons_append, h1, h2, h3, or_self, if_false, hcm, if_true, not_true_eq_false,
      ite_self]

theorem xor_mod_256 (a b : Nat) : (a ^^^ b) % 256 = (a % 256) ^^^ (b % 256) := by
  apply Nat.eq_of_testBit_eq
  intro i
  rw [show (256 : Nat) = 2 ^ 8 by norm_num]
  simp only [Nat.testBit_mod_two_pow, Nat.testBit_xor]
  by_cases h : i < 8 <;> simp [h]

theorem xorFold_acc : ∀ (y : List Char) (acc : Nat), acc < 256 →
    y.foldl (fun acc c => (acc ^^^ c.toNat) % 256) acc = acc ^^^ xorBytes y
  | [], acc, _ => by simp [xorBytes]
  | c :: y, acc, h => by
    have h1 : (acc ^^^ c.toNat) % 256 < 256 := Nat.mod_lt _ (by norm_num)
    have h2 : (0 ^^^ c.toNat) % 256 < 256 := Nat.mod_lt _ (by norm_num)
    rw [xorBytes, List.foldl_cons, List.foldl_cons, xorFold_acc y _ h1, xorFold_acc y _ h2,
      xor_mod_256, Nat.mod_eq_of_lt h, Nat.zero_xor, Nat.xor_assoc]

theorem xorBytes_append (x y : List Char) : xorBytes (x ++ y) = xorBytes x ^^^ xorBytes y := by
  rw [xorBytes, List.foldl_append]
  exact xorFold_acc y _ (xorBytes_lt x)

theorem xorBytes_cons (a : Char) (y : List Char) :
    xorBytes (a :: y) = (a.toNat % 256) ^^^ xorBytes y := by
  rw [xorBytes, List.foldl_cons, xorFold_acc y _ (Nat.mod_lt _ (by norm_num)), Nat.zero_xor]

theorem xorBytes_replace_ne (x y : List Char) {a b : Char} (ha : a.toNat < 256)
    (hb : b.toNat < 256) (hab : b ≠ a) :
    xorBytes (x ++ b :: y) ≠ xorBytes (x ++ a :: y) := by
  rw [xorBytes_append, xorBytes_append, xorBytes_cons, xorBytes_cons]
  intro h
  have h1 := Nat.xor_right_injective h
  have h2 := Nat.xor_left_injective h1
  rw [Nat.mod_eq_of_lt ha, Nat.mod_eq_of_lt hb] at h2
  apply hab
  rw [← Char.ofNat_toNat a, ← Char.ofNat_toNat b, h2]

theorem xorBytes_remove_ne (x y : List Char) {a : Char} (ha : a.toNat < 256) (hn : a ≠ NUL) :
    xorBytes (x ++ y) ≠ xorBytes (x ++ a :: y) := by
  rw [xorBytes_append, xorBytes_append, xorBytes_cons]
  intro h
  have h1 := Nat.xor_right_injective h
  have h2 : (a.toNat % 256) ^^^ xorBytes y = 0 ^^^ xorBytes y := by rw [Nat.zero_xor]; exact h1.symm
  have h3 := Nat.xor_left_injective h2
  rw [Nat.mod_eq_of_lt ha] at h3
  apply hn
  rw [← Char.ofNat_toNat a, h3]
  rfl

theorem parseDigits_append : ∀ (x r : List Char) (a : Nat), (∀ c ∈ x, c.isDigit = true) →
    parseDigits (x ++ r) a = parseDigits r (parseDigits x a)
  | [], r, a, _ => by simp [parseDigits]
  | c :: x, r, a, h => by
    have hc := h c (by simp)
    simp only [List.cons_append, parseDigits, hc, if_true]
    exact parseDigits_append x r _ (fun d hd => h d (by simp [hd]))

theorem parseDigits_acc : ∀ (y : List Char) (a : Nat), (∀ c ∈ y, c.isDigit = true) →
    parseDigits y a = a * 10 ^ y.length + parseDigits y 0
  | [], a, _ => by simp [parseDigits]
  | c :: y, a, h => by
    have hc := h c (by simp)
    have hy := fun d hd => h d (List.mem_cons_of_mem c hd)
    simp only [parseDigits, hc, if_true, List.length_cons]
    rw [parseDigits_acc y (a * 10 + digitVal c) hy, parseDigits_acc y (0 * 10 + digitVal c) hy]
    ring

theorem digitVal_inj {c d : Char} (hc : c.isDigit = true) (hd : d.isDigit = true)
    (h : digitVal c = digitVal d) : c = d := by
  simp only [Char.isDigit, Bool.and_eq_true, decide_eq_true_eq] at hc hd
  have c1 : 48 ≤ c.toNat := hc.1
  have d1 : 48 ≤ d.toNat := hd.1
  unfold digitVal at h
  have e : c.toNat = d.toNat := by
    have : ('0' : Char).toNat = 48 := rfl
    omega
  rw [← Char.ofNat_toNat c, ← Char.ofNat_toNat d, e]

theorem parseDigits_replace_ne (x y : List Char) {d d' : Char}
    (hx : ∀ c ∈ x, c.isDigit = true) (hy : ∀ c ∈ y, c.isDigit = true)
    (hd : d.isDigit = true) (hd' : d'.isDigit = true) (hne : d' ≠ d) :
    parseDigits (x ++ d' :: y) 0 ≠ parseDigits (x ++ d :: y) 0 := by
  rw [parseDigits_append x _ 0 hx, parseDigits_append x _ 0 hx]
  simp only [parseDigits, hd, hd', if_true]
  rw [parseDigits_acc y _ hy, parseDigits_acc y (_ * 10 + digitVal d) hy]
  intro h
  have h1 : (parseDigits x 0 * 10 + digitVal d') * 10 ^ y.length =
      (parseDigits x 0 * 10 + digitVal d) * 10 ^ y.length := by omega
  have h2 := Nat.eq_of_mul_eq_mul_right (by positivity) h1
  exact hne (digitVal_inj hd' hd (by omega))


theorem accumulate_eol {cfg : Config} {s0 s : Machine} {acc : List Char}
    (ha : Accumulated cfg s0 s acc) (t : Char) (rest : List Char) (fuel : Nat)
    (hrx : s.rx = t :: rest) (ht : t = '\n' ∨ t = '\r') (hne : acc ≠ [])
    (hlen : acc.length < cfg.MAX_CMD_SIZE) (hbl : s.buflen < cfg.BUFSIZE) (hf : 1 ≤ fuel) :
    ∃ s', SameBut s0 s' ∧ s'.serial_count = 0 ∧ s'.rx = rest ∧
      get_serial_loop cfg fuel s =
        if (serial_check_line cfg ((cstr acc).dropWhile (fun c => c = ' ')) s').2 then
          get_serial_loop cfg (fuel - 1)
            (serial_check_line cfg ((cstr acc).dropWhile (fun c => c = ' ')) s').1
        else (serial_check_line cfg ((cstr acc).dropWhile (fun c => c = ' ')) s').1 := by
  obtain ⟨tl, htl⟩ := ha.buf
  have hsz := ha.size
  obtain ⟨f, rfl⟩ : ∃ f, fuel = f + 1 := ⟨fuel - 1, by omega⟩
  obtain ⟨x, tl', rfl⟩ : ∃ x tl', tl = x :: tl' := by
    cases tl with
    | nil => rw [htl] at hsz; simp at hsz; omega
    | cons x tl' => exact ⟨x, tl', rfl⟩
  have hl0 : acc.length ≠ 0 := fun h => hne (List.length_eq_zero.mp h)
  let s1 : Machine :=
    { s with rx := rest, ghost := s.ghost ++ [Ghost.serialRead s.buflen], comment_mode := false,
             cmd_line_buffer := acc ++ NUL :: tl', serial_count := 0 }
  refine ⟨s1, ha.same, rfl, rfl, ?_⟩
  rw [get_serial_loop, if_neg (by simpa using hbl), hrx]
  have hte : (t = '\n' ∨ t = '\r') = True := by simp [ht]
  simp only [hte, if_true, serial_end_of_line, ha.count, hl0, if_false, htl, set_length_append,
    cstr_append_nul, Nat.add_sub_cancel]

theorem serial_check_line_reject (cfg : Config) (command : List Char) (s : Machine)
    (hN : command.head? = some 'N')
    (hnum : strtol command.tail = wrapLong (s.gcode_LastN + 1))
    (hbad : strchr command '*' = none ∨
      ∃ p, strchr command '*' = some p ∧ strtol p.tail ≠ (xorChecksum command : Int)) :
    ∃ msg, serial_check_line cfg command s = (gcode_line_error cfg msg true s, false) := by
  unfold serial_check_line
  simp only [hN, if_true]
  generalize (strstr command "M110".toList).isSome = m
  have hcond : ∀ x : List Char, ¬(strtol (if m = true then x else command).tail ≠
      wrapLong (s.gcode_LastN + 1) ∧ ¬m = true) := by
    intro x
    cases m
    · simp [hnum]
    · simp
  rw [if_neg (hcond _)]
  rcases hbad with h | ⟨p, hp, hne⟩
  · rw [h]; exact ⟨_, rfl⟩
  · rw [hp]
    simp only [hne, ne_eq, not_false_eq_true, if_true]
    exact ⟨_, rfl⟩

theorem gcode_line_error_out (cfg : Config) (err : String) (s : Machine) :
    (gcode_line_error cfg err true s).out =
      s.out ++ [Out.lineError err s.gcode_LastN, Out.resend (wrapLong (s.gcode_LastN + 1)),
        Out.ok] := by
  simp [gcode_line_error, FlushSerialRequestResend, ClearToSend]


theorem SameBut.fields {s0 s : Machine} (h : SameBut s0 s) :
    s.buflen = s0.buflen ∧ s.bufindr = s0.bufindr ∧ s.bufindw = s0.bufindw ∧
    s.cmdbuffer = s0.cmdbuffer ∧ s.gcode_LastN = s0.gcode_LastN ∧ s.out = s0.out := by
  have h1 := congrArg Machine.buflen h
  have h2 := congrArg Machine.bufindr h
  have h3 := congrArg Machine.bufindw h
  have h4 := congrArg Machine.cmdbuffer h
  have h5 := congrArg Machine.gcode_LastN h
  have h6 := congrArg Machine.out h
  exact ⟨h1, h2, h3, h4, h5, h6⟩

theorem reject_of_accumulated {cfg : Config} {s0 s : Machine} {acc : List Char}
    (ha : Accumulated cfg s0 s acc) (t : Char) (rest : List Char) (fuel : Nat)
    (hrx : s.rx = t :: rest) (ht : t = '\n' ∨ t = '\r') (hne : acc ≠ [])
    (hlen : acc.length < cfg.MAX_CMD_SIZE) (hbl : s0.buflen < cfg.BUFSIZE) (hf : 1 ≤ fuel)
    (hN : ((cstr acc).dropWhile (fun c => c = ' ')).head? = some 'N')
    (hnum : strtol ((cstr acc).dropWhile (fun c => c = ' ')).tail =
      wrapLong (s0.gcode_LastN + 1))
    (hbad : strchr ((cstr acc).dropWhile (fun c => c = ' ')) '*' = none ∨
      ∃ p, strchr ((cstr acc).dropWhile (fun c => c = ' ')) '*' = some p ∧
        strtol p.tail ≠ (xorChecksum ((cstr acc).dropWhile (fun c => c = ' ')) : Int)) :
    RejectedWithResend s0 (get_serial_loop cfg fuel s) (wrapLong (s0.gcode_LastN + 1)) := by
  obtain ⟨b1, -⟩ := ha.same.fields
  obtain ⟨s', hs', -, -, hrun⟩ := accumulate_eol ha t rest fuel hrx ht hne hlen
    (by rw [b1]; exact hbl) hf
  obtain ⟨c1, c2, c3, c4, c5, c6⟩ := hs'.fields
  obtain ⟨msg, hmsg⟩ := serial_check_line_reject cfg _ s' hN (by rw [c5]; exact hnum) hbad
  rw [hrun, hmsg]
  simp only [Bool.false_eq_true, if_false]
  obtain ⟨e1, e2, e3, e4, -, e6, -⟩ := gcode_line_error_frame cfg msg true s'
  refine ⟨by rw [e1, c1], by rw [e2, c2], by rw [e3, c3], by rw [e4, c4], by rw [e6, c5], msg, ?_⟩
  rw [gcode_line_error_out, c5, c6]

theorem head_mem {k : Nat} {body : List Char} {P : Char → Prop} (hN : P 'N') (hS : P ' ')
    (hD : ∀ c, c.isDigit = true → P c) (hB : ∀ c ∈ body, P c) :
    ∀ c ∈ 'N' :: decimal k ++ ' ' :: body, P c := by
  intro c hc
  simp only [List.cons_append, List.mem_cons, List.mem_append] at hc
  rcases hc with rfl | hc | rfl | hc
  · exact hN
  · exact hD c (decimal_digits k c hc)
  · exact hS
  · exact hB c hc

theorem plainChar_digit {c : Char} (h : c.isDigit = true) : plainChar c :=
  ⟨(isDigit_props h).1, (isDigit_props h).2.1, (isDigit_props h).2.2.1,
    (isDigit_props h).2.2.2.1⟩

theorem plainChar_N : plainChar 'N' := ⟨by decide, by decide, by decide, by decide⟩

theorem plainChar_space : plainChar ' ' := ⟨by decide, by decide, by decide, by decide⟩

theorem plainChar_star : plainChar '*' := ⟨by decide, by decide, by decide, by decide⟩

theorem plainChar_NUL : plainChar NUL := ⟨by decide, by decide, by decide, by decide⟩

theorem head_command {k : Nat} {body : List Char} (hB : ∀ c ∈ body, c ≠ NUL) :
    (cstr ('N' :: decimal k ++ ' ' :: body)).dropWhile (fun c => c = ' ') =
      'N' :: decimal k ++ ' ' :: body := by
  rw [cstr_eq_self (head_mem (by decide) (by decide)
    (fun c h => (isDigit_props h).2.2.2.2.2.1) hB)]
  simp [List.dropWhile]

theorem head_number (k : Nat) (body : List Char) :
    strtol ('N' :: decimal k ++ ' ' :: body).tail = clampLong k := by
  show strtol (decimal k ++ ' ' :: body) = _
  apply strtol_decimal
  intro c hc
  simp at hc
  subst hc
  decide


theorem payload_mutation_rejected (cfg : Config) (s : Machine) (k : Nat) (pre post : List Char)
    (a b : Char) (hmax : cfg.MAX_CMD_SIZE ≤ 256) (hk : (k : Int) ≤ LONG_MAX)
    (hlast : LONG_MIN ≤ s.gcode_LastN) (hseq : (k : Int) = s.gcode_LastN + 1)
    (hpay : ∀ x ∈ pre ++ a :: post, plainChar x ∧ x ≠ '*' ∧ x ≠ NUL ∧ x.toNat < 256)
    (hb : b ≠ a ∧ b ≠ '*' ∧ b.toNat < 256)
    (hlen : (serialLine k (pre ++ a :: post)).length < cfg.MAX_CMD_SIZE)
    (hbuf : s.cmd_line_buffer.length = cfg.MAX_CMD_SIZE)
    (hfresh : s.serial_count = 0 ∧ s.comment_mode = false) (hroom : s.buflen < cfg.BUFSIZE)
    (hrx : s.rx = mutatedPayloadLine k pre a b post ++ ['\n']) :
    RejectedWithResend s (get_serial_commands cfg s) k := by
  have hw : wrapLong (s.gcode_LastN + 1) = k := by
    rw [wrapLong_succ hlast (by omega), hseq]
  have hck : clampLong (k : Int) = k := clampLong_of_range (by unfold LONG_MIN; omega) hk
  rw [← hw]
  -- the pieces of the line
  have hpre : ∀ x ∈ pre, plainChar x ∧ x ≠ '*' ∧ x ≠ NUL ∧ x.toNat < 256 :=
    fun x hx => hpay x (by simp [hx])
  have hpost : ∀ x ∈ post, plainChar x ∧ x ≠ '*' ∧ x ≠ NUL ∧ x.toNat < 256 :=
    fun x hx => hpay x (by simp [hx])
  have hA := hpay a (by simp)
  generalize hdc : decimal (xorBytes ('N' :: decimal k ++ ' ' :: (pre ++ a :: post))) = dc at *
  have hdcd : ∀ c ∈ dc, c.isDigit = true := by
    rw [← hdc]; exact decimal_digits _
  have hdcv : strtol dc = (xorBytes ('N' :: decimal k ++ ' ' :: (pre ++ a :: post)) : Int) := by
    have := @strtol_decimal (xorBytes ('N' :: decimal k ++ ' ' :: (pre ++ a :: post))) []
      (by intro c hc; simp at hc)
    rw [List.append_nil, hdc] at this
    rw [this]
    apply clampLong_of_range
    · unfold LONG_MIN; omega
    · have := xorBytes_lt ('N' :: decimal k ++ ' ' :: (pre ++ a :: post))
      unfold LONG_MAX; omega
  have hshape : mutatedPayloadLine k pre a b post ++ ['\n'] =
      ('N' :: decimal k ++ ' ' :: pre) ++ b :: ((post ++ '*' :: dc) ++ ['\n']) := by
    unfold mutatedPayloadLine
    rw [hdc]
    simp
  have hlen1 : ('N' :: decimal k ++ ' ' :: pre).length + 1 + (post ++ '*' :: dc).length <
      cfg.MAX_CMD_SIZE := by
    unfold serialLine at hlen
    rw [hdc] at hlen
    simp only [List.length_cons, List.length_append] at hlen ⊢
    omega
  have hl1p : ∀ c ∈ 'N' :: decimal k ++ ' ' :: pre, plainChar c :=
    head_mem plainChar_N plainChar_space (fun c h => plainChar_digit h) (fun c hc => (hpre c hc).1)
  have hl1s : ∀ c ∈ 'N' :: decimal k ++ ' ' :: pre, c ≠ '*' :=
    head_mem (by decide) (by decide) (fun c h => (isDigit_props h).2.2.2.2.1)
      (fun c hc => (hpre c hc).2.1)
  have hl1n : ∀ c ∈ pre, c ≠ NUL := fun c hc => (hpre c hc).2.2.1
  have hqp : ∀ c ∈ post ++ '*' :: dc, plainChar c := by
    intro c hc
    simp only [List.mem_append, List.mem_cons] at hc
    rcases hc with hc | rfl | hc
    · exact (hpost c hc).1
    · exact plainChar_star
    · exact plainChar_digit (hdcd c hc)
  have hfuel : s.rx.length =
      ('N' :: decimal k ++ ' ' :: pre).length + 1 + (post ++ '*' :: dc).length + 1 := by
    rw [hrx, hshape]
    simp only [List.length_append, List.length_cons, List.length_nil]
    omega
  rw [hshape] at hrx
  have h0 : Accumulated cfg s s [] := Accumulated.start hfresh.1 hbuf
  rw [get_serial_commands]
  -- accumulate the head of the line and the payload bytes before the mutated one
  obtain ⟨s1, e1, ha1, hrx1, hcm1⟩ := accumulate_plain hmax h0 _ _ s.rx.length hrx hl1p hfresh.2
    hroom (by simp only [List.length_nil]; omega) (by omega)
  rw [List.nil_append] at ha1
  obtain ⟨b1, -⟩ := ha1.same.fields
  rw [e1]
  by_cases hterm : b = '\n' ∨ b = '\r'
  · -- the mutated byte ends the line early
    refine reject_of_accumulated ha1 b _ _ hrx1 hterm (by simp) (by omega) hroom (by omega) ?_ ?_ ?_
    · rw [head_command hl1n]; rfl
    · rw [head_command hl1n, head_number, hck, hw]
    · left
      rw [head_command hl1n]
      exact strchr_none _ hl1s
  by_cases hsemi : b = ';'
  · -- the mutated byte starts a comment
    subst hsemi
    obtain ⟨s2, e2, ha2, hrx2, hcm2⟩ := accumulate_semicolon ha1 _
      (s.rx.length - ('N' :: decimal k ++ ' ' :: pre).length) hrx1 (by rw [b1]; exact hroom)
      (by omega) (by omega)
    obtain ⟨b2, -⟩ := ha2.same.fields
    obtain ⟨s3, e3, ha3, hrx3, -⟩ := accumulate_comment (post ++ '*' :: dc) ['\n']
      (s.rx.length - ('N' :: decimal k ++ ' ' :: pre).length - 1) s2 ha2 hrx2
      (fun c hc => ⟨(hqp c hc).1, (hqp c hc).2.1, (hqp c hc).2.2.1⟩) hcm2
      (by rw [b2]; exact hroom) (by omega)
    rw [e2, e3]
    refine reject_of_accumulated ha3 '\n' [] _ hrx3 (Or.inl rfl) (by simp) (by omega) hroom
      (by omega) ?_ ?_ ?_
    · rw [head_command hl1n]; rfl
    · rw [head_command hl1n, head_number, hck, hw]
    · left
      rw [head_command hl1n]
      exact strchr_none _ hl1s
  by_cases hesc : b = '\\'
  · -- the mutated byte escapes the byte after it
    subst hesc
    obtain ⟨c2, q, hq⟩ : ∃ c2 q, post ++ '*' :: dc = c2 :: q := by
      cases post with
      | nil => exact ⟨'*', dc, rfl⟩
      | cons x xs => exact ⟨x, xs ++ '*' :: dc, rfl⟩
    rw [hq] at hrx1
    have hlq : (post ++ '*' :: dc).length = q.length + 1 := by rw [hq]; rfl
    obtain ⟨s2, e2, ha2, hrx2, hcm2⟩ := accumulate_escape hmax ha1 c2 (q ++ ['\n'])
      (s.rx.length - ('N' :: decimal k ++ ' ' :: pre).length) hrx1 hcm1 (by rw [b1]; exact hroom)
      (by omega) (by omega)
    obtain ⟨b2, -⟩ := ha2.same.fields
    obtain ⟨s3, e3, ha3, hrx3, -⟩ := accumulate_plain hmax ha2 q ['\n']
      (s.rx.length - ('N' :: decimal k ++ ' ' :: pre).length - 1) hrx2
      (fun c hc => hqp c (by rw [hq]; simp [hc])) hcm2 (by rw [b2]; exact hroom)
      (by simp only [List.length_append, List.length_cons, List.length_nil] at hlen1 hlq ⊢; omega) (by omega)
    rw [e2, e3]
    have hacc : ('N' :: decimal k ++ ' ' :: pre) ++ [c2] ++ q =
        ('N' :: decimal k ++ ' ' :: (pre ++ post)) ++ '*' :: dc := by
      have : [c2] ++ q = post ++ '*' :: dc := by rw [hq]; rfl
      rw [List.append_assoc, this]
      simp
    rw [hacc] at ha3
    have hbody : ∀ c ∈ pre ++ post ++ '*' :: dc, c ≠ NUL := by
      intro c hc
      simp only [List.mem_append, List.mem_cons] at hc
      rcases hc with (hc | hc) | rfl | hc
      · exact (hpre c hc).2.2.1
      · exact (hpost c hc).2.2.1
      · decide
      · exact (isDigit_props (hdcd c hc)).2.2.2.2.2.1
    have hcmd : (cstr ('N' :: decimal k ++ ' ' :: (pre ++ post) ++ '*' :: dc)).dropWhile
        (fun c => c = ' ') = 'N' :: decimal k ++ ' ' :: (pre ++ post) ++ '*' :: dc := by
      have := head_command (k := k) hbody
      simpa using this
    have hns : ∀ c ∈ 'N' :: decimal k ++ ' ' :: (pre ++ post), c ≠ '*' :=
      head_mem (by decide) (by decide) (fun c h => (isDigit_props h).2.2.2.2.1)
        (fun c hc => by
          rcases List.mem_append.mp hc with hc | hc
          · exact (hpre c hc).2.1
          · exact (hpost c hc).2.1)
    refine reject_of_accumulated ha3 '\n' [] _ hrx3 (Or.inl rfl) (by simp)
      (by simp only [List.length_append, List.length_cons, List.length_nil] at hlen1 hlq ⊢; omega) hroom
      (by omega) ?_ ?_ ?_
    · rw [hcmd]; rfl
    · rw [hcmd]
      have := head_number k (pre ++ post ++ '*' :: dc)
      simp only [List.cons_append, List.append_assoc] at this ⊢
      rw [this, hck, hw]
    · right
      rw [hcmd]
      refine ⟨_, strchr_append _ _ hns, ?_⟩
      rw [List.tail_cons, hdcv, xorChecksum_append _ _ hns]
      intro h
      have h' := Int.ofNat.inj h
      have key := xorBytes_remove_ne ('N' :: decimal k ++ ' ' :: pre) post hA.2.2.2 hA.2.2.1
      apply key
      simp only [List.cons_append, List.append_assoc] at h' ⊢
      exact h'.symm
  -- the mutated byte is accumulated like any other
  have hbp : plainChar b := by
    refine ⟨fun h => hterm (Or.inl h), fun h => hterm (Or.inr h), hesc, hsemi⟩
  obtain ⟨s2, e2, ha2, hrx2, -⟩ := accumulate_plain hmax ha1 (b :: (post ++ '*' :: dc)) ['\n']
    (s.rx.length - ('N' :: decimal k ++ ' ' :: pre).length) (by rw [hrx1]; simp)
    (by
      intro c hc
      rcases List.mem_cons.mp hc with rfl | hc
      · exact hbp
      · exact hqp c hc) hcm1 (by rw [b1]; exact hroom)
    (by simp only [List.length_cons]; omega) (by simp only [List.length_cons]; omega)
  rw [e2]
  by_cases hnul : b = NUL
  · -- a NUL byte ends the C string before the checksum
    subst hnul
    have hcs : cstr ('N' :: decimal k ++ ' ' :: pre ++ NUL :: (post ++ '*' :: dc)) =
        'N' :: decimal k ++ ' ' :: pre := by
      rw [cstr_append_nul]
      exact cstr_eq_self (head_mem (by decide) (by decide)
        (fun c h => (isDigit_props h).2.2.2.2.2.1) hl1n)
    have hcmd : (cstr ('N' :: decimal k ++ ' ' :: pre ++ NUL :: (post ++ '*' :: dc))).dropWhile
        (fun c => c = ' ') = 'N' :: decimal k ++ ' ' :: pre := by
      rw [hcs]; simp [List.dropWhile]
    refine reject_of_accumulated ha2 '\n' [] _ hrx2 (Or.inl rfl) (by simp)
      (by simp only [List.length_append, List.length_cons, List.length_nil] at hlen1 ⊢; omega) hroom
      (by simp only [List.length_cons]; omega) ?_ ?_ ?_
    · rw [hcmd]; rfl
    · rw [hcmd, head_number, hck, hw]
    · left
      rw [hcmd]
      exact strchr_none _ hl1s
  · -- an ordinary byte changes the XOR of the line
    have hbody : ∀ c ∈ pre ++ b :: post ++ '*' :: dc, c ≠ NUL := by
      intro c hc
      simp only [List.mem_append, List.mem_cons] at hc
      rcases hc with (hc | rfl | hc) | rfl | hc
      · exact (hpre c hc).2.2.1
      · exact hnul
      · exact (hpost c hc).2.2.1
      · decide
      · exact (isDigit_props (hdcd c hc)).2.2.2.2.2.1
    have hacc : ('N' :: decimal k ++ ' ' :: pre) ++ b :: (post ++ '*' :: dc) =
        ('N' :: decimal k ++ ' ' :: (pre ++ b :: post)) ++ '*' :: dc := by simp
    rw [hacc] at ha2
    have hcmd : (cstr ('N' :: decimal k ++ ' ' :: (pre ++ b :: post) ++ '*' :: dc)).dropWhile
        (fun c => c = ' ') = 'N' :: decimal k ++ ' ' :: (pre ++ b :: post) ++ '*' :: dc := by
      have := head_command (k := k) hbody
      simpa using this
    have hns : ∀ c ∈ 'N' :: decimal k ++ ' ' :: (pre ++ b :: post), c ≠ '*' :=
      head_mem (by decide) (by decide) (fun c h => (isDigit_props h).2.2.2.2.1)
        (fun c hc => by
          rcases List.mem_append.mp hc with hc | hc
          · exact (hpre c hc).2.1
          · rcases List.mem_cons.mp hc with rfl | hc
            · exact hb.2.1
            · exact (hpost c hc).2.1)
    refine reject_of_accumulated ha2 '\n' [] _ hrx2 (Or.inl rfl) (by simp)
      (by simp only [List.length_append, List.length_cons, List.length_nil] at hlen1 ⊢; omega) hroom
      (by simp only [List.length_cons]; omega) ?_ ?_ ?_
    · rw [hcmd]; rfl
    · rw [hcmd]
      have := head_number k (pre ++ b :: post ++ '*' :: dc)
      simp only [List.cons_append, List.append_assoc] at this ⊢
      rw [this, hck, hw]
    · right
      rw [hcmd]
      refine ⟨_, strchr_append _ _ hns, ?_⟩
      rw [List.tail_cons, hdcv, xorChecksum_append _ _ hns]
      intro h
      have h' := Int.ofNat.inj h
      have key := xorBytes_replace_ne ('N' :: decimal k ++ ' ' :: pre) post hA.2.2.2 hb.2.2 hb.1
      apply key
      simp only [List.cons_append, List.append_assoc] at h' ⊢
      exact h'.symm


theorem checksum_mutation_rejected (cfg : Config) (s : Machine) (k : Nat)
    (payload dpre dpost : List Char) (d d' : Char)
    (hmax : cfg.MAX_CMD_SIZE ≤ 256) (hk : (k : Int) ≤ LONG_MAX)
    (hlast : LONG_MIN ≤ s.gcode_LastN) (hseq : (k : Int) = s.gcode_LastN + 1)
    (hpay : ∀ x ∈ payload, plainChar x ∧ x ≠ '*' ∧ x ≠ NUL ∧ x.toNat < 256)
    (hdec : decimal (xorBytes ('N' :: decimal k ++ ' ' :: payload)) = dpre ++ d :: dpost)
    (hd' : d' ≠ d ∧ d'.isDigit = true)
    (hlen : (serialLine k payload).length < cfg.MAX_CMD_SIZE)
    (hbuf : s.cmd_line_buffer.length = cfg.MAX_CMD_SIZE)
    (hfresh : s.serial_count = 0 ∧ s.comment_mode = false) (hroom : s.buflen < cfg.BUFSIZE)
    (hrx : s.rx = checksumLine k payload (dpre ++ d' :: dpost) ++ ['\n']) :
    RejectedWithResend s (get_serial_commands cfg s) k := by
  have hw : wrapLong (s.gcode_LastN + 1) = k := by
    rw [wrapLong_succ hlast (by omega), hseq]
  have hck : clampLong (k : Int) = k := clampLong_of_range (by unfold LONG_MIN; omega) hk
  rw [← hw]
  have hdig := decimal_digits (xorBytes ('N' :: decimal k ++ ' ' :: payload))
  rw [hdec] at hdig
  have hdpre : ∀ c ∈ dpre, c.isDigit = true := fun c hc => hdig c (by simp [hc])
  have hdpost : ∀ c ∈ dpost, c.isDigit = true := fun c hc => hdig c (by simp [hc])
  have hd : d.isDigit = true := hdig d (by simp)
  have hdig' : ∀ c ∈ dpre ++ d' :: dpost, c.isDigit = true := by
    intro c hc
    simp only [List.mem_append, List.mem_cons] at hc
    rcases hc with hc | rfl | hc
    · exact hdpre c hc
    · exact hd'.2
    · exact hdpost c hc
  have hval : parseDigits (dpre ++ d :: dpost) 0 = xorBytes ('N' :: decimal k ++ ' ' :: payload) := by
    have := @parseDigits_decimal (xorBytes ('N' :: decimal k ++ ' ' :: payload)) []
      (by intro c hc; simp at hc)
    rwa [List.append_nil, hdec] at this
  have hlen1 : (checksumLine k payload (dpre ++ d' :: dpost)).length < cfg.MAX_CMD_SIZE := by
    unfold serialLine at hlen
    rw [hdec] at hlen
    unfold checksumLine
    simp only [List.length_cons, List.length_append] at hlen ⊢
    omega
  have hns : ∀ c ∈ 'N' :: decimal k ++ ' ' :: payload, c ≠ '*' :=
    head_mem (by decide) (by decide) (fun c h => (isDigit_props h).2.2.2.2.1)
      (fun c hc => (hpay c hc).2.1)
  have hplain : ∀ c ∈ checksumLine k payload (dpre ++ d' :: dpost), plainChar c := by
    intro c hc
    unfold checksumLine at hc
    rcases List.mem_append.mp hc with hc | hc
    · exact head_mem plainChar_N plainChar_space (fun c h => plainChar_digit h)
        (fun c hc => (hpay c hc).1) c hc
    · rcases List.mem_cons.mp hc with rfl | hc
      · exact plainChar_star
      · exact plainChar_digit (hdig' c hc)
  have hbody : ∀ c ∈ payload ++ '*' :: (dpre ++ d' :: dpost), c ≠ NUL := by
    intro c hc
    rcases List.mem_append.mp hc with hc | hc
    · exact (hpay c hc).2.2.1
    · rcases List.mem_cons.mp hc with rfl | hc
      · decide
      · exact (isDigit_props (hdig' c hc)).2.2.2.2.2.1
  have hcmd : (cstr (checksumLine k payload (dpre ++ d' :: dpost))).dropWhile
      (fun c => c = ' ') = checksumLine k payload (dpre ++ d' :: dpost) := by
    have := head_command (k := k) hbody
    unfold checksumLine
    simpa using this
  have h0 : Accumulated cfg s s [] := Accumulated.start hfresh.1 hbuf
  rw [get_serial_commands]
  obtain ⟨s1, e1, ha1, hrx1, -⟩ := accumulate_plain hmax h0 _ _ s.rx.length hrx hplain hfresh.2
    hroom (by simp only [List.length_nil]; omega) (by rw [hrx]; simp)
  rw [List.nil_append] at ha1
  rw [e1]
  refine reject_of_accumulated ha1 '\n' [] _ hrx1 (Or.inl rfl) (by simp [checksumLine]) hlen1
    hroom (by rw [hrx]; simp) ?_ ?_ ?_
  · rw [hcmd]; rfl
  · rw [hcmd]
    have := head_number k (payload ++ '*' :: (dpre ++ d' :: dpost))
    unfold checksumLine
    simp only [List.cons_append, List.append_assoc] at this ⊢
    rw [this, hck, hw]
  · right
    rw [hcmd]
    unfold checksumLine
    refine ⟨_, strchr_append _ _ hns, ?_⟩
    rw [List.tail_cons, xorChecksum_append _ _ hns]
    have hst := @strtol_digits (dpre ++ d' :: dpost) [] hdig' (by simp)
    rw [List.append_nil] at hst
    rw [hst]
    have hne := parseDigits_replace_ne dpre dpost hdpre hdpost hd hd'.2 hd'.1
    rw [hval] at hne
    have hlt := xorBytes_lt ('N' :: decimal k ++ ' ' :: payload)
    intro h
    unfold clampLong LONG_MAX LONG_MIN at h
    split at h
    · omega
    · split at h
      · omega
      · exact hne (Int.ofNat.inj h)

/-- C5 (as amended): for every line `N<k> <payload>*<c>` that `get_serial_commands`
would accept (`k = gcode_LastN + 1` fits in a `long`, `c` the XOR checksum, the
payload made of bytes other than CR, LF, `;`, `\`, `*` and NUL), replacing a
single byte of the payload by any different byte other than `*`, or a single
digit of `c` by a different decimal digit, yields a line that is rejected:
nothing is enqueued, `gcode_LastN` is unchanged, and an error line followed by
the resend request naming `k` is written. -/
theorem serial_mutation_rejected (cfg : Config) (s : Machine) (k : Nat)
    (payload line' : List Char)
    (hmax : cfg.MAX_CMD_SIZE ≤ 256) (hk : (k : Int) ≤ LONG_MAX)
    (hlast : LONG_MIN ≤ s.gcode_LastN) (hseq : (k : Int) = s.gcode_LastN + 1)
    (hpay : ∀ x ∈ payload, plainChar x ∧ x ≠ '*' ∧ x ≠ NUL ∧ x.toNat < 256)
    (hlen : (serialLine k payload).length < cfg.MAX_CMD_SIZE)
    (hbuf : s.cmd_line_buffer.length = cfg.MAX_CMD_SIZE)
    (hfresh : s.serial_count = 0 ∧ s.comment_mode = false) (hroom : s.buflen < cfg.BUFSIZE)
    (hmut : SingleByteMutation k payload line')
    (hrx : s.rx = line' ++ ['\n']) :
    RejectedWithResend s (get_serial_commands cfg s) k := by
  rcases hmut with ⟨pre, a, post, b, rfl, h1, h2, h3, rfl⟩ | ⟨dpre, d, dpost, d', hdec, h1, h2, rfl⟩
  · exact payload_mutation_rejected cfg s k pre post a b hmax hk hlast hseq hpay ⟨h1, h2, h3⟩ hlen
      hbuf hfresh hroom hrx
  · exact checksum_mutation_rejected cfg s k payload dpre dpost d d' hmax hk hlast hseq hpay hdec
      ⟨h1, h2⟩ hlen hbuf hfresh hroom hrx


/-- C5, counterexample: the claim as stated fails. On the accepted line `N1 G1 Z9*106`,
replacing the payload byte `Z` by `*` gives `N1 G1 *9*106`, whose first `*` is
followed by `9`, the XOR of `N1 G1 `: the mutated line is accepted and enqueued
and no resend request is written. And replacing the last checksum digit of
`N1 G28*18` by a backslash escapes the newline: the line is neither rejected
nor enqueued, and nothing is written. -/
theorem serial_mutation_accepted :
    (mutatedPayloadLine 1 "G1 ".toList 'Z' '*' "9".toList = "N1 G1 *9*106".toList ∧
      serialLine 1 "G1 Z9".toList = "N1 G1 Z9*106".toList ∧
      (get_serial_commands cfg8 (lineState cfg8 0 ("N1 G1 Z9*106".toList ++ ['\n']))).buflen = 1 ∧
      (get_serial_commands cfg8 (lineState cfg8 0 ("N1 G1 *9*106".toList ++ ['\n']))).buflen = 1 ∧
      (get_serial_commands cfg8 (lineState cfg8 0 ("N1 G1 *9*106".toList ++ ['\n']))).slot 0 =
        "N1 G1 *9*106".toList ∧
      (get_serial_commands cfg8 (lineState cfg8 0 ("N1 G1 *9*106".toList ++ ['\n']))).gcode_LastN =
        1 ∧
      (get_serial_commands cfg8 (lineState cfg8 0 ("N1 G1 *9*106".toList ++ ['\n']))).out = []) ∧
    (serialLine 1 "G28".toList = "N1 G28*18".toList ∧
      (get_serial_commands cfg8 (lineState cfg8 0 ("N1 G28*1\\".toList ++ ['\n']))).buflen = 0 ∧
      (get_serial_commands cfg8 (lineState cfg8 0 ("N1 G28*1\\".toList ++ ['\n']))).out = []) := by
  decide

/-- C5, witness: in `N1 G28*18` the payload byte `G` is replaced by `X`. -/
theorem serial_mutation_rejected_witness :
    RejectedWithResend
      (lineState cfg8 0 (mutatedPayloadLine 1 [] 'G' 'X' "28".toList ++ ['\n']))
      (get_serial_commands cfg8
        (lineState cfg8 0 (mutatedPayloadLine 1 [] 'G' 'X' "28".toList ++ ['\n']))) (1 : Nat) :=
  serial_mutation_rejected cfg8
    (lineState cfg8 0 (mutatedPayloadLine 1 [] 'G' 'X' "28".toList ++ ['\n'])) 1 "G28".toList
    (mutatedPayloadLine 1 [] 'G' 'X' "28".toList) (by decide) (by decide) (by decide) (by decide)
    (by unfold plainChar; decide) (by decide) (by decide) (by decide) (by decide)
    (Or.inl ⟨[], 'G', "28".toList, 'X', rfl, by decide, by decide, by decide, rfl⟩) rfl

/-! ## Recovery from protocol errors -/

theorem exists_msg_ite {P : Prop} [Decidable P] (f : String → Machine) (a b : String) :
    ∃ msg, (if P then (f a, false) else (f b, false)) = (f msg, false) := by
  by_cases h : P
  · exact ⟨a, by rw [if_pos h]⟩
  · exact ⟨b, by rw [if_neg h]⟩

theorem serial_check_line_error (cfg : Config) (command : List Char) (s : Machine)
    (e : ProtocolError) (he : e.holds command s.gcode_LastN) :
    ∃ msg, serial_check_line cfg command s =
      (gcode_line_error cfg msg (decide (e ≠ ProtocolError.noLineNumber)) s, false) := by
  cases e with
  | noLineNumber =>
    obtain ⟨h1, h2⟩ := he
    refine ⟨"MSG_ERR_NO_LINENUMBER_WITH_CHECKSUM", ?_⟩
    unfold serial_check_line
    simp only [h1, if_false, h2, if_true]
    rfl
  | lineNumber =>
    obtain ⟨h1, h2, h3⟩ := he
    refine ⟨"MSG_ERR_LINE_NO", ?_⟩
    unfold serial_check_line
    simp only [h1, h2, Option.isSome_none, Bool.false_eq_true, if_false, if_true, ne_eq, h3,
      not_false_eq_true, and_self]
    rfl
  | noChecksum =>
    obtain ⟨h1, h2⟩ := he
    unfold serial_check_line
    simp only [h1, if_true, h2]
    exact exists_msg_ite (fun m => gcode_line_error cfg m true s) _ _
  | checksumMismatch =>
    obtain ⟨h1, p, h2, h3⟩ := he
    unfold serial_check_line
    simp only [h1, if_true, h2, h3, ne_eq, not_false_eq_true]
    exact exists_msg_ite (fun m => gcode_line_error cfg m true s) _ _

theorem gcode_line_error_recovered (cfg : Config) (msg : String) (b : Bool) (s0 s : Machine)
    (hs : { s with rx := s0.rx, ghost := s0.ghost, cmd_line_buffer := s0.cmd_line_buffer,
                   serial_count := s0.serial_count, comment_mode := s0.comment_mode } = s0) :
    LocallyRecovered s0 (gcode_line_error cfg msg b s) b := by
  have h1 := congrArg Machine.out hs
  have h2 := congrArg Machine.gcode_LastN hs
  simp only at h1 h2
  refine ⟨by cases b <;> rfl, ⟨msg, ?_⟩, ?_⟩
  · cases b <;>
      simp [gcode_line_error, FlushSerialRequestResend, ClearToSend, errorOutput, h1, h2]
  · rw [← hs]
    cases b <;> simp [gcode_line_error, FlushSerialRequestResend, ClearToSend]

/-- C6 (as amended): whenever the serial framer reads a line terminator after having
accumulated a line that shows one of the four protocol errors, it recovers
locally: the line is not enqueued (`buflen` and all slots unchanged),
`gcode_LastN` and all other machine state are unchanged, `serial_count` is
reset to 0 and an error line is written. For the first three errors (no
checksum, checksum mismatch, wrong line number) the resend request naming
`gcode_LastN + 1` follows it; for a checksum without a leading line number no
resend request is written. -/
theorem serial_error_recovery (cfg : Config) (s : Machine) (acc rest : List Char) (t : Char)
    (e : ProtocolError)
    (hcount : s.serial_count = acc.length) (hacc : ∃ tl, s.cmd_line_buffer = acc ++ tl)
    (hbuf : s.cmd_line_buffer.length = cfg.MAX_CMD_SIZE)
    (hne : acc ≠ []) (hlen : acc.length < cfg.MAX_CMD_SIZE)
    (hroom : s.buflen < cfg.BUFSIZE)
    (hrx : s.rx = t :: rest) (ht : t = '\n' ∨ t = '\r')
    (he : e.holds ((cstr acc).dropWhile (fun c => c = ' ')) s.gcode_LastN) :
    LocallyRecovered s (get_serial_commands cfg s) (decide (e ≠ ProtocolError.noLineNumber)) ∧
    (get_serial_commands cfg s).buflen = s.buflen ∧
    (get_serial_commands cfg s).cmdbuffer = s.cmdbuffer ∧
    (get_serial_commands cfg s).gcode_LastN = s.gcode_LastN := by
  have ha : Accumulated cfg s s acc := ⟨rfl, hcount, hacc, hbuf⟩
  obtain ⟨s', hs', -, -, hrun⟩ := accumulate_eol ha t rest s.rx.length hrx ht hne hlen hroom
    (by rw [hrx]; simp)
  obtain ⟨c1, -, -, c4, c5, -⟩ := hs'.fields
  obtain ⟨msg, hmsg⟩ := serial_check_line_error cfg _ s' e (by rw [c5]; exact he)
  rw [get_serial_commands, hrun, hmsg]
  simp only [Bool.false_eq_true, if_false]
  obtain ⟨e1, -, -, e4, -, e6, -⟩ := gcode_line_error_frame cfg msg
    (decide (e ≠ ProtocolError.noLineNumber)) s'
  exact ⟨gcode_line_error_recovered cfg msg _ s s' hs', by rw [e1, c1], by rw [e4, c4],
    by rw [e6, c5]⟩


/-- C6, counterexample: the line `G28*17` carries a checksum without a line number.
It is discarded with the error line only: no resend request is written. -/
theorem serial_error_without_resend :
    ProtocolError.noLineNumber.holds "G28*17".toList 0 ∧
    (get_serial_commands cfg8 (lineState cfg8 0 ("G28*17".toList ++ ['\n']))).out =
      [Out.lineError "MSG_ERR_NO_LINENUMBER_WITH_CHECKSUM" 0] ∧
    Out.resend 1 ∉
      (get_serial_commands cfg8 (lineState cfg8 0 ("G28*17".toList ++ ['\n']))).out := by
  unfold ProtocolError.holds
  decide

/-- C6, witness: the line `N5 G28*17` arrives when line 1 is expected. -/
theorem serial_error_recovery_witness :
    LocallyRecovered (pendingLineState cfg8 "N5 G28*17".toList ['\n'])
      (get_serial_commands cfg8 (pendingLineState cfg8 "N5 G28*17".toList ['\n']))
      (decide (ProtocolError.lineNumber ≠ ProtocolError.noLineNumber)) ∧
    (get_serial_commands cfg8 (pendingLineState cfg8 "N5 G28*17".toList ['\n'])).buflen =
      (pendingLineState cfg8 "N5 G28*17".toList ['\n']).buflen ∧
    (get_serial_commands cfg8 (pendingLineState cfg8 "N5 G28*17".toList ['\n'])).cmdbuffer =
      (pendingLineState cfg8 "N5 G28*17".toList ['\n']).cmdbuffer ∧
    (get_serial_commands cfg8 (pendingLineState cfg8 "N5 G28*17".toList ['\n'])).gcode_LastN =
      (pendingLineState cfg8 "N5 G28*17".toList ['\n']).gcode_LastN :=
  serial_error_recovery cfg8 (pendingLineState cfg8 "N5 G28*17".toList ['\n'])
    "N5 G28*17".toList [] '\n' ProtocolError.lineNumber (by decide)
    ⟨List.replicate (96 - 9) NUL, by decide⟩ (by decide) (by decide) (by decide) (by decide) rfl
    (Or.inl rfl) (by unfold ProtocolError.holds; decide)

/-! ## Backpressure -/

theorem gcode_line_error_ghost (cfg : Config) (err : String) (b : Bool) (s : Machine) :
    (gcode_line_error cfg err b s).ghost = s.ghost := by
  cases b <;> rfl

theorem serial_enqueue_ghost (cfg : Config) (command : List Char) (s : Machine) :
    (serial_enqueue cfg command s).ghost = s.ghost ++ [Ghost.insertCall s.buflen command] := by
  obtain ⟨a1, -, -, -, -, -, -, -, -, a10, -⟩ := stoppedAlert_frame command s
  unfold serial_enqueue
  rw [(insertcommand_frame cfg command (serialFlag cfg command) _).2.2.2.2.2.1]
  simp [a1, a10]

theorem serial_check_line_cases (cfg : Config) (command : List Char) (s : Machine) :
    (∃ msg b, serial_check_line cfg command s = (gcode_line_error cfg msg b s, false)) ∨
    (∃ n, serial_check_line cfg command s =
      (serial_enqueue cfg command { s with gcode_LastN := n }, true)) := by
  unfold serial_check_line
  dsimp only
  repeat' split
  all_goals first
    | exact Or.inl ⟨_, _, rfl⟩
    | exact Or.inr ⟨_, rfl⟩

theorem serial_check_line_ghost (cfg : Config) (command : List Char) (s : Machine)
    (h : ∀ g ∈ s.ghost, g.withRoom cfg) (hb : s.buflen < cfg.BUFSIZE) :
    ∀ g ∈ (serial_check_line cfg command s).1.ghost, g.withRoom cfg := by
  rcases serial_check_line_cases cfg command s with ⟨msg, b, e⟩ | ⟨n, e⟩
  · rw [e, gcode_line_error_ghost]; exact h
  · rw [e]
    intro g hg
    rw [serial_enqueue_ghost] at hg
    rcases List.mem_append.mp hg with hg | hg
    · exact h g hg
    · simp only [List.mem_singleton] at hg
      subst hg
      exact hb

theorem serial_end_of_line_ghost (cfg : Config) (s : Machine)
    (h : ∀ g ∈ s.ghost, g.withRoom cfg) (hb : s.buflen < cfg.BUFSIZE) :
    ∀ g ∈ (serial_end_of_line cfg s).1.ghost, g.withRoom cfg := by
  unfold serial_end_of_line
  dsimp only
  split
  · exact h
  · exact serial_check_line_ghost cfg _ _ h hb

theorem get_serial_loop_ghost (cfg : Config) : ∀ (fuel : Nat) (s : Machine),
    (∀ g ∈ s.ghost, g.withRoom cfg) → ∀ g ∈ (get_serial_loop cfg fuel s).ghost, g.withRoom cfg
  | 0, s, h => h
  | fuel + 1, s, h => by
    rw [get_serial_loop]
    split
    · exact h
    · rename_i hb
      have hb' : s.buflen < cfg.BUFSIZE := by simpa using hb
      have hread : ∀ g ∈ s.ghost ++ [Ghost.serialRead s.buflen], g.withRoom cfg := by
        intro g hg
        rcases List.mem_append.mp hg with hg | hg
        · exact h g hg
        · simp only [List.mem_singleton] at hg
          subst hg
          exact hb'
      have hread2 : ∀ g ∈ s.ghost ++ [Ghost.serialRead s.buflen] ++ [Ghost.serialRead s.buflen],
          g.withRoom cfg := by
        intro g hg
        rcases List.mem_append.mp hg with hg | hg
        · exact hread g hg
        · simp only [List.mem_singleton] at hg
          subst hg
          exact hb'
      split
      · exact h
      · dsimp only
        split
        · split
          · exact get_serial_loop_ghost cfg fuel _
              (serial_end_of_line_ghost cfg _ hread hb')
          · exact serial_end_of_line_ghost cfg _ hread hb'
        · split
          · exact get_serial_loop_ghost cfg fuel _ hread
          · split
            · split
              · exact get_serial_loop_ghost cfg fuel _ hread
              · apply get_serial_loop_ghost cfg fuel
                split
                · exact hread2
                · exact hread2
            · apply get_serial_loop_ghost cfg fuel
              split <;> split <;> exact hread


theorem sdcard_read_error_ghost (s : Machine) : (sdcard_read_error s).ghost = s.ghost := by
  unfold sdcard_read_error
  split
  · rfl
  · dsimp only
    split <;> rfl

theorem mem_snoc_withRoom {cfg : Config} {l : List Ghost} {x : Ghost}
    (h : ∀ g ∈ l, g.withRoom cfg) (hx : x.withRoom cfg) : ∀ g ∈ l ++ [x], g.withRoom cfg := by
  intro g hg
  rcases List.mem_append.mp hg with hg | hg
  · exact h g hg
  · simp only [List.mem_singleton] at hg
    subst hg
    exact hx

theorem sdcard_end_of_line_ghost (cfg : Config) (sd_count : Nat) (card_eof : Bool)
    (s : Machine) (h : ∀ g ∈ s.ghost, g.withRoom cfg) (hb : s.buflen < cfg.BUFSIZE) :
    ∀ g ∈ (sdcard_end_of_line cfg sd_count card_eof s).2.ghost, g.withRoom cfg := by
  have h2 : ∀ g ∈ (if card_eof = true then sdcard_finished s else s).ghost, g.withRoom cfg := by
    split
    · exact mem_snoc_withRoom h trivial
    · exact h
  have hb2 : (if card_eof = true then sdcard_finished s else s).buflen < cfg.BUFSIZE := by
    split <;> exact hb
  unfold sdcard_end_of_line
  dsimp only
  split
  · exact h2
  · rw [(insertcommand_frame cfg _ false _).2.2.2.2.2.1]
    exact mem_snoc_withRoom h2 hb2

theorem sdcard_accumulate_ghost (cfg : Config) (sd_count : Nat) (sd_char : Char)
    (s : Machine) : (sdcard_accumulate cfg sd_count sd_char s).2.ghost = s.ghost := by
  unfold sdcard_accumulate
  split_ifs <;> rfl

theorem sdcard_byte_ghost (cfg : Config) (sd_count : Nat) (n : Int) (s : Machine)
    (h : ∀ g ∈ s.ghost, g.withRoom cfg) (hb : s.buflen < cfg.BUFSIZE) :
    ∀ g ∈ (sdcard_byte cfg sd_count n s).2.2.ghost, g.withRoom cfg := by
  unfold sdcard_byte
  dsimp only
  split_ifs
  all_goals first
    | exact sdcard_end_of_line_ghost cfg _ _ _ h hb
    | (rw [sdcard_accumulate_ghost]; exact h)

theorem get_sdcard_loop_ghost (cfg : Config) : ∀ (fuel sd_count : Nat) (card_eof : Bool)
    (s : Machine), (∀ g ∈ s.ghost, g.withRoom cfg) →
    ∀ g ∈ (get_sdcard_loop cfg fuel sd_count card_eof s).ghost, g.withRoom cfg
  | 0, _, _, s, h => h
  | fuel + 1, sd_count, card_eof, s, h => by
    rw [get_sdcard_loop]
    split
    · exact h
    · rename_i hb
      have hb' : s.buflen < cfg.BUFSIZE := by
        by_contra hc
        exact hb (fun hh => hc hh.1)
      have hread := mem_snoc_withRoom h (show (Ghost.cardRead s.buflen).withRoom cfg from hb')
      dsimp only
      split
      · rw [sdcard_read_error_ghost]; exact hread
      · exact get_sdcard_loop_ghost cfg fuel _ _ _ (sdcard_byte_ghost cfg _ _ _ hread hb')

theorem get_sdcard_loop_full (cfg : Config) (fuel sd_count : Nat) (card_eof : Bool) (s : Machine)
    (h : ¬ s.buflen < cfg.BUFSIZE) : get_sdcard_loop cfg fuel sd_count card_eof s = s := by
  cases fuel with
  | zero => rfl
  | succ n =>
    rw [get_sdcard_loop, if_pos]
    exact fun hh => h hh.1

theorem get_serial_loop_full (cfg : Config) (fuel : Nat) (s : Machine)
    (h : ¬ s.buflen < cfg.BUFSIZE) : get_serial_loop cfg fuel s = s := by
  cases fuel with
  | zero => rfl
  | succ n => rw [get_serial_loop, if_pos h]

/-- C7: backpressure without loss. Every byte that `get_serial_commands` and
`get_sdcard_commands` take from their source and every call they make to
`insertcommand` happens while `buflen < BUFSIZE` (so `insertcommand` never
refuses a framed line because the queue is full), and while
`buflen ≥ BUFSIZE` neither function consumes a byte or changes the state. The
ghost record lists the reads and calls with the value of `buflen` at that
moment; the hypothesis says that the events recorded before the call had
room. -/
theorem framers_backpressure (cfg : Config) (s : Machine)
    (h : ∀ g ∈ s.ghost, g.withRoom cfg) :
    (∀ g ∈ (get_serial_commands cfg s).ghost, g.withRoom cfg) ∧
    (∀ g ∈ (get_sdcard_commands cfg s).ghost, g.withRoom cfg) ∧
    (s.buflen ≥ cfg.BUFSIZE →
      get_serial_commands cfg s = s ∧ get_sdcard_commands cfg s = s) := by
  refine ⟨get_serial_loop_ghost cfg _ s h, ?_, fun hfull => ⟨?_, ?_⟩⟩
  · unfold get_sdcard_commands
    split
    · exact h
    · exact get_sdcard_loop_ghost cfg _ _ _ s h
  · exact get_serial_loop_full cfg _ s (by omega)
  · unfold get_sdcard_commands
    split
    · rfl
    · exact get_sdcard_loop_full cfg _ _ _ s (by omega)


/-- C7, witness: a machine printing a file while serial bytes are waiting. -/
theorem framers_backpressure_witness :
    (∀ g ∈ (get_serial_commands cfg8
        (printingState cfg8 "G28\nG1 X1 ;c\nM105\n".toList "N1 G28*18\n".toList)).ghost,
      g.withRoom cfg8) ∧
    (∀ g ∈ (get_sdcard_commands cfg8
        (printingState cfg8 "G28\nG1 X1 ;c\nM105\n".toList "N1 G28*18\n".toList)).ghost,
      g.withRoom cfg8) ∧
    ((printingState cfg8 "G28\nG1 X1 ;c\nM105\n".toList "N1 G28*18\n".toList).buflen ≥
        cfg8.BUFSIZE →
      get_serial_commands cfg8
          (printingState cfg8 "G28\nG1 X1 ;c\nM105\n".toList "N1 G28*18\n".toList) =
        printingState cfg8 "G28\nG1 X1 ;c\nM105\n".toList "N1 G28*18\n".toList ∧
      get_sdcard_commands cfg8
          (printingState cfg8 "G28\nG1 X1 ;c\nM105\n".toList "N1 G28*18\n".toList) =
        printingState cfg8 "G28\nG1 X1 ;c\nM105\n".toList "N1 G28*18\n".toList) :=
  framers_backpressure cfg8
    (printingState cfg8 "G28\nG1 X1 ;c\nM105\n".toList "N1 G28*18\n".toList)
    (fun g hg => absurd hg (List.not_mem_nil g))

/-! ## Software endstops -/

theorem Pos.set_get_self (p : Pos) (i : Nat) : p.set i (p.get i) = p := by
  unfold Pos.set Pos.get
  split_ifs <;> rfl

theorem clamp_min_axis_eq (st : Pos × Machine) (i : Nat) :
    clamp_min_axis st i = (st.1.set i (max (st.1.get i) (st.2.motion.min_pos.get i)),
      { st.2 with motion := { st.2.motion with
      position_error := st.2.motion.position_error ||
        decide (st.1.get i < st.2.motion.min_pos.get i) } }) := by
  unfold clamp_min_axis
  split_ifs with h
  · simp [max_eq_right (le_of_lt h), h]
  · rw [max_eq_left (not_lt.mp h), Pos.set_get_self]
    simp [h]

theorem clamp_max_axis_eq (st : Pos × Machine) (i : Nat) :
    clamp_max_axis st i = (st.1.set i (min (st.1.get i) (st.2.motion.max_pos.get i)),
      { st.2 with motion := { st.2.motion with
      position_error := st.2.motion.position_error ||
        decide (st.1.get i > st.2.motion.max_pos.get i) } }) := by
  unfold clamp_max_axis
  split_ifs with h
  · simp [min_eq_right (le_of_lt h), h]
  · rw [min_eq_left (not_lt.mp h), Pos.set_get_self]
    simp [h]

/-- Closed form of `clamp_to_software_endstops` when both options are defined:
every coordinate is clamped, and `position_error` accumulates the tests of the
two loops. -/
theorem clamp_closed_form (cfg : Config) (t : Pos) (s : Machine)
    (hmin : cfg.MIN_SOFTWARE_ENDSTOPS = true) (hmax : cfg.MAX_SOFTWARE_ENDSTOPS = true) :
    clamp_to_software_endstops cfg t s =
      (⟨min (max t.x s.motion.min_pos.x) s.motion.max_pos.x,
        min (max t.y s.motion.min_pos.y) s.motion.max_pos.y,
        min (max t.z s.motion.min_pos.z) s.motion.max_pos.z, t.e⟩,
       { s with motion := { s.motion with position_error :=
          (s.motion.position_error ||
           decide (t.x < s.motion.min_pos.x) || decide (t.y < s.motion.min_pos.y) ||
           decide (t.z < s.motion.min_pos.z) ||
           decide (max t.x s.motion.min_pos.x > s.motion.max_pos.x) ||
           decide (max t.y s.motion.min_pos.y > s.motion.max_pos.y) ||
           decide (max t.z s.motion.min_pos.z > s.motion.max_pos.z)) } }) := by
  unfold clamp_to_software_endstops
  simp only [hmin, hmax, if_true, List.foldl_cons, List.foldl_nil, clamp_min_axis_eq,
    clamp_max_axis_eq]
  simp [Pos.get, Pos.set, X_AXIS, Y_AXIS, Z_AXIS, Bool.or_assoc]

/-- A target inside the travel limits passes the clamp untouched, and so does
the machine state. -/
theorem clamp_in_range (cfg : Config) (t : Pos) (s : Machine)
    (hx : s.motion.min_pos.x ≤ t.x ∧ t.x ≤ s.motion.max_pos.x)
    (hy : s.motion.min_pos.y ≤ t.y ∧ t.y ≤ s.motion.max_pos.y)
    (hz : s.motion.min_pos.z ≤ t.z ∧ t.z ≤ s.motion.max_pos.z) :
    clamp_to_software_endstops cfg t s = (t, s) := by
  have hmin : ∀ i, i = 0 ∨ i = 1 ∨ i = 2 → clamp_min_axis (t, s) i = (t, s) := by
    intro i hi
    unfold clamp_min_axis
    rw [if_neg]
    rcases hi with h | h | h <;> subst h <;> simp [Pos.get] <;> tauto
  have hmax : ∀ i, i = 0 ∨ i = 1 ∨ i = 2 → clamp_max_axis (t, s) i = (t, s) := by
    intro i hi
    unfold clamp_max_axis
    rw [if_neg]
    rcases hi with h | h | h <;> subst h <;> simp [Pos.get] <;> tauto
  unfold clamp_to_software_endstops
  simp [X_AXIS, Y_AXIS, Z_AXIS, hmin, hmax]

/-- C8: with both software endstops defined and `min_pos[i] ≤ max_pos[i]` on
X, Y and Z, `clamp_to_software_endstops` replaces each of the three
coordinates by `min(max(target[i], min_pos[i]), max_pos[i])`; a target whose
three coordinates lie in their closed ranges comes back unmodified and the
machine state, `position_error` included, is unchanged; a coordinate strictly
below (above) its range comes back equal to the lower (upper) boundary and
`position_error` is then true. -/
theorem clamp_to_software_endstops_spec (cfg : Config) (t : Pos) (s : Machine)
    (hmin : cfg.MIN_SOFTWARE_ENDSTOPS = true) (hmax : cfg.MAX_SOFTWARE_ENDSTOPS = true)
    (hle : ∀ i, i ≤ Z_AXIS → s.motion.min_pos.get i ≤ s.motion.max_pos.get i) :
    (∀ i, i ≤ Z_AXIS → (clamp_to_software_endstops cfg t s).1.get i =
      min (max (t.get i) (s.motion.min_pos.get i)) (s.motion.max_pos.get i)) ∧
    ((∀ i, i ≤ Z_AXIS →
        s.motion.min_pos.get i ≤ t.get i ∧ t.get i ≤ s.motion.max_pos.get i) →
      clamp_to_software_endstops cfg t s = (t, s)) ∧
    (∀ i, i ≤ Z_AXIS → t.get i < s.motion.min_pos.get i →
      (clamp_to_software_endstops cfg t s).1.get i = s.motion.min_pos.get i ∧
      (clamp_to_software_endstops cfg t s).2.motion.position_error = true) ∧
    (∀ i, i ≤ Z_AXIS → s.motion.max_pos.get i < t.get i →
      (clamp_to_software_endstops cfg t s).1.get i = s.motion.max_pos.get i ∧
      (clamp_to_software_endstops cfg t s).2.motion.position_error = true) := by
  have h0 := hle 0 (by decide)
  have h1 := hle 1 (by decide)
  have h2 := hle 2 (by decide)
  simp only [Pos.get] at h0 h1 h2
  simp only [if_true, if_false, OfNat.ofNat_ne_zero, OfNat.ofNat_ne_one, one_ne_zero] at h0 h1 h2
  refine ⟨?_, ?_, ?_, ?_⟩
  · intro i hi
    rw [clamp_closed_form cfg t s hmin hmax]
    unfold Z_AXIS at hi
    interval_cases i <;> simp [Pos.get]
  · intro h
    have hx := h 0 (by decide)
    have hy := h 1 (by decide)
    have hz := h 2 (by decide)
    simp only [Pos.get] at hx hy hz
    exact clamp_in_range cfg t s (by simpa using hx) (by simpa using hy) (by simpa using hz)
  · intro i hi hlt
    rw [clamp_closed_form cfg t s hmin hmax]
    unfold Z_AXIS at hi
    interval_cases i
    · simp only [Pos.get] at hlt ⊢
      simp only [if_true] at hlt ⊢
      refine ⟨?_, by simp [hlt]⟩
      rw [max_eq_right (le_of_lt hlt), min_eq_left h0]
    · simp only [Pos.get] at hlt ⊢
      simp at hlt ⊢
      refine ⟨?_, by simp [hlt]⟩
      rw [max_eq_right (le_of_lt hlt)]
      exact min_eq_left h1
    · simp only [Pos.get] at hlt ⊢
      simp at hlt ⊢
      refine ⟨?_, by simp [hlt]⟩
      rw [max_eq_right (le_of_lt hlt)]
      exact min_eq_left h2
  · intro i hi hlt
    rw [clamp_closed_form cfg t s hmin hmax]
    unfold Z_AXIS at hi
    interval_cases i
    · simp only [Pos.get] at hlt ⊢
      simp at hlt ⊢
      exact ⟨Or.inl (le_of_lt hlt), by simp [hlt]⟩
    · simp only [Pos.get] at hlt ⊢
      simp at hlt ⊢
      exact ⟨Or.inl (le_of_lt hlt), by simp [hlt]⟩
    · simp only [Pos.get] at hlt ⊢
      simp at hlt ⊢
      exact ⟨Or.inl (le_of_lt hlt), by simp [hlt]⟩

/-- C8, witness: on the sample configuration a target left of the X range and
above the Z range. -/
theorem clamp_to_software_endstops_spec_witness :
    (cfg8.MIN_SOFTWARE_ENDSTOPS = true ∧ cfg8.MAX_SOFTWARE_ENDSTOPS = true ∧
      ∀ i, i ≤ Z_AXIS →
        (Machine.init cfg8).motion.min_pos.get i ≤ (Machine.init cfg8).motion.max_pos.get i) ∧
    (clamp_to_software_endstops cfg8 endstopTarget (Machine.init cfg8)).1.get X_AXIS = 0 ∧
    (clamp_to_software_endstops cfg8 endstopTarget (Machine.init cfg8)).1.get Z_AXIS = 230 ∧
    (clamp_to_software_endstops cfg8 endstopTarget (Machine.init cfg8)).2.motion.position_error
      = true :=
  have hle : ∀ i, i ≤ Z_AXIS →
      (Machine.init cfg8).motion.min_pos.get i ≤ (Machine.init cfg8).motion.max_pos.get i := by
    intro i hi
    unfold Z_AXIS at hi
    interval_cases i <;> simp [Machine.init, Motion.init, cfg8, Pos.get]
  have h := clamp_to_software_endstops_spec cfg8 endstopTarget (Machine.init cfg8) rfl rfl hle
  ⟨⟨rfl, rfl, hle⟩,
    (h.2.2.1 X_AXIS (by decide) (by decide!)).1,
    (h.2.2.2 Z_AXIS (by decide) (by decide!)).1,
    (h.2.2.1 X_AXIS (by decide) (by decide!)).2⟩

/-! ## The retraction-state invariant -/

theorem RetractStep.same (s : Machine) : RetractStep s s :=
  fun _ => Or.inr (Or.inr ⟨rfl, rfl⟩)

theorem RetractStep.trans {s s' s'' : Machine} (h1 : RetractStep s s') (h2 : RetractStep s' s'') :
    RetractStep s s'' := by
  intro e
  rcases h2 e with h | h | ⟨ha, hb⟩
  · exact Or.inl h
  · exact Or.inr (Or.inl h)
  · rcases h1 e with h | h | ⟨hc, hd⟩
    · exact Or.inl (ha.trans h)
    · exact Or.inr (Or.inl (hb.trans h))
    · exact Or.inr (Or.inr ⟨ha.trans hc, hb.trans hd⟩)

theorem RetractStep.of_same {s s' : Machine}
    (h1 : s'.motion.extruder_retracted = s.motion.extruder_retracted)
    (h2 : s'.motion.retract_recover_length = s.motion.retract_recover_length) :
    RetractStep s s' :=
  fun _ => Or.inr (Or.inr ⟨by rw [h1], by rw [h2]⟩)

theorem RetractStep.inv {cfg : Config} {s s' : Machine} (h : RetractStep s s')
    (hinv : RetractInv cfg s) : RetractInv cfg s' := by
  intro e he hclear
  rcases h e with h | h | ⟨ha, hb⟩
  · rw [h] at hclear
    exact absurd hclear (by simp)
  · exact h
  · rw [hb]
    exact hinv e he (ha ▸ hclear)

theorem SameRetract.step {s s' : Machine} (h : SameRetract s s') : RetractStep s s' :=
  RetractStep.of_same h.1 h.2

theorem SameRetract.seq {s s' s'' : Machine} (h1 : SameRetract s s') (h2 : SameRetract s' s'') :
    SameRetract s s'' :=
  ⟨h2.1.trans h1.1, h2.2.trans h1.2⟩

theorem same_code_seen (cmd : List Char) (c : Char) (s : Machine) :
    SameRetract s (code_seen cmd c s).2 := ⟨rfl, rfl⟩

theorem same_plan (c : PlanCall) (s : Machine) : SameRetract s (plan c s) := ⟨rfl, rfl⟩

theorem same_set_destination (p : Pos) (s : Machine) : SameRetract s (set_destination p s) :=
  ⟨rfl, rfl⟩

theorem same_set_current_position (p : Pos) (s : Machine) :
    SameRetract s (set_current_position p s) := ⟨rfl, rfl⟩

theorem same_set_feedrate (f : ℚ) (s : Machine) : SameRetract s (set_feedrate f s) := ⟨rfl, rfl⟩

theorem same_set_recover_feedrate (e : Nat) (f : ℚ) (s : Machine) :
    SameRetract s (set_recover_feedrate e f s) := ⟨rfl, rfl⟩

theorem same_printing_state_rule (cfg : Config) (s : Machine) :
    SameRetract s (printing_state_rule cfg s) := by
  unfold printing_state_rule
  split_ifs <;> exact ⟨rfl, rfl⟩

theorem same_command_end (cfg : Config) (sendAck : Bool) (s : Machine) :
    SameRetract s (command_end cfg sendAck s) := by
  unfold command_end ClearToSend
  have h := same_printing_state_rule cfg s
  split_ifs
  · exact h
  · exact h

theorem same_recover_toolchange_retract (cfg : Config) (e : Nat) (b : Bool) (s : Machine) :
    SameRetract s (recover_toolchange_retract cfg e b s) := by
  unfold recover_toolchange_retract
  split_ifs <;> exact ⟨rfl, rfl⟩

theorem same_clamp_min_axis (st : Pos × Machine) (i : Nat) :
    SameRetract st.2 (clamp_min_axis st i).2 := by
  unfold clamp_min_axis
  split_ifs <;> exact ⟨rfl, rfl⟩

theorem same_clamp_max_axis (st : Pos × Machine) (i : Nat) :
    SameRetract st.2 (clamp_max_axis st i).2 := by
  unfold clamp_max_axis
  split_ifs <;> exact ⟨rfl, rfl⟩

theorem same_foldl {α β : Type} (f : α × Machine → β → α × Machine)
    (hf : ∀ st i, SameRetract st.2 (f st i).2) :
    ∀ (l : List β) (st : α × Machine), SameRetract st.2 (l.foldl f st).2
  | [], _ => ⟨rfl, rfl⟩
  | i :: l, st => (hf st i).seq (same_foldl f hf l (f st i))

theorem same_clamp (cfg : Config) (t : Pos) (s : Machine) :
    SameRetract s (clamp_to_software_endstops cfg t s).2 := by
  unfold clamp_to_software_endstops
  have h1 := same_foldl clamp_min_axis same_clamp_min_axis [X_AXIS, Y_AXIS, Z_AXIS] (t, s)
  split_ifs
  · exact h1.seq (same_foldl clamp_max_axis same_clamp_max_axis _ _)
  · exact h1
  · exact same_foldl clamp_max_axis same_clamp_max_axis _ (t, s)
  · exact ⟨rfl, rfl⟩

theorem same_prepare_move (cfg : Config) (s s' : Machine) (h : prepare_move cfg s = some s') :
    SameRetract s s' := by
  have hc := same_clamp cfg s.motion.destination s
  unfold prepare_move at h
  generalize clamp_to_software_endstops cfg s.motion.destination s = r at h hc
  simp only at h
  split_ifs at h <;> simp only [Option.some.injEq] at h <;> subst h <;> exact hc


theorem same_get_coordinates_axis (cmd : List Char) (st : Nat × Machine) (i : Nat) :
    SameRetract st.2 (get_coordinates_axis cmd st i).2 := by
  unfold get_coordinates_axis
  simp only
  split_ifs <;> exact ⟨rfl, rfl⟩

theorem same_get_coordinates_feedrate (cmd : List Char) (s : Machine) :
    SameRetract s (get_coordinates_feedrate cmd s) := by
  unfold get_coordinates_feedrate
  simp only
  split_ifs <;> exact ⟨rfl, rfl⟩

theorem step_set_retract (e : Nat) (s : Machine) : RetractStep s (SET_EXTRUDER_RETRACT e s) := by
  intro j
  by_cases h : j = e
  · left
    simp [SET_EXTRUDER_RETRACT, h]
  · right; right
    simp [SET_EXTRUDER_RETRACT, Function.update, h]

theorem step_clear_zero (e : Nat) (s : Machine) :
    RetractStep s (set_recover_length e 0 (CLEAR_EXTRUDER_RETRACT e s)) := by
  intro j
  by_cases h : j = e
  · right; left
    simp [set_recover_length, h]
  · right; right
    simp [set_recover_length, CLEAR_EXTRUDER_RETRACT, Function.update, h]

/-- A store to the recover length of `e` followed, after steps that keep the
flags and lengths, by setting the retracted bit of `e`. -/
theorem step_of_retracted {s s' : Machine} (e : Nat)
    (hbit : s'.motion.extruder_retracted e = true)
    (hflags : ∀ j, j ≠ e → s'.motion.extruder_retracted j = s.motion.extruder_retracted j)
    (hlen : ∀ j, j ≠ e → s'.motion.retract_recover_length j = s.motion.retract_recover_length j) :
    RetractStep s s' := by
  intro j
  by_cases h : j = e
  · left
    rw [h]
    exact hbit
  · right; right
    exact ⟨hflags j h, hlen j h⟩

theorem step_get_coordinates_retract (cfg : Config) (echange : ℚ) (s : Machine) :
    RetractStep s (get_coordinates_retract cfg echange s) := by
  apply step_of_retracted s.active_extruder
  · unfold get_coordinates_retract
    simp [SET_EXTRUDER_RETRACT]
  · intro j hj
    unfold get_coordinates_retract
    simp only
    split_ifs <;>
      simp [SET_EXTRUDER_RETRACT, set_recover_length, set_current_position, set_feedrate, plan,
        Function.update, hj]
  · intro j hj
    unfold get_coordinates_retract
    simp only
    split_ifs <;>
      simp [SET_EXTRUDER_RETRACT, set_recover_length, set_current_position, set_feedrate, plan,
        Function.update, hj]


theorem same_toolchange_if (cfg : Config) (s : Machine) :
    SameRetract s
      (if cfg.EXTRUDERS > 1 then recover_toolchange_retract cfg s.active_extruder false s
        else s) := by
  split_ifs
  · exact same_recover_toolchange_retract cfg _ _ s
  · exact ⟨rfl, rfl⟩

theorem step_get_coordinates_recover (cfg : Config) (echange : ℚ) (s : Machine) :
    RetractStep s (get_coordinates_recover cfg echange s) := by
  have h1 := same_toolchange_if cfg s
  unfold get_coordinates_recover
  simp only
  generalize (if cfg.EXTRUDERS > 1 then
    recover_toolchange_retract cfg s.active_extruder false s else s) = s1 at h1 ⊢
  refine RetractStep.trans (SameRetract.step ?_) (step_clear_zero _ _)
  split_ifs
  · exact h1.seq ⟨rfl, rfl⟩
  · exact h1

theorem step_get_coordinates_first_move (cfg : Config) (s : Machine) :
    RetractStep s (get_coordinates_first_move cfg s) := by
  have h1 := same_toolchange_if cfg s
  unfold get_coordinates_first_move
  simp only
  generalize (if cfg.EXTRUDERS > 1 then
    recover_toolchange_retract cfg s.active_extruder false s else s) = s1 at h1 ⊢
  split_ifs
  · refine RetractStep.trans (SameRetract.step ?_) (step_clear_zero _ _)
    exact h1.seq ⟨rfl, rfl⟩
  · exact h1.step

theorem step_get_coordinates_fwretract (cfg : Config) (seen : Nat) (s : Machine) :
    RetractStep s (get_coordinates_fwretract cfg seen s) := by
  unfold get_coordinates_fwretract
  simp only
  split_ifs
  · exact step_get_coordinates_retract cfg _ s
  · exact step_get_coordinates_recover cfg _ s
  · exact RetractStep.same s
  · exact step_get_coordinates_first_move cfg s
  · exact RetractStep.same s

theorem step_get_coordinates (cfg : Config) (cmd : List Char) (s : Machine) :
    RetractStep s (get_coordinates cfg cmd s) := by
  have h1 : SameRetract s (if s.printing_state < cfg.PRINT_STATE_TOOLCHANGE then
      set_destination s.motion.current_position s else s) := by
    split_ifs <;> exact ⟨rfl, rfl⟩
  unfold get_coordinates
  simp only
  generalize (if s.printing_state < cfg.PRINT_STATE_TOOLCHANGE then
      set_destination s.motion.current_position s else s) = s1 at h1 ⊢
  have h2 := same_foldl (get_coordinates_axis cmd) (same_get_coordinates_axis cmd)
    [X_AXIS, Y_AXIS, Z_AXIS, E_AXIS] (0, s1)
  generalize List.foldl (get_coordinates_axis cmd) (0, s1) [X_AXIS, Y_AXIS, Z_AXIS, E_AXIS] = st
    at h2 ⊢
  have h3 := same_get_coordinates_feedrate cmd st.2
  generalize get_coordinates_feedrate cmd st.2 = s2 at h3 ⊢
  have h4 : RetractStep s s2 := ((h1.seq h2).seq h3).step
  have h5 : RetractStep s (if cfg.FWRETRACT = true then
      get_coordinates_fwretract cfg st.1 s2 else s2) := by
    split_ifs
    · exact h4.trans (step_get_coordinates_fwretract cfg _ s2)
    · exact h4
  generalize (if cfg.FWRETRACT = true then get_coordinates_fwretract cfg st.1 s2 else s2) = s3
    at h5 ⊢
  split_ifs
  · exact h5.trans (SameRetract.step ⟨rfl, rfl⟩)
  · exact h5

theorem step_gcode_G10 (cfg : Config) (strCmd : List Char) (s s' : Machine)
    (h : gcode_G10 cfg strCmd s = some s') : RetractStep s s' := by
  unfold gcode_G10 at h
  by_cases h1 : s.printing_state = cfg.PRINT_STATE_RECOVER
  · rw [if_pos h1, Option.some.injEq] at h
    subst h
    exact RetractStep.same s
  rw [if_neg h1] at h
  simp only at h
  by_cases h2 : (!EXTRUDER_RETRACTED s.active_extruder s &&
      !TOOLCHANGE_RETRACTED s.active_extruder s) = true
  · rw [if_pos h2, Option.map_eq_some'] at h
    obtain ⟨s6, hp, hs⟩ := h
    have hsame := same_prepare_move cfg _ _ hp
    subst hs
    apply step_of_retracted s.active_extruder
    · show (s6.motion.extruder_retracted s.active_extruder) = true
      rw [hsame.1]
      simp [SET_EXTRUDER_RETRACT]
    · intro j hj
      show (s6.motion.extruder_retracted j) = _
      rw [hsame.1]
      simp only [SET_EXTRUDER_RETRACT, set_recover_length, set_recover_feedrate]
      split_ifs <;> simp [Function.update, hj, set_feedrate, set_destination, code_seen]
    · intro j hj
      show (s6.motion.retract_recover_length j) = _
      rw [hsame.2]
      simp only [SET_EXTRUDER_RETRACT, set_recover_length, set_recover_feedrate]
      split_ifs <;> simp [Function.update, hj, set_feedrate, set_destination, code_seen]
  · rw [if_neg h2, Option.some.injEq] at h
    subst h
    exact RetractStep.same s

theorem step_gcode_G11 (cfg : Config) (s s' : Machine)
    (h : gcode_G11 cfg s = some s') : RetractStep s s' := by
  have h0 := same_toolchange_if cfg s
  unfold gcode_G11 at h
  by_cases h1 : s.printing_state = cfg.PRINT_STATE_RECOVER
  · rw [if_pos h1, Option.some.injEq] at h
    subst h
    exact RetractStep.same s
  rw [if_neg h1] at h
  simp only at h
  by_cases h2 : EXTRUDER_RETRACTED s.active_extruder s = true
  · rw [if_pos h2, Option.map_eq_some'] at h
    generalize (if cfg.EXTRUDERS > 1 then
      recover_toolchange_retract cfg s.active_extruder false s else s) = s1 at h0 h
    obtain ⟨s6, hp, hs⟩ := h
    have hsame := same_prepare_move cfg _ _ hp
    subst hs
    refine RetractStep.trans (h0.step.trans (step_clear_zero s.active_extruder
      (set_feedrate (s1.motion.retract_recover_feedrate s.active_extruder)
        (set_destination { s1.motion.current_position with
          e := s1.motion.current_position.e + s1.motion.retract_recover_length s.active_extruder }
          (set_destination s1.motion.current_position s1))))) ?_
    exact SameRetract.step ⟨hsame.1, hsame.2⟩
  · rw [if_neg h2, Option.some.injEq] at h
    subst h
    exact RetractStep.same s

theorem same_gcode_G92_axis (cmd : List Char) (st : (Bool × Bool) × Machine) (i : Nat) :
    SameRetract st.2 (gcode_G92_axis cmd st i).2 := by
  unfold gcode_G92_axis
  simp only
  split_ifs <;> exact ⟨rfl, rfl⟩

theorem same_gcode_G92 (cmd : List Char) (s : Machine) : SameRetract s (gcode_G92 cmd s) := by
  have h := same_foldl (gcode_G92_axis cmd) (same_gcode_G92_axis cmd)
    [X_AXIS, Y_AXIS, Z_AXIS, E_AXIS] ((false, false), s)
  unfold gcode_G92
  simp only
  generalize List.foldl (gcode_G92_axis cmd) ((false, false), s)
    [X_AXIS, Y_AXIS, Z_AXIS, E_AXIS] = st at h ⊢
  split_ifs
  · exact h.seq ⟨rfl, rfl⟩
  · exact h.seq ⟨rfl, rfl⟩
  · exact h

theorem same_gcode_M207 (strCmd : List Char) (s : Machine) :
    SameRetract s (gcode_M207 strCmd s) := by
  unfold gcode_M207 code_seen
  simp only
  split_ifs <;> exact ⟨rfl, rfl⟩

theorem reset_foldl (l : List Nat) :
    ∀ s : Machine, RetractStep s (l.foldl reset_retract_extruder s) ∧
      ∀ e, e ∈ l → (l.foldl reset_retract_extruder s).motion.extruder_retracted e = false ∧
        (l.foldl reset_retract_extruder s).motion.retract_recover_length e = 0 := by
  induction l with
  | nil => intro s; exact ⟨RetractStep.same s, fun e he => absurd he (List.not_mem_nil e)⟩
  | cons a l ih =>
    intro s
    obtain ⟨h1, h2⟩ := ih (reset_retract_extruder s a)
    refine ⟨(step_clear_zero a s).trans h1, ?_⟩
    intro e he
    by_cases hel : e ∈ l
    · exact h2 e hel
    · have hea : e = a := by
        rcases List.mem_cons.mp he with h | h
        · exact h
        · exact absurd h hel
      subst hea
      have hkeep : ∀ (l : List Nat) (s : Machine), e ∉ l →
          (l.foldl reset_retract_extruder s).motion.extruder_retracted e =
            s.motion.extruder_retracted e ∧
          (l.foldl reset_retract_extruder s).motion.retract_recover_length e =
            s.motion.retract_recover_length e := by
        intro l
        induction l with
        | nil => intro s _; exact ⟨rfl, rfl⟩
        | cons b l ih2 =>
          intro s hn
          have hb : e ≠ b := fun h => hn (h ▸ List.mem_cons_self _ _)
          have hl : e ∉ l := fun h => hn (List.mem_cons_of_mem _ h)
          obtain ⟨k1, k2⟩ := ih2 (reset_retract_extruder s b) hl
          rw [List.foldl_cons, k1, k2]
          simp [reset_retract_extruder, set_recover_length, CLEAR_EXTRUDER_RETRACT,
            Function.update, hb]
      obtain ⟨k1, k2⟩ := hkeep l (reset_retract_extruder s e) hel
      rw [List.foldl_cons, k1, k2]
      simp [reset_retract_extruder, set_recover_length, CLEAR_EXTRUDER_RETRACT]

theorem step_reset_retractstate (cfg : Config) (s : Machine) :
    RetractStep s (reset_retractstate cfg s) :=
  (reset_foldl (List.range cfg.EXTRUDERS) s).1

theorem reset_retractstate_clears (cfg : Config) (s : Machine) (e : Nat) (he : e < cfg.EXTRUDERS) :
    (reset_retractstate cfg s).motion.extruder_retracted e = false ∧
    (reset_retractstate cfg s).motion.retract_recover_length e = 0 :=
  (reset_foldl (List.range cfg.EXTRUDERS) s).2 e (List.mem_range.mpr he)

theorem step_gcode_M209 (cfg : Config) (strCmd : List Char) (s : Machine) :
    RetractStep s (gcode_M209 cfg strCmd s) := by
  unfold gcode_M209
  simp only
  have h0 := (same_code_seen strCmd 'S' s).step
  split_ifs
  · exact h0.trans ((step_reset_retractstate cfg _).trans (SameRetract.step ⟨rfl, rfl⟩))
  · exact h0.trans ((step_reset_retractstate cfg _).trans (SameRetract.step ⟨rfl, rfl⟩))
  · exact SameRetract.step ⟨rfl, rfl⟩
  · exact h0


theorem mcodeNumber_of_dispatch (cfg : Config) (strCmd : List Char) (s : Machine) (n : Int)
    (hg : (code_seen strCmd 'G' (printing_state_rule cfg s)).1 = false)
    (hm : (code_seen strCmd 'M' (code_seen strCmd 'G' (printing_state_rule cfg s)).2).1 = true)
    (hn : truncToInt (code_value
      (code_seen strCmd 'M' (code_seen strCmd 'G' (printing_state_rule cfg s)).2).2) = n) :
    mcodeNumber strCmd = some n := by
  unfold code_seen at hg hm hn
  unfold code_value at hn
  simp only at hg hm hn
  unfold mcodeNumber
  rw [hg]
  cases hp : strchr strCmd 'M' with
  | none => rw [hp] at hm; simp at hm
  | some p =>
    rw [hp] at hn
    simp only at hn
    simp [hn]

theorem same_ClearToSend (s : Machine) : SameRetract s (ClearToSend s) := ⟨rfl, rfl⟩

theorem same_ack (sendAck : Bool) (s : Machine) :
    SameRetract s (if sendAck = true then ClearToSend s else s) := by
  split_ifs <;> exact ⟨rfl, rfl⟩

theorem same_FlushSerialRequestResend (cfg : Config) (s : Machine) :
    SameRetract s (FlushSerialRequestResend cfg s) := ⟨rfl, rfl⟩

theorem step_get_arc_coordinates (cfg : Config) (cmd : List Char) (s : Machine) :
    RetractStep s (get_arc_coordinates cfg cmd s) := by
  unfold get_arc_coordinates
  simp only
  have h1 : SameRetract s (if cfg.SF_ARC_FIX = true then
      { s with motion := { s.motion with
          axis_relative_state := bitSet 8 s.motion.axis_relative_state 7 } } else s) := by
    split_ifs <;> exact ⟨rfl, rfl⟩
  generalize (if cfg.SF_ARC_FIX = true then
      ({ s with motion := { s.motion with
          axis_relative_state := bitSet 8 s.motion.axis_relative_state 7 } } : Machine)
      else s) = s1 at h1 ⊢
  have h2 := step_get_coordinates cfg cmd s1
  generalize get_coordinates cfg cmd s1 = s2 at h2 ⊢
  refine (h1.step.trans h2).trans (SameRetract.step ?_)
  split_ifs <;> exact ⟨rfl, rfl⟩

theorem same_prepare_arc_move (b : Bool) (s : Machine) :
    SameRetract s (prepare_arc_move b s) := ⟨rfl, rfl⟩

theorem same_gcode_G4 (cfg : Config) (strCmd : List Char) (s : Machine) :
    SameRetract s (gcode_G4 cfg strCmd s) := by
  unfold gcode_G4
  split_ifs <;> exact ⟨rfl, rfl⟩

theorem same_setTargetedHotend (cfg : Config) (cmd : List Char) (code : Nat) (s : Machine) :
    SameRetract s (setTargetedHotend cfg cmd code s).2 := by
  unfold setTargetedHotend
  simp only
  split_ifs <;> exact ⟨rfl, rfl⟩

theorem same_gcode_M105 (cfg : Config) (cmd : List Char) (s : Machine) :
    SameRetract s (gcode_M105 cfg cmd s) := by
  have h := same_setTargetedHotend cfg cmd 105 s
  unfold gcode_M105
  simp only
  generalize setTargetedHotend cfg cmd 105 s = t at h ⊢
  split_ifs
  · exact h
  · exact h.seq ⟨rfl, rfl⟩
  · exact h.seq ⟨rfl, rfl⟩

theorem same_gcode_M999 (cfg : Config) (s : Machine) : SameRetract s (gcode_M999 cfg s) := by
  unfold gcode_M999
  split_ifs <;> exact ⟨rfl, rfl⟩

theorem same_swap_extruder_offset (n : Nat) (s : Machine) (axis : Nat) :
    SameRetract s (swap_extruder_offset n s axis) := ⟨rfl, rfl⟩

theorem same_changeExtruder (cfg : Config) (n : Nat) (moveZ : Bool) (s : Machine)
    (c : Bool × Machine) (h : changeExtruder cfg n moveZ s = some c) : SameRetract s c.2 := by
  unfold changeExtruder at h
  simp only [List.foldl_cons, List.foldl_nil] at h
  split_ifs at h <;> simp only [Option.some.injEq] at h <;> subst h <;> exact ⟨rfl, rfl⟩


theorem same_gcode_T_feedrate (strCmd : List Char) (s : Machine) :
    SameRetract s (gcode_T_feedrate strCmd s).2 := by
  unfold gcode_T_feedrate
  simp only
  split_ifs <;> exact ⟨rfl, rfl⟩

theorem same_gcode_T_change (cfg : Config) (b : Bool) (s s' : Machine)
    (h : gcode_T_change cfg b s = some s') : SameRetract s s' := by
  unfold gcode_T_change at h
  rw [Option.bind_eq_some] at h
  obtain ⟨c, hc, h⟩ := h
  have h1 := same_changeExtruder cfg _ _ s c hc
  split_ifs at h
  · exact h1.seq (same_prepare_move cfg _ _ h)
  · rw [Option.some.injEq] at h
    subst h
    exact h1
  · rw [Option.some.injEq] at h
    subst h
    exact h1.seq ⟨rfl, rfl⟩

theorem same_gcode_T (cfg : Config) (strCmd : List Char) (s s' : Machine)
    (h : gcode_T cfg strCmd s = some s') : SameRetract s s' := by
  unfold gcode_T at h
  simp only at h
  have h2 := same_gcode_T_feedrate strCmd { s with motion := { s.motion with
    tmp_extruder := toU8 (truncToInt (code_value s)) } }
  generalize gcode_T_feedrate strCmd { s with motion := { s.motion with
    tmp_extruder := toU8 (truncToInt (code_value s)) } } = f at h h2
  have h3 : SameRetract s f.2 := SameRetract.seq ⟨rfl, rfl⟩ h2
  split_ifs at h
  · rw [Option.some.injEq] at h
    subst h
    exact ⟨rfl, rfl⟩
  · exact h3.seq (same_gcode_T_change cfg _ _ _ h)
  · rw [Option.some.injEq] at h
    subst h
    exact h3.seq ⟨rfl, rfl⟩

theorem step_of_some {s s1 s' : Machine} (h : some s1 = some s') (hs : RetractStep s s1) :
    RetractStep s s' := by
  rw [Option.some.injEq] at h
  subst h
  exact hs

theorem step_gcode_switch (cfg : Config) (strCmd : List Char) (sendAck : Bool)
    (s s' : Machine) (h : gcode_switch cfg strCmd sendAck s = some s') : RetractStep s s' := by
  unfold gcode_switch at h
  simp only at h
  generalize truncToInt (code_value s) = n at h
  by_cases c1 : (n = 0 ∨ n = 1) ∧ s.Stopped = 0
  · rw [if_pos c1, Option.map_eq_some'] at h
    obtain ⟨s1, hp, hs⟩ := h
    subst hs
    exact (step_get_coordinates cfg strCmd s).trans
      ((same_prepare_move cfg _ _ hp).seq (same_ack sendAck s1)).step
  rw [if_neg c1] at h
  by_cases c2 : n = 2 ∧ s.Stopped = 0
  · rw [if_pos c2] at h
    exact step_of_some h ((step_get_arc_coordinates cfg strCmd s).trans
      ((same_prepare_arc_move true _).seq (same_ack sendAck _)).step)
  rw [if_neg c2] at h
  by_cases c3 : n = 3 ∧ s.Stopped = 0
  · rw [if_pos c3] at h
    exact step_of_some h ((step_get_arc_coordinates cfg strCmd s).trans
      ((same_prepare_arc_move false _).seq (same_ack sendAck _)).step)
  rw [if_neg c3] at h
  by_cases c4 : n = 0 ∨ n = 1 ∨ n = 2 ∨ n = 3 ∨ n = 4
  · rw [if_pos c4] at h
    exact step_of_some h
      ((same_gcode_G4 cfg strCmd s).seq (same_command_end cfg sendAck _)).step
  rw [if_neg c4] at h
  by_cases c5 : n = 28
  · rw [if_pos c5] at h
    exact absurd h (by simp)
  rw [if_neg c5] at h
  by_cases c6 : n = 10 ∧ cfg.FWRETRACT = true
  · rw [if_pos c6, Option.map_eq_some'] at h
    obtain ⟨s1, hp, hs⟩ := h
    subst hs
    exact (step_gcode_G10 cfg strCmd s s1 hp).trans (same_command_end cfg sendAck s1).step
  rw [if_neg c6] at h
  by_cases c7 : n = 11 ∧ cfg.FWRETRACT = true
  · rw [if_pos c7, Option.map_eq_some'] at h
    obtain ⟨s1, hp, hs⟩ := h
    subst hs
    exact (step_gcode_G11 cfg s s1 hp).trans (same_command_end cfg sendAck s1).step
  rw [if_neg c7] at h
  by_cases c8 : n = 90
  · rw [if_pos c8] at h
    exact step_of_some h
      (@SameRetract.seq s (gcode_G90 s) _ ⟨rfl, rfl⟩ (same_command_end cfg sendAck _)).step
  rw [if_neg c8] at h
  by_cases c9 : n = 91
  · rw [if_pos c9] at h
    exact step_of_some h
      (@SameRetract.seq s (gcode_G91 s) _ ⟨rfl, rfl⟩ (same_command_end cfg sendAck _)).step
  rw [if_neg c9] at h
  by_cases c10 : n = 92
  · rw [if_pos c10] at h
    exact step_of_some h
      ((same_gcode_G92 strCmd s).seq (same_command_end cfg sendAck _)).step
  rw [if_neg c10] at h
  exact step_of_some h (same_command_end cfg sendAck _).step

theorem step_mcode_switch (cfg : Config) (strCmd : List Char) (sendAck : Bool)
    (s s' : Machine) (hne : truncToInt (code_value s) ≠ 208)
    (h : mcode_switch cfg strCmd sendAck s = some s') : RetractStep s s' := by
  unfold mcode_switch at h
  simp only at h
  generalize truncToInt (code_value s) = n at h hne
  by_cases c1 : (n = 20 ∨ n = 21 ∨ n = 22) ∧ cfg.SDSUPPORT = true ∧
      s.printing_state = cfg.PRINT_STATE_RECOVER
  · rw [if_pos c1] at h
    exact step_of_some h (same_command_end cfg sendAck _).step
  rw [if_neg c1] at h
  by_cases c2 : n = 20 ∧ cfg.SDSUPPORT = true
  · rw [if_pos c2] at h
    exact step_of_some h (SameRetract.step ⟨rfl, rfl⟩)
  rw [if_neg c2] at h
  by_cases c3 : n = 21 ∧ cfg.SDSUPPORT = true
  · rw [if_pos c3] at h
    exact step_of_some h (SameRetract.step ⟨rfl, rfl⟩)
  rw [if_neg c3] at h
  by_cases c4 : n = 22 ∧ cfg.SDSUPPORT = true
  · rw [if_pos c4] at h
    exact step_of_some h (SameRetract.step ⟨rfl, rfl⟩)
  rw [if_neg c4] at h
  by_cases c5 : n = 27 ∧ cfg.SDSUPPORT = true
  · rw [if_pos c5] at h
    exact step_of_some h (SameRetract.step ⟨rfl, rfl⟩)
  rw [if_neg c5] at h
  by_cases c6 : n = 105
  · rw [if_pos c6] at h
    exact step_of_some h (same_gcode_M105 cfg strCmd s).step
  rw [if_neg c6] at h
  by_cases c7 : n = 207 ∧ cfg.FWRETRACT = true
  · rw [if_pos c7] at h
    exact step_of_some h
      ((same_gcode_M207 strCmd s).seq (same_command_end cfg sendAck _)).step
  rw [if_neg c7] at h
  by_cases c8 : n = 208 ∧ cfg.FWRETRACT = true
  · exact absurd c8.1 hne
  rw [if_neg c8] at h
  by_cases c9 : n = 209 ∧ cfg.FWRETRACT = true
  · rw [if_pos c9] at h
    exact step_of_some h
      ((step_gcode_M209 cfg strCmd s).trans (same_command_end cfg sendAck _).step)
  rw [if_neg c9] at h
  by_cases c10 : n = 999
  · rw [if_pos c10] at h
    exact step_of_some h
      ((same_gcode_M999 cfg s).seq (same_command_end cfg sendAck _)).step
  rw [if_neg c10] at h
  by_cases c11 : n = 10010 ∧ cfg.ENABLE_ULTILCD2 = true
  · rw [if_pos c11] at h
    exact step_of_some h (SameRetract.step ⟨rfl, rfl⟩)
  rw [if_neg c11] at h
  by_cases c12 : n ∈ mcodeLabels
  · rw [if_pos c12] at h
    exact absurd h (by simp)
  rw [if_neg c12] at h
  exact step_of_some h (same_command_end cfg sendAck _).step

theorem step_process_command (cfg : Config) (strCmd : List Char) (sendAck : Bool)
    (s s' : Machine) (hne : mcodeNumber strCmd ≠ some 208)
    (h : process_command cfg strCmd sendAck s = some s') : RetractStep s s' := by
  have h0 : SameRetract s (code_seen strCmd 'G' (printing_state_rule cfg s)).2 :=
    (same_printing_state_rule cfg s).seq (same_code_seen _ _ _)
  have hM := mcodeNumber_of_dispatch cfg strCmd s
  unfold process_command at h
  simp only at h
  generalize (code_seen strCmd 'G' (printing_state_rule cfg s)) = g at h h0 hM
  have h1 : SameRetract g.2 (code_seen strCmd 'M' g.2).2 := same_code_seen _ _ _
  generalize (code_seen strCmd 'M' g.2) = m at h h1 hM
  have h2 : SameRetract m.2 (code_seen strCmd 'T' m.2).2 := same_code_seen _ _ _
  generalize (code_seen strCmd 'T' m.2) = t at h h2
  split_ifs at h with c1 c2 c3 c4
  · exact h0.step.trans (step_gcode_switch cfg strCmd sendAck g.2 s' h)
  · refine (h0.seq h1).step.trans (step_mcode_switch cfg strCmd sendAck m.2 s' ?_ h)
    intro hn
    exact hne (hM _ (by simpa using c1) c2 hn)
  · rw [Option.map_eq_some'] at h
    obtain ⟨s1, hp, hs⟩ := h
    subst hs
    exact (((h0.seq h1).seq h2).seq ((same_gcode_T cfg strCmd _ _ hp).seq
      (same_command_end cfg sendAck _))).step
  · exact step_of_some h ((((h0.seq h1).seq h2).seq
      (@SameRetract.seq t.2 (unknown_command strCmd t.2) _ ⟨rfl, rfl⟩
        (same_command_end cfg sendAck _))).step)

theorem option_eq_some_getD {α : Type} (o : Option α) (d : α) (h : o.isSome = true) :
    o = some (o.getD d) := by
  cases o with
  | none => simp at h
  | some a => rfl

theorem option_eq_none_of_isNone {α : Type} (o : Option α) (h : o.isNone = true) : o = none := by
  cases o with
  | none => rfl
  | some a => simp at h

theorem init_retract_inv (cfg : Config) : RetractInv cfg (Machine.init cfg) :=
  fun _ _ _ => rfl

/-- C9 (as amended): retraction-state invariant. In every state reached from a
state satisfying the invariant through `reset_retractstate`, `get_coordinates`
and the commands G0, G1, G10, G11, G90, G91, G92, M207 and M209 of
`process_command`, for every extruder `e`, if the retracted bit of `e` is
clear then `retract_recover_length[e] = 0`. Each of these operations leaves,
for every extruder, the retracted bit set, or the recover length zero, or both
as they were: none clears the bit without zeroing the length, none stores a
non-zero length while the bit stays clear. M208 is excluded. -/
theorem retract_invariant (cfg : Config) :
    (∀ s, RetractReachable cfg s → RetractInv cfg s) ∧
    (∀ s, RetractStep s (reset_retractstate cfg s)) ∧
    (∀ cmd s, RetractStep s (get_coordinates cfg cmd s)) ∧
    (∀ strCmd sendAck s s', mcodeNumber strCmd ≠ some 208 →
      process_command cfg strCmd sendAck s = some s' → RetractStep s s') := by
  refine ⟨?_, step_reset_retractstate cfg, fun cmd s => step_get_coordinates cfg cmd s,
    fun strCmd sendAck s s' hne h => step_process_command cfg strCmd sendAck s s' hne h⟩
  intro s h
  induction h with
  | start s h => exact h
  | reset s _ ih => exact (step_reset_retractstate cfg s).inv ih
  | coordinates s cmd _ ih => exact (step_get_coordinates cfg cmd s).inv ih
  | command s s' strCmd sendAck _ hne hstep ih =>
    exact (step_process_command cfg strCmd sendAck s s' hne hstep).inv ih

/-- C9, witness: the state after `G10` on the sample machine is reachable and
satisfies the invariant, and `G10` is a step that respects it. -/
theorem retract_invariant_witness :
    RetractReachable cfg8 afterG10 ∧ RetractInv cfg8 afterG10 ∧
    RetractStep (Machine.init cfg8) afterG10 :=
  have hne : mcodeNumber "G10".toList ≠ some 208 := by decide!
  have hstep : process_command cfg8 "G10".toList true (Machine.init cfg8) = some afterG10 :=
    option_eq_some_getD _ _ (by decide!)
  have hr : RetractReachable cfg8 afterG10 :=
    RetractReachable.command (Machine.init cfg8) afterG10 "G10".toList true
      (RetractReachable.start _ (init_retract_inv cfg8)) hne hstep
  ⟨hr, (retract_invariant cfg8).1 afterG10 hr,
    (retract_invariant cfg8).2.2.2 "G10".toList true (Machine.init cfg8) afterG10 hne hstep⟩

/-- C9, counterexample: on the sample machine, whose initial state satisfies
the invariant, `M208 S2` leaves the retracted bit of extruder 0 clear and its
recover length equal to 2. -/
theorem retract_invariant_broken_by_M208 :
    RetractInv cfg8 (Machine.init cfg8) ∧
    (process_command cfg8 "M208 S2".toList true (Machine.init cfg8)).map
      (fun s => (s.motion.extruder_retracted 0, s.motion.retract_recover_length 0)) =
      some (false, 2) :=
  ⟨init_retract_inv cfg8, by decide!⟩

/-! ## The firmware-retract round trip -/

theorem prepare_move_in_range (cfg : Config) (s : Machine)
    (hst : s.printing_state ≠ cfg.PRINT_STATE_RECOVER)
    (hx : s.motion.min_pos.x ≤ s.motion.destination.x ∧
      s.motion.destination.x ≤ s.motion.max_pos.x)
    (hy : s.motion.min_pos.y ≤ s.motion.destination.y ∧
      s.motion.destination.y ≤ s.motion.max_pos.y)
    (hz : s.motion.min_pos.z ≤ s.motion.destination.z ∧
      s.motion.destination.z ≤ s.motion.max_pos.z)
    (hcx : s.motion.current_position.x = s.motion.destination.x)
    (hcy : s.motion.current_position.y = s.motion.destination.y) :
    prepare_move cfg s = some (set_current_position s.motion.destination
      (plan (PlanCall.buffer_line s.motion.destination.x s.motion.destination.y
        s.motion.destination.z s.motion.destination.e (s.motion.feedrate / 60)
        s.active_extruder) s)) := by
  unfold prepare_move
  rw [clamp_in_range cfg _ s hx hy hz]
  have hs : set_destination s.motion.destination s = s := rfl
  simp only [hs]
  simp [hst, hcx, hcy]

theorem InsideLimits.xyz {s : Machine} (h : InsideLimits s) :
    (s.motion.min_pos.x ≤ s.motion.current_position.x ∧
      s.motion.current_position.x ≤ s.motion.max_pos.x) ∧
    (s.motion.min_pos.y ≤ s.motion.current_position.y ∧
      s.motion.current_position.y ≤ s.motion.max_pos.y) ∧
    (s.motion.min_pos.z ≤ s.motion.current_position.z ∧
      s.motion.current_position.z ≤ s.motion.max_pos.z) := by
  have h0 := h 0 (by decide)
  have h1 := h 1 (by decide)
  have h2 := h 2 (by decide)
  simp only [Pos.get] at h0 h1 h2
  simp at h0 h1 h2
  exact ⟨h0, h1, h2⟩

theorem gcode_G10_retract (cfg : Config) (strCmd : List Char) (s : Machine)
    (hst : s.printing_state ≠ cfg.PRINT_STATE_RECOVER)
    (hr : EXTRUDER_RETRACTED s.active_extruder s = false)
    (ht : TOOLCHANGE_RETRACTED s.active_extruder s = false)
    (hin : InsideLimits s) :
    ∃ L f sp, gcode_G10 cfg strCmd s = some (retractOutcome s L f sp) := by
  obtain ⟨hx, hy, hz⟩ := hin.xyz
  unfold gcode_G10
  rw [if_neg hst]
  simp only [hr, ht, Bool.not_false, Bool.and_self, if_true]
  split_ifs with h1 h2 h2
  · refine ⟨s.motion.toolchange_retractlen s.active_extruder /
        s.motion.volume_to_filament_length s.active_extruder,
      s.motion.toolchange_retractfeedrate s.active_extruder, strchr strCmd 'S', ?_⟩
    rw [prepare_move_in_range]
    · simp [retractOutcome, set_feedrate, set_destination, set_current_position, plan,
        set_recover_length, set_recover_feedrate, SET_EXTRUDER_RETRACT, code_seen]
    all_goals simp [set_feedrate, set_destination, set_current_position, plan,
        set_recover_length, set_recover_feedrate, SET_EXTRUDER_RETRACT, code_seen, hst, hx, hy, hz]
  · refine ⟨s.motion.retract_length / s.motion.volume_to_filament_length s.active_extruder,
      s.motion.retract_feedrate, strchr strCmd 'S', ?_⟩
    rw [prepare_move_in_range]
    · simp [retractOutcome, set_feedrate, set_destination, set_current_position, plan,
        set_recover_length, set_recover_feedrate, SET_EXTRUDER_RETRACT, code_seen]
    all_goals simp [set_feedrate, set_destination, set_current_position, plan,
        set_recover_length, set_recover_feedrate, SET_EXTRUDER_RETRACT, code_seen, hst, hx, hy, hz]
  · exact absurd h2.1 (by simp)
  · refine ⟨s.motion.retract_length / s.motion.volume_to_filament_length s.active_extruder,
      s.motion.retract_feedrate, s.strchr_pointer, ?_⟩
    rw [prepare_move_in_range]
    · simp [retractOutcome, set_feedrate, set_destination, set_current_position, plan,
        set_recover_length, set_recover_feedrate, SET_EXTRUDER_RETRACT, code_seen]
    all_goals simp [set_feedrate, set_destination, set_current_position, plan,
        set_recover_length, set_recover_feedrate, SET_EXTRUDER_RETRACT, code_seen, hst, hx, hy, hz]


theorem gcode_G11_recover (cfg : Config) (s : Machine)
    (hst : s.printing_state ≠ cfg.PRINT_STATE_RECOVER)
    (hr : EXTRUDER_RETRACTED s.active_extruder s = true)
    (ht : TOOLCHANGE_RETRACTED s.active_extruder s = false)
    (hin : InsideLimits s) :
    gcode_G11 cfg s = some (recoverOutcome s) := by
  obtain ⟨hx, hy, hz⟩ := hin.xyz
  have htc : recover_toolchange_retract cfg s.active_extruder false s = s := by
    unfold recover_toolchange_retract
    simp [ht]
  unfold gcode_G11
  rw [if_neg hst]
  simp only [hr, if_true, htc, ite_self]
  rw [prepare_move_in_range]
  · simp [recoverOutcome, set_feedrate, set_destination, set_current_position, plan,
      set_recover_length, CLEAR_EXTRUDER_RETRACT]
  all_goals simp [set_feedrate, set_destination, set_current_position, plan,
      set_recover_length, CLEAR_EXTRUDER_RETRACT, hst, hx, hy, hz]

theorem printing_state_rule_not_recover (cfg : Config) (s : Machine)
    (hd : cfg.PRINT_STATE_NORMAL ≠ cfg.PRINT_STATE_RECOVER)
    (hst : s.printing_state ≠ cfg.PRINT_STATE_RECOVER) :
    (printing_state_rule cfg s).printing_state ≠ cfg.PRINT_STATE_RECOVER := by
  unfold printing_state_rule
  split_ifs
  · exact hd
  · exact hst

theorem printing_state_rule_motion (cfg : Config) (s : Machine) :
    (printing_state_rule cfg s).motion = s.motion ∧
    (printing_state_rule cfg s).active_extruder = s.active_extruder := by
  unfold printing_state_rule
  split_ifs <;> exact ⟨rfl, rfl⟩

theorem command_end_motion (cfg : Config) (sendAck : Bool) (s : Machine) :
    (command_end cfg sendAck s).motion = s.motion ∧
    (command_end cfg sendAck s).active_extruder = s.active_extruder := by
  unfold command_end ClearToSend
  have h := printing_state_rule_motion cfg s
  split_ifs
  · exact h
  · exact h

theorem command_end_not_recover (cfg : Config) (sendAck : Bool) (s : Machine)
    (hd : cfg.PRINT_STATE_NORMAL ≠ cfg.PRINT_STATE_RECOVER)
    (hst : s.printing_state ≠ cfg.PRINT_STATE_RECOVER) :
    (command_end cfg sendAck s).printing_state ≠ cfg.PRINT_STATE_RECOVER := by
  unfold command_end ClearToSend
  have h := printing_state_rule_not_recover cfg s hd hst
  split_ifs
  · exact h
  · exact h

theorem process_command_G (cfg : Config) (strCmd : List Char) (s : Machine)
    (n : Int) (h : gcodeNumber strCmd = some n) :
    (code_seen strCmd 'G' (printing_state_rule cfg s)).1 = true ∧
    truncToInt (code_value (code_seen strCmd 'G' (printing_state_rule cfg s)).2) = n := by
  unfold gcodeNumber at h
  unfold code_seen code_value
  cases hp : strchr strCmd 'G' with
  | none => simp [hp] at h
  | some p =>
    simp only [hp, Option.map_some', Option.some.injEq] at h
    simp [h]

theorem process_command_G10 (cfg : Config) (strCmd : List Char) (sendAck : Bool) (s : Machine)
    (hfw : cfg.FWRETRACT = true) (h : gcodeNumber strCmd = some 10) :
    process_command cfg strCmd sendAck s =
      (gcode_G10 cfg strCmd (code_seen strCmd 'G' (printing_state_rule cfg s)).2).map
        (command_end cfg sendAck) := by
  obtain ⟨h1, h2⟩ := process_command_G cfg strCmd s 10 h
  unfold process_command gcode_switch
  simp only [h1, h2, if_true, hfw]
  simp

theorem process_command_G11 (cfg : Config) (strCmd : List Char) (sendAck : Bool) (s : Machine)
    (hfw : cfg.FWRETRACT = true) (h : gcodeNumber strCmd = some 11) :
    process_command cfg strCmd sendAck s =
      (gcode_G11 cfg (code_seen strCmd 'G' (printing_state_rule cfg s)).2).map
        (command_end cfg sendAck) := by
  obtain ⟨h1, h2⟩ := process_command_G cfg strCmd s 11 h
  unfold process_command gcode_switch
  simp only [h1, h2, if_true, hfw]
  simp


theorem dispatch_state (cfg : Config) (strCmd : List Char) (code : Char) (s : Machine) :
    (code_seen strCmd code (printing_state_rule cfg s)).2.motion = s.motion ∧
    (code_seen strCmd code (printing_state_rule cfg s)).2.active_extruder = s.active_extruder ∧
    (cfg.PRINT_STATE_NORMAL ≠ cfg.PRINT_STATE_RECOVER →
      s.printing_state ≠ cfg.PRINT_STATE_RECOVER →
      (code_seen strCmd code (printing_state_rule cfg s)).2.printing_state ≠
        cfg.PRINT_STATE_RECOVER) := by
  obtain ⟨h1, h2⟩ := printing_state_rule_motion cfg s
  exact ⟨h1, h2, fun hd hst => printing_state_rule_not_recover cfg s hd hst⟩

/-- C10 (as amended): Firmware-retract round trip: with firmware retraction
compiled in, the printing state not `RECOVER`, the active extruder neither
retracted nor tool-change-retracted and the position inside the travel limits,
a `G10` line followed immediately by a `G11` line are both executed, and
afterwards `current_position` is what it was before `G10`, `destination`
equals that `current_position`, the retracted bit is clear, the recover length
is `0` and the feed rate is restored; the planner received from `G10` a move
of E to `e - d` and from `G11` a move of E to `e + d` at the same feed rate,
each followed by a reset of its E position to `e`, where `e` is
`current_position[E]` before `G10`. -/
theorem firmware_retract_round_trip (cfg : Config) (c10 c11 : List Char) (ack10 ack11 : Bool)
    (s : Machine)
    (hfw : cfg.FWRETRACT = true)
    (hd : cfg.PRINT_STATE_NORMAL ≠ cfg.PRINT_STATE_RECOVER)
    (h10 : gcodeNumber c10 = some 10) (h11 : gcodeNumber c11 = some 11)
    (hst : s.printing_state ≠ cfg.PRINT_STATE_RECOVER)
    (hr : EXTRUDER_RETRACTED s.active_extruder s = false)
    (ht : TOOLCHANGE_RETRACTED s.active_extruder s = false)
    (hin : InsideLimits s) :
    ∃ s1 s2 d f,
      process_command cfg c10 ack10 s = some s1 ∧
      process_command cfg c11 ack11 s1 = some s2 ∧
      s2.motion.current_position = s.motion.current_position ∧
      s2.motion.destination = s.motion.current_position ∧
      EXTRUDER_RETRACTED s.active_extruder s2 = false ∧
      s2.motion.retract_recover_length s.active_extruder = 0 ∧
      s2.motion.feedrate = s.motion.feedrate ∧
      s1.motion.planner = s.motion.planner ++
        [PlanCall.buffer_line s.motion.current_position.x s.motion.current_position.y
          s.motion.current_position.z (s.motion.current_position.e - d) f s.active_extruder,
         PlanCall.set_e_position s.motion.current_position.e s.active_extruder false] ∧
      s2.motion.planner = s1.motion.planner ++
        [PlanCall.buffer_line s.motion.current_position.x s.motion.current_position.y
          s.motion.current_position.z (s.motion.current_position.e + d) f s.active_extruder,
         PlanCall.set_e_position s.motion.current_position.e s.active_extruder false] := by
  obtain ⟨hm0, ha0, hs0⟩ := dispatch_state cfg c10 'G' s
  generalize hg0 : (code_seen c10 'G' (printing_state_rule cfg s)).2 = g0 at hm0 ha0 hs0
  have hin0 : InsideLimits g0 := by
    unfold InsideLimits
    rw [hm0]
    exact hin
  have hr0 : EXTRUDER_RETRACTED g0.active_extruder g0 = false := by
    unfold EXTRUDER_RETRACTED
    rw [hm0, ha0]
    exact hr
  have ht0 : TOOLCHANGE_RETRACTED g0.active_extruder g0 = false := by
    unfold TOOLCHANGE_RETRACTED
    rw [hm0, ha0]
    exact ht
  obtain ⟨L, f, sp, hG10⟩ := gcode_G10_retract cfg c10 g0 (hs0 hd hst) hr0 ht0 hin0
  have hp10 : process_command cfg c10 ack10 s =
      some (command_end cfg ack10 (retractOutcome g0 L f sp)) := by
    rw [process_command_G10 cfg c10 ack10 s hfw h10, hg0, hG10]
    rfl
  obtain ⟨hm1, ha1⟩ := command_end_motion cfg ack10 (retractOutcome g0 L f sp)
  have hs1 := command_end_not_recover cfg ack10 (retractOutcome g0 L f sp) hd (hs0 hd hst)
  generalize hs1eq : command_end cfg ack10 (retractOutcome g0 L f sp) = s1 at hp10 hm1 ha1 hs1
  obtain ⟨hm2, ha2, hs2⟩ := dispatch_state cfg c11 'G' s1
  generalize hg1 : (code_seen c11 'G' (printing_state_rule cfg s1)).2 = g1 at hm2 ha2 hs2
  have ha : g1.active_extruder = s.active_extruder := by
    rw [ha2, ha1]
    exact ha0
  have hmot : g1.motion = (retractOutcome g0 L f sp).motion := by rw [hm2, hm1]
  have hin1 : InsideLimits g1 := by
    unfold InsideLimits
    rw [hmot]
    exact hin0
  have hr1 : EXTRUDER_RETRACTED g1.active_extruder g1 = true := by
    unfold EXTRUDER_RETRACTED
    rw [hmot, ha, ← ha0]
    simp [retractOutcome]
  have ht1 : TOOLCHANGE_RETRACTED g1.active_extruder g1 = false := by
    unfold TOOLCHANGE_RETRACTED
    rw [hmot, ha, ← ha0]
    exact ht0
  have hG11 := gcode_G11_recover cfg g1 (hs2 hd hs1) hr1 ht1 hin1
  have hp11 : process_command cfg c11 ack11 s1 =
      some (command_end cfg ack11 (recoverOutcome g1)) := by
    rw [process_command_G11 cfg c11 ack11 s1 hfw h11, hg1, hG11]
    rfl
  obtain ⟨hm3, _⟩ := command_end_motion cfg ack11 (recoverOutcome g1)
  refine ⟨s1, command_end cfg ack11 (recoverOutcome g1), L, f / 60, hp10, hp11, ?_, ?_, ?_, ?_,
    ?_, ?_, ?_⟩
  · rw [hm3]
    simp [recoverOutcome, hmot, retractOutcome, hm0]
  · rw [hm3]
    simp [recoverOutcome, hmot, retractOutcome, hm0]
  · unfold EXTRUDER_RETRACTED
    rw [hm3]
    simp [recoverOutcome, ha]
  · rw [hm3]
    simp [recoverOutcome, ha]
  · rw [hm3]
    simp [recoverOutcome, hmot, retractOutcome, hm0]
  · rw [hm1]
    simp [retractOutcome, hm0, ha0]
  · rw [hm3, hm1]
    simp [recoverOutcome, hmot, retractOutcome, hm0, ha0, ha]

/-- C10, witness: `G10` then `G11` on the freshly initialised sample
machine. -/
theorem firmware_retract_round_trip_witness :
    (cfg8.FWRETRACT = true ∧ cfg8.PRINT_STATE_NORMAL ≠ cfg8.PRINT_STATE_RECOVER ∧
      gcodeNumber "G10".toList = some 10 ∧ gcodeNumber "G11".toList = some 11 ∧
      (Machine.init cfg8).printing_state ≠ cfg8.PRINT_STATE_RECOVER ∧
      EXTRUDER_RETRACTED (Machine.init cfg8).active_extruder (Machine.init cfg8) = false ∧
      TOOLCHANGE_RETRACTED (Machine.init cfg8).active_extruder (Machine.init cfg8) = false ∧
      InsideLimits (Machine.init cfg8)) ∧
    ∃ s1 s2,
      process_command cfg8 "G10".toList true (Machine.init cfg8) = some s1 ∧
      process_command cfg8 "G11".toList true s1 = some s2 ∧
      s2.motion.current_position = (Machine.init cfg8).motion.current_position ∧
      s2.motion.retract_recover_length 0 = 0 ∧
      s2.motion.feedrate = 1500 :=
  have hin : InsideLimits (Machine.init cfg8) := by
    unfold InsideLimits
    decide!
  have h := firmware_retract_round_trip cfg8 "G10".toList "G11".toList true true
    (Machine.init cfg8) rfl (by decide) (by decide!) (by decide!) (by decide) rfl rfl hin
  ⟨⟨rfl, by decide, by decide!, by decide!, by decide, rfl, rfl, hin⟩,
    h.elim fun s1 h1 => h1.elim fun s2 h2 => h2.elim fun _ h3 => h3.elim fun _ h4 =>
      ⟨s1, s2, h4.1, h4.2.1, h4.2.2.1, h4.2.2.2.2.2.1, h4.2.2.2.2.2.2.1⟩⟩

/-- C10, counterexample: after `G92 E5` on the sample machine the hypotheses
of the round trip hold, `destination[E]` is 0, and after `G10` and `G11` it
is 5. -/
theorem firmware_retract_destination_changed :
    process_command cfg8 "G92 E5".toList true (Machine.init cfg8) = some afterG92 ∧
    afterG92.printing_state ≠ cfg8.PRINT_STATE_RECOVER ∧
    EXTRUDER_RETRACTED afterG92.active_extruder afterG92 = false ∧
    TOOLCHANGE_RETRACTED afterG92.active_extruder afterG92 = false ∧
    InsideLimits afterG92 ∧
    afterG92.motion.destination.e = 0 ∧
    ((process_command cfg8 "G10".toList true afterG92).bind
      (process_command cfg8 "G11".toList true)).map (fun s2 => s2.motion.destination.e) =
      some 5 :=
  ⟨option_eq_some_getD _ _ (by decide!), by decide!, by decide!, by decide!,
    by unfold InsideLimits; decide!, by decide!, by decide!⟩

/-! ## Retracting while already retracted -/

theorem gcode_G10_retracted (cfg : Config) (strCmd : List Char) (s : Machine)
    (hr : EXTRUDER_RETRACTED s.active_extruder s = true) :
    gcode_G10 cfg strCmd s = some s := by
  unfold gcode_G10
  by_cases h1 : s.printing_state = cfg.PRINT_STATE_RECOVER
  · rw [if_pos h1]
  · rw [if_neg h1]
    simp only [hr, Bool.not_true, Bool.false_and, Bool.false_eq_true, if_false]

theorem process_command_G10_retracted (cfg : Config) (strCmd : List Char) (sendAck : Bool)
    (s : Machine) (h10 : gcodeNumber strCmd = some 10)
    (hr : EXTRUDER_RETRACTED s.active_extruder s = true) :
    process_command cfg strCmd sendAck s =
      some (command_end cfg sendAck (code_seen strCmd 'G' (printing_state_rule cfg s)).2) := by
  obtain ⟨h1, h2⟩ := process_command_G cfg strCmd s 10 h10
  obtain ⟨hm, ha, _⟩ := dispatch_state cfg strCmd 'G' s
  have hr2 : EXTRUDER_RETRACTED (code_seen strCmd 'G' (printing_state_rule cfg s)).2.active_extruder
      (code_seen strCmd 'G' (printing_state_rule cfg s)).2 = true := by
    unfold EXTRUDER_RETRACTED
    rw [hm, ha]
    exact hr
  unfold process_command gcode_switch
  simp only [h1, h2, if_true]
  by_cases hfw : cfg.FWRETRACT = true
  · simp [hfw, gcode_G10_retracted cfg strCmd _ hr2]
  · simp [hfw]

theorem get_coordinates_axis_absent (cmd : List Char) (st : Nat × Machine) (i : Nat)
    (h : strchr cmd (axis_codes i) = none) :
    get_coordinates_axis cmd st i = (st.1, { st.2 with strchr_pointer := none }) := by
  unfold get_coordinates_axis code_seen
  simp [h]

theorem get_coordinates_retract_bit (cfg : Config) (echange : ℚ) (s : Machine) :
    EXTRUDER_RETRACTED s.active_extruder (get_coordinates_retract cfg echange s) = true := by
  unfold get_coordinates_retract EXTRUDER_RETRACTED
  simp only
  split_ifs <;> simp [SET_EXTRUDER_RETRACT, set_recover_length, set_current_position,
    set_feedrate, plan]


theorem get_coordinates_feedrate_frame (cmd : List Char) (s : Machine) :
    (get_coordinates_feedrate cmd s).motion.destination = s.motion.destination ∧
    (get_coordinates_feedrate cmd s).motion.current_position = s.motion.current_position ∧
    (get_coordinates_feedrate cmd s).motion.extruder_retracted = s.motion.extruder_retracted ∧
    (get_coordinates_feedrate cmd s).active_extruder = s.active_extruder := by
  unfold get_coordinates_feedrate
  simp only
  split_ifs <;> exact ⟨rfl, rfl, rfl, rfl⟩

theorem get_coordinates_E_only (cfg : Config) (cmd p : List Char) (s : Machine)
    (hx : strchr cmd 'X' = none) (hy : strchr cmd 'Y' = none) (hz : strchr cmd 'Z' = none)
    (he : strchr cmd 'E' = some p)
    (hd : decodedE p s - s.motion.current_position.e < -cfg.MIN_RETRACT)
    (hr : EXTRUDER_RETRACTED s.active_extruder s = true) :
    EXTRUDER_RETRACTED s.active_extruder (get_coordinates cfg cmd s) = true := by
  unfold get_coordinates
  simp only [List.foldl_cons, List.foldl_nil]
  have h1 : ∀ s1 : Machine, s1.motion.current_position = s.motion.current_position →
      s1.motion.axis_relative_state = s.motion.axis_relative_state →
      s1.motion.extruder_retracted = s.motion.extruder_retracted →
      s1.active_extruder = s.active_extruder →
      ∃ s2 : Machine,
        get_coordinates_axis cmd (get_coordinates_axis cmd (get_coordinates_axis cmd
          (get_coordinates_axis cmd (0, s1) X_AXIS) Y_AXIS) Z_AXIS) E_AXIS = (8, s2) ∧
        s2.motion.destination.e = decodedE p s ∧
        s2.motion.current_position = s.motion.current_position ∧
        s2.motion.extruder_retracted = s.motion.extruder_retracted ∧
        s2.active_extruder = s.active_extruder := by
    intro s1 hc ha hb hae
    rw [get_coordinates_axis_absent cmd _ X_AXIS hx, get_coordinates_axis_absent cmd _ Y_AXIS hy,
      get_coordinates_axis_absent cmd _ Z_AXIS hz]
    refine ⟨set_destination (s1.motion.destination.set E_AXIS (decodedE p s))
      { s1 with strchr_pointer := some p }, ?_, ?_, ?_, ?_, ?_⟩
    · unfold get_coordinates_axis code_seen
      simp only [show axis_codes E_AXIS = 'E' from rfl, he, Option.isSome_some, if_true]
      simp only [code_value, decodedE, ha, hc, Pos.get, E_AXIS]
      simp
    · simp [set_destination, Pos.set, E_AXIS]
    · exact hc
    · exact hb
    · exact hae
  obtain ⟨s2, e2, hde, hce, hre, hae⟩ := h1
    (if s.printing_state < cfg.PRINT_STATE_TOOLCHANGE then
      set_destination s.motion.current_position s else s)
    (by split_ifs <;> rfl) (by split_ifs <;> rfl) (by split_ifs <;> rfl) (by split_ifs <;> rfl)
  rw [e2]
  simp only
  obtain ⟨f1, f2, f3, f4⟩ := get_coordinates_feedrate_frame cmd s2
  generalize get_coordinates_feedrate cmd s2 = s3 at f1 f2 f3 f4 ⊢
  have hkeep : ∀ s4 : Machine, EXTRUDER_RETRACTED s.active_extruder s4 = true →
      EXTRUDER_RETRACTED s.active_extruder
        (if s4.printing_state = cfg.PRINT_STATE_TOOLREADY then
          { s4 with printing_state := cfg.PRINT_STATE_NORMAL } else s4) = true := by
    intro s4 h4
    split_ifs
    · exact h4
    · exact h4
  apply hkeep
  by_cases hfw : cfg.FWRETRACT = true
  · rw [if_pos hfw]
    unfold get_coordinates_fwretract
    have hech : s3.motion.destination.get E_AXIS - s3.motion.current_position.get E_AXIS
        < -cfg.MIN_RETRACT := by
      simp only [Pos.get, E_AXIS]
      simp only [f1, f2, hde, hce]
      simpa using hd
    simp only [show (8 : Nat) = 1 <<< E_AXIS from rfl, if_true, hech]
    have := get_coordinates_retract_bit cfg
      (s3.motion.destination.get E_AXIS - s3.motion.current_position.get E_AXIS) s3
    rw [f4, hae] at this
    exact this
  · rw [if_neg hfw]
    unfold EXTRUDER_RETRACTED
    rw [f3, hre]
    exact hr

theorem get_coordinates_axis_active (cmd : List Char) (st : Nat × Machine) (i : Nat) :
    (get_coordinates_axis cmd st i).2.active_extruder = st.2.active_extruder := by
  unfold get_coordinates_axis
  simp only
  split_ifs <;> rfl

theorem get_coordinates_retract_active (cfg : Config) (echange : ℚ) (s : Machine) :
    (get_coordinates_retract cfg echange s).active_extruder = s.active_extruder := by
  unfold get_coordinates_retract
  simp only
  split_ifs <;> simp [SET_EXTRUDER_RETRACT, set_recover_length, set_current_position,
    set_feedrate, plan]

theorem get_coordinates_recover_active (cfg : Config) (echange : ℚ) (s : Machine) :
    (get_coordinates_recover cfg echange s).active_extruder = s.active_extruder := by
  unfold get_coordinates_recover recover_toolchange_retract
  simp only
  split_ifs <;> simp [CLEAR_EXTRUDER_RETRACT, CLEAR_TOOLCHANGE_RETRACT, set_recover_length, set_current_position,
    set_feedrate, set_recover_feedrate, plan]

theorem get_coordinates_first_move_active (cfg : Config) (s : Machine) :
    (get_coordinates_first_move cfg s).active_extruder = s.active_extruder := by
  unfold get_coordinates_first_move recover_toolchange_retract
  simp only
  split_ifs <;> simp [CLEAR_EXTRUDER_RETRACT, CLEAR_TOOLCHANGE_RETRACT, set_recover_length, set_current_position,
    set_feedrate, set_recover_feedrate, plan]

theorem get_coordinates_active (cfg : Config) (cmd : List Char) (s : Machine) :
    (get_coordinates cfg cmd s).active_extruder = s.active_extruder := by
  unfold get_coordinates
  simp only [List.foldl_cons, List.foldl_nil]
  have h1 : (if s.printing_state < cfg.PRINT_STATE_TOOLCHANGE then
      set_destination s.motion.current_position s else s).active_extruder = s.active_extruder := by
    split_ifs <;> rfl
  generalize (if s.printing_state < cfg.PRINT_STATE_TOOLCHANGE then
      set_destination s.motion.current_position s else s) = s1 at h1
  have h2 := get_coordinates_axis_active cmd (0, s1) X_AXIS
  generalize get_coordinates_axis cmd (0, s1) X_AXIS = t1 at h2
  have h3 := get_coordinates_axis_active cmd t1 Y_AXIS
  generalize get_coordinates_axis cmd t1 Y_AXIS = t2 at h3
  have h4 := get_coordinates_axis_active cmd t2 Z_AXIS
  generalize get_coordinates_axis cmd t2 Z_AXIS = t3 at h4
  have h5 := get_coordinates_axis_active cmd t3 E_AXIS
  generalize get_coordinates_axis cmd t3 E_AXIS = t4 at h5
  have h6 := (get_coordinates_feedrate_frame cmd t4.2).2.2.2
  generalize get_coordinates_feedrate cmd t4.2 = s2 at h6
  have h7 : (if cfg.FWRETRACT = true then get_coordinates_fwretract cfg t4.1 s2 else s2).active_extruder
      = s2.active_extruder := by
    unfold get_coordinates_fwretract
    simp only
    split_ifs
    · exact get_coordinates_retract_active cfg _ s2
    · exact get_coordinates_recover_active cfg _ s2
    · rfl
    · exact get_coordinates_first_move_active cfg s2
    · rfl
    · rfl
  generalize (if cfg.FWRETRACT = true then get_coordinates_fwretract cfg t4.1 s2 else s2) = s3 at h7
  have h8 : (if s3.printing_state = cfg.PRINT_STATE_TOOLREADY then
      { s3 with printing_state := cfg.PRINT_STATE_NORMAL } else s3).active_extruder
      = s3.active_extruder := by
    split_ifs <;> rfl
  rw [h8, h7, h6, h5, h4, h3, h2, h1]

/-- C11: a retract processed while the active extruder is already retracted
leaves the retracted bit set. A `G10` line is dispatched, returns, and changes
no motion variable at all (position, destination, recover lengths, feed rate,
planner log); an E-only move whose decoded E delta is below `-MIN_RETRACT`
leaves the bit set after `get_coordinates`. -/
theorem retract_while_retracted (cfg : Config) (g10 cmd p : List Char) (sendAck : Bool)
    (s : Machine) (hr : EXTRUDER_RETRACTED s.active_extruder s = true) :
    (gcodeNumber g10 = some 10 →
      gcode_G10 cfg g10 s = some s ∧
      ∃ s1, process_command cfg g10 sendAck s = some s1 ∧
        s1.motion = s.motion ∧ s1.active_extruder = s.active_extruder ∧
        EXTRUDER_RETRACTED s1.active_extruder s1 = true) ∧
    (strchr cmd 'X' = none → strchr cmd 'Y' = none → strchr cmd 'Z' = none →
      strchr cmd 'E' = some p →
      decodedE p s - s.motion.current_position.e < -cfg.MIN_RETRACT →
      EXTRUDER_RETRACTED (get_coordinates cfg cmd s).active_extruder
        (get_coordinates cfg cmd s) = true) := by
  refine ⟨fun h10 => ⟨gcode_G10_retracted cfg g10 s hr, _,
    process_command_G10_retracted cfg g10 sendAck s h10 hr, ?_, ?_, ?_⟩, ?_⟩
  · rw [(command_end_motion cfg sendAck _).1]
    exact (dispatch_state cfg g10 'G' s).1
  · rw [(command_end_motion cfg sendAck _).2]
    exact (dispatch_state cfg g10 'G' s).2.1
  · unfold EXTRUDER_RETRACTED
    rw [(command_end_motion cfg sendAck _).2, (command_end_motion cfg sendAck _).1,
      (dispatch_state cfg g10 'G' s).1, (dispatch_state cfg g10 'G' s).2.1]
    exact hr
  · intro hx hy hz he hd
    rw [get_coordinates_active]
    exact get_coordinates_E_only cfg cmd p s hx hy hz he hd hr

/-- C11, witness: `G10` and the E-only move `G1 E-5` on the sample machine
with extruder 0 retracted. -/
theorem retract_while_retracted_witness :
    EXTRUDER_RETRACTED (SET_EXTRUDER_RETRACT 0 (Machine.init cfg8)).active_extruder
      (SET_EXTRUDER_RETRACT 0 (Machine.init cfg8)) = true ∧
    gcodeNumber "G10".toList = some 10 ∧
    strchr "G1 E-5".toList 'E' = some "E-5".toList ∧
    decodedE "E-5".toList (SET_EXTRUDER_RETRACT 0 (Machine.init cfg8)) -
      (SET_EXTRUDER_RETRACT 0 (Machine.init cfg8)).motion.current_position.e
        < -cfg8.MIN_RETRACT ∧
    (∃ s1, process_command cfg8 "G10".toList true (SET_EXTRUDER_RETRACT 0 (Machine.init cfg8))
        = some s1 ∧
      s1.motion = (SET_EXTRUDER_RETRACT 0 (Machine.init cfg8)).motion) ∧
    EXTRUDER_RETRACTED
      (get_coordinates cfg8 "G1 E-5".toList
        (SET_EXTRUDER_RETRACT 0 (Machine.init cfg8))).active_extruder
      (get_coordinates cfg8 "G1 E-5".toList (SET_EXTRUDER_RETRACT 0 (Machine.init cfg8)))
        = true :=
  have h := retract_while_retracted cfg8 "G10".toList "G1 E-5".toList "E-5".toList true
    (SET_EXTRUDER_RETRACT 0 (Machine.init cfg8)) (by decide)
  ⟨by decide, by decide!, by decide, by decide!,
    (h.1 (by decide!)).2.elim fun s1 h1 => ⟨s1, h1.1, h1.2.1⟩,
    h.2 (by decide) (by decide) (by decide) (by decide) (by decide!)⟩

/-! ## Tool change -/

theorem changeExtruder_early (cfg : Config) (nextExtruder : Nat) (moveZ : Bool) (s : Machine)
    (h : s.printing_state = cfg.PRINT_STATE_ABORT ∨ nextExtruder = s.active_extruder) :
    changeExtruder cfg nextExtruder moveZ s = some (false, s) := by
  unfold changeExtruder
  rw [if_pos h]

theorem changeExtruder_unknown (cfg : Config) (nextExtruder : Nat) (moveZ : Bool) (s : Machine)
    (h : ¬ (s.printing_state = cfg.PRINT_STATE_ABORT ∨ nextExtruder = s.active_extruder))
    (hp : s.motion.position_state &&& (cfg.KNOWNPOS_X ||| cfg.KNOWNPOS_Y) = 0) :
    changeExtruder cfg nextExtruder moveZ s =
      some (false, { s with out := s.out ++ [Out.echo "Header position not yet known" []] }) := by
  unfold changeExtruder
  rw [if_neg h, if_pos hp]

/-- C12, evaluation at the failing input: with `KNOWNPOS_X` set and `KNOWNPOS_Y`
missing from `position_state` (the head homed on X alone), outside `ABORT`,
`changeExtruder(1, false)` on extruder 0 is not refused: it returns true, makes
extruder 1 the active one, moves `current_position[X]` from 0 to the nozzle
offset 18, reports the new extruder and no diagnostic, and hands the planner
two calls. The guard `!(position_state & (KNOWNPOS_X | KNOWNPOS_Y))` under the
comment "head not homed" fires only when both bits are missing. -/
theorem changeExtruder_one_axis_known :
    (xKnownMachine.motion.position_state &&& cfg8.KNOWNPOS_X ≠ 0 ∧
      xKnownMachine.motion.position_state &&& cfg8.KNOWNPOS_Y = 0 ∧
      xKnownMachine.active_extruder = 0 ∧
      xKnownMachine.printing_state ≠ cfg8.PRINT_STATE_ABORT ∧
      xKnownMachine.motion.current_position.x = 0 ∧ xKnownMachine.motion.planner = []) ∧
    (changeExtruder cfg8 1 false xKnownMachine).map (fun r => (r.1, r.2.active_extruder,
      r.2.motion.current_position.x)) = some (true, 1, 18) ∧
    (changeExtruder cfg8 1 false xKnownMachine).map (fun r => r.2.out) =
      some [Out.echo "MSG_ACTIVE_EXTRUDER" "1".toList] ∧
    (changeExtruder cfg8 1 false xKnownMachine).map (fun r => r.2.motion.planner.length) =
      some 2 := by
  refine ⟨⟨by decide, by decide, by decide, by decide, by decide!, by decide!⟩, by decide!,
    by decide!, by decide!⟩

theorem changeExtruder_swap (cfg : Config) (nextExtruder : Nat) (moveZ : Bool) (s : Machine)
    (hd : cfg.IS_DUAL_ENABLED = false) (ha : s.printing_state ≠ cfg.PRINT_STATE_ABORT)
    (hk : s.motion.position_state &&& (cfg.KNOWNPOS_X ||| cfg.KNOWNPOS_Y) ≠ 0)
    (hn : nextExtruder ≠ s.active_extruder) :
    changeExtruder cfg nextExtruder moveZ s = some (true,
      plan_set_current_position true
        { clear_temperature_flags cfg
            { [X_AXIS, Y_AXIS].foldl (swap_extruder_offset nextExtruder) (st_synchronize s) with
              active_extruder := nextExtruder } with
          out := s.out ++ [Out.echo "MSG_ACTIVE_EXTRUDER" (decimal nextExtruder)] }) := by
  unfold changeExtruder
  rw [if_neg (by rintro (h | h); exact ha h; exact hn h), if_neg hk]
  simp only
  rw [if_neg (by exact ha), hd]
  rfl

/-- C13: the tool change without a park mechanism (`IS_DUAL_ENABLED` false),
outside `ABORT`, with a known head position and a next extruder other than the
active one, returns true, makes the next extruder the active one, moves
`current_position[X]` and `current_position[Y]` by the difference of the
rounded nozzle offsets, leaves `current_position[Z]`, `current_position[E]`,
the destination, the feed rate and the printing state unchanged, and hands the
planner no move: only the wait for the planned moves and the new position. -/
theorem changeExtruder_simplified (cfg : Config) (nextExtruder : Nat) (moveZ : Bool)
    (s : Machine)
    (hd : cfg.IS_DUAL_ENABLED = false) (ha : s.printing_state ≠ cfg.PRINT_STATE_ABORT)
    (hk : s.motion.position_state &&& (cfg.KNOWNPOS_X ||| cfg.KNOWNPOS_Y) ≠ 0)
    (hn : nextExtruder ≠ s.active_extruder) :
    ∃ s1, changeExtruder cfg nextExtruder moveZ s = some (true, s1) ∧
      s1.active_extruder = nextExtruder ∧
      s1.motion.current_position.x = s.motion.current_position.x
        - roundOffset X_AXIS (s.motion.extruder_offset X_AXIS s.active_extruder) s
        + roundOffset X_AXIS (s.motion.extruder_offset X_AXIS nextExtruder) s ∧
      s1.motion.current_position.y = s.motion.current_position.y
        - roundOffset Y_AXIS (s.motion.extruder_offset Y_AXIS s.active_extruder) s
        + roundOffset Y_AXIS (s.motion.extruder_offset Y_AXIS nextExtruder) s ∧
      s1.motion.current_position.z = s.motion.current_position.z ∧
      s1.motion.current_position.e = s.motion.current_position.e ∧
      s1.motion.destination = s.motion.destination ∧
      s1.motion.feedrate = s.motion.feedrate ∧
      s1.printing_state = s.printing_state ∧
      s1.motion.planner = s.motion.planner ++ [PlanCall.synchronize,
        PlanCall.set_position s1.motion.current_position.x s1.motion.current_position.y
          s1.motion.current_position.z s1.motion.current_position.e nextExtruder true] := by
  refine ⟨_, changeExtruder_swap cfg nextExtruder moveZ s hd ha hk hn, ?_, ?_, ?_, ?_, ?_, ?_, ?_,
    ?_, ?_⟩ <;>
  simp [plan_set_current_position, plan, clear_temperature_flags, swap_extruder_offset,
    set_current_position, st_synchronize, roundOffset, Pos.set, Pos.get, X_AXIS, Y_AXIS]

/-- C13, witness: `changeExtruder(1, false)` on the homed sample machine,
whose second nozzle is 18 mm to the right of the first. -/
theorem changeExtruder_simplified_witness :
    (cfg8.IS_DUAL_ENABLED = false ∧ homedMachine.printing_state ≠ cfg8.PRINT_STATE_ABORT ∧
      homedMachine.motion.position_state &&& (cfg8.KNOWNPOS_X ||| cfg8.KNOWNPOS_Y) ≠ 0 ∧
      1 ≠ homedMachine.active_extruder) ∧
    ∃ s1, changeExtruder cfg8 1 false homedMachine = some (true, s1) ∧
      s1.active_extruder = 1 ∧
      s1.motion.current_position.x = homedMachine.motion.current_position.x
        - roundOffset X_AXIS (homedMachine.motion.extruder_offset X_AXIS 0) homedMachine
        + roundOffset X_AXIS (homedMachine.motion.extruder_offset X_AXIS 1) homedMachine ∧
      roundOffset X_AXIS (homedMachine.motion.extruder_offset X_AXIS 1) homedMachine = 18 :=
  have h := changeExtruder_simplified cfg8 1 false homedMachine rfl (by decide) (by decide)
    (by decide)
  ⟨⟨rfl, by decide, by decide, by decide⟩,
    h.elim fun s1 h1 => ⟨s1, h1.1, h1.2.1, h1.2.2.1, by decide!⟩⟩

/-! ## Stop state, printing state and the reset rule -/

theorem SameStop.chain {s s1 s2 : Machine} (h1 : SameStop s s1) (h2 : SameStop s1 s2) :
    SameStop s s2 :=
  ⟨h2.1.trans h1.1, h2.2.1.trans h1.2.1, h2.2.2.trans h1.2.2⟩

theorem SameCtl.link {s s1 s2 : Machine} (h1 : SameCtl s s1) (h2 : SameCtl s1 s2) :
    SameCtl s s2 :=
  ⟨h2.1.trans h1.1, h1.2.chain h2.2⟩

theorem SameCtl.itself (s : Machine) : SameCtl s s := ⟨rfl, rfl, rfl, rfl⟩

theorem ctl_code_seen (cmd : List Char) (c : Char) (s : Machine) :
    SameCtl s (code_seen cmd c s).2 := ⟨rfl, rfl, rfl, rfl⟩

theorem ctl_plan (c : PlanCall) (s : Machine) : SameCtl s (plan c s) := ⟨rfl, rfl, rfl, rfl⟩

theorem ctl_ClearToSend (s : Machine) : SameCtl s (ClearToSend s) := ⟨rfl, rfl, rfl, rfl⟩

theorem ctl_ack (sendAck : Bool) (s : Machine) :
    SameCtl s (if sendAck = true then ClearToSend s else s) := by
  split_ifs <;> exact ⟨rfl, rfl, rfl, rfl⟩

theorem ctl_recover_toolchange_retract (cfg : Config) (e : Nat) (b : Bool) (s : Machine) :
    SameCtl s (recover_toolchange_retract cfg e b s) := by
  unfold recover_toolchange_retract
  split_ifs <;> exact ⟨rfl, rfl, rfl, rfl⟩

theorem ctl_clamp_min_axis (st : Pos × Machine) (i : Nat) :
    SameCtl st.2 (clamp_min_axis st i).2 := by
  unfold clamp_min_axis
  split_ifs <;> exact ⟨rfl, rfl, rfl, rfl⟩

theorem ctl_clamp_max_axis (st : Pos × Machine) (i : Nat) :
    SameCtl st.2 (clamp_max_axis st i).2 := by
  unfold clamp_max_axis
  split_ifs <;> exact ⟨rfl, rfl, rfl, rfl⟩

theorem ctl_foldl {α β : Type} (f : α × Machine → β → α × Machine)
    (hf : ∀ st i, SameCtl st.2 (f st i).2) :
    ∀ (l : List β) (st : α × Machine), SameCtl st.2 (l.foldl f st).2
  | [], _ => ⟨rfl, rfl, rfl, rfl⟩
  | b :: l, st => (hf st b).link (ctl_foldl f hf l (f st b))

theorem ctl_clamp (cfg : Config) (t : Pos) (s : Machine) :
    SameCtl s (clamp_to_software_endstops cfg t s).2 := by
  unfold clamp_to_software_endstops
  have h1 := ctl_foldl clamp_min_axis ctl_clamp_min_axis [X_AXIS, Y_AXIS, Z_AXIS] (t, s)
  simp only
  split_ifs
  · exact h1.link (ctl_foldl clamp_max_axis ctl_clamp_max_axis _ _)
  · exact ctl_foldl clamp_max_axis ctl_clamp_max_axis _ (t, s)
  · exact h1
  · exact ⟨rfl, rfl, rfl, rfl⟩

theorem ctl_get_coordinates_axis (cmd : List Char) (st : Nat × Machine) (i : Nat) :
    SameCtl st.2 (get_coordinates_axis cmd st i).2 := by
  unfold get_coordinates_axis
  simp only
  split_ifs <;> exact ⟨rfl, rfl, rfl, rfl⟩

theorem ctl_get_coordinates_feedrate (cmd : List Char) (s : Machine) :
    SameCtl s (get_coordinates_feedrate cmd s) := by
  unfold get_coordinates_feedrate
  simp only
  split_ifs <;> exact ⟨rfl, rfl, rfl, rfl⟩

theorem ctl_get_coordinates_retract (cfg : Config) (echange : ℚ) (s : Machine) :
    SameCtl s (get_coordinates_retract cfg echange s) := by
  unfold get_coordinates_retract SameCtl SameStop
  simp only
  split_ifs <;> simp [SET_EXTRUDER_RETRACT, set_recover_length, set_current_position,
    set_feedrate, plan]

theorem ctl_toolchange_if (cfg : Config) (s : Machine) :
    SameCtl s
      (if cfg.EXTRUDERS > 1 then recover_toolchange_retract cfg s.active_extruder false s
        else s) := by
  split_ifs
  · exact ctl_recover_toolchange_retract cfg _ _ s
  · exact ⟨rfl, rfl, rfl, rfl⟩

theorem ctl_get_coordinates_recover (cfg : Config) (echange : ℚ) (s : Machine) :
    SameCtl s (get_coordinates_recover cfg echange s) := by
  have h1 := ctl_toolchange_if cfg s
  unfold get_coordinates_recover
  simp only
  generalize (if cfg.EXTRUDERS > 1 then
    recover_toolchange_retract cfg s.active_extruder false s else s) = s1 at h1 ⊢
  refine h1.link ?_
  unfold SameCtl SameStop
  split_ifs <;> simp [set_recover_length, CLEAR_EXTRUDER_RETRACT, set_current_position, plan,
    set_feedrate]

theorem ctl_get_coordinates_first_move (cfg : Config) (s : Machine) :
    SameCtl s (get_coordinates_first_move cfg s) := by
  have h1 := ctl_toolchange_if cfg s
  unfold get_coordinates_first_move
  simp only
  generalize (if cfg.EXTRUDERS > 1 then
    recover_toolchange_retract cfg s.active_extruder false s else s) = s1 at h1 ⊢
  refine h1.link ?_
  unfold SameCtl SameStop
  split_ifs <;> simp [set_recover_length, CLEAR_EXTRUDER_RETRACT, set_current_position, plan,
    set_feedrate]

theorem ctl_get_coordinates_fwretract (cfg : Config) (seen : Nat) (s : Machine) :
    SameCtl s (get_coordinates_fwretract cfg seen s) := by
  unfold get_coordinates_fwretract
  simp only
  split_ifs
  · exact ctl_get_coordinates_retract cfg _ s
  · exact ctl_get_coordinates_recover cfg _ s
  · exact SameCtl.itself s
  · exact ctl_get_coordinates_first_move cfg s
  · exact SameCtl.itself s

theorem SameCtl.stop {s s1 : Machine} (h : SameCtl s s1) : SameStop s s1 := h.2

theorem rule_of_ctl {cfg : Config} {s s1 : Machine} (h : SameCtl s s1)
    (hr : ResetRuleHolds cfg s) : ResetRuleHolds cfg s1 := by
  unfold ResetRuleHolds at hr ⊢
  rw [h.1]
  exact hr

theorem stop_prepare_move (cfg : Config) (s s' : Machine) (h : prepare_move cfg s = some s') :
    SameStop s s' := by
  have hc := (ctl_clamp cfg s.motion.destination s).stop
  unfold prepare_move at h
  simp only at h
  generalize clamp_to_software_endstops cfg s.motion.destination s = r at h hc
  split_ifs at h <;> simp only [Option.some.injEq] at h <;> subst h <;>
    exact hc.chain ⟨rfl, rfl, rfl⟩

theorem rule_prepare_move (cfg : Config) (s s' : Machine) (h : prepare_move cfg s = some s')
    (hr : ResetRuleHolds cfg s) : ResetRuleHolds cfg s' := by
  have hc := ctl_clamp cfg s.motion.destination s
  unfold prepare_move at h
  simp only at h
  generalize clamp_to_software_endstops cfg s.motion.destination s = r at h hc
  have hr1 : ResetRuleHolds cfg (set_destination r.1 r.2) :=
    rule_of_ctl (hc.link ⟨rfl, rfl, rfl, rfl⟩) hr
  split_ifs at h <;> simp only [Option.some.injEq] at h <;> subst h
  · exact Or.inl rfl
  · exact hr1
  · exact hr1
  · exact hr1
  · exact hr1

theorem rule_printing_state_rule (cfg : Config) (s : Machine) :
    ResetRuleHolds cfg (printing_state_rule cfg s) := by
  unfold printing_state_rule ResetRuleHolds
  by_cases h : s.printing_state ≠ cfg.PRINT_STATE_RECOVER ∧
      s.printing_state ≠ cfg.PRINT_STATE_START ∧
      s.printing_state < cfg.PRINT_STATE_TOOLCHANGE
  · rw [if_pos h]
    exact Or.inl rfl
  · rw [if_neg h]
    by_cases h1 : s.printing_state = cfg.PRINT_STATE_RECOVER
    · exact Or.inr (Or.inl h1)
    by_cases h2 : s.printing_state = cfg.PRINT_STATE_START
    · exact Or.inr (Or.inr (Or.inl h2))
    · exact Or.inr (Or.inr (Or.inr (Nat.le_of_not_lt fun h3 => h ⟨h1, h2, h3⟩)))

theorem stop_printing_state_rule (cfg : Config) (s : Machine) :
    SameStop s (printing_state_rule cfg s) := by
  unfold printing_state_rule
  split_ifs <;> exact ⟨rfl, rfl, rfl⟩

theorem rule_command_end (cfg : Config) (sendAck : Bool) (s : Machine) :
    ResetRuleHolds cfg (command_end cfg sendAck s) := by
  unfold command_end
  exact rule_of_ctl (ctl_ack sendAck _) (rule_printing_state_rule cfg s)

theorem stop_command_end (cfg : Config) (sendAck : Bool) (s : Machine) :
    SameStop s (command_end cfg sendAck s) := by
  unfold command_end
  exact (stop_printing_state_rule cfg s).chain (ctl_ack sendAck _).stop

theorem get_coordinates_ctl (cfg : Config) (cmd : List Char) (s : Machine) :
    SameStop s (get_coordinates cfg cmd s) ∧
    (ResetRuleHolds cfg s → ResetRuleHolds cfg (get_coordinates cfg cmd s)) := by
  have h1 : SameCtl s (if s.printing_state < cfg.PRINT_STATE_TOOLCHANGE then
      set_destination s.motion.current_position s else s) := by
    split_ifs <;> exact ⟨rfl, rfl, rfl, rfl⟩
  unfold get_coordinates
  simp only
  generalize (if s.printing_state < cfg.PRINT_STATE_TOOLCHANGE then
      set_destination s.motion.current_position s else s) = s1 at h1 ⊢
  have h2 := ctl_foldl (get_coordinates_axis cmd) (ctl_get_coordinates_axis cmd)
    [X_AXIS, Y_AXIS, Z_AXIS, E_AXIS] (0, s1)
  generalize List.foldl (get_coordinates_axis cmd) (0, s1) [X_AXIS, Y_AXIS, Z_AXIS, E_AXIS] = st
    at h2 ⊢
  have h3 := ctl_get_coordinates_feedrate cmd st.2
  generalize get_coordinates_feedrate cmd st.2 = s2 at h3 ⊢
  have h4 : SameCtl s s2 := (h1.link h2).link h3
  have h5 : SameCtl s (if cfg.FWRETRACT = true then
      get_coordinates_fwretract cfg st.1 s2 else s2) := by
    split_ifs
    · exact h4.link (ctl_get_coordinates_fwretract cfg _ s2)
    · exact h4
  generalize (if cfg.FWRETRACT = true then get_coordinates_fwretract cfg st.1 s2 else s2) = s3
    at h5 ⊢
  split_ifs
  · exact ⟨h5.stop.chain ⟨rfl, rfl, rfl⟩, fun _ => Or.inl rfl⟩
  · exact ⟨h5.stop, rule_of_ctl h5⟩

theorem get_arc_coordinates_ctl (cfg : Config) (cmd : List Char) (s : Machine) :
    SameStop s (get_arc_coordinates cfg cmd s) ∧
    (ResetRuleHolds cfg s → ResetRuleHolds cfg (get_arc_coordinates cfg cmd s)) := by
  unfold get_arc_coordinates
  simp only
  have h1 : SameCtl s (if cfg.SF_ARC_FIX = true then
      { s with motion := { s.motion with
          axis_relative_state := bitSet 8 s.motion.axis_relative_state 7 } } else s) := by
    split_ifs <;> exact ⟨rfl, rfl, rfl, rfl⟩
  generalize (if cfg.SF_ARC_FIX = true then
      ({ s with motion := { s.motion with
          axis_relative_state := bitSet 8 s.motion.axis_relative_state 7 } } : Machine)
      else s) = s1 at h1 ⊢
  have h2 := get_coordinates_ctl cfg cmd s1
  generalize get_coordinates cfg cmd s1 = s2 at h2 ⊢
  have h3 : SameCtl s2 (if cfg.SF_ARC_FIX = true then
      { s2 with motion := { s2.motion with
          axis_relative_state := s.motion.axis_relative_state } } else s2) := by
    split_ifs <;> exact ⟨rfl, rfl, rfl, rfl⟩
  generalize (if cfg.SF_ARC_FIX = true then
      ({ s2 with motion := { s2.motion with
          axis_relative_state := s.motion.axis_relative_state } } : Machine) else s2) = s3
    at h3 ⊢
  have h4 : SameCtl s3 ({ (code_seen cmd 'J' (code_seen cmd 'I' s3).2).2 with
      motion := { (code_seen cmd 'J' (code_seen cmd 'I' s3).2).2.motion with
        offset := (if (code_seen cmd 'I' s3).1 = true then code_value (code_seen cmd 'I' s3).2
            else 0,
          if (code_seen cmd 'J' (code_seen cmd 'I' s3).2).1 = true then
            code_value (code_seen cmd 'J' (code_seen cmd 'I' s3).2).2 else 0) } } : Machine) :=
    ⟨rfl, rfl, rfl, rfl⟩
  exact ⟨(h1.stop.chain h2.1).chain (h3.link h4).stop,
    fun hr => rule_of_ctl (h3.link h4) (h2.2 (rule_of_ctl h1 hr))⟩

theorem ctl_prepare_arc_move (b : Bool) (s : Machine) :
    SameCtl s (prepare_arc_move b s) := ⟨rfl, rfl, rfl, rfl⟩

theorem stop_gcode_G4 (cfg : Config) (strCmd : List Char) (s : Machine) :
    SameStop s (gcode_G4 cfg strCmd s) := by
  unfold gcode_G4
  split_ifs <;> exact ⟨rfl, rfl, rfl⟩

theorem ctl_setTargetedHotend (cfg : Config) (cmd : List Char) (code : Nat) (s : Machine) :
    SameCtl s (setTargetedHotend cfg cmd code s).2 := by
  unfold setTargetedHotend
  simp only
  split_ifs <;> exact ⟨rfl, rfl, rfl, rfl⟩

theorem ctl_gcode_M105 (cfg : Config) (cmd : List Char) (s : Machine) :
    SameCtl s (gcode_M105 cfg cmd s) := by
  have h := ctl_setTargetedHotend cfg cmd 105 s
  unfold gcode_M105
  simp only
  generalize setTargetedHotend cfg cmd 105 s = t at h ⊢
  split_ifs
  · exact h
  · exact h.link ⟨rfl, rfl, rfl, rfl⟩
  · exact h.link ⟨rfl, rfl, rfl, rfl⟩

theorem stop_retract_tail (oldFeedrate oldpos : ℚ) (a : Nat) (s6 : Machine) :
    SameStop s6 (plan (PlanCall.set_e_position oldpos a false)
      (set_destination
        { (set_current_position
            { (set_feedrate oldFeedrate s6).motion.current_position with e := oldpos }
            (set_feedrate oldFeedrate s6)).motion.destination with e := oldpos }
        (set_current_position
          { (set_feedrate oldFeedrate s6).motion.current_position with e := oldpos }
          (set_feedrate oldFeedrate s6)))) := by
  simp [SameStop, plan, set_destination, set_current_position, set_feedrate]

theorem stop_gcode_G10 (cfg : Config) (strCmd : List Char) (s s' : Machine)
    (h : gcode_G10 cfg strCmd s = some s') : SameStop s s' := by
  unfold gcode_G10 at h
  by_cases h1 : s.printing_state = cfg.PRINT_STATE_RECOVER
  · rw [if_pos h1, Option.some.injEq] at h
    subst h
    exact ⟨rfl, rfl, rfl⟩
  rw [if_neg h1] at h
  simp only at h
  by_cases h2 : (!EXTRUDER_RETRACTED s.active_extruder s &&
      !TOOLCHANGE_RETRACTED s.active_extruder s) = true
  · rw [if_pos h2, Option.map_eq_some'] at h
    obtain ⟨s6, hp, hs⟩ := h
    subst hs
    have hpm := stop_prepare_move cfg _ _ hp
    refine SameStop.chain ?_ (hpm.chain (stop_retract_tail _ _ _ s6))
    unfold SameStop
    split_ifs <;> simp [SET_EXTRUDER_RETRACT, set_recover_length, set_recover_feedrate,
      set_feedrate, set_destination, code_seen]
  · rw [if_neg h2, Option.some.injEq] at h
    subst h
    exact ⟨rfl, rfl, rfl⟩

theorem stop_gcode_G11 (cfg : Config) (s s' : Machine)
    (h : gcode_G11 cfg s = some s') : SameStop s s' := by
  have h0 := (ctl_toolchange_if cfg s).stop
  unfold gcode_G11 at h
  by_cases h1 : s.printing_state = cfg.PRINT_STATE_RECOVER
  · rw [if_pos h1, Option.some.injEq] at h
    subst h
    exact ⟨rfl, rfl, rfl⟩
  rw [if_neg h1] at h
  simp only at h
  by_cases h2 : EXTRUDER_RETRACTED s.active_extruder s = true
  · rw [if_pos h2, Option.map_eq_some'] at h
    obtain ⟨s6, hp, hs⟩ := h
    subst hs
    have hpm := stop_prepare_move cfg _ _ hp
    generalize (if cfg.EXTRUDERS > 1 then
      recover_toolchange_retract cfg s.active_extruder false s else s) = s1 at h0 hpm hp ⊢
    refine SameStop.chain (h0.chain ?_) (hpm.chain (stop_retract_tail _ _ _ s6))
    simp [SameStop, CLEAR_EXTRUDER_RETRACT, set_recover_length, set_feedrate, set_destination]
  · rw [if_neg h2, Option.some.injEq] at h
    subst h
    exact ⟨rfl, rfl, rfl⟩

theorem ctl_gcode_G92_axis (cmd : List Char) (st : (Bool × Bool) × Machine) (i : Nat) :
    SameCtl st.2 (gcode_G92_axis cmd st i).2 := by
  unfold gcode_G92_axis
  simp only
  split_ifs <;> exact ⟨rfl, rfl, rfl, rfl⟩

theorem ctl_gcode_G92 (cmd : List Char) (s : Machine) : SameCtl s (gcode_G92 cmd s) := by
  have h := ctl_foldl (gcode_G92_axis cmd) (ctl_gcode_G92_axis cmd)
    [X_AXIS, Y_AXIS, Z_AXIS, E_AXIS] ((false, false), s)
  unfold gcode_G92
  simp only
  generalize List.foldl (gcode_G92_axis cmd) ((false, false), s)
    [X_AXIS, Y_AXIS, Z_AXIS, E_AXIS] = st at h ⊢
  split_ifs
  · exact h.link ⟨rfl, rfl, rfl, rfl⟩
  · exact h.link ⟨rfl, rfl, rfl, rfl⟩
  · exact h

theorem ctl_gcode_M207 (strCmd : List Char) (s : Machine) :
    SameCtl s (gcode_M207 strCmd s) := by
  unfold gcode_M207 code_seen
  simp only
  split_ifs <;> exact ⟨rfl, rfl, rfl, rfl⟩

theorem ctl_gcode_M208 (cfg : Config) (strCmd : List Char) (s : Machine) :
    SameCtl s (gcode_M208 cfg strCmd s) := by
  have h := ctl_setTargetedHotend cfg strCmd 208 s
  unfold gcode_M208
  simp only
  generalize setTargetedHotend cfg strCmd 208 s = t at h ⊢
  refine h.link ?_
  unfold code_seen
  simp only
  split_ifs <;> exact ⟨rfl, rfl, rfl, rfl⟩

theorem ctl_reset_foldl : ∀ (l : List Nat) (s : Machine),
    SameCtl s (l.foldl reset_retract_extruder s)
  | [], _ => ⟨rfl, rfl, rfl, rfl⟩
  | e :: l, s => SameCtl.link ⟨rfl, rfl, rfl, rfl⟩ (ctl_reset_foldl l (reset_retract_extruder s e))

theorem ctl_gcode_M209 (cfg : Config) (strCmd : List Char) (s : Machine) :
    SameCtl s (gcode_M209 cfg strCmd s) := by
  unfold gcode_M209 reset_retractstate
  simp only
  have h0 := ctl_code_seen strCmd 'S' s
  have h1 := ctl_reset_foldl (List.range cfg.EXTRUDERS) (code_seen strCmd 'S' s).2
  split_ifs
  · exact h0.link (h1.link ⟨rfl, rfl, rfl, rfl⟩)
  · exact h0.link (h1.link ⟨rfl, rfl, rfl, rfl⟩)
  · exact ⟨rfl, rfl, rfl, rfl⟩
  · exact h0

theorem stop_changeExtruder (cfg : Config) (n : Nat) (moveZ : Bool) (s : Machine)
    (c : Bool × Machine) (h : changeExtruder cfg n moveZ s = some c) : SameStop s c.2 := by
  unfold changeExtruder at h
  simp only [List.foldl_cons, List.foldl_nil] at h
  split_ifs at h <;> simp only [Option.some.injEq] at h <;> subst h <;>
    simp [SameStop, plan_set_current_position, plan, clear_temperature_flags,
      swap_extruder_offset, set_current_position, st_synchronize]

theorem stop_gcode_T_feedrate (strCmd : List Char) (s : Machine) :
    SameStop s (gcode_T_feedrate strCmd s).2 := by
  unfold gcode_T_feedrate
  simp only
  split_ifs <;> exact ⟨rfl, rfl, rfl⟩

theorem stop_gcode_T_change (cfg : Config) (b : Bool) (s s' : Machine)
    (h : gcode_T_change cfg b s = some s') : SameStop s s' := by
  unfold gcode_T_change at h
  rw [Option.bind_eq_some] at h
  obtain ⟨c, hc, h⟩ := h
  have h1 := stop_changeExtruder cfg _ _ s c hc
  split_ifs at h
  · exact h1.chain (stop_prepare_move cfg _ _ h)
  · rw [Option.some.injEq] at h
    subst h
    exact h1
  · rw [Option.some.injEq] at h
    subst h
    exact h1.chain ⟨rfl, rfl, rfl⟩

theorem stop_gcode_T (cfg : Config) (strCmd : List Char) (s s' : Machine)
    (h : gcode_T cfg strCmd s = some s') : SameStop s s' := by
  unfold gcode_T at h
  simp only at h
  have h2 := stop_gcode_T_feedrate strCmd { s with motion := { s.motion with
    tmp_extruder := toU8 (truncToInt (code_value s)) } }
  generalize gcode_T_feedrate strCmd { s with motion := { s.motion with
    tmp_extruder := toU8 (truncToInt (code_value s)) } } = f at h h2
  have h3 : SameStop s f.2 := SameStop.chain ⟨rfl, rfl, rfl⟩ h2
  split_ifs at h
  · rw [Option.some.injEq] at h
    subst h
    exact ⟨rfl, rfl, rfl⟩
  · exact h3.chain (stop_gcode_T_change cfg _ _ _ h)
  · rw [Option.some.injEq] at h
    subst h
    exact h3.chain ⟨rfl, rfl, rfl⟩

theorem ctl_gcode_switch (cfg : Config) (strCmd : List Char) (sendAck : Bool)
    (s s' : Machine) (h : gcode_switch cfg strCmd sendAck s = some s') :
    SameStop s s' ∧ (ResetRuleHolds cfg s → ResetRuleHolds cfg s') := by
  have hend : ∀ s1 : Machine, SameStop s s1 →
      SameStop s (command_end cfg sendAck s1) ∧
        (ResetRuleHolds cfg s → ResetRuleHolds cfg (command_end cfg sendAck s1)) :=
    fun s1 h1 => ⟨h1.chain (stop_command_end cfg sendAck s1),
      fun _ => rule_command_end cfg sendAck s1⟩
  have harc : ∀ b : Bool, SameStop s (if sendAck = true then
        ClearToSend (prepare_arc_move b (get_arc_coordinates cfg strCmd s))
        else prepare_arc_move b (get_arc_coordinates cfg strCmd s)) ∧
      (ResetRuleHolds cfg s → ResetRuleHolds cfg (if sendAck = true then
        ClearToSend (prepare_arc_move b (get_arc_coordinates cfg strCmd s))
        else prepare_arc_move b (get_arc_coordinates cfg strCmd s))) := by
    intro b
    have ha := get_arc_coordinates_ctl cfg strCmd s
    have hb := (ctl_prepare_arc_move b (get_arc_coordinates cfg strCmd s)).link
      (ctl_ack sendAck _)
    exact ⟨ha.1.chain hb.stop, fun hr => rule_of_ctl hb (ha.2 hr)⟩
  unfold gcode_switch at h
  simp only at h
  generalize truncToInt (code_value s) = n at h
  by_cases c1 : (n = 0 ∨ n = 1) ∧ s.Stopped = 0
  · rw [if_pos c1, Option.map_eq_some'] at h
    obtain ⟨s1, hp, hs⟩ := h
    subst hs
    have ha := get_coordinates_ctl cfg strCmd s
    have hb := ctl_ack sendAck s1
    exact ⟨(ha.1.chain (stop_prepare_move cfg _ _ hp)).chain hb.stop,
      fun hr => rule_of_ctl hb (rule_prepare_move cfg _ _ hp (ha.2 hr))⟩
  rw [if_neg c1] at h
  by_cases c2 : n = 2 ∧ s.Stopped = 0
  · rw [if_pos c2] at h
    rw [Option.some.injEq] at h
    subst h
    exact (harc true)
  rw [if_neg c2] at h
  by_cases c3 : n = 3 ∧ s.Stopped = 0
  · rw [if_pos c3] at h
    rw [Option.some.injEq] at h
    subst h
    exact (harc false)
  rw [if_neg c3] at h
  by_cases c4 : n = 0 ∨ n = 1 ∨ n = 2 ∨ n = 3 ∨ n = 4
  · rw [if_pos c4] at h
    rw [Option.some.injEq] at h
    subst h
    exact (hend _ (stop_gcode_G4 cfg strCmd s))
  rw [if_neg c4] at h
  by_cases c5 : n = 28
  · rw [if_pos c5] at h
    exact absurd h (by simp)
  rw [if_neg c5] at h
  by_cases c6 : n = 10 ∧ cfg.FWRETRACT = true
  · rw [if_pos c6, Option.map_eq_some'] at h
    obtain ⟨s1, hp, hs⟩ := h
    subst hs
    exact hend _ (stop_gcode_G10 cfg strCmd s s1 hp)
  rw [if_neg c6] at h
  by_cases c7 : n = 11 ∧ cfg.FWRETRACT = true
  · rw [if_pos c7, Option.map_eq_some'] at h
    obtain ⟨s1, hp, hs⟩ := h
    subst hs
    exact hend _ (stop_gcode_G11 cfg s s1 hp)
  rw [if_neg c7] at h
  by_cases c8 : n = 90
  · rw [if_pos c8] at h
    rw [Option.some.injEq] at h
    subst h
    exact (hend (gcode_G90 s) ⟨rfl, rfl, rfl⟩)
  rw [if_neg c8] at h
  by_cases c9 : n = 91
  · rw [if_pos c9] at h
    rw [Option.some.injEq] at h
    subst h
    exact (hend (gcode_G91 s) ⟨rfl, rfl, rfl⟩)
  rw [if_neg c9] at h
  by_cases c10 : n = 92
  · rw [if_pos c10] at h
    rw [Option.some.injEq] at h
    subst h
    exact (hend _ (ctl_gcode_G92 strCmd s).stop)
  rw [if_neg c10] at h
  rw [Option.some.injEq] at h
  subst h
  exact (hend s ⟨rfl, rfl, rfl⟩)

theorem ctl_mcode_switch (cfg : Config) (strCmd : List Char) (sendAck : Bool)
    (s s' : Machine) (h : mcode_switch cfg strCmd sendAck s = some s') :
    (truncToInt (code_value s) ≠ 999 → SameStop s s') ∧
    (ResetRuleHolds cfg s → ResetRuleHolds cfg s') := by
  have hend : ∀ s1 : Machine, SameStop s s1 → ∀ k : Int,
      (k ≠ 999 → SameStop s (command_end cfg sendAck s1)) ∧
        (ResetRuleHolds cfg s → ResetRuleHolds cfg (command_end cfg sendAck s1)) :=
    fun s1 h1 _ => ⟨fun _ => h1.chain (stop_command_end cfg sendAck s1),
      fun _ => rule_command_end cfg sendAck s1⟩
  have hret : ∀ s1 : Machine, SameCtl s s1 → ∀ k : Int,
      (k ≠ 999 → SameStop s s1) ∧ (ResetRuleHolds cfg s → ResetRuleHolds cfg s1) :=
    fun s1 h1 _ => ⟨fun _ => h1.stop, rule_of_ctl h1⟩
  unfold mcode_switch at h
  simp only at h
  generalize truncToInt (code_value s) = n at h ⊢
  by_cases c1 : (n = 20 ∨ n = 21 ∨ n = 22) ∧ cfg.SDSUPPORT = true ∧
      s.printing_state = cfg.PRINT_STATE_RECOVER
  · rw [if_pos c1] at h
    rw [Option.some.injEq] at h
    subst h
    exact (hend s ⟨rfl, rfl, rfl⟩ n)
  rw [if_neg c1] at h
  by_cases c2 : n = 20 ∧ cfg.SDSUPPORT = true
  · rw [if_pos c2] at h
    rw [Option.some.injEq] at h
    subst h
    exact (hret (ClearToSend (gcode_M20 cfg s)) ⟨rfl, rfl, rfl, rfl⟩ n)
  rw [if_neg c2] at h
  by_cases c3 : n = 21 ∧ cfg.SDSUPPORT = true
  · rw [if_pos c3] at h
    rw [Option.some.injEq] at h
    subst h
    exact (hret (ClearToSend (gcode_M21 cfg s)) ⟨rfl, rfl, rfl, rfl⟩ n)
  rw [if_neg c3] at h
  by_cases c4 : n = 22 ∧ cfg.SDSUPPORT = true
  · rw [if_pos c4] at h
    rw [Option.some.injEq] at h
    subst h
    exact (hret (ClearToSend (gcode_M22 s)) ⟨rfl, rfl, rfl, rfl⟩ n)
  rw [if_neg c4] at h
  by_cases c5 : n = 27 ∧ cfg.SDSUPPORT = true
  · rw [if_pos c5] at h
    rw [Option.some.injEq] at h
    subst h
    exact (hret (ClearToSend (gcode_M27 cfg s)) ⟨rfl, rfl, rfl, rfl⟩ n)
  rw [if_neg c5] at h
  by_cases c6 : n = 105
  · rw [if_pos c6] at h
    rw [Option.some.injEq] at h
    subst h
    exact (hret _ (ctl_gcode_M105 cfg strCmd s) n)
  rw [if_neg c6] at h
  by_cases c7 : n = 207 ∧ cfg.FWRETRACT = true
  · rw [if_pos c7] at h
    rw [Option.some.injEq] at h
    subst h
    exact (hend _ (ctl_gcode_M207 strCmd s).stop n)
  rw [if_neg c7] at h
  by_cases c8 : n = 208 ∧ cfg.FWRETRACT = true
  · rw [if_pos c8] at h
    rw [Option.some.injEq] at h
    subst h
    exact (hend _ (ctl_gcode_M208 cfg strCmd s).stop n)
  rw [if_neg c8] at h
  by_cases c9 : n = 209 ∧ cfg.FWRETRACT = true
  · rw [if_pos c9] at h
    rw [Option.some.injEq] at h
    subst h
    exact (hend _ (ctl_gcode_M209 cfg strCmd s).stop n)
  rw [if_neg c9] at h
  by_cases c10 : n = 999
  · rw [if_pos c10] at h
    rw [Option.some.injEq] at h
    subst h
    exact ⟨fun hn => absurd c10 hn, fun _ => rule_command_end cfg sendAck _⟩
  rw [if_neg c10] at h
  by_cases c11 : n = 10010 ∧ cfg.ENABLE_ULTILCD2 = true
  · rw [if_pos c11] at h
    rw [Option.some.injEq] at h
    subst h
    exact (hret (gcode_M10010 s) ⟨rfl, rfl, rfl, rfl⟩ n)
  rw [if_neg c11] at h
  by_cases c12 : n ∈ mcodeLabels
  · rw [if_pos c12] at h
    exact absurd h (by simp)
  rw [if_neg c12] at h
  rw [Option.some.injEq] at h
  subst h
  exact (hend s ⟨rfl, rfl, rfl⟩ n)

theorem ctl_process_command (cfg : Config) (strCmd : List Char) (sendAck : Bool)
    (s s' : Machine) (h : process_command cfg strCmd sendAck s = some s') :
    (mcodeNumber strCmd ≠ some 999 → SameStop s s') ∧ ResetRuleHolds cfg s' := by
  have h0 : SameStop s (code_seen strCmd 'G' (printing_state_rule cfg s)).2 :=
    (stop_printing_state_rule cfg s).chain (ctl_code_seen _ _ _).stop
  have r0 : ResetRuleHolds cfg (code_seen strCmd 'G' (printing_state_rule cfg s)).2 :=
    rule_of_ctl (ctl_code_seen _ _ _) (rule_printing_state_rule cfg s)
  have hM := mcodeNumber_of_dispatch cfg strCmd s
  unfold process_command at h
  simp only at h
  generalize (code_seen strCmd 'G' (printing_state_rule cfg s)) = g at h h0 r0 hM
  have h1 : SameCtl g.2 (code_seen strCmd 'M' g.2).2 := ctl_code_seen _ _ _
  generalize (code_seen strCmd 'M' g.2) = m at h h1 hM
  have h2 : SameCtl m.2 (code_seen strCmd 'T' m.2).2 := ctl_code_seen _ _ _
  generalize (code_seen strCmd 'T' m.2) = t at h h2
  split_ifs at h with c1 c2 c3 c4
  · have hg := ctl_gcode_switch cfg strCmd sendAck g.2 s' h
    exact ⟨fun _ => h0.chain hg.1, hg.2 r0⟩
  · have hm := ctl_mcode_switch cfg strCmd sendAck m.2 s' h
    refine ⟨fun hne => (h0.chain h1.stop).chain (hm.1 ?_), hm.2 (rule_of_ctl h1 r0)⟩
    intro hn
    exact hne (hM _ (by simpa using c1) c2 hn)
  · rw [Option.map_eq_some'] at h
    obtain ⟨s1, hp, hs⟩ := h
    subst hs
    exact ⟨fun _ => ((h0.chain h1.stop).chain h2.stop).chain
      ((stop_gcode_T cfg strCmd _ _ hp).chain (stop_command_end cfg sendAck _)),
      rule_command_end cfg sendAck _⟩
  · rw [Option.some.injEq] at h
    subst h
    refine ⟨fun _ => ((h0.chain h1.stop).chain h2.stop).chain
      (@SameStop.chain t.2 (unknown_command strCmd t.2) _ ⟨rfl, rfl, rfl⟩
        (stop_command_end cfg sendAck _)), rule_command_end cfg sendAck _⟩

/-- C14: default reset rule. For every command line, every acknowledgment
flag and every starting state, whenever `process_command` returns, through an
early `return` of a handler or through the end of the function, the printing
state is `NORMAL` unless it is `RECOVER`, `START`, or numerically at or beyond
`TOOLCHANGE`. -/
theorem default_reset_rule (cfg : Config) (strCmd : List Char) (sendAck : Bool)
    (s s' : Machine) (h : ProcessCommandReturn cfg strCmd sendAck s s') :
    ResetRuleHolds cfg s' := by
  cases h with
  | embedded s1 h1 => exact (ctl_process_command cfg strCmd sendAck s s' h1).2
  | handler t h1 => exact rule_command_end cfg sendAck t

/-- C14, witness: `G1 X10`, which returns early, started in the state
`TOOLREADY`; `G4 P5`, which sets `DWELL` and leaves through the end of the
function; the move `G1 X5 Z2 E1` that resumes a print in the `RECOVER` state;
and `G28`, whose handler is left in the state `HOMING`. -/
theorem default_reset_rule_witness :
    (∃ s1, process_command cfg8 "G1 X10".toList true
        { Machine.init cfg8 with printing_state := cfg8.PRINT_STATE_TOOLREADY } = some s1 ∧
      ResetRuleHolds cfg8 s1 ∧ s1.printing_state = cfg8.PRINT_STATE_NORMAL) ∧
    (∃ s1, process_command cfg8 "G4 P5".toList true (Machine.init cfg8) = some s1 ∧
      ResetRuleHolds cfg8 s1 ∧ s1.printing_state = cfg8.PRINT_STATE_NORMAL) ∧
    (∃ s1, process_command cfg8 "G1 X5 Z2 E1".toList true resumingMachine = some s1 ∧
      ResetRuleHolds cfg8 s1 ∧ s1.printing_state = cfg8.PRINT_STATE_NORMAL) ∧
    ((process_command cfg8 "G28".toList true (Machine.init cfg8)).isNone = true ∧
      ResetRuleHolds cfg8 (command_end cfg8 true
        { Machine.init cfg8 with printing_state := cfg8.PRINT_STATE_HOMING })) :=
  ⟨⟨_, option_eq_some_getD _ (Machine.init cfg8) (by decide!),
      default_reset_rule cfg8 "G1 X10".toList true
        { Machine.init cfg8 with printing_state := cfg8.PRINT_STATE_TOOLREADY } _
        (ProcessCommandReturn.embedded _
          (option_eq_some_getD _ (Machine.init cfg8) (by decide!))), by decide!⟩,
    ⟨_, option_eq_some_getD _ (Machine.init cfg8) (by decide!),
      default_reset_rule cfg8 "G4 P5".toList true (Machine.init cfg8) _
        (ProcessCommandReturn.embedded _
          (option_eq_some_getD _ (Machine.init cfg8) (by decide!))), by decide!⟩,
    ⟨_, option_eq_some_getD _ (Machine.init cfg8) (by decide!),
      default_reset_rule cfg8 "G1 X5 Z2 E1".toList true resumingMachine _
        (ProcessCommandReturn.embedded _
          (option_eq_some_getD _ (Machine.init cfg8) (by decide!))), by decide!⟩,
    ⟨by decide!,
      default_reset_rule cfg8 "G28".toList true (Machine.init cfg8) _
        (ProcessCommandReturn.handler
          { Machine.init cfg8 with printing_state := cfg8.PRINT_STATE_HOMING }
          (option_eq_none_of_isNone _ (by decide!)))⟩⟩

/-! ## Restart after a stop -/

theorem StopMark.join {s s1 s2 : Machine} (h1 : StopMark s s1) (h2 : StopMark s1 s2) :
    StopMark s s2 := ⟨h2.1.trans h1.1, h2.2.trans h1.2⟩

theorem mark_checkToolchange (cfg : Config) (cmd : List Char) (s : Machine) :
    StopMark s (checkToolchange cfg cmd s) := by
  unfold checkToolchange
  simp only
  split_ifs <;> exact ⟨rfl, rfl⟩

theorem mark_insertcommand (cfg : Config) (cmd : List Char) (b : Bool) (s : Machine) :
    StopMark s (insertcommand cfg cmd b s).2 := by
  unfold insertcommand
  simp only
  split_ifs
  · exact ⟨rfl, rfl⟩
  · refine StopMark.join ?_ (mark_checkToolchange cfg _ _)
    cases b <;> exact ⟨rfl, rfl⟩
  · cases b <;> exact ⟨rfl, rfl⟩

theorem mark_stoppedAlert (command : List Char) (s : Machine) :
    StopMark s (stoppedAlert command s) := by
  unfold stoppedAlert
  split_ifs
  · split
    · simp only
      split_ifs <;> exact ⟨rfl, rfl⟩
    · exact ⟨rfl, rfl⟩
  · exact ⟨rfl, rfl⟩

theorem mark_serial_enqueue (cfg : Config) (command : List Char) (s : Machine) :
    StopMark s (serial_enqueue cfg command s) := by
  unfold serial_enqueue
  exact (mark_stoppedAlert command s).join
    (StopMark.join ⟨rfl, rfl⟩ (mark_insertcommand cfg command _ _))

theorem mark_gcode_line_error (cfg : Config) (err : String) (b : Bool) (s : Machine) :
    StopMark s (gcode_line_error cfg err b s) := by
  unfold gcode_line_error
  simp only
  split_ifs <;> exact ⟨rfl, rfl⟩

theorem mark_serial_check_line (cfg : Config) (command : List Char) (s : Machine) :
    StopMark s (serial_check_line cfg command s).1 := by
  rcases serial_check_line_cases cfg command s with ⟨msg, b, e⟩ | ⟨n, e⟩
  · rw [e]
    exact mark_gcode_line_error cfg msg b s
  · rw [e]
    exact StopMark.join ⟨rfl, rfl⟩ (mark_serial_enqueue cfg command _)

theorem mark_serial_end_of_line (cfg : Config) (s : Machine) :
    StopMark s (serial_end_of_line cfg s).1 := by
  unfold serial_end_of_line
  dsimp only
  split
  · exact ⟨rfl, rfl⟩
  · exact StopMark.join ⟨rfl, rfl⟩ (mark_serial_check_line cfg _ _)

theorem mark_get_serial_loop (cfg : Config) : ∀ (fuel : Nat) (s : Machine),
    StopMark s (get_serial_loop cfg fuel s)
  | 0, s => ⟨rfl, rfl⟩
  | fuel + 1, s => by
    rw [get_serial_loop]
    split
    · exact ⟨rfl, rfl⟩
    · split
      · exact ⟨rfl, rfl⟩
      · dsimp only
        split
        · split
          · refine StopMark.join ?_ (mark_get_serial_loop cfg fuel _)
            exact StopMark.join ⟨rfl, rfl⟩ (mark_serial_end_of_line cfg _)
          · exact StopMark.join ⟨rfl, rfl⟩ (mark_serial_end_of_line cfg _)
        · split
          · exact StopMark.join ⟨rfl, rfl⟩ (mark_get_serial_loop cfg fuel _)
          · split
            · split
              · exact StopMark.join ⟨rfl, rfl⟩ (mark_get_serial_loop cfg fuel _)
              · refine StopMark.join ?_ (mark_get_serial_loop cfg fuel _)
                split <;> exact ⟨rfl, rfl⟩
            · refine StopMark.join ?_ (mark_get_serial_loop cfg fuel _)
              split <;> split <;> exact ⟨rfl, rfl⟩

theorem mark_get_serial_commands (cfg : Config) (s : Machine) :
    StopMark s (get_serial_commands cfg s) := mark_get_serial_loop cfg _ s

theorem mark_sdcard_read_error (s : Machine) : StopMark s (sdcard_read_error s) := by
  unfold sdcard_read_error
  split
  · exact ⟨rfl, rfl⟩
  · dsimp only
    split <;> exact ⟨rfl, rfl⟩

theorem mark_sdcard_end_of_line (cfg : Config) (sd_count : Nat) (card_eof : Bool)
    (s : Machine) : StopMark s (sdcard_end_of_line cfg sd_count card_eof s).2 := by
  have h2 : StopMark s (if card_eof = true then sdcard_finished s else s) := by
    split <;> exact ⟨rfl, rfl⟩
  unfold sdcard_end_of_line
  dsimp only
  generalize (if card_eof = true then sdcard_finished s else s) = s2 at h2 ⊢
  split
  · exact h2.join ⟨rfl, rfl⟩
  · exact h2.join (StopMark.join ⟨rfl, rfl⟩ (mark_insertcommand cfg _ false _))

theorem mark_sdcard_accumulate (cfg : Config) (sd_count : Nat) (sd_char : Char)
    (s : Machine) : StopMark s (sdcard_accumulate cfg sd_count sd_char s).2 := by
  unfold sdcard_accumulate
  split_ifs <;> exact ⟨rfl, rfl⟩

theorem mark_sdcard_byte (cfg : Config) (sd_count : Nat) (n : Int) (s : Machine) :
    StopMark s (sdcard_byte cfg sd_count n s).2.2 := by
  unfold sdcard_byte
  dsimp only
  split_ifs
  all_goals first
    | exact mark_sdcard_end_of_line cfg _ _ _
    | exact mark_sdcard_accumulate cfg _ _ _

theorem mark_get_sdcard_loop (cfg : Config) : ∀ (fuel sd_count : Nat) (card_eof : Bool)
    (s : Machine), StopMark s (get_sdcard_loop cfg fuel sd_count card_eof s)
  | 0, _, _, s => ⟨rfl, rfl⟩
  | fuel + 1, sd_count, card_eof, s => by
    rw [get_sdcard_loop]
    split
    · exact ⟨rfl, rfl⟩
    · dsimp only
      split
      · exact StopMark.join ⟨rfl, rfl⟩ (mark_sdcard_read_error _)
      · refine StopMark.join ?_ (mark_get_sdcard_loop cfg fuel _ _ _)
        exact StopMark.join ⟨rfl, rfl⟩ (mark_sdcard_byte cfg _ _ _)

theorem mark_get_sdcard_commands (cfg : Config) (s : Machine) :
    StopMark s (get_sdcard_commands cfg s) := by
  unfold get_sdcard_commands
  split
  · exact ⟨rfl, rfl⟩
  · exact mark_get_sdcard_loop cfg _ _ _ s

theorem mark_Stop (reasonNr : Nat) (s : Machine) (h : s.Stopped ≠ 0) :
    StopMark s (Stop reasonNr s) := by
  unfold Stop
  simp only
  rw [if_neg (by exact h)]
  exact ⟨rfl, rfl⟩

theorem mark_of_stop {s s1 : Machine} (h : SameStop s s1) : StopMark s s1 := ⟨h.1, h.2.1⟩

theorem StoppedRun.mark {cfg : Config} {s0 s : Machine} (h : StoppedRun cfg s0 s)
    (h0 : s0.Stopped ≠ 0) : StopMark s0 s := by
  induction h with
  | start => exact ⟨rfl, rfl⟩
  | receive s bytes _ ih => exact ih.join ⟨rfl, rfl⟩
  | serial s _ ih => exact ih.join (mark_get_serial_commands cfg s)
  | sdcard s _ ih => exact ih.join (mark_get_sdcard_commands cfg s)
  | stop s r _ ih =>
    refine ih.join (mark_Stop r s ?_)
    rw [ih.1]
    exact h0
  | command s s1 strCmd sendAck _ hne hstep ih =>
    exact ih.join (mark_of_stop ((ctl_process_command cfg strCmd sendAck s s1 hstep).1 hne))

theorem process_command_M (cfg : Config) (strCmd : List Char) (s : Machine)
    (n : Int) (h : mcodeNumber strCmd = some n) :
    (code_seen strCmd 'G' (printing_state_rule cfg s)).1 = false ∧
    (code_seen strCmd 'M' (code_seen strCmd 'G' (printing_state_rule cfg s)).2).1 = true ∧
    truncToInt (code_value
      (code_seen strCmd 'M' (code_seen strCmd 'G' (printing_state_rule cfg s)).2).2) = n := by
  unfold mcodeNumber at h
  unfold code_seen code_value
  cases hg : strchr strCmd 'G' with
  | some p => simp [hg] at h
  | none =>
    cases hp : strchr strCmd 'M' with
    | none => simp [hg, hp] at h
    | some p =>
      simp only [hg, hp, Option.isSome_none, Bool.false_eq_true, if_false, Option.map_some',
        Option.some.injEq] at h
      simp [h]

theorem process_command_M999 (cfg : Config) (strCmd : List Char) (sendAck : Bool) (s : Machine)
    (h : mcodeNumber strCmd = some 999) :
    process_command cfg strCmd sendAck s = some (command_end cfg sendAck (gcode_M999 cfg
      (code_seen strCmd 'M' (code_seen strCmd 'G' (printing_state_rule cfg s)).2).2)) := by
  obtain ⟨h1, h2, h3⟩ := process_command_M cfg strCmd s 999 h
  unfold process_command mcode_switch
  simp only [h1, h2, h3, if_true]
  simp

theorem gcode_M999_restart (cfg : Config) (sendAck : Bool) (s : Machine)
    (hst : s.printing_state ≠ cfg.PRINT_STATE_RECOVER) :
    (command_end cfg sendAck (gcode_M999 cfg s)).Stopped = 0 ∧
    (command_end cfg sendAck (gcode_M999 cfg s)).gcode_LastN = s.Stopped_gcode_LastN ∧
    (command_end cfg sendAck (gcode_M999 cfg s)).out =
      s.out ++ [Out.resend (wrapLong (s.Stopped_gcode_LastN + 1)), Out.ok] ++
        (if sendAck then [Out.ok] else []) := by
  unfold gcode_M999
  rw [if_neg hst]
  unfold command_end printing_state_rule FlushSerialRequestResend ClearToSend
  simp only
  cases sendAck <;> split_ifs <;> simp

theorem printing_state_rule_out (cfg : Config) (s : Machine) :
    (printing_state_rule cfg s).out = s.out := by
  unfold printing_state_rule
  split_ifs <;> rfl

theorem Stop_fresh (reasonNr : Nat) (s : Machine) (h : s.Stopped = 0) :
    (Stop reasonNr s).Stopped = reasonNr % 256 ∧
    (Stop reasonNr s).Stopped_gcode_LastN = s.gcode_LastN := by
  unfold Stop
  simp only
  rw [if_pos (by exact h)]
  exact ⟨rfl, rfl⟩

/-- C15: restart after stop. `Stop(reason)` with a non-zero reason on a machine
that is not stopped, whose last accepted line number is `n`, makes the machine
stopped. After any run of arriving bytes, lines accepted by the serial and the
card framer, further `Stop` calls and executed commands other than M999, the
machine is still stopped, and an M999 line executed in a printing state other
than `RECOVER` returns with the stopped flag cleared, the last accepted line
number back at `n`, and the resend request for the line after `n` (computed in
`long` arithmetic), followed by the acknowledgments, appended to the output.
When `n + 1` fits a `long` the request names `n + 1`. -/
theorem restart_after_stop (cfg : Config) (reason : Nat) (s0 s : Machine)
    (strCmd : List Char) (sendAck : Bool)
    (hd : cfg.PRINT_STATE_NORMAL ≠ cfg.PRINT_STATE_RECOVER)
    (hr : 0 < reason ∧ reason < 256) (h0 : s0.Stopped = 0)
    (hrun : StoppedRun cfg (Stop reason s0) s)
    (hst : s.printing_state ≠ cfg.PRINT_STATE_RECOVER)
    (hm : mcodeNumber strCmd = some 999) :
    IsStopped (Stop reason s0) = true ∧ IsStopped s = true ∧
    ∃ s1, process_command cfg strCmd sendAck s = some s1 ∧
      IsStopped s1 = false ∧ s1.gcode_LastN = s0.gcode_LastN ∧
      s1.out = s.out ++ [Out.resend (wrapLong (s0.gcode_LastN + 1)), Out.ok] ++
        (if sendAck then [Out.ok] else []) ∧
      (LONG_MIN ≤ s0.gcode_LastN + 1 → s0.gcode_LastN + 1 ≤ LONG_MAX →
        wrapLong (s0.gcode_LastN + 1) = s0.gcode_LastN + 1) := by
  obtain ⟨f1, f2⟩ := Stop_fresh reason s0 h0
  have hne : (Stop reason s0).Stopped ≠ 0 := by
    rw [f1, Nat.mod_eq_of_lt hr.2]
    exact Nat.pos_iff_ne_zero.mp hr.1
  obtain ⟨k1, k2⟩ := hrun.mark hne
  have hs : s.Stopped ≠ 0 := by
    rw [k1]
    exact hne
  have hst2 : (code_seen strCmd 'M' (code_seen strCmd 'G'
      (printing_state_rule cfg s)).2).2.printing_state ≠ cfg.PRINT_STATE_RECOVER :=
    printing_state_rule_not_recover cfg s hd hst
  obtain ⟨g1, g2, g3⟩ := gcode_M999_restart cfg sendAck _ hst2
  refine ⟨by simp [IsStopped, hne], by simp [IsStopped, hs], _,
    process_command_M999 cfg strCmd sendAck s hm, by simp [IsStopped, g1], ?_, ?_, ?_⟩
  · rw [g2]
    exact (stop_printing_state_rule cfg s).2.1.trans (k2.trans f2)
  · rw [g3]
    have e1 : (code_seen strCmd 'M' (code_seen strCmd 'G'
        (printing_state_rule cfg s)).2).2.Stopped_gcode_LastN = s0.gcode_LastN :=
      (stop_printing_state_rule cfg s).2.1.trans (k2.trans f2)
    have e2 : (code_seen strCmd 'M' (code_seen strCmd 'G'
        (printing_state_rule cfg s)).2).2.out = s.out := printing_state_rule_out cfg s
    rw [e1, e2]
  · intro h1 h2
    unfold wrapLong
    unfold LONG_MIN at h1
    unfold LONG_MAX at h2
    omega

/-- C15, witness: the sample machine is stopped at line 5, accepts line 6, is
stopped again, and then executes `M999`: the line number is 5 again and the
resend request names 6. -/
theorem restart_after_stop_witness :
    (cfg8.PRINT_STATE_NORMAL ≠ cfg8.PRINT_STATE_RECOVER ∧ (lineState cfg8 5 []).Stopped = 0 ∧
      StoppedRun cfg8 (Stop 6 (lineState cfg8 5 [])) stoppedRunState ∧
      stoppedRunState.printing_state ≠ cfg8.PRINT_STATE_RECOVER ∧
      mcodeNumber "M999".toList = some 999 ∧ stoppedRunState.gcode_LastN = 6 ∧
      stoppedRunState.Stopped = 6) ∧
    ∃ s1, process_command cfg8 "M999".toList true stoppedRunState = some s1 ∧
      IsStopped s1 = false ∧ s1.gcode_LastN = 5 ∧
      s1.out = stoppedRunState.out ++ [Out.resend 6, Out.ok, Out.ok] :=
  have hrun : StoppedRun cfg8 (Stop 6 (lineState cfg8 5 [])) stoppedRunState :=
    StoppedRun.stop _ _ 8 (StoppedRun.serial _ _
      (StoppedRun.receive _ _ "N6 G4 P1*106\n".toList (StoppedRun.start _)))
  have h := restart_after_stop cfg8 6 (lineState cfg8 5 []) stoppedRunState "M999".toList true
    (by decide) ⟨by decide, by decide⟩ rfl hrun (by decide!) (by decide!)
  ⟨⟨by decide, rfl, hrun, by decide!, by decide!, by decide!, by decide!⟩,
    h.2.2.elim fun s1 h1 => ⟨s1, h1.1, h1.2.1, h1.2.2.1, h1.2.2.2.1⟩⟩

/-! ## Homing faults -/

/-- C16: homing fault. When `homeaxis(axis)` runs its fast approach on X, Y or
Z and the endstop is not reported hit, a machine that was not stopped becomes
stopped with reason `STOP_REASON_Z_ENDSTOP_BROKEN_ERROR` for Z and
`STOP_REASON_XY_ENDSTOP_BROKEN_ERROR` for X and Y. The planner has received
the fast run, for Z the safety move of 5 mm against the homing direction and
the release of the steppers, and `disable_heater`, and nothing else: no
back-off and no second approach. `position_state` is unchanged, and the
output gained the fault message and the stop message. -/
theorem homeaxis_endstop_broken (cfg : Config) (axis : Nat) (s : Machine)
    (hax : axis ≤ Z_AXIS) (hdo : cfg.HOMEAXIS_DO axis = true)
    (hz : 0 < cfg.STOP_REASON_Z_ENDSTOP_BROKEN_ERROR ∧
      cfg.STOP_REASON_Z_ENDSTOP_BROKEN_ERROR < 256)
    (hxy : 0 < cfg.STOP_REASON_XY_ENDSTOP_BROKEN_ERROR ∧
      cfg.STOP_REASON_XY_ENDSTOP_BROKEN_ERROR < 256)
    (hs : s.Stopped = 0) (hhit : (isEndstopHit s).1 = false) :
    (homeaxis cfg axis s).Stopped =
      (if axis = Z_AXIS then cfg.STOP_REASON_Z_ENDSTOP_BROKEN_ERROR
        else cfg.STOP_REASON_XY_ENDSTOP_BROKEN_ERROR) ∧
    IsStopped (homeaxis cfg axis s) = true ∧
    (homeaxis cfg axis s).motion.planner =
      s.motion.planner ++ homingFastRun cfg axis s ++
        (if axis = Z_AXIS then homingSafetyMove cfg s else []) ++ [PlanCall.disable_heater] ∧
    (homeaxis cfg axis s).motion.position_state = s.motion.position_state ∧
    (homeaxis cfg axis s).out = s.out ++
      [Out.error "Endstop not pressed after homing down. Endstop broken?", Out.errStopped] := by
  have hz1 : cfg.STOP_REASON_Z_ENDSTOP_BROKEN_ERROR % 256 =
      cfg.STOP_REASON_Z_ENDSTOP_BROKEN_ERROR := Nat.mod_eq_of_lt hz.2
  have hxy1 : cfg.STOP_REASON_XY_ENDSTOP_BROKEN_ERROR % 256 =
      cfg.STOP_REASON_XY_ENDSTOP_BROKEN_ERROR := Nat.mod_eq_of_lt hxy.2
  have hz2 : cfg.STOP_REASON_Z_ENDSTOP_BROKEN_ERROR ≠ 0 := Nat.pos_iff_ne_zero.mp hz.1
  have hxy2 : cfg.STOP_REASON_XY_ENDSTOP_BROKEN_ERROR ≠ 0 := Nat.pos_iff_ne_zero.mp hxy.1
  unfold isEndstopHit at hhit
  unfold homeaxis
  rw [if_pos ⟨hax, hdo⟩]
  by_cases hZ : axis = Z_AXIS
  · subst hZ
    cases hrep : s.motion.endstop_reports with
    | nil =>
      simp [hrep, isEndstopHit, homeaxis_not_hit, Stop, IsStopped, plan, st_synchronize,
        plan_line_to_destination, plan_set_current_position, set_feedrate, set_destination,
        set_current_position, homingFastRun, homingSafetyMove, hs, hz1, hz2, Pos.set, Pos.get,
        Z_AXIS]
    | cons b rest =>
      rw [hrep] at hhit
      simp only at hhit
      subst hhit
      simp [hrep, isEndstopHit, homeaxis_not_hit, Stop, IsStopped, plan, st_synchronize,
        plan_line_to_destination, plan_set_current_position, set_feedrate, set_destination,
        set_current_position, homingFastRun, homingSafetyMove, hs, hz1, hz2, Pos.set, Pos.get,
        Z_AXIS]
  · cases hrep : s.motion.endstop_reports with
    | nil =>
      simp [hrep, isEndstopHit, homeaxis_not_hit, Stop, IsStopped, plan, st_synchronize,
        plan_line_to_destination, plan_set_current_position, set_feedrate, set_destination,
        set_current_position, homingFastRun, hs, hxy1, hxy2, hZ]
    | cons b rest =>
      rw [hrep] at hhit
      simp only at hhit
      subst hhit
      simp [hrep, isEndstopHit, homeaxis_not_hit, Stop, IsStopped, plan, st_synchronize,
        plan_line_to_destination, plan_set_current_position, set_feedrate, set_destination,
        set_current_position, homingFastRun, hs, hxy1, hxy2, hZ]

/-- C16, witness: homing Z and homing X on the sample machine, whose endstops
report nothing. -/
theorem homeaxis_endstop_broken_witness :
    (Z_AXIS ≤ Z_AXIS ∧ cfg8.HOMEAXIS_DO Z_AXIS = true ∧ (Machine.init cfg8).Stopped = 0 ∧
      (isEndstopHit (Machine.init cfg8)).1 = false) ∧
    (homeaxis cfg8 Z_AXIS (Machine.init cfg8)).Stopped = 6 ∧
    (homeaxis cfg8 X_AXIS (Machine.init cfg8)).Stopped = 8 ∧
    (homeaxis cfg8 Z_AXIS (Machine.init cfg8)).motion.position_state = 0 ∧
    (homeaxis cfg8 Z_AXIS (Machine.init cfg8)).motion.planner =
      homingFastRun cfg8 Z_AXIS (Machine.init cfg8) ++ homingSafetyMove cfg8 (Machine.init cfg8)
        ++ [PlanCall.disable_heater] :=
  have hZ := homeaxis_endstop_broken cfg8 Z_AXIS (Machine.init cfg8) (by decide) rfl
    ⟨by decide, by decide⟩ ⟨by decide, by decide⟩ rfl rfl
  have hX := homeaxis_endstop_broken cfg8 X_AXIS (Machine.init cfg8) (by decide) rfl
    ⟨by decide, by decide⟩ ⟨by decide, by decide⟩ rfl rfl
  ⟨⟨by decide, rfl, rfl, rfl⟩, hZ.1, hX.1, hZ.2.2.2.1, hZ.2.2.1⟩

/-! ## Motion while stopped -/

theorem dispatch_stopped (cfg : Config) (strCmd : List Char) (code : Char) (s : Machine) :
    (code_seen strCmd code (printing_state_rule cfg s)).2.Stopped = s.Stopped :=
  (stop_printing_state_rule cfg s).1

theorem gcode_G4_motion (cfg : Config) (strCmd : List Char) (s : Machine) :
    (gcode_G4 cfg strCmd s).motion.current_position = s.motion.current_position ∧
    (gcode_G4 cfg strCmd s).motion.destination = s.motion.destination ∧
    (gcode_G4 cfg strCmd s).motion.feedrate = s.motion.feedrate ∧
    ((gcode_G4 cfg strCmd s).motion.planner = s.motion.planner ∨
      ∃ m, (gcode_G4 cfg strCmd s).motion.planner =
        s.motion.planner ++ [PlanCall.synchronize, PlanCall.dwell m]) := by
  unfold gcode_G4
  by_cases h : s.printing_state = cfg.PRINT_STATE_RECOVER
  · rw [if_pos h]
    exact ⟨rfl, rfl, rfl, Or.inl rfl⟩
  · rw [if_neg h]
    refine ⟨rfl, rfl, rfl, Or.inr ⟨
      (if (code_seen strCmd 'S' (code_seen strCmd 'P'
          { s with out := s.out ++ [Out.action "pause"] }).2).1 = true then
        toU32 (code_value (code_seen strCmd 'S' (code_seen strCmd 'P'
          { s with out := s.out ++ [Out.action "pause"] }).2).2 * 1000)
      else if (code_seen strCmd 'P' { s with out := s.out ++ [Out.action "pause"] }).1 = true then
        toU32 (code_value (code_seen strCmd 'P'
          { s with out := s.out ++ [Out.action "pause"] }).2)
      else 0), ?_⟩⟩
    simp [plan, st_synchronize, code_seen]

theorem process_command_stopped (cfg : Config) (strCmd : List Char) (sendAck : Bool)
    (s : Machine) (n : Int) (hs : s.Stopped ≠ 0) (hg : gcodeNumber strCmd = some n)
    (hn : n = 0 ∨ n = 1 ∨ n = 2 ∨ n = 3) :
    process_command cfg strCmd sendAck s = some (command_end cfg sendAck
      (gcode_G4 cfg strCmd (code_seen strCmd 'G' (printing_state_rule cfg s)).2)) := by
  obtain ⟨h1, h2⟩ := process_command_G cfg strCmd s n hg
  have h3 : (code_seen strCmd 'G' (printing_state_rule cfg s)).2.Stopped ≠ 0 := by
    rw [dispatch_stopped]
    exact hs
  unfold process_command gcode_switch
  simp only [h1, h2, if_true]
  rw [if_neg (fun c => h3 c.2), if_neg (fun c => h3 c.2), if_neg (fun c => h3 c.2), if_pos]
  rcases hn with h | h | h | h
  · exact Or.inl h
  · exact Or.inr (Or.inl h)
  · exact Or.inr (Or.inr (Or.inl h))
  · exact Or.inr (Or.inr (Or.inr (Or.inl h)))

theorem process_command_moving (cfg : Config) (strCmd : List Char) (sendAck : Bool)
    (s : Machine) (n : Int) (hs : s.Stopped = 0) (hg : gcodeNumber strCmd = some n)
    (hn : n = 0 ∨ n = 1 ∨ n = 2 ∨ n = 3) :
    process_command cfg strCmd sendAck s =
      if n = 0 ∨ n = 1 then
        (prepare_move cfg (get_coordinates cfg strCmd
          (code_seen strCmd 'G' (printing_state_rule cfg s)).2)).map
          fun s1 => if sendAck then ClearToSend s1 else s1
      else
        some (if sendAck then
          ClearToSend (prepare_arc_move (decide (n = 2)) (get_arc_coordinates cfg strCmd
            (code_seen strCmd 'G' (printing_state_rule cfg s)).2))
          else prepare_arc_move (decide (n = 2)) (get_arc_coordinates cfg strCmd
            (code_seen strCmd 'G' (printing_state_rule cfg s)).2)) := by
  obtain ⟨h1, h2⟩ := process_command_G cfg strCmd s n hg
  have h3 : (code_seen strCmd 'G' (printing_state_rule cfg s)).2.Stopped = 0 := by
    rw [dispatch_stopped]
    exact hs
  unfold process_command gcode_switch
  simp only [h1, h2, h3, if_true, and_true]
  rcases hn with h | h | h | h <;> subst h <;> simp

theorem gcode_M999_motion (cfg : Config) (s : Machine) :
    (gcode_M999 cfg s).motion = s.motion := by
  unfold gcode_M999
  split_ifs <;> rfl

/-- C17: while the stopped flag is non-zero, and it stays non-zero through
any run of arriving bytes, accepted lines, further `Stop` calls and executed
commands other than M999, a G0, G1, G2 or G3 line is dispatched and returns
with `current_position`, `destination` and the feed rate unchanged; the
planner receives nothing, or the wait and the dwell of the G4 case the line
falls through to, and no move. After an M999 line executed outside `RECOVER`
the flag is zero, the motion state is as before, and the same line runs the
move code again. -/
theorem stopped_blocks_motion (cfg : Config) (s0 s : Machine) (strCmd : List Char)
    (sendAck : Bool) (n : Int)
    (h0 : s0.Stopped ≠ 0) (hrun : StoppedRun cfg s0 s)
    (hg : gcodeNumber strCmd = some n) (hn : n = 0 ∨ n = 1 ∨ n = 2 ∨ n = 3) :
    s.Stopped ≠ 0 ∧
    (∃ s1, process_command cfg strCmd sendAck s = some s1 ∧
      s1.motion.current_position = s.motion.current_position ∧
      s1.motion.destination = s.motion.destination ∧
      s1.motion.feedrate = s.motion.feedrate ∧
      (s1.motion.planner = s.motion.planner ∨
        ∃ m, s1.motion.planner = s.motion.planner ++ [PlanCall.synchronize, PlanCall.dwell m]) ∧
      s1.Stopped ≠ 0) ∧
    (∀ (restart : List Char) (ack : Bool), mcodeNumber restart = some 999 →
      cfg.PRINT_STATE_NORMAL ≠ cfg.PRINT_STATE_RECOVER →
      s.printing_state ≠ cfg.PRINT_STATE_RECOVER →
      ∃ s2, process_command cfg restart ack s = some s2 ∧ s2.Stopped = 0 ∧
        s2.motion = s.motion ∧
        process_command cfg strCmd sendAck s2 =
          if n = 0 ∨ n = 1 then
            (prepare_move cfg (get_coordinates cfg strCmd
              (code_seen strCmd 'G' (printing_state_rule cfg s2)).2)).map
              fun s3 => if sendAck then ClearToSend s3 else s3
          else
            some (if sendAck then
              ClearToSend (prepare_arc_move (decide (n = 2)) (get_arc_coordinates cfg strCmd
                (code_seen strCmd 'G' (printing_state_rule cfg s2)).2))
              else prepare_arc_move (decide (n = 2)) (get_arc_coordinates cfg strCmd
                (code_seen strCmd 'G' (printing_state_rule cfg s2)).2))) := by
  have hs : s.Stopped ≠ 0 := by
    rw [(hrun.mark h0).1]
    exact h0
  obtain ⟨g1, g2, g3, g4⟩ := gcode_G4_motion cfg strCmd
    (code_seen strCmd 'G' (printing_state_rule cfg s)).2
  have hm := (dispatch_state cfg strCmd 'G' s).1
  refine ⟨hs, ⟨_, process_command_stopped cfg strCmd sendAck s n hs hg hn, ?_, ?_, ?_, ?_, ?_⟩, ?_⟩
  · rw [(command_end_motion cfg sendAck _).1, g1, hm]
  · rw [(command_end_motion cfg sendAck _).1, g2, hm]
  · rw [(command_end_motion cfg sendAck _).1, g3, hm]
  · rw [(command_end_motion cfg sendAck _).1, ← hm]
    exact g4
  · rw [((stop_gcode_G4 cfg strCmd _).chain (stop_command_end cfg sendAck _)).1,
      dispatch_stopped]
    exact hs
  · intro restart ack hr hd hst
    have hst2 : (code_seen restart 'M' (code_seen restart 'G'
        (printing_state_rule cfg s)).2).2.printing_state ≠ cfg.PRINT_STATE_RECOVER :=
      printing_state_rule_not_recover cfg s hd hst
    have hz := (gcode_M999_restart cfg ack _ hst2).1
    refine ⟨_, process_command_M999 cfg restart ack s hr, hz, ?_,
      process_command_moving cfg strCmd sendAck _ n hz hg hn⟩
    rw [(command_end_motion cfg ack _).1, gcode_M999_motion]
    exact (printing_state_rule_motion cfg s).1

/-- C17, witness: on the sample machine stopped at line 5, `G1 X10` plans
nothing but the wait and a dwell of 0 ms and leaves the position alone; after
`M999` the same line moves the head to X = 10. -/
theorem stopped_blocks_motion_witness :
    ((Stop 6 (lineState cfg8 5 [])).Stopped ≠ 0 ∧
      StoppedRun cfg8 (Stop 6 (lineState cfg8 5 [])) stoppedRunState ∧
      gcodeNumber "G1 X10".toList = some 1) ∧
    (∃ s1, process_command cfg8 "G1 X10".toList true stoppedRunState = some s1 ∧
      s1.motion.current_position = stoppedRunState.motion.current_position ∧
      s1.motion.current_position.x = 0) ∧
    (∃ s2 s3, process_command cfg8 "M999".toList true stoppedRunState = some s2 ∧
      process_command cfg8 "G1 X10".toList true s2 = some s3 ∧
      s3.motion.current_position.x = 10) :=
  have hrun : StoppedRun cfg8 (Stop 6 (lineState cfg8 5 [])) stoppedRunState :=
    StoppedRun.stop _ _ 8 (StoppedRun.serial _ _
      (StoppedRun.receive _ _ "N6 G4 P1*106\n".toList (StoppedRun.start _)))
  have h := stopped_blocks_motion cfg8 (Stop 6 (lineState cfg8 5 [])) stoppedRunState
    "G1 X10".toList true 1 (by decide) hrun (by decide!) (Or.inr (Or.inl rfl))
  ⟨⟨by decide, hrun, by decide!⟩,
    h.2.1.elim fun s1 h1 => ⟨s1, h1.1, h1.2.1, by rw [h1.2.1]; decide!⟩,
    (h.2.2 "M999".toList true (by decide!) (by decide) (by decide!)).elim fun s2 h2 =>
      ⟨s2, ((process_command cfg8 "G1 X10".toList true s2).getD s2), h2.1,
        option_eq_some_getD _ _ (by
          rw [Option.some.inj (h2.1.symm.trans
            (option_eq_some_getD _ (Machine.init cfg8) (by decide!)))]
          decide!), by
          rw [Option.some.inj (h2.1.symm.trans
            (option_eq_some_getD _ (Machine.init cfg8) (by decide!)))]
          decide!⟩⟩

/-! ## The reset-numbering exemption -/

theorem serial_check_line_M110 (cfg : Config) (command p : List Char) (s : Machine)
    (hhead : command.head? = some 'N')
    (hm : (strstr command "M110".toList).isSome = true)
    (hstar : strchr command '*' = some p)
    (hsum : strtol p.tail = (xorChecksum command : Int)) :
    serial_check_line cfg command s =
      (serial_enqueue cfg command
        { s with gcode_LastN := (strtol ((strchr (command.drop 4) 'N').getD command).tail) },
        true) := by
  unfold serial_check_line
  simp only [hhead, hm, hstar, hsum, if_true, ne_eq, not_true_eq_false, and_false, if_false]
  cases strchr (command.drop 4) 'N' <;> rfl

theorem m110_accept_general (cfg : Config) (s : Machine) (command p : List Char)
    (hmax : cfg.MAX_CMD_SIZE ≤ 256) (hB : cfg.BUFSIZE ≤ 255)
    (hhead : command.head? = some 'N')
    (hm : (strstr command "M110".toList).isSome = true)
    (hstar : strchr command '*' = some p)
    (hsum : strtol p.tail = (xorChecksum command : Int))
    (hpl : ∀ c ∈ command, plainChar c ∧ c ≠ NUL)
    (hlen : command.length < cfg.MAX_CMD_SIZE)
    (hbuf : s.cmd_line_buffer.length = cfg.MAX_CMD_SIZE)
    (hfresh : s.serial_count = 0 ∧ s.comment_mode = false)
    (hroom : s.buflen < cfg.BUFSIZE) (hslot : s.bufindw < s.cmdbuffer.length)
    (hrx : s.rx = command ++ ['\n']) :
    (get_serial_commands cfg s).buflen = s.buflen + 1 ∧
    (get_serial_commands cfg s).slot s.bufindw = command ∧
    (get_serial_commands cfg s).gcode_LastN =
      strtol ((strchr (command.drop 4) 'N').getD command).tail := by
  have hne : command ≠ [] := by
    intro h
    rw [h] at hhead
    simp at hhead
  have hnonul : ∀ c ∈ command, c ≠ NUL := fun c hc => (hpl c hc).2
  have hcmd : (cstr command).dropWhile (fun c => c = ' ') = command := by
    rw [cstr_eq_self hnonul]
    cases command with
    | nil => rfl
    | cons a t =>
      simp only [List.head?_cons, Option.some.injEq] at hhead
      subst hhead
      simp [List.dropWhile]
  have hrun := get_serial_loop_line cfg hmax command [] '\n' (command.length + 1) s hrx
    (Or.inl rfl) (fun c hc => (hpl c hc).1) hne hlen hbuf hfresh.1 hfresh.2 hroom (le_refl _)
  have hlen2 : s.rx.length = command.length + 1 := by simp [hrx]
  rw [hcmd, Nat.sub_self] at hrun
  obtain ⟨s2, hs2, hl2, hw2, hc2⟩ : ∃ s2 : Machine,
      get_serial_loop cfg (command.length + 1) s =
        (if (serial_check_line cfg command s2).2 then
          get_serial_loop cfg 0 (serial_check_line cfg command s2).1
        else (serial_check_line cfg command s2).1) ∧
      s2.buflen = s.buflen ∧ s2.bufindw = s.bufindw ∧
      s2.cmdbuffer = s.cmdbuffer := ⟨_, hrun, rfl, rfl, rfl⟩
  rw [get_serial_commands, hlen2, hs2, serial_check_line_M110 cfg command p s2 hhead hm hstar hsum]
  simp only [if_true, get_serial_loop]
  obtain ⟨e1, e2, e3, -⟩ := serial_enqueue_accept cfg command
    { s2 with gcode_LastN := strtol ((strchr (command.drop 4) 'N').getD command).tail }
    (by rw [hhead]; decide) (by simpa [hl2] using hroom)
  refine ⟨?_, ?_, ?_⟩
  · rw [e1]; simp only [hl2]; omega
  · show List.getD _ _ _ = _
    rw [e2]
    simp [List.getD_eq_getElem?_getD, hslot, cstr_eq_self hnonul, hw2, hc2]
  · rw [e3]

theorem strchr_skip {c : Char} : ∀ (pre rest : List Char), (∀ x ∈ pre, x ≠ c) →
    strchr (pre ++ rest) c = strchr rest c
  | [], _, _ => rfl
  | x :: xs, rest, h => by
    have hx : x ≠ c := h x (by simp)
    simp only [List.cons_append, strchr, hx, if_false]
    exact strchr_skip xs rest (fun y hy => h y (by simp [hy]))

theorem strstr_found (pat : List Char) : ∀ (pre rest : List Char),
    (strstr (pre ++ pat ++ rest) pat).isSome = true
  | [], rest => by
    cases hp : pat ++ rest with
    | nil =>
      obtain ⟨h1, h2⟩ := List.append_eq_nil.mp hp
      subst h1 h2
      simp [strstr]
    | cons x xs =>
      have h1 : pat.isPrefixOf (x :: xs) = true := by
        rw [← hp]
        exact List.isPrefixOf_iff_prefix.mpr (List.prefix_append _ _)
      simp [strstr, hp, h1]
  | x :: xs, rest => by
    simp only [List.cons_append, strstr]
    split
    · rfl
    · have := strstr_found pat xs rest
      simpa using this

theorem stopsParse_append {a b : List Char} (ha : stopsParse a)
    (hb : a = [] → stopsParse b) : stopsParse (a ++ b) := by
  cases a with
  | nil => exact hb rfl
  | cons x xs =>
    intro c hc
    exact ha c (by simpa using hc)

theorem m110Line_drop (k : Nat) (pre args : List Char) (hpre : ∀ x ∈ pre, x ≠ 'N') :
    strchr ((m110Line k pre args).drop 4) 'N' =
      strchr (args ++ '*' :: decimal (xorBytes ('N' :: decimal k ++ pre ++ "M110".toList ++ args)))
        'N' := by
  have hshape : m110Line k pre args = ('N' :: (decimal k ++ pre ++ "M110".toList)) ++
      (args ++ '*' :: decimal (xorBytes ('N' :: decimal k ++ pre ++ "M110".toList ++ args))) := by
    simp [m110Line]
  have hlen : 4 ≤ ('N' :: (decimal k ++ pre ++ "M110".toList)).length := by
    simp
    omega
  rw [hshape, List.drop_append_of_le_length hlen]
  apply strchr_skip
  intro x hx
  have hx2 : x ∈ decimal k ++ pre ++ "M110".toList := by
    have h3 := List.mem_of_mem_drop hx
    have h4 : (List.drop 4 ('N' :: (decimal k ++ pre ++ "M110".toList))) =
        List.drop 3 (decimal k ++ pre ++ "M110".toList) := rfl
    rw [h4] at hx
    exact List.mem_of_mem_drop hx
  simp only [List.mem_append] at hx2
  rcases hx2 with (hx2 | hx2) | hx2
  · exact (isDigit_props (decimal_digits k x hx2)).2.2.2.2.2.2.2.2.1
  · exact hpre x hx2
  · exact (by decide : ∀ c ∈ "M110".toList, c ≠ 'N') x hx2

/-- C18 (as amended): reset-numbering exemption. A line `N<k><pre>M110<args>*<c>`
with the XOR checksum of its bytes before the `*`, whose texts `pre` and
`args` hold no CR, LF, `;`, backslash, `*` or NUL byte, with no `N` in `pre`
and a `pre` that does not start with a digit, shorter than `MAX_CMD_SIZE`,
received at the start of a line with room in the queue, is enqueued by
`get_serial_commands` whatever `gcode_LastN` is. Afterwards `gcode_LastN` is
`k` when `args` holds no `N`, and `j` when the first `N` of `args` is followed
by the decimal number `j`; both under the condition that the number fits a
`long`. -/
theorem m110_line_accepted (cfg : Config) (s : Machine) (k : Nat) (pre args : List Char)
    (hmax : cfg.MAX_CMD_SIZE ≤ 256) (hB : cfg.BUFSIZE ≤ 255)
    (hpre : ∀ x ∈ pre, plainChar x ∧ x ≠ '*' ∧ x ≠ NUL ∧ x ≠ 'N') (hpre0 : stopsParse pre)
    (hargs : ∀ x ∈ args, plainChar x ∧ x ≠ '*' ∧ x ≠ NUL)
    (hlen : (m110Line k pre args).length < cfg.MAX_CMD_SIZE)
    (hbuf : s.cmd_line_buffer.length = cfg.MAX_CMD_SIZE)
    (hfresh : s.serial_count = 0 ∧ s.comment_mode = false)
    (hroom : s.buflen < cfg.BUFSIZE) (hslot : s.bufindw < s.cmdbuffer.length)
    (hrx : s.rx = m110Line k pre args ++ ['\n']) :
    (get_serial_commands cfg s).buflen = s.buflen + 1 ∧
    (get_serial_commands cfg s).slot s.bufindw = m110Line k pre args ∧
    ((k : Int) ≤ LONG_MAX → (∀ x ∈ args, x ≠ 'N') →
      (get_serial_commands cfg s).gcode_LastN = k) ∧
    (∀ (j : Nat) (mid rest : List Char), (j : Int) ≤ LONG_MAX →
      args = mid ++ 'N' :: decimal j ++ rest → (∀ x ∈ mid, x ≠ 'N') → stopsParse rest →
      (get_serial_commands cfg s).gcode_LastN = j) := by
  have hd := fun c hc => isDigit_props (decimal_digits k c hc)
  have hcd := fun c hc => isDigit_props (decimal_digits
    (xorBytes ('N' :: decimal k ++ pre ++ "M110".toList ++ args)) c hc)
  have hM : ∀ (P : Char → Prop), P 'M' → P '1' → P '0' → ∀ c ∈ "M110".toList, P c := by
    intro P h1 h2 h3 c hc
    have : c = 'M' ∨ c = '1' ∨ c = '0' :=
      (by decide : ∀ c ∈ "M110".toList, c = 'M' ∨ c = '1' ∨ c = '0') c hc
    rcases this with rfl | rfl | rfl
    · exact h1
    · exact h2
    · exact h3
  have hall : ∀ (P : Char → Prop), P 'N' → P 'M' → P '*' → (∀ c, c.isDigit = true → P c) →
      (∀ c ∈ pre, P c) → (∀ c ∈ args, P c) → ∀ c ∈ m110Line k pre args, P c := by
    intro P hN hMM hT hD hP hA c hc
    simp only [m110Line, List.cons_append, List.mem_cons, List.mem_append, or_assoc] at hc
    rcases hc with rfl | hc | hc | hc | hc | rfl | hc
    · exact hN
    · exact hD c (decimal_digits k c hc)
    · exact hP c hc
    · exact hM P hMM (hD '1' (by decide)) (hD '0' (by decide)) c hc
    · exact hA c hc
    · exact hT
    · exact hD c (decimal_digits _ c hc)
  have hbody : ∀ x ∈ 'N' :: decimal k ++ pre ++ "M110".toList ++ args, x ≠ '*' := by
    intro x hx
    simp only [List.cons_append, List.mem_cons, List.mem_append, or_assoc] at hx
    rcases hx with rfl | hx | hx | hx | hx
    · decide
    · exact (hd x hx).2.2.2.2.1
    · exact (hpre x hx).2.1
    · exact hM (fun c => c ≠ '*') (by decide) (by decide) (by decide) x hx
    · exact (hargs x hx).2.1
  have hhead : (m110Line k pre args).head? = some 'N' := rfl
  have hm : (strstr (m110Line k pre args) "M110".toList).isSome = true := by
    have h1 : m110Line k pre args = ('N' :: decimal k ++ pre) ++ "M110".toList ++
        (args ++ '*' :: decimal (xorBytes ('N' :: decimal k ++ pre ++ "M110".toList ++ args))) := by
      simp [m110Line]
    rw [h1]
    exact strstr_found _ _ _
  have hstar : strchr (m110Line k pre args) '*' = some ('*' :: decimal
      (xorBytes ('N' :: decimal k ++ pre ++ "M110".toList ++ args))) :=
    strchr_append _ _ hbody
  have hsum : strtol ('*' :: decimal
      (xorBytes ('N' :: decimal k ++ pre ++ "M110".toList ++ args))).tail =
      (xorChecksum (m110Line k pre args) : Int) := by
    have h1 : xorChecksum (m110Line k pre args) =
        xorBytes ('N' :: decimal k ++ pre ++ "M110".toList ++ args) :=
      xorChecksum_append _ _ hbody
    have h2 := @strtol_decimal (xorBytes ('N' :: decimal k ++ pre ++ "M110".toList ++ args)) []
      (by intro c hc; simp at hc)
    rw [List.append_nil] at h2
    rw [List.tail_cons, h2, h1]
    apply clampLong_of_range
    · unfold LONG_MIN; omega
    · have := xorBytes_lt ('N' :: decimal k ++ pre ++ "M110".toList ++ args)
      unfold LONG_MAX; omega
  have hpl : ∀ c ∈ m110Line k pre args, plainChar c ∧ c ≠ NUL :=
    hall (fun c => plainChar c ∧ c ≠ NUL)
      ⟨⟨by decide, by decide, by decide, by decide⟩, by decide⟩
      ⟨⟨by decide, by decide, by decide, by decide⟩, by decide⟩
      ⟨⟨by decide, by decide, by decide, by decide⟩, by decide⟩
      (fun c h => ⟨⟨(isDigit_props h).1, (isDigit_props h).2.1, (isDigit_props h).2.2.1,
        (isDigit_props h).2.2.2.1⟩, (isDigit_props h).2.2.2.2.2.1⟩)
      (fun c hc => ⟨(hpre c hc).1, (hpre c hc).2.2.1⟩)
      (fun c hc => ⟨(hargs c hc).1, (hargs c hc).2.2⟩)
  obtain ⟨g1, g2, g3⟩ := m110_accept_general cfg s (m110Line k pre args) _ hmax hB hhead hm
    hstar hsum hpl hlen hbuf hfresh hroom hslot hrx
  have hdrop := m110Line_drop k pre args (fun x hx => (hpre x hx).2.2.2)
  refine ⟨g1, g2, ?_, ?_⟩
  · intro hk hn
    rw [g3, hdrop, strchr_none]
    · have ht : (m110Line k pre args).tail = decimal k ++ (pre ++ ("M110".toList ++ (args ++
          '*' :: decimal (xorBytes ('N' :: decimal k ++ pre ++ "M110".toList ++ args))))) := by
        simp [m110Line]
      rw [Option.getD_none, ht, strtol_decimal k]
      · exact clampLong_of_range (by unfold LONG_MIN; omega) hk
      · apply stopsParse_append hpre0
        intro _ c hc
        simp only [List.head?_append, String.toList] at hc
        have : c = 'M' := by
          revert hc
          simp
          exact fun h => h.symm
        subst this
        decide
    · intro x hx
      rcases List.mem_append.mp hx with hx | hx
      · exact hn x hx
      · rcases List.mem_cons.mp hx with rfl | hx
        · decide
        · exact (hcd x hx).2.2.2.2.2.2.2.2.1
  · intro j mid rest hj hshape hmid hrest
    subst hshape
    rw [g3, hdrop]
    simp only [List.append_assoc, List.cons_append]
    rw [strchr_append _ _ hmid, Option.getD_some, List.tail_cons, strtol_decimal j]
    · exact clampLong_of_range (by unfold LONG_MIN; omega) hj
    · apply stopsParse_append hrest
      intro _ c hc
      simp only [List.head?_cons, Option.some.injEq] at hc
      subst hc
      decide

/-- C18, witness: the line `N7 M110 N100*<c>` while the last accepted line
number is 41. -/
theorem m110_line_accepted_witness :
    (get_serial_commands cfg8
      (lineState cfg8 41 (m110Line 7 " ".toList " N100".toList ++ ['\n']))).buflen = 1 ∧
    (get_serial_commands cfg8
      (lineState cfg8 41 (m110Line 7 " ".toList " N100".toList ++ ['\n']))).slot 0 =
        m110Line 7 " ".toList " N100".toList ∧
    (get_serial_commands cfg8
      (lineState cfg8 41 (m110Line 7 " ".toList " N100".toList ++ ['\n']))).gcode_LastN =
        (100 : Nat) :=
  have h := m110_line_accepted cfg8
    (lineState cfg8 41 (m110Line 7 " ".toList " N100".toList ++ ['\n'])) 7 " ".toList
    " N100".toList (by decide) (by decide) (by unfold plainChar; decide)
    (by unfold stopsParse; decide) (by unfold plainChar; decide) (by decide) (by decide)
    (by decide) (by decide) (by decide) rfl
  ⟨h.1, h.2.1, h.2.2.2 100 " ".toList [] (by decide) (by decide) (by decide)
    (by unfold stopsParse; decide)⟩

/-- C18, counterexample: the accepted line `N2147483648 M110*<c>` leaves
`gcode_LastN` at 2147483647, and the accepted line `N55 N9 M110*<c>`, in which
no `N` follows `M110`, leaves it at 9. -/
theorem m110_line_number_differs :
    ((get_serial_commands cfg8
        (lineState cfg8 0 (m110Line 2147483648 " ".toList [] ++ ['\n']))).buflen = 1 ∧
      (get_serial_commands cfg8
        (lineState cfg8 0 (m110Line 2147483648 " ".toList [] ++ ['\n']))).gcode_LastN =
          2147483647) ∧
    ((get_serial_commands cfg8
        (lineState cfg8 0 (m110Line 55 " N9 ".toList [] ++ ['\n']))).buflen = 1 ∧
      (get_serial_commands cfg8
        (lineState cfg8 0 (m110Line 55 " N9 ".toList [] ++ ['\n']))).gcode_LastN = 9) := by
  decide

/-! ## Comment stripping -/

theorem eol_after_text {cfg : Config} {s0 s : Machine} {acc : List Char}
    (ha : Accumulated cfg s0 s acc) (t : Char) (rest : List Char) (fuel : Nat)
    (hrx : s.rx = t :: rest) (ht : t = '\n' ∨ t = '\r') (hne : acc ≠ [])
    (hlen : acc.length < cfg.MAX_CMD_SIZE) (hbl : s.buflen < cfg.BUFSIZE) (hf : 1 ≤ fuel) :
    ∃ s', SameBut s0 s' ∧ s'.serial_count = 0 ∧ s'.rx = rest ∧ s'.comment_mode = false ∧
      get_serial_loop cfg fuel s =
        if (serial_check_line cfg ((cstr acc).dropWhile (fun c => c = ' ')) s').2 then
          get_serial_loop cfg (fuel - 1)
            (serial_check_line cfg ((cstr acc).dropWhile (fun c => c = ' ')) s').1
        else (serial_check_line cfg ((cstr acc).dropWhile (fun c => c = ' ')) s').1 := by
  obtain ⟨tl, htl⟩ := ha.buf
  have hsz := ha.size
  obtain ⟨f, rfl⟩ : ∃ f, fuel = f + 1 := ⟨fuel - 1, by omega⟩
  obtain ⟨x, tl', rfl⟩ : ∃ x tl', tl = x :: tl' := by
    cases tl with
    | nil => rw [htl] at hsz; simp at hsz; omega
    | cons x tl' => exact ⟨x, tl', rfl⟩
  have hl0 : acc.length ≠ 0 := fun h => hne (List.length_eq_zero.mp h)
  let s1 : Machine :=
    { s with rx := rest, ghost := s.ghost ++ [Ghost.serialRead s.buflen], comment_mode := false,
             cmd_line_buffer := acc ++ NUL :: tl', serial_count := 0 }
  refine ⟨s1, ha.same, rfl, rfl, rfl, ?_⟩
  rw [get_serial_loop, if_neg (by simpa using hbl), hrx]
  have hte : (t = '\n' ∨ t = '\r') = True := by simp [ht]
  simp only [hte, if_true, serial_end_of_line, ha.count, hl0, if_false, htl, set_length_append,
    cstr_append_nul, Nat.add_sub_cancel]

theorem eol_without_text {cfg : Config} {s0 s : Machine}
    (ha : Accumulated cfg s0 s []) (t : Char) (rest : List Char) (fuel : Nat)
    (hrx : s.rx = t :: rest) (ht : t = '\n' ∨ t = '\r')
    (hbl : s.buflen < cfg.BUFSIZE) (hf : 1 ≤ fuel) :
    ∃ s', SameBut s0 s' ∧ s'.serial_count = 0 ∧ s'.rx = rest ∧ s'.comment_mode = false ∧
      get_serial_loop cfg fuel s = get_serial_loop cfg (fuel - 1) s' := by
  obtain ⟨f, rfl⟩ : ∃ f, fuel = f + 1 := ⟨fuel - 1, by omega⟩
  have hc : s.serial_count = 0 := ha.count
  let s1 : Machine :=
    { s with rx := rest, ghost := s.ghost ++ [Ghost.serialRead s.buflen], comment_mode := false,
             serial_count := 0 }
  refine ⟨s1, ha.same, rfl, rfl, rfl, ?_⟩
  rw [get_serial_loop, if_neg (by simpa using hbl), hrx]
  have hte : (t = '\n' ∨ t = '\r') = True := by simp [ht]
  simp only [hte, if_true, serial_end_of_line, hc, Nat.add_sub_cancel]

theorem dropWhile_semicolon (line : List Char) :
    line.dropWhile (fun c => c != ';') = [] ∨
    ∃ c, line.dropWhile (fun c => c != ';') = ';' :: c := by
  induction line with
  | nil => exact Or.inl rfl
  | cons x xs ih =>
    by_cases h : x = ';'
    · subst h
      exact Or.inr ⟨xs, by simp [List.dropWhile]⟩
    · have : (x != ';') = true := by simpa using h
      rw [List.dropWhile_cons, if_pos this]
      exact ih

theorem comment_line_accumulated (cfg : Config) (hmax : cfg.MAX_CMD_SIZE ≤ 256) (s : Machine)
    (line rest : List Char) (t : Char) (fuel : Nat)
    (hrx : s.rx = line ++ t :: rest)
    (hline : ∀ c ∈ line, c ≠ '\n' ∧ c ≠ '\r' ∧ c ≠ '\\')
    (hlen : line.length < cfg.MAX_CMD_SIZE)
    (hbuf : s.cmd_line_buffer.length = cfg.MAX_CMD_SIZE)
    (hfresh : s.serial_count = 0 ∧ s.comment_mode = false)
    (hroom : s.buflen < cfg.BUFSIZE) (hf : line.length ≤ fuel) :
    ∃ s', get_serial_loop cfg fuel s = get_serial_loop cfg (fuel - line.length) s' ∧
      Accumulated cfg s s' (line.takeWhile (fun c => c != ';')) ∧ s'.rx = t :: rest ∧
      s'.buflen = s.buflen := by
  have hsplit : line.takeWhile (fun c => c != ';') ++ line.dropWhile (fun c => c != ';') = line :=
    List.takeWhile_append_dropWhile _ _
  have hp : ∀ c ∈ line.takeWhile (fun c => c != ';'), plainChar c := by
    intro c hc
    have h1 := hline c ((List.takeWhile_sublist _).subset hc)
    have h2 : (c != ';') = true :=
      @List.mem_takeWhile_imp _ (fun c => c != ';') line c hc
    exact ⟨h1.1, h1.2.1, h1.2.2, by simpa using h2⟩
  have hlen2 : (line.takeWhile (fun c => c != ';')).length +
      (line.dropWhile (fun c => c != ';')).length = line.length := by
    rw [← List.length_append, hsplit]
  generalize line.takeWhile (fun c => c != ';') = p at hsplit hp hlen2 ⊢
  rcases dropWhile_semicolon line with hd | ⟨c, hd⟩
  · rw [hd, List.append_nil] at hsplit
    rw [hd] at hlen2
    subst hsplit
    obtain ⟨s', e, ha, hr, _⟩ := accumulate_plain hmax (Accumulated.start hfresh.1 hbuf) p
      (t :: rest) fuel hrx hp hfresh.2 hroom (by simp; omega) hf
    exact ⟨s', e, by simpa using ha, hr, ha.same.buflen⟩
  · rw [hd] at hsplit hlen2
    simp only [List.length_cons] at hlen2
    have hc : ∀ x ∈ c, x ≠ '\n' ∧ x ≠ '\r' ∧ x ≠ '\\' := by
      intro x hx
      apply hline
      rw [← hsplit]
      simp [hx]
    obtain ⟨s1, e1, ha1, hr1, _⟩ := accumulate_plain hmax (Accumulated.start hfresh.1 hbuf) p
      (';' :: c ++ t :: rest) fuel (by rw [hrx, ← hsplit]; simp) hp hfresh.2 hroom
      (by simp; omega) (by omega)
    rw [List.nil_append] at ha1
    have hb1 : s1.buflen < cfg.BUFSIZE := by
      rw [ha1.same.buflen]
      exact hroom
    obtain ⟨s2, e2, ha2, hr2, hcm2⟩ := accumulate_semicolon ha1 (c ++ t :: rest) (fuel - p.length)
      (by simpa using hr1) hb1 (by omega) (by omega)
    have hb2 : s2.buflen < cfg.BUFSIZE := by
      rw [ha2.same.buflen]
      exact hroom
    obtain ⟨s3, e3, ha3, hr3, _⟩ := accumulate_comment c (t :: rest) (fuel - p.length - 1) s2 ha2
      hr2 hc hcm2 hb2 (by omega)
    refine ⟨s3, ?_, ha3, hr3, ha3.same.buflen⟩
    rw [e1, e2, e3]
    congr 1
    omega

/-- C19 (as amended): comment stripping. For a line without CR, LF and
backslash, shorter than `MAX_CMD_SIZE`, received at the start of a line with
room in the queue and ended by a terminator, no byte from the first `;` on is
accumulated and the comment mode is off after the terminator. When the prefix
before the first `;` is empty the framer goes on with the rest of the input
from a state that differs only in the consumed input: nothing is enqueued and
nothing is written. Otherwise the text handed to the integrity check, and by
it to the queue, is that prefix, cut at its first NUL byte and without its
leading spaces; it is the prefix itself when the prefix has no NUL byte and
does not start with a space. -/
theorem comment_stripping (cfg : Config) (hmax : cfg.MAX_CMD_SIZE ≤ 256) (s : Machine)
    (line rest : List Char) (t : Char)
    (hrx : s.rx = line ++ t :: rest) (ht : t = '\n' ∨ t = '\r')
    (hline : ∀ c ∈ line, c ≠ '\n' ∧ c ≠ '\r' ∧ c ≠ '\\')
    (hlen : line.length < cfg.MAX_CMD_SIZE)
    (hbuf : s.cmd_line_buffer.length = cfg.MAX_CMD_SIZE)
    (hfresh : s.serial_count = 0 ∧ s.comment_mode = false)
    (hroom : s.buflen < cfg.BUFSIZE) :
    ∃ s', SameBut s s' ∧ s'.serial_count = 0 ∧ s'.rx = rest ∧ s'.comment_mode = false ∧
      (line.takeWhile (fun c => c != ';') = [] →
        get_serial_commands cfg s = get_serial_commands cfg s') ∧
      (line.takeWhile (fun c => c != ';') ≠ [] →
        get_serial_commands cfg s =
          if (serial_check_line cfg
              ((cstr (line.takeWhile (fun c => c != ';'))).dropWhile (fun c => c = ' ')) s').2
          then get_serial_loop cfg rest.length (serial_check_line cfg
              ((cstr (line.takeWhile (fun c => c != ';'))).dropWhile (fun c => c = ' ')) s').1
          else (serial_check_line cfg
              ((cstr (line.takeWhile (fun c => c != ';'))).dropWhile (fun c => c = ' ')) s').1) ∧
      ((∀ c ∈ line.takeWhile (fun c => c != ';'), c ≠ NUL) →
        (line.takeWhile (fun c => c != ';')).head? ≠ some ' ' →
        (cstr (line.takeWhile (fun c => c != ';'))).dropWhile (fun c => c = ' ') =
          line.takeWhile (fun c => c != ';')) := by
  have hfuel : s.rx.length = line.length + (rest.length + 1) := by simp [hrx]
  obtain ⟨s1, e1, ha1, hr1, hb1⟩ := comment_line_accumulated cfg hmax s line rest t
    (line.length + (rest.length + 1)) hrx hline hlen hbuf hfresh hroom (by omega)
  have hb2 : s1.buflen < cfg.BUFSIZE := by
    rw [hb1]
    exact hroom
  have hplen : (line.takeWhile (fun c => c != ';')).length < cfg.MAX_CMD_SIZE :=
    lt_of_le_of_lt (List.takeWhile_sublist _).length_le hlen
  have hlast : ∀ p : List Char, (∀ c ∈ p, c ≠ NUL) → p.head? ≠ some ' ' →
      (cstr p).dropWhile (fun c => c = ' ') = p := by
    intro p h1 h2
    rw [cstr_eq_self h1]
    cases p with
    | nil => rfl
    | cons a as =>
      have : a ≠ ' ' := fun h => h2 (by simp [h])
      simp [List.dropWhile, this]
  rw [Nat.add_sub_cancel_left] at e1
  generalize line.takeWhile (fun c => c != ';') = p at ha1 hplen ⊢
  by_cases hp : p = []
  · subst hp
    obtain ⟨s2, h1, h2, h3, h4, e2⟩ := eol_without_text ha1 t rest (rest.length + 1) hr1 ht hb2
      (by omega)
    refine ⟨s2, h1, h2, h3, h4, fun _ => ?_, fun h => absurd rfl h, hlast []⟩
    rw [get_serial_commands, hfuel, e1, e2, get_serial_commands, h3]
    rfl
  · obtain ⟨s2, h1, h2, h3, h4, e2⟩ := eol_after_text ha1 t rest (rest.length + 1) hr1 ht hp
      hplen hb2 (by omega)
    refine ⟨s2, h1, h2, h3, h4, fun h => absurd h hp, fun _ => ?_, hlast p⟩
    rw [get_serial_commands, hfuel, e1, e2]
    rfl

/-- C19, witness: the line `G28 ;home` and the line `;home` after start-up. -/
theorem comment_stripping_witness :
    (∃ s1, SameBut (lineState cfg8 0 "G28 ;home\n".toList) s1 ∧ s1.comment_mode = false ∧
      get_serial_commands cfg8 (lineState cfg8 0 "G28 ;home\n".toList) =
        if (serial_check_line cfg8 "G28 ".toList s1).2
        then get_serial_loop cfg8 0 (serial_check_line cfg8 "G28 ".toList s1).1
        else (serial_check_line cfg8 "G28 ".toList s1).1) ∧
    (∃ s1, SameBut (lineState cfg8 0 ";home\n".toList) s1 ∧ s1.rx = [] ∧
      get_serial_commands cfg8 (lineState cfg8 0 ";home\n".toList) =
        get_serial_commands cfg8 s1) ∧
    (get_serial_commands cfg8 (lineState cfg8 0 "G28 ;home\n".toList)).slot 0 = "G28 ".toList ∧
    (get_serial_commands cfg8 (lineState cfg8 0 ";home\n".toList)).buflen = 0 ∧
    (get_serial_commands cfg8 (lineState cfg8 0 ";home\n".toList)).out = [] :=
  have h1 := comment_stripping cfg8 (by decide) (lineState cfg8 0 "G28 ;home\n".toList)
    "G28 ;home".toList [] '\n' rfl (Or.inl rfl) (by decide) (by decide) (by decide) ⟨rfl, rfl⟩
    (by decide)
  have h2 := comment_stripping cfg8 (by decide) (lineState cfg8 0 ";home\n".toList)
    ";home".toList [] '\n' rfl (Or.inl rfl) (by decide) (by decide) (by decide) ⟨rfl, rfl⟩
    (by decide)
  ⟨h1.elim fun s1 k => ⟨s1, k.1, k.2.2.2.1, k.2.2.2.2.2.1 (by decide)⟩,
    h2.elim fun s1 k => ⟨s1, k.1, k.2.2.1, k.2.2.2.2.1 (by decide)⟩,
    by decide, by decide, by decide⟩

/-- C19, counterexample: from the line ` G28;home`, whose prefix before the
`;` is ` G28`, the queue receives `G28`. -/
theorem comment_prefix_loses_spaces :
    " G28;home".toList.takeWhile (fun c => c != ';') = " G28".toList ∧
    (get_serial_commands cfg8 (lineState cfg8 0 " G28;home\n".toList)).buflen = 1 ∧
    (get_serial_commands cfg8 (lineState cfg8 0 " G28;home\n".toList)).slot 0 = "G28".toList ∧
    (get_serial_commands cfg8 (lineState cfg8 0 " G28;home\n".toList)).slot 0 ≠
      " G28;home".toList.takeWhile (fun c => c != ';') := by
  decide

/-! ## The end of the file on the card -/

theorem insertcommand_card (cfg : Config) (cmd : List Char) (b : Bool) (s : Machine) :
    (insertcommand cfg cmd b s).2.card = s.card := by
  unfold insertcommand checkToolchange
  simp only
  split_ifs <;> cases b <;> rfl

theorem sdcard_eof_branch (cfg : Config) (hB : cfg.BUFSIZE ≤ 255) (s1 : Machine)
    (acc tl : List Char) (x : Char)
    (hroom : s1.buflen < cfg.BUFSIZE) (hne : acc ≠ [])
    (hbuf : s1.cmd_line_buffer = acc ++ x :: tl) (hnonul : ∀ c ∈ acc, c ≠ NUL)
    (hsemi : acc.head? ≠ some ';') (hslot : s1.bufindw < s1.cmdbuffer.length) :
    (sdcard_end_of_line cfg acc.length true s1).1 = 0 ∧
    (sdcard_end_of_line cfg acc.length true s1).2.buflen = s1.buflen + 1 ∧
    (sdcard_end_of_line cfg acc.length true s1).2.slot s1.bufindw = acc ∧
    (sdcard_end_of_line cfg acc.length true s1).2.ghost =
      s1.ghost ++ [Ghost.printingHasFinished, Ghost.insertCall s1.buflen acc] ∧
    (sdcard_end_of_line cfg acc.length true s1).2.out = s1.out ++ [Out.filePrinted] ∧
    (sdcard_end_of_line cfg acc.length true s1).2.card = s1.card.printingHasFinished := by
  have hl0 : acc.length ≠ 0 := fun h => hne (List.length_eq_zero.mp h)
  have hc : cstr (acc ++ NUL :: tl) = acc := by
    rw [cstr_append_nul, cstr_eq_self hnonul]
  have hh : (acc ++ NUL :: tl).head? ≠ some ';' := by
    cases acc with
    | nil => exact absurd rfl hne
    | cons a as => simpa using hsemi
  unfold sdcard_end_of_line
  simp only [if_true, hl0, if_false, sdcard_finished, hbuf, set_length_append, hc]
  obtain ⟨a1, a2, a3, a4, a5, a6⟩ := @insertcommand_accept cfg (acc ++ NUL :: tl)
    { s1 with out := s1.out ++ [Out.filePrinted], card := s1.card.printingHasFinished,
              ghost := s1.ghost ++ [Ghost.printingHasFinished] ++
                [Ghost.insertCall s1.buflen acc],
              comment_mode := false, cmd_line_buffer := acc ++ NUL :: tl,
              endOfLineFilePosition := s1.card.printingHasFinished.filePos }
    (by
      intro h
      rcases h with h | h
      · exact hh h
      · have : cfg.BUFSIZE ≤ s1.buflen := h
        omega) false
  obtain ⟨b1, b2, b3, b4, b5, b6, b7⟩ := insertcommand_frame cfg (acc ++ NUL :: tl) false
    { s1 with out := s1.out ++ [Out.filePrinted], card := s1.card.printingHasFinished,
              ghost := s1.ghost ++ [Ghost.printingHasFinished] ++
                [Ghost.insertCall s1.buflen acc],
              comment_mode := false, cmd_line_buffer := acc ++ NUL :: tl,
              endOfLineFilePosition := s1.card.printingHasFinished.filePos }
  refine ⟨trivial, ?_, ?_, ?_, ?_, ?_⟩
  · rw [a3]
    show (s1.buflen + 1) % 256 = s1.buflen + 1
    omega
  · show List.getD _ _ _ = _
    rw [a2]
    simp [List.getD_eq_getElem?_getD, hslot, hc]
  · rw [b6]
    simp
  · rw [b2]
  · rw [insertcommand_card]

theorem get_sdcard_loop_eof (cfg : Config) (fuel sd_count : Nat) (s : Machine) :
    get_sdcard_loop cfg fuel sd_count true s = s := by
  cases fuel with
  | zero => rfl
  | succ n =>
    rw [get_sdcard_loop, if_pos]
    exact fun h => Bool.noConfusion h.2

theorem sdcard_byte_eof (cfg : Config) (sd_count : Nat) (n : Int) (s1 : Machine)
    (heof : n ≤ 0 ∨ s1.card.eof = true) :
    sdcard_byte cfg sd_count n s1 =
      ((sdcard_end_of_line cfg sd_count true s1).1, true,
        (sdcard_end_of_line cfg sd_count true s1).2) := by
  have h : (if n ≤ 0 then true else s1.card.eof) = true := by
    rcases heof with h | h
    · rw [if_pos h]
    · split_ifs
      · rfl
      · exact h
  unfold sdcard_byte
  simp only [h, true_or, if_true]

theorem eof_flush_loop (cfg : Config) (hB : cfg.BUFSIZE ≤ 255) (s : Machine) (fuel : Nat)
    (acc tl : List Char) (x : Char)
    (hroom : s.buflen < cfg.BUFSIZE) (herr : s.card.get.2.errorCode = 0)
    (heof : s.card.get.1 ≤ 0 ∨ s.card.get.2.eof = true)
    (hne : acc ≠ []) (hbuf : s.cmd_line_buffer = acc ++ x :: tl)
    (hnonul : ∀ c ∈ acc, c ≠ NUL) (hsemi : acc.head? ≠ some ';')
    (hslot : s.bufindw < s.cmdbuffer.length) :
    (get_sdcard_loop cfg (fuel + 1) acc.length false s).buflen = s.buflen + 1 ∧
    (get_sdcard_loop cfg (fuel + 1) acc.length false s).slot s.bufindw = acc ∧
    (get_sdcard_loop cfg (fuel + 1) acc.length false s).ghost =
      s.ghost ++ [Ghost.cardRead s.buflen, Ghost.printingHasFinished,
        Ghost.insertCall s.buflen acc] ∧
    (get_sdcard_loop cfg (fuel + 1) acc.length false s).out = s.out ++ [Out.filePrinted] ∧
    (get_sdcard_loop cfg (fuel + 1) acc.length false s).card.sdprinting = false := by
  obtain ⟨e1, e2, e3, e4, e5, e6⟩ := sdcard_eof_branch cfg hB
    { s with card := s.card.get.2, ghost := s.ghost ++ [Ghost.cardRead s.buflen] }
    acc tl x hroom hne hbuf hnonul hsemi hslot
  rw [get_sdcard_loop, if_neg (by simpa using hroom)]
  simp only
  rw [if_neg (by simpa using herr), sdcard_byte_eof cfg _ _ _ heof]
  simp only [get_sdcard_loop_eof]
  refine ⟨e2, e3, ?_, e5, ?_⟩
  · rw [e4]
    simp
  · rw [e6]
    rfl

theorem Card.get_next (c : Card) (b : Char) (rest : List Char) (hf : c.faults = [])
    (hd : c.file.drop c.filePos = b :: rest) :
    c.get = ((b.toNat : Int), { c with faults := [], filePos := c.filePos + 1 }) := by
  have hg : c.file[c.filePos]? = some b := by
    have h1 := @List.getElem?_drop _ c.file c.filePos 0
    rw [hd] at h1
    simpa using h1.symm
  unfold Card.get
  rw [hf]
  simp [hg, List.get?_eq_getElem?]

theorem sdPlain_toNat {c : Char} (h : sdPlain c) : ¬ ((c.toNat : Int) ≤ 0) := by
  have h0 : c.toNat ≠ 0 := by
    intro h1
    apply h.2.2.2.2.2
    rw [← Char.ofNat_toNat c, h1]
    rfl
  omega

theorem Card.get_end (c : Card) (hf : c.faults = []) (hd : c.file.drop c.filePos = []) :
    c.get = (-1, { c with faults := [], hitEnd := true }) := by
  have hg : c.file[c.filePos]? = none := by
    rw [List.getElem?_eq_none_iff]
    exact List.drop_eq_nil_iff.mp hd
  unfold Card.get
  rw [hf]
  simp [hg, List.get?_eq_getElem?]

theorem get_sdcard_loop_plain (cfg : Config) (hmax : cfg.MAX_CMD_SIZE ≤ 256) :
    ∀ (l : List Char) (post : List Char) (fuel sd_count : Nat) (s : Machine),
      s.card.file.drop s.card.filePos = l ++ post →
      (post ≠ [] ∨ (s.card.eofOnLastByte = false ∧ s.card.hitEnd = false)) →
      s.card.faults = [] →
      s.card.errorCode = 0 → (∀ c ∈ l, sdPlain c) → s.comment_mode = false →
      s.buflen < cfg.BUFSIZE → sd_count + l.length ≤ cfg.MAX_CMD_SIZE - 1 → l.length ≤ fuel →
      get_sdcard_loop cfg fuel sd_count false s =
        get_sdcard_loop cfg (fuel - l.length) (sd_count + l.length) false
          { s with card := { s.card with faults := [], filePos := s.card.filePos + l.length },
                   ghost := s.ghost ++ List.replicate l.length (Ghost.cardRead s.buflen),
                   cmd_line_buffer := writeList s.cmd_line_buffer sd_count l }
  | [], post, fuel, sd_count, s, _, _, hfl, _, _, _, _, _, _ => by
    have hc : ({ s.card with faults := [], filePos := s.card.filePos + 0 } : Card) = s.card := by
      rw [← hfl]
      rfl
    simp only [List.length_nil, Nat.sub_zero, Nat.add_zero, List.replicate_zero,
      List.append_nil, writeList]
    congr 1
    rw [show s.card.filePos = s.card.filePos + 0 from rfl, hc]
  | c :: cs, post, 0, sd_count, s, _, _, _, _, _, _, _, _, hf => by simp at hf
  | c :: cs, post, fuel + 1, sd_count, s, hd, hpost, hfl, herr, hpl, hcm, hbl, hcnt, hf => by
    obtain ⟨h1, h2, h3, h4, h5, h6⟩ := hpl c (by simp)
    simp only [List.length_cons] at hcnt hf
    have hget := Card.get_next s.card c (cs ++ post) hfl (by simpa using hd)
    have hn := sdPlain_toNat (hpl c (by simp))
    have hd2 : s.card.file.drop (s.card.filePos + 1) = cs ++ post := by
      have := congrArg List.tail hd
      simpa [List.tail_drop] using this
    have hce : (decide (s.card.filePos + 1 ≥ s.card.file.length) &&
        (s.card.eofOnLastByte || s.card.hitEnd)) = false := by
      rcases hpost with hp | ⟨ha, hb⟩
      · have hnoteof : ¬ (s.card.filePos + 1 ≥ s.card.file.length) := by
          intro h
          have h0 := List.drop_eq_nil_of_le h
          rw [hd2] at h0
          exact hp (List.append_eq_nil.mp h0).2
        rw [decide_eq_false hnoteof]
        rfl
      · rw [ha, hb]
        simp
    rw [get_sdcard_loop, if_neg (by simpa using hbl)]
    simp only [hget]
    rw [if_neg (by simpa using herr)]
    have hbyte : sdcard_byte cfg sd_count (c.toNat : Int)
        { s with card := { s.card with faults := [], filePos := s.card.filePos + 1 },
                 ghost := s.ghost ++ [Ghost.cardRead s.buflen] } =
        ((sd_count + 1) % 65536, false,
          { s with card := { s.card with faults := [], filePos := s.card.filePos + 1 },
                   ghost := s.ghost ++ [Ghost.cardRead s.buflen],
                   cmd_line_buffer := s.cmd_line_buffer.set sd_count c }) := by
      unfold sdcard_byte sdcard_accumulate
      simp only [hn, if_false, Card.eof, Int.toNat_ofNat, Char.ofNat_toNat, hce,
        Bool.false_eq_true, false_or, h1, h2, h3, h4, h5, false_and, hcm,
        if_true, show sd_count < cfg.MAX_CMD_SIZE - 1 by omega, or_self]
    rw [hbyte]
    simp only
    have e : (sd_count + 1) % 65536 = sd_count + 1 := by omega
    rw [e, get_sdcard_loop_plain cfg hmax cs post fuel (sd_count + 1)
      { s with card := { s.card with faults := [], filePos := s.card.filePos + 1 },
               ghost := s.ghost ++ [Ghost.cardRead s.buflen],
               cmd_line_buffer := s.cmd_line_buffer.set sd_count c }
      hd2 hpost rfl herr (fun x hx => hpl x (by simp [hx])) hcm hbl (by omega) (by omega)]
    simp only [List.length_cons, Nat.add_sub_add_right, writeList, List.replicate_succ,
      List.append_assoc, List.singleton_append]
    have e1 : sd_count + 1 + cs.length = sd_count + (cs.length + 1) := by omega
    have e2 : s.card.filePos + 1 + cs.length = s.card.filePos + (cs.length + 1) := by omega
    rw [e1, e2]

theorem eof_flush_run (cfg : Config) (hmax : cfg.MAX_CMD_SIZE ≤ 256) (hB : cfg.BUFSIZE ≤ 255)
    (s : Machine) (body : List Char)
    (hprint : s.card.sdprinting = true) (hpause : s.card.pause = false)
    (hab : s.printing_state ≠ cfg.PRINT_STATE_ABORT)
    (hfile : s.card.file.drop s.card.filePos = body)
    (hfl : s.card.faults = []) (herr : s.card.errorCode = 0)
    (hlag : s.card.eofOnLastByte = false) (hhit : s.card.hitEnd = false)
    (hbody : ∀ c ∈ body, sdPlain c) (hne : body ≠ [])
    (hlen : body.length < cfg.MAX_CMD_SIZE)
    (hbuf : s.cmd_line_buffer.length = cfg.MAX_CMD_SIZE) (hcm : s.comment_mode = false)
    (hroom : s.buflen < cfg.BUFSIZE) (hslot : s.bufindw < s.cmdbuffer.length) :
    (get_sdcard_commands cfg s).buflen = s.buflen + 1 ∧
    (get_sdcard_commands cfg s).slot s.bufindw = body ∧
    (get_sdcard_commands cfg s).ghost =
      s.ghost ++ List.replicate (body.length + 1) (Ghost.cardRead s.buflen) ++
        [Ghost.printingHasFinished, Ghost.insertCall s.buflen body] ∧
    (get_sdcard_commands cfg s).out = s.out ++ [Out.filePrinted] ∧
    (get_sdcard_commands cfg s).card.sdprinting = false := by
  have hlenf : s.card.file.length - s.card.filePos = body.length := by
    have := congrArg List.length hfile
    simpa using this
  have hnoteof : s.card.eof = false := by
    unfold Card.eof
    rw [hlag, hhit]
    simp
  have hrun := get_sdcard_loop_plain cfg hmax body [] (body.length + 2) 0 s
    (by simpa using hfile) (Or.inr ⟨hlag, hhit⟩) hfl herr hbody hcm hroom (by omega) (by omega)
  have hwl : writeList s.cmd_line_buffer 0 body =
      body ++ s.cmd_line_buffer.drop body.length := by
    have := writeList_append body [] s.cmd_line_buffer (by omega)
    simpa using this
  obtain ⟨x, tl, htl⟩ : ∃ x tl, s.cmd_line_buffer.drop body.length = x :: tl := by
    cases hdr : s.cmd_line_buffer.drop body.length with
    | nil =>
      have := List.drop_eq_nil_iff.mp hdr
      omega
    | cons x tl => exact ⟨x, tl, rfl⟩
  have hd2 : s.card.file.drop (s.card.filePos + body.length) = [] := by
    rw [← List.drop_drop, hfile]
    simp
  have hget := Card.get_end { s.card with faults := [], filePos := s.card.filePos + body.length }
    rfl hd2
  have hsemi : body.head? ≠ some ';' := by
    cases body with
    | nil => exact absurd rfl hne
    | cons a as =>
      have := (hbody a (by simp)).2.2.2.2.1
      simpa using this
  obtain ⟨e1, e2, e3, e4, e5⟩ := eof_flush_loop cfg hB
    { s with card := { s.card with faults := [], filePos := s.card.filePos + body.length },
             ghost := s.ghost ++ List.replicate body.length (Ghost.cardRead s.buflen),
             cmd_line_buffer := writeList s.cmd_line_buffer 0 body }
    1 body tl x hroom (by rw [hget]; exact herr)
    (Or.inl (by
      rw [hget]
      show (-1 : Int) ≤ 0
      decide))
    hne (by rw [hwl, htl]) (fun c hc => (hbody c hc).2.2.2.2.2) hsemi hslot
  unfold get_sdcard_commands
  have hfu : body.length + 2 - body.length = 1 + 1 := by omega
  rw [if_neg (by simp [hprint, hpause, hab]), hnoteof, hlenf, hrun, hfu, Nat.zero_add]
  refine ⟨e1, e2, ?_, e4, e5⟩
  rw [e3]
  simp [List.replicate_succ', List.append_assoc]

/-- C20 (as amended): end-of-file flush. First part, for any card: when the
loop of `get_sdcard_commands` has room in the queue and has accumulated the
non-empty text `acc` (no NUL byte, not starting with `;`), and the next read
succeeds and detects the end of the file, by returning no byte or because
`card.eof()` holds after it, then the completion is signalled
(`MSG_FILE_PRINTED` and `card.printingHasFinished`) and only after that `acc`
is inserted as the final command; the loop ends. Second part, for a card that
reports the end of the file by a read that returns no byte: on a printing card
whose unread rest is the line `body`, non-empty, free of terminators, comment
marker and NUL and shorter than the line buffer, `get_sdcard_commands` reads
the rest, signals the completion and then inserts exactly `body` as the final
command. -/
theorem eof_flush (cfg : Config) (hmax : cfg.MAX_CMD_SIZE ≤ 256) (hB : cfg.BUFSIZE ≤ 255) :
    (∀ (s : Machine) (fuel : Nat) (acc tl : List Char) (x : Char),
      s.buflen < cfg.BUFSIZE → s.card.get.2.errorCode = 0 →
      (s.card.get.1 ≤ 0 ∨ s.card.get.2.eof = true) →
      acc ≠ [] → s.cmd_line_buffer = acc ++ x :: tl → (∀ c ∈ acc, c ≠ NUL) →
      acc.head? ≠ some ';' → s.bufindw < s.cmdbuffer.length →
      (get_sdcard_loop cfg (fuel + 1) acc.length false s).buflen = s.buflen + 1 ∧
      (get_sdcard_loop cfg (fuel + 1) acc.length false s).slot s.bufindw = acc ∧
      (get_sdcard_loop cfg (fuel + 1) acc.length false s).ghost =
        s.ghost ++ [Ghost.cardRead s.buflen, Ghost.printingHasFinished,
          Ghost.insertCall s.buflen acc] ∧
      (get_sdcard_loop cfg (fuel + 1) acc.length false s).out = s.out ++ [Out.filePrinted] ∧
      (get_sdcard_loop cfg (fuel + 1) acc.length false s).card.sdprinting = false) ∧
    (∀ (s : Machine) (body : List Char),
      s.card.sdprinting = true → s.card.pause = false →
      s.printing_state ≠ cfg.PRINT_STATE_ABORT →
      s.card.file.drop s.card.filePos = body →
      s.card.faults = [] → s.card.errorCode = 0 →
      s.card.eofOnLastByte = false → s.card.hitEnd = false →
      (∀ c ∈ body, sdPlain c) → body ≠ [] → body.length < cfg.MAX_CMD_SIZE →
      s.cmd_line_buffer.length = cfg.MAX_CMD_SIZE → s.comment_mode = false →
      s.buflen < cfg.BUFSIZE → s.bufindw < s.cmdbuffer.length →
      (get_sdcard_commands cfg s).buflen = s.buflen + 1 ∧
      (get_sdcard_commands cfg s).slot s.bufindw = body ∧
      (get_sdcard_commands cfg s).ghost =
        s.ghost ++ List.replicate (body.length + 1) (Ghost.cardRead s.buflen) ++
          [Ghost.printingHasFinished, Ghost.insertCall s.buflen body] ∧
      (get_sdcard_commands cfg s).out = s.out ++ [Out.filePrinted] ∧
      (get_sdcard_commands cfg s).card.sdprinting = false) :=
  ⟨fun s fuel acc tl x h1 h2 h3 h4 h5 h6 h7 h8 =>
      eof_flush_loop cfg hB s fuel acc tl x h1 h2 h3 h4 h5 h6 h7 h8,
    fun s body h1 h2 h3 h4 h5 h6 h7 h8 h9 h10 h11 h12 h13 h14 h15 =>
      eof_flush_run cfg hmax hB s body h1 h2 h3 h4 h5 h6 h7 h8 h9 h10 h11 h12 h13 h14 h15⟩

/-- C20, witness: the file `M84` without a terminator on the sample machine:
after three bytes the fourth read returns no byte, the completion is signalled
and `M84` is inserted. -/
theorem eof_flush_witness :
    (cfg8.MAX_CMD_SIZE ≤ 256 ∧ cfg8.BUFSIZE ≤ 255) ∧
    (get_sdcard_commands cfg8 (printingState cfg8 "M84".toList [])).buflen = 1 ∧
    (get_sdcard_commands cfg8 (printingState cfg8 "M84".toList [])).slot 0 = "M84".toList ∧
    (get_sdcard_commands cfg8 (printingState cfg8 "M84".toList [])).ghost =
      [Ghost.cardRead 0, Ghost.cardRead 0, Ghost.cardRead 0, Ghost.cardRead 0,
        Ghost.printingHasFinished, Ghost.insertCall 0 "M84".toList] :=
  have h := (eof_flush cfg8 (by decide) (by decide)).2 (printingState cfg8 "M84".toList [])
    "M84".toList rfl rfl (by decide) rfl rfl rfl rfl rfl (by unfold sdPlain; decide) (by decide)
    (by decide) (by decide) rfl (by decide) (by decide)
  ⟨⟨by decide, by decide⟩, h.1, h.2.1, h.2.2.1⟩

/-- C20, counterexample: for the file `G28`, LF, `M84` the final command `M84`
is inserted after the completion has been signalled, not before it. -/
theorem eof_flush_after_completion :
    (get_sdcard_commands cfg8 (printingState cfg8 "G28\nM84".toList [])).ghost =
      [Ghost.cardRead 0, Ghost.cardRead 0, Ghost.cardRead 0, Ghost.cardRead 0,
        Ghost.insertCall 0 "G28".toList,
        Ghost.cardRead 1, Ghost.cardRead 1, Ghost.cardRead 1, Ghost.cardRead 1,
        Ghost.printingHasFinished, Ghost.insertCall 1 "M84".toList] ∧
    (get_sdcard_commands cfg8 (printingState cfg8 "G28\nM84".toList [])).slot 1 =
      "M84".toList := by
  decide

/-! ## Decoding coordinates -/

theorem Pos.get_set (p : Pos) (i j : Nat) (v : ℚ) (hi : i ≤ 3) (hj : j ≤ 3) :
    (p.set j v).get i = if i = j then v else p.get i := by
  interval_cases i <;> interval_cases j <;> simp [Pos.set, Pos.get]

theorem get_coordinates_axis_destination (cmd : List Char) (st : Nat × Machine) (i j : Nat)
    (hi : i ≤ 3) (hj : j ≤ 3) :
    (get_coordinates_axis cmd st j).2.motion.destination.get i =
      (if i = j then
        match strchr cmd (axis_codes j) with
        | none => st.2.motion.destination.get i
        | some p =>
          if st.2.motion.axis_relative_state.testBit j = false ∧
              st.2.motion.axis_relative_state.testBit 7 = false then strtod p.tail
          else st.2.motion.current_position.get j + strtod p.tail
      else st.2.motion.destination.get i) ∧
    (get_coordinates_axis cmd st j).2.motion.current_position = st.2.motion.current_position ∧
    (get_coordinates_axis cmd st j).2.motion.axis_relative_state =
      st.2.motion.axis_relative_state := by
  refine ⟨?_, ?_, ?_⟩
  · unfold get_coordinates_axis code_seen code_value
    cases hp : strchr cmd (axis_codes j) with
    | none =>
      simp only [Option.isSome_none, Bool.false_eq_true, if_false]
      split_ifs <;> rfl
    | some p =>
      simp only [Option.isSome_some, if_true, set_destination]
      rw [Pos.get_set _ i j _ hi hj]
      by_cases hij : i = j
      · simp only [hij, if_true]
        cases h1 : st.2.motion.axis_relative_state.testBit j <;>
          cases h2 : st.2.motion.axis_relative_state.testBit 7 <;> simp [add_comm]
      · simp only [hij, if_false]
  · unfold get_coordinates_axis code_seen
    simp only
    split_ifs <;> rfl
  · unfold get_coordinates_axis code_seen
    simp only
    split_ifs <;> rfl

theorem recover_toolchange_retract_destination (cfg : Config) (e : Nat) (b : Bool)
    (s : Machine) :
    (recover_toolchange_retract cfg e b s).motion.destination = s.motion.destination := by
  unfold recover_toolchange_retract
  split_ifs <;> rfl

theorem toolchange_if_destination (cfg : Config) (s : Machine) :
    (if cfg.EXTRUDERS > 1 then recover_toolchange_retract cfg s.active_extruder false s
      else s).motion.destination = s.motion.destination := by
  split_ifs
  · exact recover_toolchange_retract_destination cfg _ _ s
  · rfl

theorem get_coordinates_fwretract_destination (cfg : Config) (seen : Nat) (s : Machine) :
    (get_coordinates_fwretract cfg seen s).motion.destination = s.motion.destination := by
  have h1 := toolchange_if_destination cfg s
  unfold get_coordinates_fwretract
  simp only
  split_ifs
  · unfold get_coordinates_retract
    simp only
    split_ifs <;> simp [SET_EXTRUDER_RETRACT, set_recover_length, set_current_position,
      set_feedrate, plan]
  · unfold get_coordinates_recover
    simp only
    generalize (if cfg.EXTRUDERS > 1 then
      recover_toolchange_retract cfg s.active_extruder false s else s) = s1 at h1 ⊢
    rw [← h1]
    split_ifs <;> simp [set_recover_length, CLEAR_EXTRUDER_RETRACT, set_current_position, plan,
      set_feedrate]
  · rfl
  · unfold get_coordinates_first_move
    simp only
    generalize (if cfg.EXTRUDERS > 1 then
      recover_toolchange_retract cfg s.active_extruder false s else s) = s1 at h1 ⊢
    rw [← h1]
    split_ifs <;> simp [set_recover_length, CLEAR_EXTRUDER_RETRACT, plan]
  · rfl

theorem get_coordinates_destination (cfg : Config) (cmd : List Char) (s : Machine) :
    (get_coordinates cfg cmd s).motion.destination =
      ([X_AXIS, Y_AXIS, Z_AXIS, E_AXIS].foldl (get_coordinates_axis cmd)
        (0, if s.printing_state < cfg.PRINT_STATE_TOOLCHANGE then
          set_destination s.motion.current_position s else s)).2.motion.destination := by
  unfold get_coordinates
  simp only
  generalize ([X_AXIS, Y_AXIS, Z_AXIS, E_AXIS].foldl (get_coordinates_axis cmd)
        (0, if s.printing_state < cfg.PRINT_STATE_TOOLCHANGE then
          set_destination s.motion.current_position s else s)) = st
  have h3 := (get_coordinates_feedrate_frame cmd st.2).1
  generalize get_coordinates_feedrate cmd st.2 = s2 at h3 ⊢
  have h5 : (if cfg.FWRETRACT = true then
      get_coordinates_fwretract cfg st.1 s2 else s2).motion.destination =
      s2.motion.destination := by
    split_ifs
    · exact get_coordinates_fwretract_destination cfg _ s2
    · rfl
  generalize (if cfg.FWRETRACT = true then get_coordinates_fwretract cfg st.1 s2 else s2) = s3
    at h5 ⊢
  rw [← h3, ← h5]
  split_ifs <;> rfl

/-- C21: coordinate decoding. When `get_coordinates` runs with a printing
state numerically below `TOOLCHANGE`, then for each of the axes X, Y, Z and E
`destination[i]` is on return the entry value of `current_position[i]` when the
axis letter does not occur in the command, the number after the letter when it
occurs and neither the relative bit of the axis nor `RELATIVE_MODE` is set, and
the entry value of `current_position[i]` plus that number otherwise. -/
theorem get_coordinates_decoding (cfg : Config) (cmd : List Char) (s : Machine) (i : Nat)
    (hst : s.printing_state < cfg.PRINT_STATE_TOOLCHANGE) (hi : i ≤ E_AXIS) :
    (get_coordinates cfg cmd s).motion.destination.get i = decodedDestination cmd i s := by
  have hi3 : i ≤ 3 := hi
  rw [get_coordinates_destination, if_pos hst]
  simp only [List.foldl_cons, List.foldl_nil]
  obtain ⟨a1, a2, a3⟩ := get_coordinates_axis_destination cmd
    (0, set_destination s.motion.current_position s) i X_AXIS hi3 (by decide)
  generalize get_coordinates_axis cmd (0, set_destination s.motion.current_position s) X_AXIS
    = t1 at a1 a2 a3 ⊢
  obtain ⟨b1, b2, b3⟩ := get_coordinates_axis_destination cmd t1 i Y_AXIS hi3 (by decide)
  generalize get_coordinates_axis cmd t1 Y_AXIS = t2 at b1 b2 b3 ⊢
  obtain ⟨c1, c2, c3⟩ := get_coordinates_axis_destination cmd t2 i Z_AXIS hi3 (by decide)
  generalize get_coordinates_axis cmd t2 Z_AXIS = t3 at c1 c2 c3 ⊢
  obtain ⟨d1, d2, d3⟩ := get_coordinates_axis_destination cmd t3 i E_AXIS hi3 (by decide)
  generalize get_coordinates_axis cmd t3 E_AXIS = t4 at d1 d2 d3 ⊢
  rw [d1, c1, b1, a1, c2, b2, a2, c3, b3, a3]
  simp only [set_destination]
  unfold decodedDestination
  interval_cases i <;> simp [X_AXIS, Y_AXIS, Z_AXIS, E_AXIS]

/-- C21, witness: `G1 X10 E2` on the sample machine in absolute mode and, for
E, in relative mode. -/
theorem get_coordinates_decoding_witness :
    ((Machine.init cfg8).printing_state < cfg8.PRINT_STATE_TOOLCHANGE ∧ X_AXIS ≤ E_AXIS) ∧
    (get_coordinates cfg8 "G1 X10 E2".toList (Machine.init cfg8)).motion.destination.get X_AXIS
      = 10 ∧
    (get_coordinates cfg8 "G1 X10 E2".toList (Machine.init cfg8)).motion.destination.get Y_AXIS
      = (Machine.init cfg8).motion.current_position.get Y_AXIS ∧
    (get_coordinates cfg8 "G1 E2".toList
      (set_current_position ⟨0, 0, 0, 5⟩ (gcode_G91 (Machine.init cfg8)))).motion.destination.get
        E_AXIS = 7 :=
  ⟨⟨by decide, by decide⟩,
    (get_coordinates_decoding cfg8 "G1 X10 E2".toList (Machine.init cfg8) X_AXIS (by decide)
      (by decide)).trans (by decide!),
    (get_coordinates_decoding cfg8 "G1 X10 E2".toList (Machine.init cfg8) Y_AXIS (by decide)
      (by decide)).trans (by decide!),
    (get_coordinates_decoding cfg8 "G1 E2".toList
      (set_current_position ⟨0, 0, 0, 5⟩ (gcode_G91 (Machine.init cfg8))) E_AXIS (by decide)
      (by decide)).trans (by decide!)⟩

/-! ## Move submission -/

theorem clamp_step_only_error (s : Machine) (st : Pos × Machine) (i : Nat) (hi : i ≤ 2)
    (f : Pos × Machine → Nat → Pos × Machine) (hf : f = clamp_min_axis ∨ f = clamp_max_axis)
    (h : st.2 = { s with motion := { s.motion with
      position_error := st.2.motion.position_error } }) :
    (f st i).2 = { s with motion := { s.motion with
      position_error := (f st i).2.motion.position_error } } ∧ (f st i).1.e = st.1.e := by
  rcases hf with rfl | rfl
  · unfold clamp_min_axis
    split_ifs
    · refine ⟨?_, ?_⟩
      · simp only
        rw [h]
      · interval_cases i <;> rfl
    · exact ⟨h, rfl⟩
  · unfold clamp_max_axis
    split_ifs
    · refine ⟨?_, ?_⟩
      · simp only
        rw [h]
      · interval_cases i <;> rfl
    · exact ⟨h, rfl⟩

theorem clamp_only_error (cfg : Config) (t : Pos) (s : Machine) :
    (clamp_to_software_endstops cfg t s).2 = { s with motion := { s.motion with
      position_error := (clamp_to_software_endstops cfg t s).2.motion.position_error } } ∧
    (clamp_to_software_endstops cfg t s).1.e = t.e := by
  have hfold : ∀ (f : Pos × Machine → Nat → Pos × Machine),
      f = clamp_min_axis ∨ f = clamp_max_axis → ∀ st : Pos × Machine,
      st.2 = { s with motion := { s.motion with
        position_error := st.2.motion.position_error } } →
      ([X_AXIS, Y_AXIS, Z_AXIS].foldl f st).2 = { s with motion := { s.motion with
        position_error := ([X_AXIS, Y_AXIS, Z_AXIS].foldl f st).2.motion.position_error } } ∧
      ([X_AXIS, Y_AXIS, Z_AXIS].foldl f st).1.e = st.1.e := by
    intro f hf st h
    simp only [List.foldl_cons, List.foldl_nil]
    obtain ⟨a1, a2⟩ := clamp_step_only_error s st X_AXIS (by decide) f hf h
    obtain ⟨b1, b2⟩ := clamp_step_only_error s (f st X_AXIS) Y_AXIS (by decide) f hf a1
    obtain ⟨c1, c2⟩ := clamp_step_only_error s (f (f st X_AXIS) Y_AXIS) Z_AXIS (by decide) f hf b1
    exact ⟨c1, c2.trans (b2.trans a2)⟩
  unfold clamp_to_software_endstops
  simp only
  have h0 : ((t, s) : Pos × Machine).2 = { s with motion := { s.motion with
      position_error := ((t, s) : Pos × Machine).2.motion.position_error } } := rfl
  split_ifs
  · obtain ⟨a1, a2⟩ := hfold clamp_min_axis (Or.inl rfl) (t, s) h0
    obtain ⟨b1, b2⟩ := hfold clamp_max_axis (Or.inr rfl) _ a1
    exact ⟨b1, b2.trans a2⟩
  · exact hfold clamp_max_axis (Or.inr rfl) (t, s) h0
  · exact hfold clamp_min_axis (Or.inl rfl) (t, s) h0
  · exact ⟨rfl, rfl⟩

/-- C22: `prepare_move` returns for every state. Outside the RECOVER state it
has appended exactly one planner line to the call log: its target is the
destination after `clamp_to_software_endstops` (E is left alone by the clamp),
its feed rate is `feedrate / 60` when the clamped X and Y equal those of
`current_position` and `feedrate * feedmultiply / 6000` otherwise, and it goes
to the active extruder. In the RECOVER state the call log is unchanged, also
when the move resumes the print through `recover_start_print`. In every case
`current_position` is the clamped destination on return. -/
theorem prepare_move_submits (cfg : Config) (s : Machine) :
    ∃ s2, prepare_move cfg s = some s2 ∧
      s2.motion.current_position = (clamp_to_software_endstops cfg s.motion.destination s).1 ∧
      (clamp_to_software_endstops cfg s.motion.destination s).1.e = s.motion.destination.e ∧
      s2.motion.planner = s.motion.planner ++
        (if s.printing_state = cfg.PRINT_STATE_RECOVER then []
         else [PlanCall.buffer_line
           (clamp_to_software_endstops cfg s.motion.destination s).1.x
           (clamp_to_software_endstops cfg s.motion.destination s).1.y
           (clamp_to_software_endstops cfg s.motion.destination s).1.z
           s.motion.destination.e
           (moveFeed ((clamp_to_software_endstops cfg s.motion.destination s).1) s)
           s.active_extruder]) := by
  obtain ⟨h2, he⟩ := clamp_only_error cfg s.motion.destination s
  generalize hr : clamp_to_software_endstops cfg s.motion.destination s = r at h2 he
  unfold prepare_move
  rw [hr]
  obtain ⟨t, m⟩ := r
  simp only at h2 he ⊢
  generalize m.motion.position_error = pe at h2
  subst h2
  simp only [set_destination, set_current_position, plan, moveFeed, recover_start_print]
  by_cases hrec : s.printing_state = cfg.PRINT_STATE_RECOVER
  · by_cases hsd : s.card.sdprinting = true
    · by_cases hz : t.z ≥ s.motion.recover_height - 1 / 100
      · rw [he, decide_eq_true hz]
        by_cases hce : s.motion.current_position.e = s.motion.destination.e
        · simp [hrec, hsd, hce, he]
        · simp [hrec, hsd, hce, he]
      · rw [decide_eq_false hz]
        simp [hrec, hsd, he]
    · simp [hrec, hsd, he]
  · by_cases hxy : s.motion.current_position.x = t.x ∧ s.motion.current_position.y = t.y
    · simp [hrec, hxy, he]
    · simp only [hrec, decide_False, Bool.and_false, Bool.false_and, if_false, ne_eq,
        not_false_eq_true, if_true, hxy, Bool.false_eq_true]
      refine ⟨_, rfl, rfl, he, ?_⟩
      simp only [he, List.append_cancel_left_eq, List.cons.injEq, and_true]
      congr 1
      ring

/-- C22, evaluation: `G1 X300 Y10 F1200` from the origin is clamped to X = 230
and submitted at 1200 * 100 / 6000 = 20; `G1 E5 F1200` leaves X and Y alone and
is submitted at 1200 / 60 = 20 without the override; in the RECOVER state a
move to X = 5 is not submitted; and a move that reaches the recovery height
during a print from the card in the RECOVER state is not submitted either. -/
theorem prepare_move_submits_witness :
    (∃ s2, prepare_move cfg8
        (get_coordinates cfg8 "G1 X300 Y10 F1200".toList (Machine.init cfg8)) = some s2 ∧
      s2.motion.current_position = ⟨230, 10, 0, 0⟩ ∧
      s2.motion.planner = [PlanCall.buffer_line 230 10 0 0 20 0]) ∧
    (∃ s2, prepare_move cfg8
        (get_coordinates cfg8 "G1 E5 F1200".toList
          { Machine.init cfg8 with motion :=
            { (Machine.init cfg8).motion with feedmultiply := 200 } }) = some s2 ∧
      s2.motion.current_position = ⟨0, 0, 0, 5⟩ ∧
      s2.motion.planner = [PlanCall.buffer_line 0 0 0 5 20 0]) ∧
    (∃ s2, prepare_move cfg8 (set_destination ⟨5, 0, 0, 0⟩
        { Machine.init cfg8 with printing_state := cfg8.PRINT_STATE_RECOVER }) = some s2 ∧
      s2.motion.current_position = ⟨5, 0, 0, 0⟩ ∧ s2.motion.planner = []) ∧
    (∃ s2, prepare_move cfg8 (set_destination ⟨5, 0, 2, 1⟩ resumingMachine) = some s2 ∧
      s2.motion.current_position = ⟨5, 0, 2, 1⟩ ∧ s2.motion.planner = []) := by
  refine ⟨?_, ?_, ?_, ?_⟩
  · obtain ⟨s2, h1, h2, _, h4⟩ := prepare_move_submits cfg8
      (get_coordinates cfg8 "G1 X300 Y10 F1200".toList (Machine.init cfg8))
    exact ⟨s2, h1, h2.trans (by decide!), h4.trans (by decide!)⟩
  · obtain ⟨s2, h1, h2, _, h4⟩ := prepare_move_submits cfg8
      (get_coordinates cfg8 "G1 E5 F1200".toList
        { Machine.init cfg8 with motion :=
          { (Machine.init cfg8).motion with feedmultiply := 200 } })
    exact ⟨s2, h1, h2.trans (by decide!), h4.trans (by decide!)⟩
  · obtain ⟨s2, h1, h2, _, h4⟩ := prepare_move_submits cfg8
      (set_destination ⟨5, 0, 0, 0⟩
        { Machine.init cfg8 with printing_state := cfg8.PRINT_STATE_RECOVER })
    exact ⟨s2, h1, h2.trans (by decide!), h4.trans (by decide!)⟩
  · obtain ⟨s2, h1, h2, _, h4⟩ := prepare_move_submits cfg8
      (set_destination ⟨5, 0, 2, 1⟩ resumingMachine)
    exact ⟨s2, h1, h2.trans (by decide!), h4.trans (by decide!)⟩

/-! ## Automatic unretract -/

theorem get_coordinates_recover_auto (cfg : Config) (echange : ℚ) (s : Machine)
    (hr : EXTRUDER_RETRACTED s.active_extruder s = true)
    (ht : TOOLCHANGE_RETRACTED s.active_extruder s = false)
    (ha : AUTORETRACT_ENABLED s = true) :
    (get_coordinates_recover cfg echange s).motion.current_position.e =
      s.motion.current_position.e +
        (-echange + s.motion.retract_length +
          s.motion.retract_recover_length s.active_extruder) ∧
    (get_coordinates_recover cfg echange s).motion.current_position.z =
      s.motion.current_position.z + s.motion.retract_zlift ∧
    (get_coordinates_recover cfg echange s).motion.feedrate =
      s.motion.retract_recover_feedrate s.active_extruder ∧
    (get_coordinates_recover cfg echange s).motion.destination = s.motion.destination ∧
    EXTRUDER_RETRACTED s.active_extruder (get_coordinates_recover cfg echange s) = false ∧
    (get_coordinates_recover cfg echange s).motion.retract_recover_length s.active_extruder
      = 0 := by
  have h1 : (if cfg.EXTRUDERS > 1 then recover_toolchange_retract cfg s.active_extruder false s
      else s) = s := by
    unfold recover_toolchange_retract
    rw [ht]
    simp
  unfold get_coordinates_recover
  simp only [h1, hr, ha, Bool.and_self, if_true]
  simp [EXTRUDER_RETRACTED, CLEAR_EXTRUDER_RETRACT, set_recover_length, set_current_position,
    set_feedrate, plan]

/-- C23: evaluation of `get_coordinates` on the unretract `G1 E0` that follows
`M209 S1` and the retract `G1 E-1 F1200`. Both commands are dispatched; then
detection is armed, extruder 0 is retracted and not tool-change-retracted,
`retract_length` and the recover length are 9/2 each (total unretract 9) and
the E delta of `G1 E0` is 1 > `MIN_RETRACT`. The branch adds `correctede`
to `current_position[E]`, so the E displacement of the resulting move is
0 - 7 = -7 = 2 * 1 - 9, not the total unretract 9. The Z lift, the feed rate,
the retracted bit and the recover length are as the comment in the code says. -/
theorem auto_unretract_displacement :
    ((process_command cfg8 "M209 S1".toList true (Machine.init cfg8)).bind
      (process_command cfg8 "G1 E-1 F1200".toList true)).isSome = true ∧
    (AUTORETRACT_ENABLED autoRetractedMachine = true ∧
      EXTRUDER_RETRACTED autoRetractedMachine.active_extruder autoRetractedMachine = true ∧
      TOOLCHANGE_RETRACTED autoRetractedMachine.active_extruder autoRetractedMachine = false ∧
      autoRetractedMachine.motion.current_position.e = -1 ∧
      (0 : ℚ) - autoRetractedMachine.motion.current_position.e > cfg8.MIN_RETRACT ∧
      autoRetractedMachine.motion.retract_length +
        autoRetractedMachine.motion.retract_recover_length
          autoRetractedMachine.active_extruder = 9) ∧
    ((get_coordinates cfg8 "G1 E0".toList autoRetractedMachine).motion.destination.e = 0 ∧
      (get_coordinates cfg8 "G1 E0".toList autoRetractedMachine).motion.current_position.e = 7 ∧
      (get_coordinates cfg8 "G1 E0".toList autoRetractedMachine).motion.destination.e -
        (get_coordinates cfg8 "G1 E0".toList autoRetractedMachine).motion.current_position.e ≠
        autoRetractedMachine.motion.retract_length +
          autoRetractedMachine.motion.retract_recover_length
            autoRetractedMachine.active_extruder) ∧
    ((get_coordinates cfg8 "G1 E0".toList autoRetractedMachine).motion.current_position.z =
        autoRetractedMachine.motion.current_position.z +
          autoRetractedMachine.motion.retract_zlift ∧
      (get_coordinates cfg8 "G1 E0".toList autoRetractedMachine).motion.feedrate =
        autoRetractedMachine.motion.retract_recover_feedrate
          autoRetractedMachine.active_extruder ∧
      EXTRUDER_RETRACTED autoRetractedMachine.active_extruder
        (get_coordinates cfg8 "G1 E0".toList autoRetractedMachine) = false ∧
      (get_coordinates cfg8 "G1 E0".toList autoRetractedMachine).motion.retract_recover_length
        autoRetractedMachine.active_extruder = 0) := by
  refine ⟨by decide!, ⟨by decide!, by decide!, by decide!, by decide!, by decide!, by decide!⟩,
    ⟨by decide!, by decide!, by decide!⟩, by decide!, by decide!, by decide!, by decide!⟩

/-! ## Homing: second approach -/

theorem Pos.set_set (p : Pos) (i : Nat) (v w : ℚ) : (p.set i v).set i w = p.set i w := by
  unfold Pos.set
  split_ifs <;> rfl

theorem homeaxis_hit_planner (cfg : Config) (axis : Nat) (s : Machine)
    (hstuck : ¬ (s.motion.endstop_reports.head? = some true ∧ axis = Z_AXIS)) :
    (homeaxis_hit cfg axis s).motion.planner =
      s.motion.planner ++
        [PlanCall.set_position (s.motion.current_position.set axis 0).x
          (s.motion.current_position.set axis 0).y (s.motion.current_position.set axis 0).z
          (s.motion.current_position.set axis 0).e s.active_extruder true,
         PlanCall.buffer_line
          (s.motion.destination.set axis (-cfg.home_retract_mm axis * cfg.home_dir axis)).x
          (s.motion.destination.set axis (-cfg.home_retract_mm axis * cfg.home_dir axis)).y
          (s.motion.destination.set axis (-cfg.home_retract_mm axis * cfg.home_dir axis)).z
          (s.motion.destination.set axis (-cfg.home_retract_mm axis * cfg.home_dir axis)).e
          (s.motion.feedrate / 60) s.active_extruder,
         PlanCall.synchronize,
         PlanCall.buffer_line
          (s.motion.destination.set axis (2 * cfg.home_retract_mm axis * cfg.home_dir axis)).x
          (s.motion.destination.set axis (2 * cfg.home_retract_mm axis * cfg.home_dir axis)).y
          (s.motion.destination.set axis (2 * cfg.home_retract_mm axis * cfg.home_dir axis)).z
          (s.motion.destination.set axis (2 * cfg.home_retract_mm axis * cfg.home_dir axis)).e
          (s.motion.homing_feedrate axis / 3 / 60) s.active_extruder,
         PlanCall.synchronize, PlanCall.endstops_hit_on_purpose] := by
  unfold homeaxis_hit
  cases hrep : s.motion.endstop_reports with
  | nil =>
    simp [hrep, isEndstopHit, axis_is_at_home, plan, st_synchronize,
      plan_line_to_destination, plan_set_current_position, set_feedrate, set_destination,
      set_current_position, Pos.set_set]
  | cons b rest =>
    rw [hrep] at hstuck
    simp only [List.head?_cons, Option.some.injEq] at hstuck
    simp [hrep, isEndstopHit, axis_is_at_home, plan, st_synchronize,
      plan_line_to_destination, plan_set_current_position, set_feedrate, set_destination,
      set_current_position, Pos.set_set, hstuck]

theorem plannerPosition_homing (cfg : Config) (axis : Nat) (s : Machine) (hax : axis ≤ Z_AXIS)
    (p : Pos) :
    (plannerPosition p (homingFastRun cfg axis s)).get axis =
      3 / 2 * (s.motion.max_pos.get axis - s.motion.min_pos.get axis) * cfg.home_dir axis ∧
    (plannerPosition p (homingFastRun cfg axis s ++ homingBackoff cfg axis s)).get axis =
      -cfg.home_retract_mm axis * cfg.home_dir axis ∧
    (plannerPosition p (homingFastRun cfg axis s ++ homingBackoff cfg axis s ++
      homingSlowRun cfg axis s)).get axis =
      2 * cfg.home_retract_mm axis * cfg.home_dir axis := by
  have h3 : axis ≤ 3 := le_trans hax (by decide)
  have hg : ∀ (q : Pos) (v : ℚ), (Pos.mk (q.set axis v).x (q.set axis v).y (q.set axis v).z
      (q.set axis v).e).get axis = v := by
    intro q v
    have := Pos.get_set q axis axis v h3 h3
    rw [if_pos rfl] at this
    exact this
  refine ⟨?_, ?_, ?_⟩
  · simp only [plannerPosition, homingFastRun, List.foldl_cons, List.foldl_nil, plannerStep]
    exact hg _ _
  · simp only [plannerPosition, homingFastRun, homingBackoff, List.foldl_cons, List.foldl_nil,
      plannerStep, List.cons_append, List.nil_append]
    exact hg _ _
  · simp only [plannerPosition, homingFastRun, homingBackoff, homingSlowRun, List.foldl_cons,
      List.foldl_nil, plannerStep, List.cons_append, List.nil_append]
    exact hg _ _

/-- C24 (as amended): homing with the endstop hit on the fast approach and not reported
stuck. `homeaxis(axis)` hands the planner, in this order and nothing else: the
fast run (axis zeroed, line to 1.5 * (max_pos - min_pos) * home_dir at
`homing_feedrate[axis]`), the back-off (axis zeroed again, line to
`-home_retract_mm * home_dir` at the same feed rate), the slow approach (line to
the absolute target `2 * home_retract_mm * home_dir` at a third of
`homing_feedrate[axis]`, with no new reference in between) and the endstop
acknowledgment. The planner position reached by the back-off is
`-home_retract_mm * home_dir`, so the slow approach commands a displacement of
three times `home_retract_mm` toward the switch. -/
theorem homeaxis_reapproach (cfg : Config) (axis : Nat) (s : Machine)
    (hax : axis ≤ Z_AXIS) (hdo : cfg.HOMEAXIS_DO axis = true)
    (rest : List Bool) (hhit : s.motion.endstop_reports = true :: rest)
    (hstuck : ¬ (rest.head? = some true ∧ axis = Z_AXIS)) :
    (homeaxis cfg axis s).motion.planner =
      s.motion.planner ++ (homingFastRun cfg axis s ++ homingBackoff cfg axis s ++
        homingSlowRun cfg axis s) ++ [PlanCall.endstops_hit_on_purpose] ∧
    ∀ p : Pos,
      (plannerPosition p (homingFastRun cfg axis s)).get axis =
        3 / 2 * (s.motion.max_pos.get axis - s.motion.min_pos.get axis) * cfg.home_dir axis ∧
      (plannerPosition p (homingFastRun cfg axis s ++ homingBackoff cfg axis s)).get axis =
        -cfg.home_retract_mm axis * cfg.home_dir axis ∧
      (plannerPosition p (homingFastRun cfg axis s ++ homingBackoff cfg axis s ++
          homingSlowRun cfg axis s)).get axis -
        (plannerPosition p (homingFastRun cfg axis s ++ homingBackoff cfg axis s)).get axis =
        3 * cfg.home_retract_mm axis * cfg.home_dir axis := by
  refine ⟨?_, fun p => ?_⟩
  · unfold homeaxis
    rw [if_pos ⟨hax, hdo⟩]
    simp only [isEndstopHit, st_synchronize, plan_line_to_destination,
      plan_set_current_position, set_feedrate, set_destination, set_current_position, plan,
      hhit, Bool.true_eq_false, if_false]
    rw [homeaxis_hit_planner cfg axis _ hstuck]
    simp [homingFastRun, homingBackoff, homingSlowRun, Pos.set_set]
  · obtain ⟨h1, h2, h3⟩ := plannerPosition_homing cfg axis s hax p
    refine ⟨h1, h2, ?_⟩
    rw [h3, h2]
    ring

/-- C24, witness: homing X on the sample machine, whose endstop reports a hit
and then a released switch. -/
theorem homeaxis_reapproach_witness :
    (X_AXIS ≤ Z_AXIS ∧ cfg8.HOMEAXIS_DO X_AXIS = true ∧
      homingMachine.motion.endstop_reports = [true, false]) ∧
    (homeaxis cfg8 X_AXIS homingMachine).motion.planner =
      [PlanCall.set_position 0 0 0 0 0 true, PlanCall.buffer_line (-345) 0 0 0 100 0,
       PlanCall.synchronize,
       PlanCall.set_position 0 0 0 0 0 true, PlanCall.buffer_line 5 0 0 0 100 0,
       PlanCall.synchronize,
       PlanCall.buffer_line (-10) 0 0 0 (100 / 3) 0, PlanCall.synchronize,
       PlanCall.endstops_hit_on_purpose] :=
  ⟨⟨by decide, by decide, rfl⟩,
    (homeaxis_reapproach cfg8 X_AXIS homingMachine (by decide) (by decide) [false] rfl
      (by decide)).1.trans (by decide!)⟩

/-- C24, counterexample: homing X on the sample machine (`home_retract_mm` 5,
`home_dir` -1). The back-off leaves the planner at X = 5; the slow approach is
the line to X = -10, a displacement of -15, which is not twice the back-off
distance toward the switch (-10). -/
theorem homeaxis_reapproach_not_twice :
    (homeaxis cfg8 X_AXIS homingMachine).motion.planner.length = 9 ∧
    (plannerPosition ⟨0, 0, 0, 0⟩
      ((homeaxis cfg8 X_AXIS homingMachine).motion.planner.take 6)).get X_AXIS = 5 ∧
    (homeaxis cfg8 X_AXIS homingMachine).motion.planner.drop 6 =
      [PlanCall.buffer_line (-10) 0 0 0 (100 / 3) 0, PlanCall.synchronize,
       PlanCall.endstops_hit_on_purpose] ∧
    (plannerPosition ⟨0, 0, 0, 0⟩
      ((homeaxis cfg8 X_AXIS homingMachine).motion.planner.take 8)).get X_AXIS -
      (plannerPosition ⟨0, 0, 0, 0⟩
        ((homeaxis cfg8 X_AXIS homingMachine).motion.planner.take 6)).get X_AXIS = -15 ∧
    (plannerPosition ⟨0, 0, 0, 0⟩
      ((homeaxis cfg8 X_AXIS homingMachine).motion.planner.take 8)).get X_AXIS -
      (plannerPosition ⟨0, 0, 0, 0⟩
        ((homeaxis cfg8 X_AXIS homingMachine).motion.planner.take 6)).get X_AXIS ≠
      2 * cfg8.home_retract_mm X_AXIS * cfg8.home_dir X_AXIS := by
  refine ⟨by decide!, by decide!, by decide!, by decide!, by decide!⟩

/-! ## One acknowledgment per command -/

theorem serial_end_of_line_count (cfg : Config) (s : Machine) :
    (serial_end_of_line cfg s).1.serial_count = 0 := by
  unfold serial_end_of_line
  dsimp only
  split
  · assumption
  · rcases serial_check_line_cases cfg
      ((cstr ({ s with comment_mode := false }.cmd_line_buffer.set
        { s with comment_mode := false }.serial_count NUL)).dropWhile (fun c => c = ' '))
      { s with comment_mode := false,
               cmd_line_buffer := { s with comment_mode := false }.cmd_line_buffer.set
                 { s with comment_mode := false }.serial_count NUL,
               serial_count := 0 } with ⟨msg, b, e⟩ | ⟨n, e⟩
    · rw [e]
      cases b <;> simp [gcode_line_error, FlushSerialRequestResend, ClearToSend]
    · rw [e]
      unfold serial_enqueue
      dsimp only
      rw [(insertcommand_frame cfg _ _ _).2.2.2.1]
      exact (stoppedAlert_frame _ _).2.2.2.2.2.2.2.1

theorem get_serial_bounds (cfg : Config) : ∀ (fuel : Nat) (s : Machine),
    s.serial_count ≤ cfg.MAX_CMD_SIZE - 1 →
    (∀ w ∈ get_serial_writes cfg fuel s, w.inBounds cfg) ∧
    (get_serial_loop cfg fuel s).serial_count ≤ cfg.MAX_CMD_SIZE - 1
  | 0, s, h => ⟨fun w hw => absurd hw (List.not_mem_nil w), h⟩
  | fuel + 1, s, h => by
    have hnil : ∀ w ∈ ([] : List BufWrite), w.inBounds cfg :=
      fun w hw => absurd hw (List.not_mem_nil w)
    have hcons : ∀ (b : BufWrite) (l : List BufWrite), b.inBounds cfg →
        (∀ w ∈ l, w.inBounds cfg) → ∀ w ∈ [b] ++ l, w.inBounds cfg := by
      intro b l hb hl w hw
      rcases List.mem_append.mp hw with hw | hw
      · simp only [List.mem_singleton] at hw
        subst hw
        exact hb
      · exact hl w hw
    have hstore : ∀ (c : Char) (t : Machine), t.serial_count = s.serial_count →
        ¬ (s.serial_count ≥ cfg.MAX_CMD_SIZE - 1) →
        (BufWrite.store t.serial_count c).inBounds cfg ∧
        (serial_store c t).serial_count ≤ cfg.MAX_CMD_SIZE - 1 := by
      intro c t ht hlt
      refine ⟨⟨by omega, by omega⟩, ?_⟩
      show (t.serial_count + 1) % 256 ≤ _
      have := Nat.mod_le (t.serial_count + 1) 256
      omega
    by_cases hb : s.buflen < cfg.BUFSIZE
    swap
    · rw [get_serial_loop, get_serial_writes, if_pos hb, if_pos hb]
      exact ⟨hnil, h⟩
    rw [get_serial_loop, get_serial_writes, if_neg (not_not.mpr hb), if_neg (not_not.mpr hb)]
    cases hrx : s.rx with
    | nil => exact ⟨hnil, h⟩
    | cons c rest =>
      dsimp only
      by_cases ht : c = '\n' ∨ c = '\r'
      · rw [if_pos ht, if_pos ht]
        have hc := serial_end_of_line_count cfg
          { s with rx := rest, ghost := s.ghost ++ [Ghost.serialRead s.buflen] }
        have hterm : ∀ w ∈ (if s.serial_count = 0 then []
            else [BufWrite.terminate s.serial_count]), w.inBounds cfg := by
          intro w hw
          split at hw
          · exact absurd hw (List.not_mem_nil w)
          · simp only [List.mem_singleton] at hw
            subst hw
            exact ⟨by omega, h⟩
        have happ : ∀ l : List BufWrite, (∀ w ∈ l, w.inBounds cfg) →
            ∀ w ∈ (if s.serial_count = 0 then [] else [BufWrite.terminate s.serial_count]) ++ l,
              w.inBounds cfg := by
          intro l hl w hw
          rcases List.mem_append.mp hw with hw | hw
          · exact hterm w hw
          · exact hl w hw
        by_cases hr : (serial_end_of_line cfg
            { s with rx := rest, ghost := s.ghost ++ [Ghost.serialRead s.buflen] }).2 = true
        · rw [if_pos hr, if_pos hr]
          have ih := get_serial_bounds cfg fuel _ (by rw [hc]; exact Nat.zero_le _)
          exact ⟨happ _ ih.1, ih.2⟩
        · rw [if_neg hr, if_neg hr]
          exact ⟨happ _ hnil, by rw [hc]; exact Nat.zero_le _⟩
      · rw [if_neg ht, if_neg ht]
        by_cases hlt : s.serial_count ≥ cfg.MAX_CMD_SIZE - 1
        · rw [if_pos hlt, if_pos hlt]
          exact get_serial_bounds cfg fuel _ h
        rw [if_neg hlt, if_neg hlt]
        by_cases hesc : c = '\\'
        · rw [if_pos hesc, if_pos hesc]
          cases rest with
          | nil => exact get_serial_bounds cfg fuel _ h
          | cons c2 rest2 =>
            dsimp only
            by_cases hcm : s.comment_mode = true
            · rw [if_neg (not_not.mpr hcm), if_neg (not_not.mpr hcm)]
              have ih := get_serial_bounds cfg fuel
                { s with rx := rest2,
                         ghost := s.ghost ++ [Ghost.serialRead s.buflen] ++
                           [Ghost.serialRead s.buflen] } h
              exact ⟨by simpa using ih.1, ih.2⟩
            · rw [if_pos hcm, if_pos hcm]
              have hs := hstore c2
                { s with rx := rest2,
                         ghost := s.ghost ++ [Ghost.serialRead s.buflen] ++
                           [Ghost.serialRead s.buflen] } rfl hlt
              have ih := get_serial_bounds cfg fuel _ hs.2
              exact ⟨hcons _ _ hs.1 ih.1, ih.2⟩
        · rw [if_neg hesc, if_neg hesc]
          generalize hs1 : (if c = ';' then
              ({ s with rx := rest, ghost := s.ghost ++ [Ghost.serialRead s.buflen],
                        comment_mode := true } : Machine)
            else { s with rx := rest, ghost := s.ghost ++ [Ghost.serialRead s.buflen] }) = s1
          have hcnt : s1.serial_count = s.serial_count := by
            rw [← hs1]
            split <;> rfl
          by_cases hcm : s1.comment_mode = true
          · rw [if_neg (not_not.mpr hcm), if_neg (not_not.mpr hcm)]
            have ih := get_serial_bounds cfg fuel s1 (by rw [hcnt]; exact h)
            exact ⟨by simpa using ih.1, ih.2⟩
          · rw [if_pos hcm, if_pos hcm]
            have hs := hstore c s1 hcnt hlt
            have ih := get_serial_bounds cfg fuel _ hs.2
            exact ⟨hcons _ _ hs.1 ih.1, ih.2⟩

theorem sdcard_byte_bounds (cfg : Config) (sd_count : Nat) (n : Int) (s1 : Machine)
    (h : sd_count ≤ cfg.MAX_CMD_SIZE - 1) :
    (∀ w ∈ sdcard_byte_writes cfg sd_count n s1, w.inBounds cfg) ∧
    (sdcard_byte cfg sd_count n s1).1 ≤ cfg.MAX_CMD_SIZE - 1 := by
  have hnil : ∀ w ∈ ([] : List BufWrite), w.inBounds cfg :=
    fun w hw => absurd hw (List.not_mem_nil w)
  unfold sdcard_byte_writes sdcard_byte
  dsimp only
  by_cases ht : (if n ≤ 0 then true else s1.card.eof) = true ∨
      (if n ≤ 0 then NUL else Char.ofNat n.toNat) = '\n' ∨
      (if n ≤ 0 then NUL else Char.ofNat n.toNat) = '\r' ∨
      (((if n ≤ 0 then NUL else Char.ofNat n.toNat) = '#' ∨
        (if n ≤ 0 then NUL else Char.ofNat n.toNat) = ':') ∧ s1.comment_mode = false)
  · rw [if_pos ht, if_pos ht]
    unfold sdcard_end_of_line
    dsimp only
    by_cases h0 : sd_count = 0
    · rw [if_pos h0, if_pos h0]
      exact ⟨hnil, h⟩
    · rw [if_neg h0, if_neg h0]
      refine ⟨fun w hw => ?_, Nat.zero_le _⟩
      simp only [List.mem_singleton] at hw
      subst hw
      exact ⟨by omega, h⟩
  · rw [if_neg ht, if_neg ht]
    unfold sdcard_accumulate
    by_cases hlt : sd_count < cfg.MAX_CMD_SIZE - 1
    · rw [if_pos hlt]
      by_cases hsemi : (if n ≤ 0 then NUL else Char.ofNat n.toNat) = ';'
      · rw [if_pos hsemi, if_neg (fun c => c.2.1 hsemi)]
        exact ⟨hnil, h⟩
      · rw [if_neg hsemi]
        by_cases hcm : s1.comment_mode = false
        · rw [if_pos hcm, if_pos ⟨hlt, hsemi, hcm⟩]
          refine ⟨fun w hw => ?_, ?_⟩
          · simp only [List.mem_singleton] at hw
            subst hw
            exact ⟨by omega, by omega⟩
          · show (sd_count + 1) % 65536 ≤ _
            have := Nat.mod_le (sd_count + 1) 65536
            omega
        · rw [if_neg hcm, if_neg (fun c => hcm c.2.2)]
          exact ⟨hnil, h⟩
    · rw [if_neg hlt, if_neg (fun c => hlt c.1)]
      exact ⟨hnil, h⟩

theorem get_sdcard_bounds (cfg : Config) : ∀ (fuel sd_count : Nat) (card_eof : Bool)
    (s : Machine), sd_count ≤ cfg.MAX_CMD_SIZE - 1 →
    ∀ w ∈ get_sdcard_writes cfg fuel sd_count card_eof s, w.inBounds cfg
  | 0, _, _, _, _ => fun w hw => absurd hw (List.not_mem_nil w)
  | fuel + 1, sd_count, card_eof, s, h => by
    rw [get_sdcard_writes]
    split
    · exact fun w hw => absurd hw (List.not_mem_nil w)
    · dsimp only
      split
      · exact fun w hw => absurd hw (List.not_mem_nil w)
      · have hb := sdcard_byte_bounds cfg sd_count s.card.get.1
          { s with card := s.card.get.2, ghost := s.ghost ++ [Ghost.cardRead s.buflen] } h
        intro w hw
        rcases List.mem_append.mp hw with hw | hw
        · exact hb.1 w hw
        · exact get_sdcard_bounds cfg fuel _ _ _ hb.2 w hw

theorem get_serial_loop_discard (cfg : Config) :
    ∀ (l rest : List Char) (fuel : Nat) (s : Machine), s.rx = l ++ rest →
      (∀ c ∈ l, c ≠ '\n' ∧ c ≠ '\r') → s.serial_count ≥ cfg.MAX_CMD_SIZE - 1 →
      s.buflen < cfg.BUFSIZE → l.length ≤ fuel →
      get_serial_loop cfg fuel s =
        get_serial_loop cfg (fuel - l.length)
          { s with rx := rest,
                   ghost := s.ghost ++ List.replicate l.length (Ghost.serialRead s.buflen) }
  | [], rest, fuel, s, hrx, _, _, _, _ => by
    simp at hrx
    simp [← hrx]
  | c :: cs, rest, 0, s, _, _, _, _, hf => by simp at hf
  | c :: cs, rest, fuel + 1, s, hrx, hpl, hcnt, hbl, hf => by
    obtain ⟨h1, h2⟩ := hpl c (by simp)
    simp only [List.length_cons] at hf
    rw [get_serial_loop, if_neg (by simpa using hbl)]
    simp only [List.cons_append] at hrx
    rw [hrx]
    simp only [h1, h2, or_self, if_false]
    rw [if_pos hcnt]
    rw [get_serial_loop_discard cfg cs rest fuel
      { s with rx := cs ++ rest, ghost := s.ghost ++ [Ghost.serialRead s.buflen] } rfl
      (fun c hc => hpl c (by simp [hc])) hcnt hbl (by omega)]
    simp only [List.length_cons, Nat.add_sub_add_right, List.replicate_succ, List.append_assoc,
      List.singleton_append]

/-- The serial framer at the length bound: the bytes up to the terminator are
dropped and the terminator hands on the accumulated bytes. -/
theorem serial_line_truncated (cfg : Config) (s : Machine) (acc l rest : List Char) (t : Char)
    (hmin : 2 ≤ cfg.MAX_CMD_SIZE)
    (ha : Accumulated cfg s s acc) (hacc : acc.length = cfg.MAX_CMD_SIZE - 1)
    (hrx : s.rx = l ++ t :: rest) (hl : ∀ c ∈ l, c ≠ '\n' ∧ c ≠ '\r')
    (ht : t = '\n' ∨ t = '\r') (hroom : s.buflen < cfg.BUFSIZE) :
    ∃ s', SameBut s s' ∧ s'.serial_count = 0 ∧ s'.rx = rest ∧ s'.comment_mode = false ∧
      get_serial_commands cfg s =
        if (serial_check_line cfg ((cstr acc).dropWhile (fun c => c = ' ')) s').2
        then get_serial_loop cfg rest.length
          (serial_check_line cfg ((cstr acc).dropWhile (fun c => c = ' ')) s').1
        else (serial_check_line cfg ((cstr acc).dropWhile (fun c => c = ' ')) s').1 := by
  have hfuel : s.rx.length = l.length + (rest.length + 1) := by simp [hrx]
  have e1 := get_serial_loop_discard cfg l (t :: rest) (l.length + (rest.length + 1)) s hrx hl
    (by rw [ha.count, hacc]) hroom (by omega)
  rw [Nat.add_sub_cancel_left] at e1
  have ha1 : Accumulated cfg s
      { s with rx := t :: rest,
               ghost := s.ghost ++ List.replicate l.length (Ghost.serialRead s.buflen) } acc :=
    ⟨rfl, ha.count, ha.buf, ha.size⟩
  have hne : acc ≠ [] := by
    intro h
    rw [h] at hacc
    simp at hacc
    omega
  obtain ⟨s2, h1, h2, h3, h4, e2⟩ := eol_after_text ha1 t rest (rest.length + 1) rfl ht hne
    (by omega) hroom (by omega)
  refine ⟨s2, h1, h2, h3, h4, ?_⟩
  rw [get_serial_commands, hfuel, e1, e2]
  rfl

theorem toNat_pos_of_ne_nul {c : Char} (h : c ≠ NUL) : ¬ ((c.toNat : Int) ≤ 0) := by
  have h0 : c.toNat ≠ 0 := by
    intro h1
    apply h
    rw [← Char.ofNat_toNat c, h1]
    rfl
  omega

theorem get_sdcard_loop_discard (cfg : Config) :
    ∀ (l : List Char) (post : List Char) (fuel sd_count : Nat) (s : Machine),
      s.card.file.drop s.card.filePos = l ++ post → post ≠ [] → s.card.faults = [] →
      s.card.errorCode = 0 →
      (∀ c ∈ l, c ≠ '\n' ∧ c ≠ '\r' ∧ c ≠ '#' ∧ c ≠ ':' ∧ c ≠ NUL) →
      s.buflen < cfg.BUFSIZE → ¬ sd_count < cfg.MAX_CMD_SIZE - 1 → l.length ≤ fuel →
      get_sdcard_loop cfg fuel sd_count false s =
        get_sdcard_loop cfg (fuel - l.length) sd_count false
          { s with card := { s.card with faults := [], filePos := s.card.filePos + l.length },
                   ghost := s.ghost ++ List.replicate l.length (Ghost.cardRead s.buflen) }
  | [], post, fuel, sd_count, s, _, _, hfl, _, _, _, _, _ => by
    have hc : ({ s.card with faults := [], filePos := s.card.filePos + 0 } : Card) = s.card := by
      rw [← hfl]
      rfl
    simp only [List.length_nil, Nat.sub_zero, Nat.add_zero, List.replicate_zero,
      List.append_nil]
    congr 1
    rw [show s.card.filePos = s.card.filePos + 0 from rfl, hc]
  | c :: cs, post, 0, sd_count, s, _, _, _, _, _, _, _, hf => by simp at hf
  | c :: cs, post, fuel + 1, sd_count, s, hd, hpost, hfl, herr, hpl, hbl, hcnt, hf => by
    obtain ⟨h1, h2, h3, h4, h5⟩ := hpl c (by simp)
    simp only [List.length_cons] at hf
    have hget := Card.get_next s.card c (cs ++ post) hfl (by simpa using hd)
    have hn := toNat_pos_of_ne_nul h5
    have hd2 : s.card.file.drop (s.card.filePos + 1) = cs ++ post := by
      have := congrArg List.tail hd
      simpa [List.tail_drop] using this
    have hnoteof : ¬ (s.card.filePos + 1 ≥ s.card.file.length) := by
      intro h
      have h0 := List.drop_eq_nil_of_le h
      rw [hd2] at h0
      exact hpost (List.append_eq_nil.mp h0).2
    rw [get_sdcard_loop, if_neg (by simpa using hbl)]
    simp only [hget]
    rw [if_neg (by simpa using herr)]
    have hbyte : sdcard_byte cfg sd_count (c.toNat : Int)
        { s with card := { s.card with faults := [], filePos := s.card.filePos + 1 },
                 ghost := s.ghost ++ [Ghost.cardRead s.buflen] } =
        (sd_count, false,
          { s with card := { s.card with faults := [], filePos := s.card.filePos + 1 },
                   ghost := s.ghost ++ [Ghost.cardRead s.buflen] }) := by
      unfold sdcard_byte sdcard_accumulate
      simp only [hn, if_false, Card.eof, Int.toNat_ofNat, Char.ofNat_toNat, hnoteof, Bool.false_and,
        decide_False, Bool.false_eq_true, false_or, h1, h2, h3, h4, false_and, hcnt, or_self]
    rw [hbyte]
    simp only
    rw [get_sdcard_loop_discard cfg cs post fuel sd_count
      { s with card := { s.card with faults := [], filePos := s.card.filePos + 1 },
               ghost := s.ghost ++ [Ghost.cardRead s.buflen] }
      hd2 hpost rfl herr (fun x hx => hpl x (by simp [hx])) hbl hcnt (by omega)]
    simp only [List.length_cons, Nat.add_sub_add_right, List.replicate_succ,
      List.append_assoc, List.singleton_append]
    have e2 : s.card.filePos + 1 + cs.length = s.card.filePos + (cs.length + 1) := by omega
    rw [e2]

theorem sdcard_newline_step (cfg : Config) (s : Machine) (fuel : Nat) (acc tl post : List Char)
    (x t : Char) (ht : t = '\n' ∨ t = '\r')
    (hd : s.card.file.drop s.card.filePos = t :: post) (hpost : post ≠ [])
    (hfl : s.card.faults = []) (herr : s.card.errorCode = 0)
    (hroom : s.buflen < cfg.BUFSIZE) (hne : acc ≠ [])
    (hbuf : s.cmd_line_buffer = acc ++ x :: tl) :
    ∃ s', get_sdcard_loop cfg (fuel + 1) acc.length false s = get_sdcard_loop cfg fuel 0 false s' ∧
      s'.ghost = s.ghost ++ [Ghost.cardRead s.buflen, Ghost.insertCall s.buflen (cstr acc)] ∧
      s'.comment_mode = false := by
  have hl0 : acc.length ≠ 0 := fun h => hne (List.length_eq_zero.mp h)
  have hget := Card.get_next s.card t post hfl hd
  have hn : ¬ ((t.toNat : Int) ≤ 0) := by
    rcases ht with h | h <;> subst h <;> decide
  have hd2 : s.card.file.drop (s.card.filePos + 1) = post := by
    have := congrArg List.tail hd
    simpa [List.tail_drop] using this
  have hnoteof : ¬ (s.card.filePos + 1 ≥ s.card.file.length) := by
    intro h
    have h0 := List.drop_eq_nil_of_le h
    rw [hd2] at h0
    exact hpost h0
  have hterm : t = '\n' ∨ t = '\r' ∨ ((t = '#' ∨ t = ':') ∧ s.comment_mode = false) := by
    rcases ht with h | h
    · exact Or.inl h
    · exact Or.inr (Or.inl h)
  rw [get_sdcard_loop, if_neg (by simpa using hroom)]
  simp only [hget]
  rw [if_neg (by simpa using herr)]
  have hbyte : sdcard_byte cfg acc.length (t.toNat : Int)
      { s with card := { s.card with faults := [], filePos := s.card.filePos + 1 },
               ghost := s.ghost ++ [Ghost.cardRead s.buflen] } =
      ((sdcard_end_of_line cfg acc.length false
          { s with card := { s.card with faults := [], filePos := s.card.filePos + 1 },
                   ghost := s.ghost ++ [Ghost.cardRead s.buflen] }).1, false,
        (sdcard_end_of_line cfg acc.length false
          { s with card := { s.card with faults := [], filePos := s.card.filePos + 1 },
                   ghost := s.ghost ++ [Ghost.cardRead s.buflen] }).2) := by
    unfold sdcard_byte
    simp only [hn, if_false, Card.eof, Int.toNat_ofNat, Char.ofNat_toNat, hnoteof, Bool.false_and,
      decide_False, Bool.false_eq_true, false_or, hterm, if_true]
  rw [hbyte]
  simp only
  have hcnt : (sdcard_end_of_line cfg acc.length false
      { s with card := { s.card with faults := [], filePos := s.card.filePos + 1 },
               ghost := s.ghost ++ [Ghost.cardRead s.buflen] }).1 = 0 := by
    unfold sdcard_end_of_line
    simp only [Bool.false_eq_true, if_false, hl0]
  rw [hcnt]
  refine ⟨_, rfl, ?_, ?_⟩
  · unfold sdcard_end_of_line
    simp only [Bool.false_eq_true, if_false, hl0, hbuf, set_length_append]
    rw [(insertcommand_frame cfg _ false _).2.2.2.2.2.1]
    simp [cstr_append_nul]
  · unfold sdcard_end_of_line
    simp only [Bool.false_eq_true, if_false, hl0]
    rw [(insertcommand_frame cfg _ false _).2.2.2.2.1]

/-- The card framer at the length bound: the bytes up to the terminator are
dropped and the terminator hands on the accumulated bytes. -/
theorem sdcard_line_truncated (cfg : Config) (s : Machine) (fuel : Nat)
    (acc tl l post : List Char) (x t : Char)
    (hmin : 2 ≤ cfg.MAX_CMD_SIZE) (hacc : acc.length = cfg.MAX_CMD_SIZE - 1)
    (hbuf : s.cmd_line_buffer = acc ++ x :: tl)
    (hd : s.card.file.drop s.card.filePos = l ++ t :: post) (hpost : post ≠ [])
    (hl : ∀ c ∈ l, c ≠ '\n' ∧ c ≠ '\r' ∧ c ≠ '#' ∧ c ≠ ':' ∧ c ≠ NUL)
    (ht : t = '\n' ∨ t = '\r')
    (hfl : s.card.faults = []) (herr : s.card.errorCode = 0)
    (hroom : s.buflen < cfg.BUFSIZE) (hf : l.length + 1 ≤ fuel) :
    ∃ s', get_sdcard_loop cfg fuel (cfg.MAX_CMD_SIZE - 1) false s =
        get_sdcard_loop cfg (fuel - (l.length + 1)) 0 false s' ∧
      s'.ghost = s.ghost ++ List.replicate (l.length + 1) (Ghost.cardRead s.buflen) ++
        [Ghost.insertCall s.buflen (cstr acc)] ∧
      s'.comment_mode = false := by
  have hne : acc ≠ [] := by
    intro h
    rw [h] at hacc
    simp at hacc
    omega
  have e1 := get_sdcard_loop_discard cfg l (t :: post) fuel (cfg.MAX_CMD_SIZE - 1) s hd
    (by simp) hfl herr hl hroom (by omega) (by omega)
  have hd2 : ({ s with
      card := { s.card with faults := [], filePos := s.card.filePos + l.length },
      ghost := s.ghost ++ List.replicate l.length (Ghost.cardRead s.buflen) } :
        Machine).card.file.drop (s.card.filePos + l.length) = t :: post := by
    show s.card.file.drop (s.card.filePos + l.length) = t :: post
    rw [← List.drop_drop, hd]
    simp
  obtain ⟨f, hf2⟩ : ∃ f, fuel - l.length = f + 1 := ⟨fuel - l.length - 1, by omega⟩
  obtain ⟨s2, e2, g2, c2⟩ := sdcard_newline_step cfg
    { s with card := { s.card with faults := [], filePos := s.card.filePos + l.length },
             ghost := s.ghost ++ List.replicate l.length (Ghost.cardRead s.buflen) }
    f acc tl post x t ht hd2 hpost rfl herr hroom hne hbuf
  refine ⟨s2, ?_, ?_, c2⟩
  · rw [e1, hf2, ← hacc, e2]
    congr 1
    omega
  · rw [g2]
    simp [List.replicate_succ', List.append_assoc]

theorem serial_end_of_line_buffer (cfg : Config) (s : Machine) :
    (serial_end_of_line cfg s).1.cmd_line_buffer =
      (if s.serial_count = 0 then [] else [BufWrite.terminate s.serial_count]).foldl
        BufWrite.apply s.cmd_line_buffer := by
  unfold serial_end_of_line
  dsimp only
  by_cases h0 : s.serial_count = 0
  · rw [if_pos h0, if_pos h0]
    rfl
  · rw [if_neg h0, if_neg h0]
    simp only [List.foldl_cons, List.foldl_nil, BufWrite.apply]
    rcases serial_check_line_cases cfg
      ((cstr (s.cmd_line_buffer.set s.serial_count NUL)).dropWhile (fun c => c = ' '))
      { s with comment_mode := false,
               cmd_line_buffer := s.cmd_line_buffer.set s.serial_count NUL,
               serial_count := 0 } with ⟨msg, b, e⟩ | ⟨n, e⟩
    · rw [e]
      cases b <;> simp [gcode_line_error, FlushSerialRequestResend, ClearToSend]
    · rw [e]
      unfold serial_enqueue
      dsimp only
      rw [(insertcommand_frame cfg _ _ _).2.2.2.2.2.2]
      exact (stoppedAlert_frame _ _).2.2.2.2.2.2.2.2.2.2

theorem get_serial_buffer (cfg : Config) : ∀ (fuel : Nat) (s : Machine),
    (get_serial_loop cfg fuel s).cmd_line_buffer =
      (get_serial_writes cfg fuel s).foldl BufWrite.apply s.cmd_line_buffer
  | 0, s => rfl
  | fuel + 1, s => by
    by_cases hb : s.buflen < cfg.BUFSIZE
    swap
    · rw [get_serial_loop, get_serial_writes, if_pos hb, if_pos hb]
      rfl
    rw [get_serial_loop, get_serial_writes, if_neg (not_not.mpr hb), if_neg (not_not.mpr hb)]
    cases hrx : s.rx with
    | nil => rfl
    | cons c rest =>
      dsimp only
      by_cases ht : c = '\n' ∨ c = '\r'
      · rw [if_pos ht, if_pos ht]
        have hc := serial_end_of_line_buffer cfg
          { s with rx := rest, ghost := s.ghost ++ [Ghost.serialRead s.buflen] }
        by_cases hr : (serial_end_of_line cfg
            { s with rx := rest, ghost := s.ghost ++ [Ghost.serialRead s.buflen] }).2 = true
        · rw [if_pos hr, if_pos hr, List.foldl_append, get_serial_buffer cfg fuel, hc]
        · rw [if_neg hr, if_neg hr, List.append_nil, hc]
      · rw [if_neg ht, if_neg ht]
        by_cases hlt : s.serial_count ≥ cfg.MAX_CMD_SIZE - 1
        · rw [if_pos hlt, if_pos hlt]
          exact get_serial_buffer cfg fuel _
        rw [if_neg hlt, if_neg hlt]
        by_cases hesc : c = '\\'
        · rw [if_pos hesc, if_pos hesc]
          cases rest with
          | nil => exact get_serial_buffer cfg fuel _
          | cons c2 rest2 =>
            dsimp only
            by_cases hcm : s.comment_mode = true
            · rw [if_neg (not_not.mpr hcm), if_neg (not_not.mpr hcm), List.nil_append]
              exact get_serial_buffer cfg fuel _
            · rw [if_pos hcm, if_pos hcm, List.foldl_append, get_serial_buffer cfg fuel]
              rfl
        · rw [if_neg hesc, if_neg hesc]
          generalize hs1 : (if c = ';' then
              ({ s with rx := rest, ghost := s.ghost ++ [Ghost.serialRead s.buflen],
                        comment_mode := true } : Machine)
            else { s with rx := rest, ghost := s.ghost ++ [Ghost.serialRead s.buflen] }) = s1
          have hbuf : s1.cmd_line_buffer = s.cmd_line_buffer := by
            rw [← hs1]
            split <;> rfl
          by_cases hcm : s1.comment_mode = true
          · rw [if_neg (not_not.mpr hcm), if_neg (not_not.mpr hcm), List.nil_append,
              get_serial_buffer cfg fuel, hbuf]
          · rw [if_pos hcm, if_pos hcm, List.foldl_append, get_serial_buffer cfg fuel]
            simp only [List.foldl_cons, List.foldl_nil, BufWrite.apply, serial_store, hbuf]

theorem sdcard_byte_buffer (cfg : Config) (sd_count : Nat) (n : Int) (s1 : Machine) :
    (sdcard_byte cfg sd_count n s1).2.2.cmd_line_buffer =
      (sdcard_byte_writes cfg sd_count n s1).foldl BufWrite.apply s1.cmd_line_buffer := by
  unfold sdcard_byte_writes sdcard_byte
  dsimp only
  generalize (if n ≤ 0 then true else s1.card.eof) = ce
  generalize (if n ≤ 0 then NUL else Char.ofNat n.toNat) = ch
  by_cases ht : ce = true ∨ ch = '\n' ∨ ch = '\r' ∨ ((ch = '#' ∨ ch = ':') ∧
      s1.comment_mode = false)
  · rw [if_pos ht, if_pos ht]
    unfold sdcard_end_of_line
    dsimp only
    have hfin : (if ce = true then sdcard_finished s1 else s1).cmd_line_buffer =
        s1.cmd_line_buffer := by
      split <;> rfl
    by_cases h0 : sd_count = 0
    · rw [if_pos h0, if_pos h0]
      exact hfin
    · rw [if_neg h0, if_neg h0, (insertcommand_frame cfg _ false _).2.2.2.2.2.2]
      simp only [List.foldl_cons, List.foldl_nil, BufWrite.apply, hfin]
  · rw [if_neg ht, if_neg ht]
    unfold sdcard_accumulate
    by_cases hlt : sd_count < cfg.MAX_CMD_SIZE - 1
    · rw [if_pos hlt]
      by_cases hsemi : ch = ';'
      · rw [if_pos hsemi, if_neg (fun c => c.2.1 hsemi)]
        rfl
      · rw [if_neg hsemi]
        by_cases hcm : s1.comment_mode = false
        · rw [if_pos hcm, if_pos ⟨hlt, hsemi, hcm⟩]
          rfl
        · rw [if_neg hcm, if_neg (fun c => hcm c.2.2)]
          rfl
    · rw [if_neg hlt, if_neg (fun c => hlt c.1)]
      rfl

theorem sdcard_read_error_buffer (s : Machine) :
    (sdcard_read_error s).cmd_line_buffer = s.cmd_line_buffer := by
  unfold sdcard_read_error
  split
  · rfl
  · dsimp only
    split <;> rfl

theorem get_sdcard_buffer (cfg : Config) : ∀ (fuel sd_count : Nat) (card_eof : Bool)
    (s : Machine),
    (get_sdcard_loop cfg fuel sd_count card_eof s).cmd_line_buffer =
      (get_sdcard_writes cfg fuel sd_count card_eof s).foldl BufWrite.apply s.cmd_line_buffer
  | 0, _, _, _ => rfl
  | fuel + 1, sd_count, card_eof, s => by
    rw [get_sdcard_loop, get_sdcard_writes]
    by_cases hb : ¬ (s.buflen < cfg.BUFSIZE ∧ card_eof = false)
    · rw [if_pos hb, if_pos hb]
      rfl
    rw [if_neg hb, if_neg hb]
    dsimp only
    by_cases he : s.card.get.2.errorCode ≠ 0
    · rw [if_pos he, if_pos he, sdcard_read_error_buffer]
      rfl
    · rw [if_neg he, if_neg he, List.foldl_append, get_sdcard_buffer cfg fuel,
        sdcard_byte_buffer]

/-- C27 (as amended): line-length bound. For every state and input, every
write into `cmd_line_buffer` made by the loop of `get_serial_commands`
(started with the counter within the bound) and by the loop of
`get_sdcard_commands` (whose counter starts at 0) is at an index below
`MAX_CMD_SIZE`, a store leaves the counter at most at `MAX_CMD_SIZE - 1`, and
`serial_count` is within the bound on return; the recorded writes are all the
changes the loops make to the buffer. Once the counter has reached
`MAX_CMD_SIZE - 1` with the bytes `acc` accumulated, the bytes up to the next
CR or LF are dropped and the terminator hands on `acc`: the interactive framer
passes `acc`, cut at its first NUL byte and without its leading spaces, to the
integrity check and by it to the queue; the card framer calls `insertcommand`
with `acc`, cut at its first NUL byte. -/
theorem line_length_bound (cfg : Config) :
    (∀ s : Machine, s.serial_count ≤ cfg.MAX_CMD_SIZE - 1 →
      (∀ w ∈ get_serial_writes cfg s.rx.length s, w.inBounds cfg) ∧
      (get_serial_commands cfg s).serial_count ≤ cfg.MAX_CMD_SIZE - 1 ∧
      (get_serial_commands cfg s).cmd_line_buffer =
        (get_serial_writes cfg s.rx.length s).foldl BufWrite.apply s.cmd_line_buffer) ∧
    (∀ (fuel : Nat) (card_eof : Bool) (s : Machine),
      (∀ w ∈ get_sdcard_writes cfg fuel 0 card_eof s, w.inBounds cfg) ∧
      (get_sdcard_loop cfg fuel 0 card_eof s).cmd_line_buffer =
        (get_sdcard_writes cfg fuel 0 card_eof s).foldl BufWrite.apply s.cmd_line_buffer) ∧
    (∀ (s : Machine) (acc l rest : List Char) (t : Char), 2 ≤ cfg.MAX_CMD_SIZE →
      Accumulated cfg s s acc → acc.length = cfg.MAX_CMD_SIZE - 1 →
      s.rx = l ++ t :: rest → (∀ c ∈ l, c ≠ '\n' ∧ c ≠ '\r') → (t = '\n' ∨ t = '\r') →
      s.buflen < cfg.BUFSIZE →
      ∃ s', SameBut s s' ∧ s'.serial_count = 0 ∧ s'.rx = rest ∧ s'.comment_mode = false ∧
        get_serial_commands cfg s =
          if (serial_check_line cfg ((cstr acc).dropWhile (fun c => c = ' ')) s').2
          then get_serial_loop cfg rest.length
            (serial_check_line cfg ((cstr acc).dropWhile (fun c => c = ' ')) s').1
          else (serial_check_line cfg ((cstr acc).dropWhile (fun c => c = ' ')) s').1) ∧
    (∀ (s : Machine) (fuel : Nat) (acc tl l post : List Char) (x t : Char),
      2 ≤ cfg.MAX_CMD_SIZE → acc.length = cfg.MAX_CMD_SIZE - 1 →
      s.cmd_line_buffer = acc ++ x :: tl →
      s.card.file.drop s.card.filePos = l ++ t :: post → post ≠ [] →
      (∀ c ∈ l, c ≠ '\n' ∧ c ≠ '\r' ∧ c ≠ '#' ∧ c ≠ ':' ∧ c ≠ NUL) → (t = '\n' ∨ t = '\r') →
      s.card.faults = [] → s.card.errorCode = 0 → s.buflen < cfg.BUFSIZE →
      l.length + 1 ≤ fuel →
      ∃ s', get_sdcard_loop cfg fuel (cfg.MAX_CMD_SIZE - 1) false s =
          get_sdcard_loop cfg (fuel - (l.length + 1)) 0 false s' ∧
        s'.ghost = s.ghost ++ List.replicate (l.length + 1) (Ghost.cardRead s.buflen) ++
          [Ghost.insertCall s.buflen (cstr acc)] ∧
        s'.comment_mode = false) :=
  ⟨fun s h => ⟨(get_serial_bounds cfg s.rx.length s h).1,
      (get_serial_bounds cfg s.rx.length s h).2, get_serial_buffer cfg s.rx.length s⟩,
    fun fuel card_eof s => ⟨get_sdcard_bounds cfg fuel 0 card_eof s (Nat.zero_le _),
      get_sdcard_buffer cfg fuel 0 card_eof s⟩,
    fun s acc l rest t hmin ha hacc hrx hl ht hroom =>
      serial_line_truncated cfg s acc l rest t hmin ha hacc hrx hl ht hroom,
    fun s fuel acc tl l post x t hmin hacc hbuf hd hpost hl ht hfl herr hroom hf =>
      sdcard_line_truncated cfg s fuel acc tl l post x t hmin hacc hbuf hd hpost hl ht hfl herr
        hroom hf⟩

/-- C27, witness: on the sample build (`MAX_CMD_SIZE` 96) the writes of the
interactive framer for `G1 X1` and a terminator, and the interactive framer
with 95 bytes `A` accumulated that receives `BBB` and a terminator. -/
theorem line_length_bound_witness :
    ((lineState cfg8 0 "G1 X1\n".toList).serial_count ≤ cfg8.MAX_CMD_SIZE - 1 ∧
      get_serial_writes cfg8 6 (lineState cfg8 0 "G1 X1\n".toList) =
        [BufWrite.store 0 'G', BufWrite.store 1 '1', BufWrite.store 2 ' ', BufWrite.store 3 'X',
         BufWrite.store 4 '1', BufWrite.terminate 5] ∧
      ∀ w ∈ get_serial_writes cfg8 6 (lineState cfg8 0 "G1 X1\n".toList),
        w.inBounds cfg8) ∧
    (∃ s1, SameBut (pendingLineState cfg8 (List.replicate 95 'A') "BBB\n".toList) s1 ∧
      get_serial_commands cfg8 (pendingLineState cfg8 (List.replicate 95 'A') "BBB\n".toList) =
        if (serial_check_line cfg8
          ((cstr (List.replicate 95 'A')).dropWhile (fun c => c = ' ')) s1).2
        then get_serial_loop cfg8 0 (serial_check_line cfg8
          ((cstr (List.replicate 95 'A')).dropWhile (fun c => c = ' ')) s1).1
        else (serial_check_line cfg8
          ((cstr (List.replicate 95 'A')).dropWhile (fun c => c = ' ')) s1).1) := by
  refine ⟨⟨by decide, by decide!, ?_⟩, ?_⟩
  · exact ((line_length_bound cfg8).1 (lineState cfg8 0 "G1 X1\n".toList) (by decide)).1
  · obtain ⟨s1, h1, _, _, _, h5⟩ := (line_length_bound cfg8).2.2.1
      (pendingLineState cfg8 (List.replicate 95 'A') "BBB\n".toList) (List.replicate 95 'A')
      "BBB".toList [] '\n' (by decide)
      ⟨rfl, by decide!, ⟨[NUL], by decide!⟩, by decide!⟩ (by decide!) rfl (by decide)
      (Or.inl rfl) (by decide)
    exact ⟨s1, h1, h5⟩

/-- C27, counterexample: the interactive framer of the sample build receives a
space, a hundred bytes `A` and a terminator. The first 95 accumulated bytes are
the space and 94 bytes `A`; the command handed on and stored in the queue is
the 94 bytes `A`. -/
theorem truncated_line_loses_space :
    (get_serial_commands cfg8
      (lineState cfg8 0 (' ' :: List.replicate 100 'A' ++ ['\n']))).slot 0 =
        List.replicate 94 'A' ∧
    Ghost.insertCall 0 (List.replicate 94 'A') ∈ (get_serial_commands cfg8
      (lineState cfg8 0 (' ' :: List.replicate 100 'A' ++ ['\n']))).ghost ∧
    (' ' :: List.replicate 100 'A').take (cfg8.MAX_CMD_SIZE - 1) ≠ List.replicate 94 'A' := by
  refine ⟨by decide!, by decide!, by decide!⟩

/-! ## Reheat flag on enqueue -/

/-- C28: evaluation of `insertcommand` on the sample build (two extruders,
firmware retraction, `EXTRUDER_PREHEAT` 1, extruder 0 active). Inserting `T1`
into the empty queue succeeds and stores the line in slot 0, but
`checkToolchange` is handed the slot after it, which is empty: the preheat
flag of extruder 1 is not set. After the operations `staleToolchangeOps` the
queue is empty again, the write index is 0, slot 1 still holds the old `T1` and
no flag is set; inserting `G28` then sets the preheat flag of extruder 1. -/
theorem reheat_flag_from_next_slot :
    ((strchr "T1".toList 'G').isSome = false ∧ (strchr "T1".toList 'M').isSome = false ∧
      1 < cfg8.EXTRUDERS ∧ 1 ≠ (Machine.init cfg8).active_extruder ∧
      cfg8.EXTRUDERS > 1 ∧ cfg8.FWRETRACT = true) ∧
    ((insertcommand cfg8 "T1".toList false (Machine.init cfg8)).1 = true ∧
      (insertcommand cfg8 "T1".toList false (Machine.init cfg8)).2.slot 0 = "T1".toList ∧
      (insertcommand cfg8 "T1".toList false (Machine.init cfg8)).2.bufindw = 1 ∧
      (insertcommand cfg8 "T1".toList false (Machine.init cfg8)).2.slot 1 = [] ∧
      (insertcommand cfg8 "T1".toList false (Machine.init cfg8)).2.temperature_state = 0 ∧
      (insertcommand cfg8 "T1".toList false (Machine.init cfg8)).2.temperature_state &&&
        (cfg8.EXTRUDER_PREHEAT <<< 1) = 0) ∧
    ((runQueueOps cfg8 staleToolchangeOps (Machine.init cfg8)).buflen = 0 ∧
      (runQueueOps cfg8 staleToolchangeOps (Machine.init cfg8)).bufindw = 0 ∧
      (runQueueOps cfg8 staleToolchangeOps (Machine.init cfg8)).slot 1 = "T1".toList ∧
      (runQueueOps cfg8 staleToolchangeOps (Machine.init cfg8)).temperature_state = 0) ∧
    ((insertcommand cfg8 "G28".toList false
        (runQueueOps cfg8 staleToolchangeOps (Machine.init cfg8))).1 = true ∧
      (insertcommand cfg8 "G28".toList false
        (runQueueOps cfg8 staleToolchangeOps (Machine.init cfg8))).2.temperature_state &&&
        (cfg8.EXTRUDER_PREHEAT <<< 1) ≠ 0) := by
  refine ⟨⟨by decide, by decide, by decide, by decide, by decide, rfl⟩,
    ⟨by decide!, by decide!, by decide!, by decide!, by decide!, by decide!⟩,
    ⟨by decide!, by decide!, by decide!, by decide!⟩, by decide!, by decide!⟩

/-! ## Independence of the input streams -/

/-- C29: evaluation of two runs of `get_command` with the same interactive
stream, `G1 X` and then `10` with a line feed, and two different files. With
the empty file the interactive framer enqueues `G1 X10`. With the file `M105`
the file framer enqueues `M105` during the first call, through the line buffer
that holds the partial interactive line, and the interactive framer then
enqueues `M10510`. The origin bits mark the interactive lines. -/
theorem interactive_line_depends_on_file :
    ((twoChunkRun []).buflen = 1 ∧ (twoChunkRun []).slot 0 = "G1 X10".toList ∧
      (twoChunkRun []).serialCmd = 1) ∧
    ((twoChunkRun "M105\n".toList).buflen = 2 ∧
      (twoChunkRun "M105\n".toList).slot 0 = "M105".toList ∧
      (twoChunkRun "M105\n".toList).slot 1 = "M10510".toList ∧
      (twoChunkRun "M105\n".toList).serialCmd = 2) ∧
    ((get_command cfg8 (printingState cfg8 [] "G1 X".toList)).serial_count = 4 ∧
      (get_command cfg8 (printingState cfg8 "M105\n".toList "G1 X".toList)).serial_count = 4 ∧
      cstr (get_command cfg8 (printingState cfg8 [] "G1 X".toList)).cmd_line_buffer =
        "G1 X".toList ∧
      cstr (get_command cfg8
        (printingState cfg8 "M105\n".toList "G1 X".toList)).cmd_line_buffer =
        "M105".toList) := by
  refine ⟨⟨by decide!, by decide!, by decide!⟩, ⟨by decide!, by decide!, by decide!, by decide!⟩,
    by decide!, by decide!, by decide!, by decide!⟩

/-! ## Dispatch precedence -/

theorem SameOut.andThen {s s1 s2 : Machine} (h1 : SameOut s s1) (h2 : SameOut s1 s2) :
    SameOut s s2 := by
  unfold SameOut at *
  rw [h2, h1]

theorem SameOut.of_out_eq {s s' : Machine} (h : s'.out = s.out) : SameOut s s' := h

theorem outeq_recover_toolchange_retract (cfg : Config) (e : Nat) (b : Bool) (s : Machine) :
    SameOut s (recover_toolchange_retract cfg e b s) := by
  unfold recover_toolchange_retract
  split_ifs <;> exact SameOut.of_out_eq rfl

theorem outeq_clamp_min_axis (st : Pos × Machine) (i : Nat) :
    SameOut st.2 (clamp_min_axis st i).2 := by
  unfold clamp_min_axis
  split_ifs <;> exact SameOut.of_out_eq rfl

theorem outeq_clamp_max_axis (st : Pos × Machine) (i : Nat) :
    SameOut st.2 (clamp_max_axis st i).2 := by
  unfold clamp_max_axis
  split_ifs <;> exact SameOut.of_out_eq rfl

theorem outeq_foldl {α β : Type} (f : α × Machine → β → α × Machine)
    (hf : ∀ st i, SameOut st.2 (f st i).2) :
    ∀ (l : List β) (st : α × Machine), SameOut st.2 (l.foldl f st).2
  | [], _ => SameOut.of_out_eq rfl
  | b :: l, st => (hf st b).andThen (outeq_foldl f hf l (f st b))

theorem outeq_clamp (cfg : Config) (t : Pos) (s : Machine) :
    SameOut s (clamp_to_software_endstops cfg t s).2 := by
  unfold clamp_to_software_endstops
  have h1 := outeq_foldl clamp_min_axis outeq_clamp_min_axis [X_AXIS, Y_AXIS, Z_AXIS] (t, s)
  simp only
  split_ifs
  · exact h1.andThen (outeq_foldl clamp_max_axis outeq_clamp_max_axis _ _)
  · exact outeq_foldl clamp_max_axis outeq_clamp_max_axis _ (t, s)
  · exact h1
  · exact SameOut.of_out_eq rfl

theorem outeq_prepare_move (cfg : Config) (s s' : Machine) (h : prepare_move cfg s = some s') :
    SameOut s s' := by
  have hc := outeq_clamp cfg s.motion.destination s
  unfold prepare_move at h
  simp only at h
  generalize clamp_to_software_endstops cfg s.motion.destination s = r at h hc
  split_ifs at h <;> simp only [Option.some.injEq] at h <;> subst h <;>
    exact hc.andThen (SameOut.of_out_eq rfl)

theorem outeq_get_coordinates_axis (cmd : List Char) (st : Nat × Machine) (i : Nat) :
    SameOut st.2 (get_coordinates_axis cmd st i).2 := by
  unfold get_coordinates_axis
  simp only
  split_ifs <;> exact SameOut.of_out_eq rfl

theorem outeq_get_coordinates_feedrate (cmd : List Char) (s : Machine) :
    SameOut s (get_coordinates_feedrate cmd s) := by
  unfold get_coordinates_feedrate
  simp only
  split_ifs <;> exact SameOut.of_out_eq rfl

theorem outeq_get_coordinates_retract (cfg : Config) (echange : ℚ) (s : Machine) :
    SameOut s (get_coordinates_retract cfg echange s) := by
  unfold get_coordinates_retract SameOut
  simp only
  split_ifs <;> simp [SET_EXTRUDER_RETRACT, set_recover_length, set_current_position,
    set_feedrate, plan]

theorem outeq_toolchange_if (cfg : Config) (s : Machine) :
    SameOut s
      (if cfg.EXTRUDERS > 1 then recover_toolchange_retract cfg s.active_extruder false s
        else s) := by
  split_ifs
  · exact outeq_recover_toolchange_retract cfg _ _ s
  · exact SameOut.of_out_eq rfl

theorem outeq_get_coordinates_recover (cfg : Config) (echange : ℚ) (s : Machine) :
    SameOut s (get_coordinates_recover cfg echange s) := by
  have h1 := outeq_toolchange_if cfg s
  unfold get_coordinates_recover
  simp only
  generalize (if cfg.EXTRUDERS > 1 then
    recover_toolchange_retract cfg s.active_extruder false s else s) = s1 at h1 ⊢
  refine h1.andThen ?_
  unfold SameOut
  split_ifs <;> simp [set_recover_length, CLEAR_EXTRUDER_RETRACT, set_current_position, plan,
    set_feedrate]

theorem outeq_get_coordinates_first_move (cfg : Config) (s : Machine) :
    SameOut s (get_coordinates_first_move cfg s) := by
  have h1 := outeq_toolchange_if cfg s
  unfold get_coordinates_first_move
  simp only
  generalize (if cfg.EXTRUDERS > 1 then
    recover_toolchange_retract cfg s.active_extruder false s else s) = s1 at h1 ⊢
  refine h1.andThen ?_
  unfold SameOut
  split_ifs <;> simp [set_recover_length, CLEAR_EXTRUDER_RETRACT, set_current_position, plan,
    set_feedrate]

theorem outeq_get_coordinates_fwretract (cfg : Config) (seen : Nat) (s : Machine) :
    SameOut s (get_coordinates_fwretract cfg seen s) := by
  unfold get_coordinates_fwretract
  simp only
  split_ifs
  · exact outeq_get_coordinates_retract cfg _ s
  · exact outeq_get_coordinates_recover cfg _ s
  · exact SameOut.of_out_eq rfl
  · exact outeq_get_coordinates_first_move cfg s
  · exact SameOut.of_out_eq rfl

theorem outeq_get_coordinates (cfg : Config) (cmd : List Char) (s : Machine) :
    SameOut s (get_coordinates cfg cmd s) := by
  have h1 : SameOut s (if s.printing_state < cfg.PRINT_STATE_TOOLCHANGE then
      set_destination s.motion.current_position s else s) := by
    split_ifs <;> exact SameOut.of_out_eq rfl
  unfold get_coordinates
  simp only
  generalize (if s.printing_state < cfg.PRINT_STATE_TOOLCHANGE then
      set_destination s.motion.current_position s else s) = s1 at h1 ⊢
  have h2 := outeq_foldl (get_coordinates_axis cmd) (outeq_get_coordinates_axis cmd)
    [X_AXIS, Y_AXIS, Z_AXIS, E_AXIS] (0, s1)
  generalize List.foldl (get_coordinates_axis cmd) (0, s1) [X_AXIS, Y_AXIS, Z_AXIS, E_AXIS] = st
    at h2 ⊢
  have h3 := outeq_get_coordinates_feedrate cmd st.2
  generalize get_coordinates_feedrate cmd st.2 = s2 at h3 ⊢
  have h4 : SameOut s s2 := (h1.andThen h2).andThen h3
  have h5 : SameOut s (if cfg.FWRETRACT = true then
      get_coordinates_fwretract cfg st.1 s2 else s2) := by
    split_ifs
    · exact h4.andThen (outeq_get_coordinates_fwretract cfg _ s2)
    · exact h4
  generalize (if cfg.FWRETRACT = true then get_coordinates_fwretract cfg st.1 s2 else s2) = s3
    at h5 ⊢
  split_ifs
  · exact h5.andThen (SameOut.of_out_eq rfl)
  · exact h5

theorem outeq_get_arc_coordinates (cfg : Config) (cmd : List Char) (s : Machine) :
    SameOut s (get_arc_coordinates cfg cmd s) := by
  unfold get_arc_coordinates
  simp only
  have h1 : SameOut s (if cfg.SF_ARC_FIX = true then
      { s with motion := { s.motion with
          axis_relative_state := bitSet 8 s.motion.axis_relative_state 7 } } else s) := by
    split_ifs <;> exact SameOut.of_out_eq rfl
  generalize (if cfg.SF_ARC_FIX = true then
      ({ s with motion := { s.motion with
          axis_relative_state := bitSet 8 s.motion.axis_relative_state 7 } } : Machine)
      else s) = s1 at h1 ⊢
  have h2 := outeq_get_coordinates cfg cmd s1
  generalize get_coordinates cfg cmd s1 = s2 at h2 ⊢
  have h3 : SameOut s2 (if cfg.SF_ARC_FIX = true then
      { s2 with motion := { s2.motion with
          axis_relative_state := s.motion.axis_relative_state } } else s2) := by
    split_ifs <;> exact SameOut.of_out_eq rfl
  generalize (if cfg.SF_ARC_FIX = true then
      ({ s2 with motion := { s2.motion with
          axis_relative_state := s.motion.axis_relative_state } } : Machine) else s2) = s3
    at h3 ⊢
  exact ((h1.andThen h2).andThen h3).andThen (SameOut.of_out_eq rfl)

theorem outeq_retract_tail (oldFeedrate oldpos : ℚ) (a : Nat) (s6 : Machine) :
    SameOut s6 (plan (PlanCall.set_e_position oldpos a false)
      (set_destination
        { (set_current_position
            { (set_feedrate oldFeedrate s6).motion.current_position with e := oldpos }
            (set_feedrate oldFeedrate s6)).motion.destination with e := oldpos }
        (set_current_position
          { (set_feedrate oldFeedrate s6).motion.current_position with e := oldpos }
          (set_feedrate oldFeedrate s6)))) := by
  simp [SameOut, plan, set_destination, set_current_position, set_feedrate]

theorem outeq_gcode_G10 (cfg : Config) (strCmd : List Char) (s s' : Machine)
    (h : gcode_G10 cfg strCmd s = some s') : SameOut s s' := by
  unfold gcode_G10 at h
  by_cases h1 : s.printing_state = cfg.PRINT_STATE_RECOVER
  · rw [if_pos h1, Option.some.injEq] at h
    subst h
    exact SameOut.of_out_eq rfl
  rw [if_neg h1] at h
  simp only at h
  by_cases h2 : (!EXTRUDER_RETRACTED s.active_extruder s &&
      !TOOLCHANGE_RETRACTED s.active_extruder s) = true
  · rw [if_pos h2, Option.map_eq_some'] at h
    obtain ⟨s6, hp, hs⟩ := h
    subst hs
    have hpm := outeq_prepare_move cfg _ _ hp
    refine SameOut.andThen ?_ (hpm.andThen (outeq_retract_tail _ _ _ s6))
    unfold SameOut
    split_ifs <;> simp [SET_EXTRUDER_RETRACT, set_recover_length, set_recover_feedrate,
      set_feedrate, set_destination, code_seen]
  · rw [if_neg h2, Option.some.injEq] at h
    subst h
    exact SameOut.of_out_eq rfl

theorem outeq_gcode_G11 (cfg : Config) (s s' : Machine)
    (h : gcode_G11 cfg s = some s') : SameOut s s' := by
  have h0 := outeq_toolchange_if cfg s
  unfold gcode_G11 at h
  by_cases h1 : s.printing_state = cfg.PRINT_STATE_RECOVER
  · rw [if_pos h1, Option.some.injEq] at h
    subst h
    exact SameOut.of_out_eq rfl
  rw [if_neg h1] at h
  simp only at h
  by_cases h2 : EXTRUDER_RETRACTED s.active_extruder s = true
  · rw [if_pos h2, Option.map_eq_some'] at h
    obtain ⟨s6, hp, hs⟩ := h
    subst hs
    have hpm := outeq_prepare_move cfg _ _ hp
    generalize (if cfg.EXTRUDERS > 1 then
      recover_toolchange_retract cfg s.active_extruder false s else s) = s1 at h0 hpm hp ⊢
    refine SameOut.andThen (h0.andThen ?_) (hpm.andThen (outeq_retract_tail _ _ _ s6))
    simp [SameOut, CLEAR_EXTRUDER_RETRACT, set_recover_length, set_feedrate, set_destination]
  · rw [if_neg h2, Option.some.injEq] at h
    subst h
    exact SameOut.of_out_eq rfl

theorem outeq_gcode_G92_axis (cmd : List Char) (st : (Bool × Bool) × Machine) (i : Nat) :
    SameOut st.2 (gcode_G92_axis cmd st i).2 := by
  unfold gcode_G92_axis
  simp only
  split_ifs <;> exact SameOut.of_out_eq rfl

theorem outeq_gcode_G92 (cmd : List Char) (s : Machine) : SameOut s (gcode_G92 cmd s) := by
  have h := outeq_foldl (gcode_G92_axis cmd) (outeq_gcode_G92_axis cmd)
    [X_AXIS, Y_AXIS, Z_AXIS, E_AXIS] ((false, false), s)
  unfold gcode_G92
  simp only
  generalize List.foldl (gcode_G92_axis cmd) ((false, false), s)
    [X_AXIS, Y_AXIS, Z_AXIS, E_AXIS] = st at h ⊢
  split_ifs
  · exact h.andThen (SameOut.of_out_eq rfl)
  · exact h.andThen (SameOut.of_out_eq rfl)
  · exact h


theorem GcodeOutputOnly.of_sameOut {s s' : Machine} (h : SameOut s s') : GcodeOutputOnly s s' :=
  ⟨[], by rw [h, List.append_nil], fun o ho => absurd ho (List.not_mem_nil o)⟩

theorem GcodeOutputOnly.ack {s s' : Machine} (sendAck : Bool) (h : GcodeOutputOnly s s') :
    GcodeOutputOnly s (if sendAck = true then ClearToSend s' else s') := by
  obtain ⟨extra, h1, h2⟩ := h
  cases sendAck with
  | false => exact ⟨extra, h1, h2⟩
  | true =>
    refine ⟨extra ++ [Out.ok], ?_, ?_⟩
    · simp [ClearToSend, h1]
    · intro o ho
      rcases List.mem_append.mp ho with ho | ho
      · exact h2 o ho
      · simp only [List.mem_singleton] at ho
        exact Or.inl ho

theorem GcodeOutputOnly.finish {s s' : Machine} (cfg : Config) (sendAck : Bool)
    (h : GcodeOutputOnly s s') : GcodeOutputOnly s (command_end cfg sendAck s') := by
  have hr : (printing_state_rule cfg s').out = s'.out := printing_state_rule_out cfg s'
  obtain ⟨extra, h1, h2⟩ := h
  have h3 : GcodeOutputOnly s (printing_state_rule cfg s') := ⟨extra, by rw [hr, h1], h2⟩
  unfold command_end
  exact h3.ack sendAck

theorem gcode_G4_output (cfg : Config) (strCmd : List Char) (s : Machine) :
    GcodeOutputOnly s (gcode_G4 cfg strCmd s) := by
  unfold gcode_G4
  split_ifs
  · exact GcodeOutputOnly.of_sameOut rfl
  · refine ⟨[Out.action "pause", Out.action "resume"], ?_, ?_⟩
    · simp [plan, st_synchronize, code_seen]
    · intro o ho
      simp only [List.mem_cons, List.mem_singleton, List.mem_nil_iff, or_false] at ho
      rcases ho with ho | ho
      · exact Or.inr (Or.inl ho)
      · exact Or.inr (Or.inr ho)

theorem gcode_switch_output (cfg : Config) (strCmd : List Char) (sendAck : Bool)
    (s s' : Machine) (h : gcode_switch cfg strCmd sendAck s = some s') :
    GcodeOutputOnly s s' := by
  have hend : ∀ s1 : Machine, SameOut s s1 →
      GcodeOutputOnly s (command_end cfg sendAck s1) :=
    fun s1 h1 => (GcodeOutputOnly.of_sameOut h1).finish cfg sendAck
  have hack : ∀ s1 : Machine, SameOut s s1 →
      GcodeOutputOnly s (if sendAck = true then ClearToSend s1 else s1) :=
    fun s1 h1 => (GcodeOutputOnly.of_sameOut h1).ack sendAck
  unfold gcode_switch at h
  simp only at h
  generalize truncToInt (code_value s) = n at h
  by_cases c1 : (n = 0 ∨ n = 1) ∧ s.Stopped = 0
  · rw [if_pos c1, Option.map_eq_some'] at h
    obtain ⟨s1, hp, hs⟩ := h
    subst hs
    exact hack s1 ((outeq_get_coordinates cfg strCmd s).andThen (outeq_prepare_move cfg _ _ hp))
  rw [if_neg c1] at h
  by_cases c2 : n = 2 ∧ s.Stopped = 0
  · rw [if_pos c2] at h
    rw [Option.some.injEq] at h
    subst h
    exact hack _ ((outeq_get_arc_coordinates cfg strCmd s).andThen (SameOut.of_out_eq rfl))
  rw [if_neg c2] at h
  by_cases c3 : n = 3 ∧ s.Stopped = 0
  · rw [if_pos c3] at h
    rw [Option.some.injEq] at h
    subst h
    exact hack _ ((outeq_get_arc_coordinates cfg strCmd s).andThen (SameOut.of_out_eq rfl))
  rw [if_neg c3] at h
  by_cases c4 : n = 0 ∨ n = 1 ∨ n = 2 ∨ n = 3 ∨ n = 4
  · rw [if_pos c4] at h
    rw [Option.some.injEq] at h
    subst h
    exact (gcode_G4_output cfg strCmd s).finish cfg sendAck
  rw [if_neg c4] at h
  by_cases c5 : n = 28
  · rw [if_pos c5] at h
    exact absurd h (by simp)
  rw [if_neg c5] at h
  by_cases c6 : n = 10 ∧ cfg.FWRETRACT = true
  · rw [if_pos c6, Option.map_eq_some'] at h
    obtain ⟨s1, hp, hs⟩ := h
    subst hs
    exact hend _ (outeq_gcode_G10 cfg strCmd s s1 hp)
  rw [if_neg c6] at h
  by_cases c7 : n = 11 ∧ cfg.FWRETRACT = true
  · rw [if_pos c7, Option.map_eq_some'] at h
    obtain ⟨s1, hp, hs⟩ := h
    subst hs
    exact hend _ (outeq_gcode_G11 cfg s s1 hp)
  rw [if_neg c7] at h
  by_cases c8 : n = 90
  · rw [if_pos c8] at h
    rw [Option.some.injEq] at h
    subst h
    exact (hend (gcode_G90 s) (SameOut.of_out_eq rfl))
  rw [if_neg c8] at h
  by_cases c9 : n = 91
  · rw [if_pos c9] at h
    rw [Option.some.injEq] at h
    subst h
    exact (hend (gcode_G91 s) (SameOut.of_out_eq rfl))
  rw [if_neg c9] at h
  by_cases c10 : n = 92
  · rw [if_pos c10] at h
    rw [Option.some.injEq] at h
    subst h
    exact (hend _ (outeq_gcode_G92 strCmd s))
  rw [if_neg c10] at h
  rw [Option.some.injEq] at h
  subst h
  exact (hend s (SameOut.of_out_eq rfl))

/-- C30: dispatch precedence. A line that contains the byte `G` anywhere is
handled by the `G` switch, selected by the number that follows the first `G`:
`process_command` is then the `G` switch run after the entry rule, so that,
whenever it returns, the output has gained nothing but lines of the `G`
handlers and the acknowledgment (no report of an unknown command, of an `M` or
of a `T` handler) and the stop state is unchanged. A line without `G` that
contains `M` is handled by the `M` switch, selected by the number after the
first `M`; a line with neither `G` nor `M` that contains `T` is handled by the
tool selection. -/
theorem dispatch_precedence (cfg : Config) (strCmd : List Char) (sendAck : Bool) (s : Machine) :
    (∀ p, strchr strCmd 'G' = some p →
      process_command cfg strCmd sendAck s =
        gcode_switch cfg strCmd sendAck (code_seen strCmd 'G' (printing_state_rule cfg s)).2 ∧
      truncToInt (code_value (code_seen strCmd 'G' (printing_state_rule cfg s)).2) =
        truncToInt (strtod p.tail) ∧
      ∀ s', process_command cfg strCmd sendAck s = some s' →
        GcodeOutputOnly s s' ∧ SameStop s s') ∧
    (strchr strCmd 'G' = none → ∀ p, strchr strCmd 'M' = some p →
      process_command cfg strCmd sendAck s =
        mcode_switch cfg strCmd sendAck
          (code_seen strCmd 'M' (code_seen strCmd 'G' (printing_state_rule cfg s)).2).2 ∧
      truncToInt (code_value
        (code_seen strCmd 'M' (code_seen strCmd 'G' (printing_state_rule cfg s)).2).2) =
        truncToInt (strtod p.tail)) ∧
    (strchr strCmd 'G' = none → strchr strCmd 'M' = none → ∀ p, strchr strCmd 'T' = some p →
      process_command cfg strCmd sendAck s =
        (gcode_T cfg strCmd (code_seen strCmd 'T' (code_seen strCmd 'M'
          (code_seen strCmd 'G' (printing_state_rule cfg s)).2).2).2).map
          (command_end cfg sendAck)) := by
  refine ⟨fun p hp => ?_, fun hg p hp => ?_, fun hg hm p hp => ?_⟩
  · have e : process_command cfg strCmd sendAck s =
        gcode_switch cfg strCmd sendAck
          (code_seen strCmd 'G' (printing_state_rule cfg s)).2 := by
      unfold process_command code_seen
      simp only [hp, Option.isSome_some, if_true]
    refine ⟨e, ?_, fun s' h => ?_⟩
    · unfold code_seen code_value
      simp only [hp]
    · rw [e] at h
      have h0 : (code_seen strCmd 'G' (printing_state_rule cfg s)).2.out = s.out :=
        printing_state_rule_out cfg s
      obtain ⟨extra, h1, h2⟩ := gcode_switch_output cfg strCmd sendAck _ s' h
      refine ⟨⟨extra, by rw [h1, h0], h2⟩, ?_⟩
      exact ((stop_printing_state_rule cfg s).chain (ctl_code_seen _ _ _).stop).chain
        (ctl_gcode_switch cfg strCmd sendAck _ s' h).1
  · refine ⟨?_, ?_⟩
    · unfold process_command code_seen
      simp only [hg, hp, Option.isSome_none, Option.isSome_some, Bool.false_eq_true, if_false,
        if_true]
    · unfold code_seen code_value
      simp only [hp]
  · unfold process_command code_seen
    simp only [hg, hm, hp, Option.isSome_none, Option.isSome_some, Bool.false_eq_true, if_false,
      if_true]

/-- C30, witness: `M23 G1X7.GCO` on the sample machine, a file selection whose
file name contains `G`, is executed as the move `G1` to X = 7 and acknowledged;
`M999 G4` on the stopped sample machine is executed as a dwell and leaves the
machine stopped. -/
theorem dispatch_precedence_witness :
    (strchr "M23 G1X7.GCO".toList 'G' = some "G1X7.GCO".toList ∧
      truncToInt (code_value (code_seen "M23 G1X7.GCO".toList 'G'
        (printing_state_rule cfg8 (Machine.init cfg8))).2) = 1 ∧
      ∃ s1, process_command cfg8 "M23 G1X7.GCO".toList true (Machine.init cfg8) = some s1 ∧
        s1.motion.current_position.x = 7 ∧ s1.out = [Out.ok]) ∧
    (∃ s1, process_command cfg8 "M999 G4".toList true stoppedRunState = some s1 ∧
      SameStop stoppedRunState s1 ∧ stoppedRunState.Stopped = 6) := by
  have h1 := (dispatch_precedence cfg8 "M23 G1X7.GCO".toList true (Machine.init cfg8)).1
    "G1X7.GCO".toList (by decide)
  have h2 := (dispatch_precedence cfg8 "M999 G4".toList true stoppedRunState).1
    "G4".toList (by decide)
  refine ⟨⟨by decide, h1.2.1.trans (by decide!), _,
    option_eq_some_getD _ (Machine.init cfg8) (by decide!), by decide!, by decide!⟩, ?_⟩
  · have hs := option_eq_some_getD (process_command cfg8 "M999 G4".toList true stoppedRunState)
      stoppedRunState (by decide!)
    exact ⟨_, hs, (h2.2.2 _ hs).2, by decide!⟩

end Marlin
